import Mathlib

/-!
# Azimuth: composite hit tests against a baddie

A shallow embedding of `src/azimuth/state/baddie.c`: the ray query
`az_ray_hits_baddie` and the swept-circle query `az_circle_hits_baddie`,
with the helpers `ray_hits_component` and `circle_hits_component`.

Scalars (`double` in C) range over a linearly ordered field `R`: arithmetic is
exact, so the same definitions run on `ℚ` and are reasoned about on any such
field.  The vector and polygon utilities (`azimuth/util/vector.c`,
`azimuth/util/polygon.c`) are not part of the sources at hand; the queries
receive them as a `Geometry` record of routines.  Statements that depend on
what those routines compute assume that they answer correctly, in the sense of
`first_hit_answer`, on the calls in question; a reference geometry for circles
shows that such routines exist.

Contents: the data model; the two queries; the narrow phase as the
specification words it; the reference geometry and the notion of a correct
answer; then the theorems, the general ones first and the statements about the
queries after them.
-/

namespace Azimuth

/-! ## Data model -/

/-- A 2D vector, `az_vector_t`. -/
structure az_vector_t (R : Type) where
  x : R
  y : R
deriving DecidableEq

/-- A polygon, `az_polygon_t`: its vertices in order; `num_vertices` is the length. -/
abbrev az_polygon_t (R : Type) := List (az_vector_t R)

/-- Static description of one component, `az_component_data_t`.  A component with no
vertices is a circle of radius `bounding_radius`. -/
structure az_component_data_t (R : Type) where
  polygon : az_polygon_t R
  bounding_radius : R
  immunities : Nat
deriving DecidableEq

/-- Static description of a baddie kind, `az_baddie_data_t`; `num_components` is the
length of `components`. -/
structure az_baddie_data_t (R : Type) where
  overall_bounding_radius : R
  max_health : R
  potential_pickups : Nat
  main_body : az_component_data_t R
  components : List (az_component_data_t R)
deriving DecidableEq

/-- Current pose of one sub-part, `az_component_t`. -/
structure az_component_t (R : Type) where
  position : az_vector_t R
  angle : R
deriving DecidableEq

/-- The baddie kinds that index `baddie_datas`, `az_baddie_kind_t`. -/
inductive az_baddie_kind_t where
  | AZ_BAD_NOTHING
  | AZ_BAD_LUMP
  | AZ_BAD_TURRET
  | AZ_BAD_ZIPPER
  | AZ_BAD_BOUNCER
  | AZ_BAD_ATOM
  | AZ_BAD_SPINER
  | AZ_BAD_BOX
  | AZ_BAD_ARMORED_BOX
deriving DecidableEq

/-- A baddie instance, `az_baddie_t`.  The fixed-size C array `components` is the list
of its slots, so `AZ_ARRAY_SIZE(baddie->components)` is the length of that list. -/
structure az_baddie_t (R : Type) where
  kind : az_baddie_kind_t
  data : az_baddie_data_t R
  uid : Nat
  position : az_vector_t R
  angle : R
  health : R
  components : List (az_component_t R)
deriving DecidableEq

/-- Which component of the template a `const az_component_data_t *` points at:
`&data->main_body` or `&data->components[i]`. -/
inductive component_ref where
  | main_body
  | component (i : Nat)
deriving DecidableEq

section Defs

variable {R : Type} [LinearOrderedField R]

/-- The zero vector, `AZ_VZERO`. -/
def AZ_VZERO : az_vector_t R := ⟨0, 0⟩

/-- Modelled from the spec: `az_vadd` of the absent `azimuth/util/vector.c`, the
componentwise sum of the 2D vector algebra. -/
def az_vadd (v1 v2 : az_vector_t R) : az_vector_t R := ⟨v1.x + v2.x, v1.y + v2.y⟩

/-- Modelled from the spec: `az_vsub` of the absent `azimuth/util/vector.c`, the
componentwise difference of the 2D vector algebra. -/
def az_vsub (v1 v2 : az_vector_t R) : az_vector_t R := ⟨v1.x - v2.x, v1.y - v2.y⟩

/-- Modelled from the spec: the geometry primitives of the absent
`azimuth/util/vector.c` and `azimuth/util/polygon.c` that `baddie.c` calls.  Each
intersection routine answers hit or no hit and, on a hit, the two vectors it stores
through its output pointers (point and normal for a ray, resting position and impact
point for a swept circle); on no hit it stores nothing. -/
structure Geometry (R : Type) where
  /-- Rotation of a vector by an angle, `az_vrotate(v, radians)`. -/
  az_vrotate : az_vector_t R → R → az_vector_t R
  /-- Broad test of a ray against a circle, `az_ray_hits_bounding_circle(start, delta, center, radius)`. -/
  az_ray_hits_bounding_circle : az_vector_t R → az_vector_t R → az_vector_t R → R → Bool
  /-- Ray against circle, `az_ray_hits_circle(radius, center, start, delta, ..)`. -/
  az_ray_hits_circle : R → az_vector_t R → az_vector_t R → az_vector_t R →
    Option (az_vector_t R × az_vector_t R)
  /-- Ray against posed polygon, `az_ray_hits_polygon_trans(polygon, position, angle, start, delta, ..)`. -/
  az_ray_hits_polygon_trans : az_polygon_t R → az_vector_t R → R → az_vector_t R →
    az_vector_t R → Option (az_vector_t R × az_vector_t R)
  /-- Swept circle against circle, `az_circle_hits_circle(sradius, center, mradius, start, delta, ..)`. -/
  az_circle_hits_circle : R → az_vector_t R → R → az_vector_t R → az_vector_t R →
    Option (az_vector_t R × az_vector_t R)
  /-- Swept circle against posed polygon,
  `az_circle_hits_polygon_trans(polygon, position, angle, radius, start, delta, ..)`. -/
  az_circle_hits_polygon_trans : az_polygon_t R → az_vector_t R → R → R → az_vector_t R →
    az_vector_t R → Option (az_vector_t R × az_vector_t R)

/-! ## The ray query -/

/-- The static helper `ray_hits_component`: the (point, normal) pair it stores on a hit. -/
def ray_hits_component (G : Geometry R) (component : az_component_data_t R)
    (position : az_vector_t R) (angle : R) (start delta : az_vector_t R) :
    Option (az_vector_t R × az_vector_t R) :=
  if component.polygon.length > 0 then
    if G.az_ray_hits_bounding_circle start delta position component.bounding_radius then
      G.az_ray_hits_polygon_trans component.polygon position angle start delta
    else none
  else
    G.az_ray_hits_circle component.bounding_radius position start delta

/-- The caller's output locations of `az_ray_hits_baddie`.  Each is `none` when the
pointer passed is NULL and otherwise holds the current content of the location. -/
structure ray_outs (R : Type) where
  point_out : Option (az_vector_t R)
  normal_out : Option (az_vector_t R)
  component_out : Option component_ref
deriving DecidableEq

/-- The variables of `az_ray_hits_baddie` that its component tests update: the locals
`rel_delta`, `hit_component` (`none` is NULL) and `point`, and the content of the
caller's `*normal_out`, which the geometry routines write directly. -/
structure ray_locals (R : Type) where
  rel_delta : az_vector_t R
  hit_component : Option component_ref
  point : az_vector_t R
  normal_out : Option (az_vector_t R)
deriving DecidableEq

/-- One `if (ray_hits_component(..., &point, normal_out)) { hit_component = ...;
rel_delta = az_vsub(point, rel_start); }` statement. -/
def ray_test (G : Geometry R) (rel_start : az_vector_t R) (ref : component_ref)
    (component : az_component_data_t R) (position : az_vector_t R) (angle : R)
    (st : ray_locals R) : ray_locals R :=
  match ray_hits_component G component position angle rel_start st.rel_delta with
  | some (p, n) =>
      { rel_delta := az_vsub p rel_start
        hit_component := some ref
        point := p
        normal_out := st.normal_out.map (fun _ => n) }
  | none => st

/-- The loop `for (int i = 0; i < data->num_components; ++i)` of `az_ray_hits_baddie`,
entered at index `i` with the template components from `i` on still to visit.  The
result is `none` when `assert(i < AZ_ARRAY_SIZE(baddie->components))` fails. -/
def ray_loop (G : Geometry R) (baddie : az_baddie_t R) (rel_start : az_vector_t R) :
    List (az_component_data_t R) → Nat → ray_locals R → Option (ray_locals R)
  | [], _, st => some st
  | component :: rest, i, st =>
      match baddie.components.get? i with
      | none => none
      | some pose =>
          ray_loop G baddie rel_start rest (i + 1)
            (ray_test G rel_start (component_ref.component i) component
              pose.position pose.angle st)

/-- The query `az_ray_hits_baddie`.  The result is `none` when an assertion fails, and
otherwise the returned flag with the caller's output locations after the call. -/
def az_ray_hits_baddie (G : Geometry R) (baddie : az_baddie_t R)
    (start delta : az_vector_t R) (outs : ray_outs R) : Option (Bool × ray_outs R) :=
  if baddie.kind = az_baddie_kind_t.AZ_BAD_NOTHING then none
  else
    let data := baddie.data
    if !G.az_ray_hits_bounding_circle start delta baddie.position
        data.overall_bounding_radius then
      some (false, outs)
    else
      let rel_start := G.az_vrotate (az_vsub start baddie.position) (-baddie.angle)
      let rel_delta := G.az_vrotate delta (-baddie.angle)
      let st0 : ray_locals R :=
        { rel_delta := rel_delta
          hit_component := none
          point := AZ_VZERO
          normal_out := outs.normal_out }
      let st1 := ray_test G rel_start component_ref.main_body data.main_body AZ_VZERO 0 st0
      match ray_loop G baddie rel_start data.components 0 st1 with
      | none => none
      | some st =>
          match st.hit_component with
          | some hit_component =>
              some (true,
                { point_out := outs.point_out.map
                    (fun _ => az_vadd (G.az_vrotate st.point baddie.angle) baddie.position)
                  normal_out := st.normal_out.map (fun n => G.az_vrotate n baddie.angle)
                  component_out := outs.component_out.map (fun _ => hit_component) })
          | none =>
              some (false,
                { point_out := outs.point_out
                  normal_out := st.normal_out
                  component_out := outs.component_out })

/-! ## The swept-circle query -/

/-- The static helper `circle_hits_component`: the (position, impact) pair it stores on a
hit. -/
def circle_hits_component (G : Geometry R) (component : az_component_data_t R)
    (position : az_vector_t R) (angle : R) (radius : R) (start delta : az_vector_t R) :
    Option (az_vector_t R × az_vector_t R) :=
  if component.polygon.length > 0 then
    if G.az_ray_hits_bounding_circle start delta position
        (component.bounding_radius + radius) then
      G.az_circle_hits_polygon_trans component.polygon position angle radius start delta
    else none
  else
    G.az_circle_hits_circle component.bounding_radius position radius start delta

/-- The caller's output locations of `az_circle_hits_baddie`, as in `ray_outs`. -/
structure circle_outs (R : Type) where
  pos_out : Option (az_vector_t R)
  impact_out : Option (az_vector_t R)
  component_out : Option component_ref
deriving DecidableEq

/-- The variables of `az_circle_hits_baddie` that its component tests update: the locals
`rel_delta`, `hit_component` and `pos`, and the content of the caller's `*impact_out`. -/
structure circle_locals (R : Type) where
  rel_delta : az_vector_t R
  hit_component : Option component_ref
  pos : az_vector_t R
  impact_out : Option (az_vector_t R)
deriving DecidableEq

/-- One `if (circle_hits_component(..., &pos, impact_out)) { hit_component = ...;
rel_delta = az_vsub(pos, rel_start); }` statement. -/
def circle_test (G : Geometry R) (radius : R) (rel_start : az_vector_t R)
    (ref : component_ref) (component : az_component_data_t R) (position : az_vector_t R)
    (angle : R) (st : circle_locals R) : circle_locals R :=
  match circle_hits_component G component position angle radius rel_start st.rel_delta with
  | some (q, m) =>
      { rel_delta := az_vsub q rel_start
        hit_component := some ref
        pos := q
        impact_out := st.impact_out.map (fun _ => m) }
  | none => st

/-- The loop over the sub-parts in `az_circle_hits_baddie`, as `ray_loop`. -/
def circle_loop (G : Geometry R) (baddie : az_baddie_t R) (radius : R)
    (rel_start : az_vector_t R) :
    List (az_component_data_t R) → Nat → circle_locals R → Option (circle_locals R)
  | [], _, st => some st
  | component :: rest, i, st =>
      match baddie.components.get? i with
      | none => none
      | some pose =>
          circle_loop G baddie radius rel_start rest (i + 1)
            (circle_test G radius rel_start (component_ref.component i) component
              pose.position pose.angle st)

/-- The query `az_circle_hits_baddie`.  The result is `none` when an assertion fails, and
otherwise the returned flag with the caller's output locations after the call. -/
def az_circle_hits_baddie (G : Geometry R) (baddie : az_baddie_t R) (radius : R)
    (start delta : az_vector_t R) (outs : circle_outs R) : Option (Bool × circle_outs R) :=
  if baddie.kind = az_baddie_kind_t.AZ_BAD_NOTHING then none
  else
    let data := baddie.data
    if !G.az_ray_hits_bounding_circle start delta baddie.position
        (data.overall_bounding_radius + radius) then
      some (false, outs)
    else
      let rel_start := G.az_vrotate (az_vsub start baddie.position) (-baddie.angle)
      let rel_delta := G.az_vrotate delta (-baddie.angle)
      let st0 : circle_locals R :=
        { rel_delta := rel_delta
          hit_component := none
          pos := AZ_VZERO
          impact_out := outs.impact_out }
      let st1 :=
        circle_test G radius rel_start component_ref.main_body data.main_body AZ_VZERO 0 st0
      match circle_loop G baddie radius rel_start data.components 0 st1 with
      | none => none
      | some st =>
          match st.hit_component with
          | some hit_component =>
              some (true,
                { pos_out := outs.pos_out.map
                    (fun _ => az_vadd (G.az_vrotate st.pos baddie.angle) baddie.position)
                  impact_out := st.impact_out.map
                    (fun m => az_vadd (G.az_vrotate m baddie.angle) baddie.position)
                  component_out := outs.component_out.map (fun _ => hit_component) })
          | none =>
              some (false,
                { pos_out := outs.pos_out
                  impact_out := st.impact_out
                  component_out := outs.component_out })

/-! ## The narrow phase as the specification words it

The specification describes the narrow phase as a sequence of tests, the main body
first and then each sub-part in declaration order, each against the segment that ends
at the most recent impact.  The definitions below follow that wording; the theorems
compare the embedded C functions with them. -/

/-- One entry of the test sequence: which component, its template data and the pose the
test uses (the main body sits at the local origin with angle 0). -/
structure test_part (R : Type) where
  ref : component_ref
  component : az_component_data_t R
  position : az_vector_t R
  angle : R

/-- The sub-parts from index `i` on, each paired with the pose slot of the same index. -/
def sub_parts_from : Nat → List (az_component_data_t R) → List (az_component_t R) →
    List (test_part R)
  | i, component :: cs, pose :: ps =>
      { ref := component_ref.component i, component := component,
        position := pose.position, angle := pose.angle } :: sub_parts_from (i + 1) cs ps
  | _, _, _ => []

/-- The test sequence of a baddie: main body first, then every sub-part in index order. -/
def test_parts (baddie : az_baddie_t R) : List (test_part R) :=
  { ref := component_ref.main_body, component := baddie.data.main_body,
    position := AZ_VZERO, angle := 0 } ::
    sub_parts_from 0 baddie.data.components baddie.components

/-- The outcome of one test: the component tested and, when the test succeeded, the two
vectors it produced. -/
abbrev test_outcome (R : Type) := component_ref × Option (az_vector_t R × az_vector_t R)

/-- The most recent successful test among the outcomes so far, if any. -/
def last_success : List (test_outcome R) → Option (component_ref × az_vector_t R × az_vector_t R)
  | [] => none
  | (ref, o) :: rest =>
      match last_success rest with
      | some s => some s
      | none => o.map (fun pn => (ref, pn.1, pn.2))

/-- The segment the next test uses: from the local start point to the first vector
(impact point, or resting position for a sweep) of the most recent successful test, and
the full local delta if none has succeeded yet. -/
def remaining_delta (rel_start rel_delta : az_vector_t R) (done : List (test_outcome R)) :
    az_vector_t R :=
  match last_success done with
  | some (_, p, _) => az_vsub p rel_start
  | none => rel_delta

/-- Run the tests of `parts` in order after the outcomes `done`, each against the
segment `remaining_delta` gives at that moment; the result lists all outcomes. -/
def run_tests (test : test_part R → az_vector_t R → Option (az_vector_t R × az_vector_t R))
    (rel_start rel_delta : az_vector_t R) :
    List (test_part R) → List (test_outcome R) → List (test_outcome R)
  | [], done => done
  | part :: rest, done =>
      run_tests test rel_start rel_delta rest
        (done ++ [(part.ref, test part (remaining_delta rel_start rel_delta done))])

/-- The outcomes of the ray tests on a baddie for a ray given in the world frame. -/
def ray_outcomes (G : Geometry R) (baddie : az_baddie_t R) (start delta : az_vector_t R) :
    List (test_outcome R) :=
  let rel_start := G.az_vrotate (az_vsub start baddie.position) (-baddie.angle)
  run_tests
    (fun part d => ray_hits_component G part.component part.position part.angle rel_start d)
    rel_start (G.az_vrotate delta (-baddie.angle)) (test_parts baddie) []

/-- The outcomes of the swept-circle tests on a baddie for a sweep given in the world
frame. -/
def circle_outcomes (G : Geometry R) (baddie : az_baddie_t R) (radius : R)
    (start delta : az_vector_t R) : List (test_outcome R) :=
  let rel_start := G.az_vrotate (az_vsub start baddie.position) (-baddie.angle)
  run_tests
    (fun part d =>
      circle_hits_component G part.component part.position part.angle radius rel_start d)
    rel_start (G.az_vrotate delta (-baddie.angle)) (test_parts baddie) []

/-- The transform from the baddie's local frame back to the world: rotate by the baddie's
angle, then add its position. -/
def to_world (G : Geometry R) (baddie : az_baddie_t R) (p : az_vector_t R) : az_vector_t R :=
  az_vadd (G.az_vrotate p baddie.angle) baddie.position

/-- The values the variables of `az_ray_hits_baddie` hold once the tests with outcomes
`done` have run, `normal_cell` being the initial content of the caller's `*normal_out`. -/
def ray_locals_of (rel_start rel_delta : az_vector_t R) (normal_cell : Option (az_vector_t R))
    (done : List (test_outcome R)) : ray_locals R :=
  { rel_delta := remaining_delta rel_start rel_delta done
    hit_component := (last_success done).map (fun r => r.1)
    point :=
      match last_success done with
      | some (_, p, _) => p
      | none => AZ_VZERO
    normal_out :=
      match last_success done with
      | some (_, _, n) => normal_cell.map (fun _ => n)
      | none => normal_cell }

/-- The values the variables of `az_circle_hits_baddie` hold once the tests with outcomes
`done` have run, `impact_cell` being the initial content of the caller's `*impact_out`. -/
def circle_locals_of (rel_start rel_delta : az_vector_t R)
    (impact_cell : Option (az_vector_t R)) (done : List (test_outcome R)) : circle_locals R :=
  { rel_delta := remaining_delta rel_start rel_delta done
    hit_component := (last_success done).map (fun r => r.1)
    pos :=
      match last_success done with
      | some (_, q, _) => q
      | none => AZ_VZERO
    impact_out :=
      match last_success done with
      | some (_, _, m) => impact_cell.map (fun _ => m)
      | none => impact_cell }

/-- What the ray query hands back for given test outcomes, in the specification's words:
a hit iff some test succeeded, and then the component of the last successful test, its
impact point moved to the world frame and its normal rotated to the world frame, each
stored where the caller passed a location; no hit leaves the locations as they were. -/
def ray_report (G : Geometry R) (baddie : az_baddie_t R) (outs : ray_outs R)
    (outcomes : List (test_outcome R)) : Bool × ray_outs R :=
  match last_success outcomes with
  | some (ref, p, n) =>
      (true,
        { point_out := outs.point_out.map (fun _ => to_world G baddie p)
          normal_out := outs.normal_out.map (fun _ => G.az_vrotate n baddie.angle)
          component_out := outs.component_out.map (fun _ => ref) })
  | none => (false, outs)

/-- What the swept-circle query hands back for given test outcomes: a hit iff some test
succeeded, and then the component of the last successful test with its resting position
and its impact point, both moved to the world frame. -/
def circle_report (G : Geometry R) (baddie : az_baddie_t R) (outs : circle_outs R)
    (outcomes : List (test_outcome R)) : Bool × circle_outs R :=
  match last_success outcomes with
  | some (ref, q, m) =>
      (true,
        { pos_out := outs.pos_out.map (fun _ => to_world G baddie q)
          impact_out := outs.impact_out.map (fun _ => to_world G baddie m)
          component_out := outs.component_out.map (fun _ => ref) })
  | none => (false, outs)

/-! ## A reference geometry

The scenarios of the specification need concrete routines.  The ones below handle
circles, over any ordered field and the `libm` functions given; they are exact wherever
the square root is. -/

/-- Modelled from the spec: the dot product `az_vdot` of the absent 2D vector algebra. -/
def az_vdot (v1 v2 : az_vector_t R) : R := v1.x * v2.x + v1.y * v2.y

/-- The squared distance between two points. -/
def dist_sq (p q : az_vector_t R) : R := az_vdot (az_vsub p q) (az_vsub p q)

/-- The point at parameter `t` along the ray from `start` with displacement `delta`; the
ray itself is the range `0 ≤ t ≤ 1`. -/
def ray_point (start delta : az_vector_t R) (t : R) : az_vector_t R :=
  ⟨start.x + t * delta.x, start.y + t * delta.y⟩

/-- The point `p` lies within distance `radius` of `center` (without a square root). -/
def within_radius (p center : az_vector_t R) (radius : R) : Prop :=
  0 ≤ radius ∧ dist_sq p center ≤ radius * radius

instance (p center : az_vector_t R) (radius : R) : Decidable (within_radius p center radius) :=
  inferInstanceAs (Decidable (_ ∧ _))

/-- The `libm` functions the vector utilities rely on. -/
structure Libm (R : Type) where
  sqrt : R → R
  cos : R → R
  sin : R → R

/-- Modelled from the spec: `az_vrotate` of the absent `azimuth/util/vector.c`, the
rotation of a vector by an angle in radians. -/
def az_vrotate (m : Libm R) (v : az_vector_t R) (radians : R) : az_vector_t R :=
  ⟨v.x * m.cos radians - v.y * m.sin radians, v.y * m.cos radians + v.x * m.sin radians⟩

/-- Modelled from the spec: `az_ray_hits_bounding_circle` of the absent
`azimuth/util/polygon.c`, the test of a ray against one circle: the point of the ray
nearest to the centre lies within the radius. -/
def reference_ray_hits_bounding_circle (start delta center : az_vector_t R) (radius : R) :
    Bool :=
  let dd := az_vdot delta delta
  let t := if dd = 0 then 0 else max 0 (min 1 (az_vdot (az_vsub center start) delta / dd))
  decide (within_radius (ray_point start delta t) center radius)

/-- Modelled from the spec: `az_ray_hits_circle` of the absent `azimuth/util/polygon.c`,
the ray-vs-circle intersection routine.  A ray that starts inside the circle hits at its
start point; otherwise the hit is the first crossing of the circle, the smaller root of
the quadratic in the ray parameter.  The normal points from the centre to the impact
point, scaled by the radius. -/
def reference_ray_hits_circle (m : Libm R) (radius : R) (center start delta : az_vector_t R) :
    Option (az_vector_t R × az_vector_t R) :=
  let rel := az_vsub start center
  let normal_at : az_vector_t R → az_vector_t R :=
    fun p => ⟨(p.x - center.x) / radius, (p.y - center.y) / radius⟩
  if radius < 0 then none
  else if az_vdot rel rel ≤ radius * radius then some (start, normal_at start)
  else
    let a := az_vdot delta delta
    let b := az_vdot rel delta
    let c := az_vdot rel rel - radius * radius
    let disc := b * b - a * c
    if a = 0 ∨ disc < 0 ∨ 0 ≤ b then none
    else
      let t := (-b - m.sqrt disc) / a
      if t ≤ 1 then some (ray_point start delta t, normal_at (ray_point start delta t))
      else none

/-- Modelled from the spec: `az_circle_hits_circle` of the absent
`azimuth/util/polygon.c`, the circle-vs-circle sweep: the centre of the moving circle is
a ray against the static circle enlarged by the moving radius; the impact point is the
point of the moving circle, at rest, that faces the static centre. -/
def reference_circle_hits_circle (m : Libm R) (sradius : R) (center : az_vector_t R)
    (mradius : R) (start delta : az_vector_t R) : Option (az_vector_t R × az_vector_t R) :=
  match reference_ray_hits_circle m (sradius + mradius) center start delta with
  | some (pos, n) => some (pos, ⟨pos.x - mradius * n.x, pos.y - mradius * n.y⟩)
  | none => none

/-- The reference geometry over the `libm` functions `m`.  It knows circles only: its
polygon routines answer no hit, and the scenarios that use it have circular components. -/
def reference_geometry (m : Libm R) : Geometry R :=
  { az_vrotate := az_vrotate m
    az_ray_hits_bounding_circle := reference_ray_hits_bounding_circle
    az_ray_hits_circle := reference_ray_hits_circle m
    az_ray_hits_polygon_trans := fun _ _ _ _ _ => none
    az_circle_hits_circle := reference_circle_hits_circle m
    az_circle_hits_polygon_trans := fun _ _ _ _ _ _ => none }

/-! ## What a correct answer of a geometry routine is

The specification takes the geometry routines as correct.  For a region `S` of the
plane and a ray, a correct answer is no hit when no point of the ray lies in `S`, and
otherwise the first point of the ray that lies in `S`. -/

/-- Modelled from the spec: the answer `r` of an intersection routine is correct for the
region `S` and the ray from `start` with displacement `delta`: no hit means that no point
of the ray lies in `S`, and a hit reports the first point of the ray that lies in `S`. -/
def first_hit_answer (S : az_vector_t R → Prop) (start delta : az_vector_t R)
    (r : Option (az_vector_t R × az_vector_t R)) : Prop :=
  match r with
  | none => ∀ t, 0 ≤ t → t ≤ 1 → ¬ S (ray_point start delta t)
  | some (p, _) =>
      ∃ t, 0 ≤ t ∧ t ≤ 1 ∧ p = ray_point start delta t ∧ S p ∧
        ∀ t', 0 ≤ t' → t' < t → ¬ S (ray_point start delta t')

/-- Modelled from the spec: the answer `r` of `az_ray_hits_circle(radius, center, start,
delta, ..)` is correct: it is the first point of the ray within the circle, and when
that point lies on the circle the normal is the unit vector from the centre to it. -/
def ray_circle_answer (radius : R) (center start delta : az_vector_t R)
    (r : Option (az_vector_t R × az_vector_t R)) : Prop :=
  first_hit_answer (fun p => within_radius p center radius) start delta r ∧
    ∀ p n, r = some (p, n) → 0 < radius → dist_sq p center = radius * radius →
      n = ⟨(p.x - center.x) / radius, (p.y - center.y) / radius⟩

/-- Modelled from the spec: `az_ray_hits_bounding_circle` accepts this ray when some point
of the ray lies within the circle (the test has no false negative on this call). -/
def broad_test_complete (G : Geometry R) (start delta center : az_vector_t R) (radius : R) :
    Prop :=
  (∃ t, 0 ≤ t ∧ t ≤ 1 ∧ within_radius (ray_point start delta t) center radius) →
    G.az_ray_hits_bounding_circle start delta center radius = true

/-- Modelled from the spec: `az_ray_hits_bounding_circle` accepts this ray only when some
point of the ray lies within the circle (the test has no false positive on this call). -/
def broad_test_sound (G : Geometry R) (start delta center : az_vector_t R) (radius : R) :
    Prop :=
  G.az_ray_hits_bounding_circle start delta center radius = true →
    ∃ t, 0 ≤ t ∧ t ≤ 1 ∧ within_radius (ray_point start delta t) center radius

/-- The ray shortened to the fraction `u` of its displacement. -/
def scale_delta (u : R) (delta : az_vector_t R) : az_vector_t R := ⟨u * delta.x, u * delta.y⟩

/-- The state of the narrow phase in terms of the regions `S` the components cover: the
tests of `processed` have run with outcomes `done` and the remaining segment is the
fraction `cur` of the ray.  No processed component has a point on the ray before `cur`;
and either no test has succeeded, the segment is still the full ray and no processed
component meets it, or the last success reports the point at `cur`, which lies in the
component reported and in no component tested after it. -/
def nearest_inv (S : test_part R → az_vector_t R → Prop) (rel_start rel_delta : az_vector_t R)
    (processed : List (test_part R)) (done : List (test_outcome R)) (cur : R) : Prop :=
  0 ≤ cur ∧ cur ≤ 1 ∧ remaining_delta rel_start rel_delta done = scale_delta cur rel_delta ∧
  (∀ part ∈ processed, ∀ t, 0 ≤ t → t < cur → ¬ S part (ray_point rel_start rel_delta t)) ∧
  ((last_success done = none ∧ cur = 1 ∧
      ∀ part ∈ processed, ¬ S part (ray_point rel_start rel_delta 1))
    ∨ ∃ ref p n, last_success done = some (ref, p, n) ∧
        p = ray_point rel_start rel_delta cur ∧
        ∃ pre part post, processed = pre ++ part :: post ∧ part.ref = ref ∧ S part p ∧
          ∀ q ∈ post, ¬ S q p)

/-- The ray first meets the region `S` at parameter `t`. -/
def is_first_hit (S : az_vector_t R → Prop) (start delta : az_vector_t R) (t : R) : Prop :=
  0 ≤ t ∧ t ≤ 1 ∧ S (ray_point start delta t) ∧
    ∀ t', 0 ≤ t' → t' < t → ¬ S (ray_point start delta t')

/-- The region a component covers at its pose, in the baddie's local frame: for a
circular component the disc of radius `bounding_radius` about the pose position; for a
polygon the region `polygon_region polygon position angle` of the posed polygon. -/
def component_region
    (polygon_region : az_polygon_t R → az_vector_t R → R → az_vector_t R → Prop)
    (part : test_part R) (p : az_vector_t R) : Prop :=
  if part.component.polygon.length > 0 then
    polygon_region part.component.polygon part.position part.angle p
  else within_radius p part.position part.component.bounding_radius

/-- The positions of the centre of a probe of radius `radius` at which the probe touches
or overlaps a component: for a circular component the disc of radius
`bounding_radius + radius` about the pose position; for a polygon the region
`swept_region polygon position angle radius`. -/
def probe_region
    (swept_region : az_polygon_t R → az_vector_t R → R → R → az_vector_t R → Prop)
    (radius : R) (part : test_part R) (p : az_vector_t R) : Prop :=
  if part.component.polygon.length > 0 then
    swept_region part.component.polygon part.position part.angle radius p
  else within_radius p part.position (part.component.bounding_radius + radius)

/-- Modelled from the spec: the geometry routines that `ray_hits_component` calls for
`part` answer the ray from `start` with displacement `delta` correctly.  For a circle
that is the ray-vs-circle routine; for a polygon the ray-vs-polygon routine, and the
component's bounding-circle test has no false negative, the bounding circle enclosing
the polygon as the template invariant requires. -/
def ray_part_correct (G : Geometry R)
    (polygon_region : az_polygon_t R → az_vector_t R → R → az_vector_t R → Prop)
    (part : test_part R) (start delta : az_vector_t R) : Prop :=
  if part.component.polygon.length > 0 then
    broad_test_complete G start delta part.position part.component.bounding_radius
    ∧ (∀ p, polygon_region part.component.polygon part.position part.angle p →
        within_radius p part.position part.component.bounding_radius)
    ∧ first_hit_answer (polygon_region part.component.polygon part.position part.angle)
        start delta
        (G.az_ray_hits_polygon_trans part.component.polygon part.position part.angle
          start delta)
  else
    first_hit_answer (fun p => within_radius p part.position part.component.bounding_radius)
      start delta (G.az_ray_hits_circle part.component.bounding_radius part.position
        start delta)

/-- Modelled from the spec: the geometry routines that `circle_hits_component` calls for
`part` and a probe of radius `radius` answer the sweep from `start` with displacement
`delta` correctly: the resting position is the first position of the probe's centre at
which the probe touches the component. -/
def circle_part_correct (G : Geometry R)
    (swept_region : az_polygon_t R → az_vector_t R → R → R → az_vector_t R → Prop)
    (radius : R) (part : test_part R) (start delta : az_vector_t R) : Prop :=
  if part.component.polygon.length > 0 then
    broad_test_complete G start delta part.position (part.component.bounding_radius + radius)
    ∧ (∀ p, swept_region part.component.polygon part.position part.angle radius p →
        within_radius p part.position (part.component.bounding_radius + radius))
    ∧ first_hit_answer (swept_region part.component.polygon part.position part.angle radius)
        start delta
        (G.az_circle_hits_polygon_trans part.component.polygon part.position part.angle
          radius start delta)
  else
    first_hit_answer
      (fun p => within_radius p part.position (part.component.bounding_radius + radius))
      start delta (G.az_circle_hits_circle part.component.bounding_radius part.position
        radius start delta)

/-- A list with its first two entries exchanged. -/
def swap_first_two {α : Type} : List α → List α
  | a :: b :: rest => b :: a :: rest
  | l => l

/-- The same baddie with its first two sub-parts declared in the opposite order: the
template components and their pose slots are exchanged together. -/
def swap_sub_parts (baddie : az_baddie_t R) : az_baddie_t R :=
  { baddie with
    data := { baddie.data with components := swap_first_two baddie.data.components }
    components := swap_first_two baddie.components }

/-- The ray query on `baddie` reports a hit on the component `ref` with the local-frame
impact point `p`: it returns true and stores `ref` and `p` taken to the world frame. -/
def ray_reports (G : Geometry R) (baddie : az_baddie_t R) (start delta : az_vector_t R)
    (outs : ray_outs R) (ref : component_ref) (p : az_vector_t R) : Prop :=
  ∃ outs', az_ray_hits_baddie G baddie start delta outs = some (true, outs')
    ∧ outs'.component_out = outs.component_out.map (fun _ => ref)
    ∧ outs'.point_out = outs.point_out.map (fun _ => to_world G baddie p)

/-- The start point of a query in the baddie's local frame: `rel_start`. -/
def rel_start_of (G : Geometry R) (baddie : az_baddie_t R) (start : az_vector_t R) :
    az_vector_t R :=
  G.az_vrotate (az_vsub start baddie.position) (-baddie.angle)

/-- The displacement of a query in the baddie's local frame: the initial `rel_delta`. -/
def rel_delta_of (G : Geometry R) (baddie : az_baddie_t R) (delta : az_vector_t R) :
    az_vector_t R :=
  G.az_vrotate delta (-baddie.angle)

/-- The main body as an entry of the test sequence. -/
def main_part (baddie : az_baddie_t R) : test_part R :=
  { ref := component_ref.main_body, component := baddie.data.main_body,
    position := AZ_VZERO, angle := 0 }

/-- Sub-part `i` with template data `component` at the pose `pose`, as an entry of the
test sequence. -/
def sub_part (i : Nat) (component : az_component_data_t R) (pose : az_component_t R) :
    test_part R :=
  { ref := component_ref.component i, component := component,
    position := pose.position, angle := pose.angle }

/-! ## The queries with the memory they can reach made explicit

The queries receive the baddie through a pointer.  The definitions below repeat the two
queries statement by statement on a frame that holds the baddie object (with the
template its `data` pointer refers to) next to the caller's output locations and the
locals, and hand the baddie back with the result. -/

/-- What `az_ray_hits_baddie` can read or write while it runs: the baddie object with its
template, the caller's output locations, and the locals `rel_delta`, `hit_component` and
`point`. -/
structure ray_frame (R : Type) where
  baddie : az_baddie_t R
  outs : ray_outs R
  rel_delta : az_vector_t R
  hit_component : Option component_ref
  point : az_vector_t R

/-- One `if (ray_hits_component(..., &point, normal_out)) { hit_component = ...;
rel_delta = az_vsub(point, rel_start); }` statement, on the frame. -/
def ray_test_mem (G : Geometry R) (rel_start : az_vector_t R) (ref : component_ref)
    (component : az_component_data_t R) (position : az_vector_t R) (angle : R)
    (f : ray_frame R) : ray_frame R :=
  match ray_hits_component G component position angle rel_start f.rel_delta with
  | some (p, n) =>
      { f with
        outs := { f.outs with normal_out := f.outs.normal_out.map (fun _ => n) }
        rel_delta := az_vsub p rel_start
        hit_component := some ref
        point := p }
  | none => f

/-- The loop over the sub-parts of `az_ray_hits_baddie`, on the frame: the pose of slot
`i` is read from the baddie held in the frame. -/
def ray_loop_mem (G : Geometry R) (rel_start : az_vector_t R) :
    List (az_component_data_t R) → Nat → ray_frame R → Option (ray_frame R)
  | [], _, f => some f
  | component :: rest, i, f =>
      match f.baddie.components.get? i with
      | none => none
      | some pose =>
          ray_loop_mem G rel_start rest (i + 1)
            (ray_test_mem G rel_start (component_ref.component i) component
              pose.position pose.angle f)

/-- The query `az_ray_hits_baddie` on the frame.  The result is `none` when an assertion
fails, and otherwise the returned flag, the baddie object after the call and the caller's
output locations after the call. -/
def az_ray_hits_baddie_mem (G : Geometry R) (start delta : az_vector_t R)
    (baddie : az_baddie_t R) (outs : ray_outs R) :
    Option (Bool × az_baddie_t R × ray_outs R) :=
  if baddie.kind = az_baddie_kind_t.AZ_BAD_NOTHING then none
  else
    if !G.az_ray_hits_bounding_circle start delta baddie.position
        baddie.data.overall_bounding_radius then
      some (false, baddie, outs)
    else
      let rel_start := G.az_vrotate (az_vsub start baddie.position) (-baddie.angle)
      let f0 : ray_frame R :=
        { baddie := baddie
          outs := outs
          rel_delta := G.az_vrotate delta (-baddie.angle)
          hit_component := none
          point := AZ_VZERO }
      let f1 := ray_test_mem G rel_start component_ref.main_body f0.baddie.data.main_body
        AZ_VZERO 0 f0
      match ray_loop_mem G rel_start f1.baddie.data.components 0 f1 with
      | none => none
      | some f =>
          match f.hit_component with
          | some hit_component =>
              some (true, f.baddie,
                { point_out := f.outs.point_out.map
                    (fun _ => az_vadd (G.az_vrotate f.point f.baddie.angle) f.baddie.position)
                  normal_out := f.outs.normal_out.map
                    (fun n => G.az_vrotate n f.baddie.angle)
                  component_out := f.outs.component_out.map (fun _ => hit_component) })
          | none => some (false, f.baddie, f.outs)

/-- What `az_circle_hits_baddie` can read or write while it runs, as `ray_frame`. -/
structure circle_frame (R : Type) where
  baddie : az_baddie_t R
  outs : circle_outs R
  rel_delta : az_vector_t R
  hit_component : Option component_ref
  pos : az_vector_t R

/-- One `if (circle_hits_component(..., &pos, impact_out)) { hit_component = ...;
rel_delta = az_vsub(pos, rel_start); }` statement, on the frame. -/
def circle_test_mem (G : Geometry R) (radius : R) (rel_start : az_vector_t R)
    (ref : component_ref) (component : az_component_data_t R) (position : az_vector_t R)
    (angle : R) (f : circle_frame R) : circle_frame R :=
  match circle_hits_component G component position angle radius rel_start f.rel_delta with
  | some (q, m) =>
      { f with
        outs := { f.outs with impact_out := f.outs.impact_out.map (fun _ => m) }
        rel_delta := az_vsub q rel_start
        hit_component := some ref
        pos := q }
  | none => f

/-- The loop over the sub-parts of `az_circle_hits_baddie`, on the frame. -/
def circle_loop_mem (G : Geometry R) (radius : R) (rel_start : az_vector_t R) :
    List (az_component_data_t R) → Nat → circle_frame R → Option (circle_frame R)
  | [], _, f => some f
  | component :: rest, i, f =>
      match f.baddie.components.get? i with
      | none => none
      | some pose =>
          circle_loop_mem G radius rel_start rest (i + 1)
            (circle_test_mem G radius rel_start (component_ref.component i) component
              pose.position pose.angle f)

/-- The query `az_circle_hits_baddie` on the frame, as `az_ray_hits_baddie_mem`. -/
def az_circle_hits_baddie_mem (G : Geometry R) (radius : R) (start delta : az_vector_t R)
    (baddie : az_baddie_t R) (outs : circle_outs R) :
    Option (Bool × az_baddie_t R × circle_outs R) :=
  if baddie.kind = az_baddie_kind_t.AZ_BAD_NOTHING then none
  else
    if !G.az_ray_hits_bounding_circle start delta baddie.position
        (baddie.data.overall_bounding_radius + radius) then
      some (false, baddie, outs)
    else
      let rel_start := G.az_vrotate (az_vsub start baddie.position) (-baddie.angle)
      let f0 : circle_frame R :=
        { baddie := baddie
          outs := outs
          rel_delta := G.az_vrotate delta (-baddie.angle)
          hit_component := none
          pos := AZ_VZERO }
      let f1 := circle_test_mem G radius rel_start component_ref.main_body
        f0.baddie.data.main_body AZ_VZERO 0 f0
      match circle_loop_mem G radius rel_start f1.baddie.data.components 0 f1 with
      | none => none
      | some f =>
          match f.hit_component with
          | some hit_component =>
              some (true, f.baddie,
                { pos_out := f.outs.pos_out.map
                    (fun _ => az_vadd (G.az_vrotate f.pos f.baddie.angle) f.baddie.position)
                  impact_out := f.outs.impact_out.map
                    (fun m => az_vadd (G.az_vrotate m f.baddie.angle) f.baddie.position)
                  component_out := f.outs.component_out.map (fun _ => hit_component) })
          | none => some (false, f.baddie, f.outs)

/-- The variables of `ray_locals` as the frame holds them. -/
def ray_frame_locals (f : ray_frame R) : ray_locals R :=
  { rel_delta := f.rel_delta
    hit_component := f.hit_component
    point := f.point
    normal_out := f.outs.normal_out }

/-- The variables of `circle_locals` as the frame holds them. -/
def circle_frame_locals (f : circle_frame R) : circle_locals R :=
  { rel_delta := f.rel_delta
    hit_component := f.hit_component
    pos := f.pos
    impact_out := f.outs.impact_out }

/-! ## The template catalog and its initialization -/

/-- Modelled from the spec: `az_vnorm` of the absent `azimuth/util/vector.c`, the
Euclidean length of a vector, through the `libm` square root. -/
def az_vnorm (m : Libm R) (v : az_vector_t R) : R := m.sqrt (az_vdot v v)

/-- The static helper `polygon_bounding_radius`: the loop folds `fmax` over the vertices,
starting from `radius = 0.0`, and the result adds the margin `0.01`. -/
def polygon_bounding_radius (m : Libm R) (polygon : az_polygon_t R) : R :=
  polygon.foldl (fun radius v => max radius (az_vnorm m v)) 0 + 0.01

/-- The static helper `init_component_data`: the component after the call, or `none` when
an assertion fails. -/
def init_component_data (m : Libm R) (component : az_component_data_t R) :
    Option (az_component_data_t R) :=
  if component.polygon.length > 0 then
    if component.bounding_radius = 0 then
      some { component with
        bounding_radius := polygon_bounding_radius m component.polygon }
    else none
  else
    if component.bounding_radius > 0 then some component else none

/-- The loop `for (int i = 0; i < data->num_components; ++i)` of `az_init_baddie_datas`
that calls `init_component_data` on every sub-part: the components after the loop, or
`none` when an assertion fails. -/
def init_components (m : Libm R) :
    List (az_component_data_t R) → Option (List (az_component_data_t R))
  | [] => some []
  | component :: rest =>
      match init_component_data m component with
      | none => none
      | some component' =>
          match init_components m rest with
          | none => none
          | some rest' => some (component' :: rest')

/-- The body of the loop of `az_init_baddie_datas` for one entry of `baddie_datas` after
the first: the entry after the body, or `none` when an assertion fails.  Each entry owns
its `components` array, as in the shipped table. -/
def init_baddie_data (m : Libm R) (data : az_baddie_data_t R) :
    Option (az_baddie_data_t R) :=
  match init_components m data.components with
  | none => none
  | some components =>
      match init_component_data m data.main_body with
      | none => none
      | some main_body =>
          let overall : Option R :=
            if components.length = 0 then
              if data.overall_bounding_radius = 0 then some main_body.bounding_radius
              else none
            else some data.overall_bounding_radius
          match overall with
          | none => none
          | some overall_bounding_radius =>
              if ¬ overall_bounding_radius ≥ main_body.bounding_radius then none
              else if ¬ (∀ c ∈ components, overall_bounding_radius ≥ c.bounding_radius) then
                none
              else if ¬ data.max_health > 0 then none
              else
                some
                  { data with
                    overall_bounding_radius := overall_bounding_radius
                    main_body := main_body
                    components := components }

/-- The static state of `baddie.c`: the flag `baddie_data_initialized` and the table
`baddie_datas`, whose first entry stands for `AZ_BAD_NOTHING`. -/
structure baddie_catalog (R : Type) where
  baddie_data_initialized : Bool
  baddie_datas : List (az_baddie_data_t R)
deriving DecidableEq

/-- The `AZ_ARRAY_LOOP` of `az_init_baddie_datas` over the entries after the first. -/
def init_baddie_datas_loop (m : Libm R) :
    List (az_baddie_data_t R) → Option (List (az_baddie_data_t R))
  | [] => some []
  | data :: rest =>
      match init_baddie_data m data with
      | none => none
      | some data' =>
          match init_baddie_datas_loop m rest with
          | none => none
          | some rest' => some (data' :: rest')

/-- The function `az_init_baddie_datas`: the static state after the call, or `none` when an
assertion fails. -/
def az_init_baddie_datas (m : Libm R) (st : baddie_catalog R) : Option (baddie_catalog R) :=
  if st.baddie_data_initialized then none
  else
    match st.baddie_datas with
    | [] => some { st with baddie_data_initialized := true }
    | first :: rest =>
        match init_baddie_datas_loop m rest with
        | none => none
        | some rest' => some { baddie_data_initialized := true, baddie_datas := first :: rest' }

/-- The bounding radius a component has once `init_component_data` has run on it: derived
from the vertices for a polygon, as supplied for a circle. -/
def derived_bounding_radius (m : Libm R) (component : az_component_data_t R) : R :=
  if component.polygon.length > 0 then polygon_bounding_radius m component.polygon
  else component.bounding_radius

/-! ## Looking a template up and initializing a baddie -/

/-- Modelled from the spec: the value of a kind as an `int`, its position in the
enumeration `az_baddie_kind_t` of the absent `baddie.h`; `AZ_BAD_NOTHING` is 0 and the
kinds follow in the order of the entries of `baddie_datas`. -/
def kind_index : az_baddie_kind_t → Int
  | az_baddie_kind_t.AZ_BAD_NOTHING => 0
  | az_baddie_kind_t.AZ_BAD_LUMP => 1
  | az_baddie_kind_t.AZ_BAD_TURRET => 2
  | az_baddie_kind_t.AZ_BAD_ZIPPER => 3
  | az_baddie_kind_t.AZ_BAD_BOUNCER => 4
  | az_baddie_kind_t.AZ_BAD_ATOM => 5
  | az_baddie_kind_t.AZ_BAD_SPINER => 6
  | az_baddie_kind_t.AZ_BAD_BOX => 7
  | az_baddie_kind_t.AZ_BAD_ARMORED_BOX => 8

/-- The function `az_get_baddie_data`: the table entry it returns a pointer to, with the
static state after the call; `none` when an assertion fails. -/
def az_get_baddie_data (st : baddie_catalog R) (kind : az_baddie_kind_t) :
    Option (az_baddie_data_t R × baddie_catalog R) :=
  if ¬ st.baddie_data_initialized = true then none
  else if ¬ kind ≠ az_baddie_kind_t.AZ_BAD_NOTHING then none
  else
    let data_index : Int := kind_index kind
    if ¬ (0 ≤ data_index ∧ data_index < (st.baddie_datas.length : Int)) then none
    else
      match st.baddie_datas.get? data_index.toNat with
      | none => none
      | some data => some (data, st)

/-- Modelled from the spec: an `az_baddie_t` object as `az_init_baddie` meets it, with the
fields of the absent `baddie.h` that the sources at hand use.  The `data` pointer may be
NULL (`none`); `components` lists the slots of the fixed-size array. -/
structure baddie_object (R : Type) where
  kind : az_baddie_kind_t
  data : Option (az_baddie_data_t R)
  uid : Nat
  position : az_vector_t R
  angle : R
  health : R
  cooldown : R
  param : R
  state : Int
  temp_properties : Nat
  components : List (az_component_t R)
deriving DecidableEq

/-- How a call that writes through a pointer ends: it returns, or one of its assertions
fails, the object behind the pointer being `mem` at that moment; or it writes past the end
of an array, which C leaves undefined. -/
inductive call_end (σ : Type) where
  | returned (mem : σ)
  | assert_failed (mem : σ)
  | out_of_bounds
deriving DecidableEq

/-- Modelled from the spec: `AZ_NULL_UID` of the absent `uid.h`, the identifier of an unset
object. -/
def AZ_NULL_UID : Nat := 0

/-- Modelled from the spec: `AZ_SHIP_UID` of the absent `uid.h`, the identifier reserved
for the player's ship. -/
def AZ_SHIP_UID : Nat := 2 ^ 64 - 1

/-- Modelled from the spec: `AZ_PI` of the absent `azimuth/util/vector.h`, the decimal
constant the sources use for π. -/
def AZ_PI : R := 3.1415926535897931

/-- Modelled from the spec: the macro `AZ_DEG2RAD` of the absent `azimuth/util/vector.h`,
degrees to radians. -/
def AZ_DEG2RAD (d : R) : R := d * AZ_PI / 180

/-- The statement `memset(baddie, 0, sizeof(*baddie))`: every field zero, the kind
`AZ_BAD_NOTHING`, the `data` pointer NULL, every slot of `components` a zero pose. -/
def memset_zero (baddie : baddie_object R) : baddie_object R :=
  { kind := az_baddie_kind_t.AZ_BAD_NOTHING
    data := none
    uid := 0
    position := AZ_VZERO
    angle := 0
    health := 0
    cooldown := 0
    param := 0
    state := 0
    temp_properties := 0
    components := baddie.components.map (fun _ => { position := AZ_VZERO, angle := 0 }) }

/-- The loop `for (int i = 0; i < baddie->data->num_components; ++i)
baddie->components[i].angle = i * AZ_DEG2RAD(100);` of the `AZ_BAD_ATOM` case, entered at
index `i` with `n` iterations to go: the slots after the loop, or `none` when it writes
past the last slot. -/
def atom_angles_loop : Nat → Nat → List (az_component_t R) → Option (List (az_component_t R))
  | 0, _, components => some components
  | n + 1, i, components =>
      match components.get? i with
      | none => none
      | some pose =>
          atom_angles_loop n (i + 1)
            (components.set i { pose with angle := (i : R) * AZ_DEG2RAD 100 })

/-- The function `az_init_baddie`, on the object `baddie` points to and the static state
`st` of the catalog. -/
def az_init_baddie (st : baddie_catalog R) (baddie : baddie_object R)
    (kind : az_baddie_kind_t) (position : az_vector_t R) (angle : R) :
    call_end (baddie_object R) :=
  if ¬ kind ≠ az_baddie_kind_t.AZ_BAD_NOTHING then call_end.assert_failed baddie
  else
    let uid := baddie.uid
    if ¬ uid ≠ AZ_NULL_UID then call_end.assert_failed baddie
    else if ¬ uid ≠ AZ_SHIP_UID then call_end.assert_failed baddie
    else
      let b1 : baddie_object R := { memset_zero baddie with kind := kind }
      match az_get_baddie_data st kind with
      | none => call_end.assert_failed b1
      | some (data, _) =>
          let b2 : baddie_object R :=
            { b1 with
              data := some data
              uid := uid
              position := position
              angle := angle
              health := data.max_health }
          match kind with
          | az_baddie_kind_t.AZ_BAD_ATOM =>
              match atom_angles_loop data.components.length 0 b2.components with
              | none => call_end.out_of_bounds
              | some components => call_end.returned { b2 with components := components }
          | _ => call_end.returned b2

/-! ## The polygons of the shipped templates -/

/-- The vertex array `lump_vertices`. -/
def lump_vertices : az_polygon_t R :=
  [⟨20, 0⟩, ⟨15, 15⟩, ⟨-15, 15⟩, ⟨-15, -15⟩, ⟨15, -15⟩]

/-- The vertex array `turret_vertices`. -/
def turret_vertices : az_polygon_t R :=
  [⟨20, 0⟩, ⟨10, 17.320508075688775⟩, ⟨-10, 17.320508075688775⟩,
   ⟨-20, 0⟩, ⟨-10, -17.320508075688775⟩, ⟨10, -17.320508075688775⟩]

/-- The vertex array `turret_cannon_vertices`. -/
def turret_cannon_vertices : az_polygon_t R :=
  [⟨30, 5⟩, ⟨0, 5⟩, ⟨0, -5⟩, ⟨30, -5⟩]

/-- The vertex array `zipper_vertices`. -/
def zipper_vertices : az_polygon_t R :=
  [⟨20, 0⟩, ⟨5, 10⟩, ⟨-15, 5⟩, ⟨-15, -5⟩, ⟨5, -10⟩]

/-- The vertex array `box_vertices`. -/
def box_vertices : az_polygon_t R :=
  [⟨16, 11⟩, ⟨11, 16⟩, ⟨-11, 16⟩, ⟨-16, 11⟩,
   ⟨-16, -11⟩, ⟨-11, -16⟩, ⟨11, -16⟩, ⟨16, -11⟩]

/-- A set of points that contains, with any two of its points, the segment between
them. -/
def segment_closed (S : az_vector_t R → Prop) : Prop :=
  ∀ a b t, S a → S b → 0 ≤ t → t ≤ 1 → S ⟨a.x + t * (b.x - a.x), a.y + t * (b.y - a.y)⟩

/-- The point `p` lies in the convex hull of the vertices of `polygon`: it belongs to every
convex set that contains the vertices. -/
def in_convex_hull (polygon : az_polygon_t R) (p : az_vector_t R) : Prop :=
  ∀ S : az_vector_t R → Prop, segment_closed S → (∀ v ∈ polygon, S v) → S p

/-! ## The shipped table of templates -/

/-- Modelled from the spec: the flag constants that the shipped table names, declared in
headers that are not among the sources at hand (`pickup.h` and the damage flags), and the
bitwise complement on the flag word.  Their values play no part in the initialization. -/
structure flag_constants where
  AZ_PUPF_NOTHING : Nat
  AZ_PUPF_SMALL_SHIELDS : Nat
  AZ_PUPF_LARGE_SHIELDS : Nat
  AZ_PUPF_ROCKETS : Nat
  AZ_PUPF_ALL : Nat
  AZ_DMGF_NORMAL : Nat
  AZ_DMGF_CHARGED : Nat
  AZ_DMGF_FREEZE : Nat
  AZ_DMGF_PIERCE : Nat
  AZ_DMGF_MEGA_BOMB : Nat
  complement : Nat → Nat

/-- The array `turret_components`. -/
def turret_components (F : flag_constants) : List (az_component_data_t R) :=
  [{ polygon := turret_cannon_vertices, bounding_radius := 0,
     immunities := F.AZ_DMGF_NORMAL }]

/-- The array `atom_components`. -/
def atom_components (F : flag_constants) : List (az_component_data_t R) :=
  [{ polygon := [], bounding_radius := 6.3,
     immunities := F.complement F.AZ_DMGF_MEGA_BOMB },
   { polygon := [], bounding_radius := 6.5,
     immunities := F.complement F.AZ_DMGF_MEGA_BOMB },
   { polygon := [], bounding_radius := 6.7,
     immunities := F.complement F.AZ_DMGF_MEGA_BOMB }]

/-- The entry of `baddie_datas` that no designator fills, the one of `AZ_BAD_NOTHING`: all
zero. -/
def nothing_data : az_baddie_data_t R :=
  { overall_bounding_radius := 0, max_health := 0, potential_pickups := 0,
    main_body := { polygon := [], bounding_radius := 0, immunities := 0 },
    components := [] }

/-- The entry `[AZ_BAD_LUMP]` of `baddie_datas`. -/
def lump_data (F : flag_constants) : az_baddie_data_t R :=
  { overall_bounding_radius := 0, max_health := 10.0,
    potential_pickups := F.AZ_PUPF_NOTHING ||| F.AZ_PUPF_SMALL_SHIELDS,
    main_body := { polygon := lump_vertices, bounding_radius := 0, immunities := 0 },
    components := [] }

/-- The entry `[AZ_BAD_TURRET]` of `baddie_datas`. -/
def turret_data (F : flag_constants) : az_baddie_data_t R :=
  { overall_bounding_radius := 30.5, max_health := 15.0,
    potential_pickups :=
      F.AZ_PUPF_NOTHING ||| F.AZ_PUPF_SMALL_SHIELDS ||| F.AZ_PUPF_ROCKETS,
    main_body :=
      { polygon := turret_vertices, bounding_radius := 0, immunities := F.AZ_DMGF_NORMAL },
    components := turret_components F }

/-- The entry `[AZ_BAD_ZIPPER]` of `baddie_datas`. -/
def zipper_data (F : flag_constants) : az_baddie_data_t R :=
  { overall_bounding_radius := 0, max_health := 20.0, potential_pickups := F.AZ_PUPF_ALL,
    main_body := { polygon := zipper_vertices, bounding_radius := 0, immunities := 0 },
    components := [] }

/-- The entry `[AZ_BAD_BOUNCER]` of `baddie_datas`. -/
def bouncer_data (F : flag_constants) : az_baddie_data_t R :=
  { overall_bounding_radius := 0, max_health := 5.0, potential_pickups := F.AZ_PUPF_ALL,
    main_body := { polygon := [], bounding_radius := 15.0, immunities := 0 },
    components := [] }

/-- The entry `[AZ_BAD_ATOM]` of `baddie_datas`. -/
def atom_data (F : flag_constants) : az_baddie_data_t R :=
  { overall_bounding_radius := 40.0, max_health := 15.0, potential_pickups := F.AZ_PUPF_ALL,
    main_body := { polygon := [], bounding_radius := 10.0, immunities := 0 },
    components := atom_components F }

/-- The entry `[AZ_BAD_SPINER]` of `baddie_datas`. -/
def spiner_data (F : flag_constants) : az_baddie_data_t R :=
  { overall_bounding_radius := 0, max_health := 10.0, potential_pickups := F.AZ_PUPF_ALL,
    main_body := { polygon := [], bounding_radius := 18.0, immunities := 0 },
    components := [] }

/-- The entry `[AZ_BAD_BOX]` of `baddie_datas`. -/
def box_data (F : flag_constants) : az_baddie_data_t R :=
  { overall_bounding_radius := 0, max_health := 10.0,
    potential_pickups := F.complement (F.AZ_PUPF_NOTHING ||| F.AZ_PUPF_LARGE_SHIELDS),
    main_body :=
      { polygon := box_vertices, bounding_radius := 0, immunities := F.AZ_DMGF_FREEZE },
    components := [] }

/-- The entry `[AZ_BAD_ARMORED_BOX]` of `baddie_datas`. -/
def armored_box_data (F : flag_constants) : az_baddie_data_t R :=
  { overall_bounding_radius := 0, max_health := 20.0,
    potential_pickups := F.complement (F.AZ_PUPF_NOTHING ||| F.AZ_PUPF_SMALL_SHIELDS),
    main_body :=
      { polygon := box_vertices, bounding_radius := 0,
        immunities :=
          F.AZ_DMGF_NORMAL ||| F.AZ_DMGF_CHARGED ||| F.AZ_DMGF_FREEZE ||| F.AZ_DMGF_PIERCE },
    components := [] }

/-- The table `baddie_datas` as the source declares it, before initialization: the entry of
each kind at the index of the kind. -/
def baddie_datas (F : flag_constants) : List (az_baddie_data_t R) :=
  [nothing_data, lump_data F, turret_data F, zipper_data F, bouncer_data F, atom_data F,
   spiner_data F, box_data F, armored_box_data F]

/-! ## Rigid motions of the plane -/

/-- The rigid motion of the plane that rotates by `theta` about the origin, with the
rotation of the geometry `G`, and then translates by `t`. -/
def rigid_motion (G : Geometry R) (theta : R) (t v : az_vector_t R) : az_vector_t R :=
  az_vadd (G.az_vrotate v theta) t

/-- The baddie moved by a rigid motion: its position is moved, its angle grows by the
angle of the rotation, and its template and poses stay as they are. -/
def move_baddie (G : Geometry R) (theta : R) (t : az_vector_t R) (baddie : az_baddie_t R) :
    az_baddie_t R :=
  { baddie with
    position := rigid_motion G theta t baddie.position
    angle := baddie.angle + theta }

/-- The result of a ray query moved by a rigid motion: on a hit the impact point is moved
and the normal rotated, and the struck component stays; a result without a hit stays as it
is. -/
def move_ray_result (G : Geometry R) (theta : R) (t : az_vector_t R)
    (r : Bool × ray_outs R) : Bool × ray_outs R :=
  if r.1 then
    (true,
      { point_out := r.2.point_out.map (rigid_motion G theta t)
        normal_out := r.2.normal_out.map (fun n => G.az_vrotate n theta)
        component_out := r.2.component_out })
  else r

/-! ## The ray query without its broad phase -/

/-- The algorithm of `az_ray_hits_baddie` with the broad-phase check removed, which the
specification compares the query with: the same statements in the same order, the test of
the overall bounding circle and its early return left out. -/
def az_ray_hits_baddie_no_broad (G : Geometry R) (baddie : az_baddie_t R)
    (start delta : az_vector_t R) (outs : ray_outs R) : Option (Bool × ray_outs R) :=
  if baddie.kind = az_baddie_kind_t.AZ_BAD_NOTHING then none
  else
    let data := baddie.data
    let rel_start := G.az_vrotate (az_vsub start baddie.position) (-baddie.angle)
    let rel_delta := G.az_vrotate delta (-baddie.angle)
    let st0 : ray_locals R :=
      { rel_delta := rel_delta
        hit_component := none
        point := AZ_VZERO
        normal_out := outs.normal_out }
    let st1 := ray_test G rel_start component_ref.main_body data.main_body AZ_VZERO 0 st0
    match ray_loop G baddie rel_start data.components 0 st1 with
    | none => none
    | some st =>
        match st.hit_component with
        | some hit_component =>
            some (true,
              { point_out := outs.point_out.map
                  (fun _ => az_vadd (G.az_vrotate st.point baddie.angle) baddie.position)
                normal_out := st.normal_out.map (fun n => G.az_vrotate n baddie.angle)
                component_out := outs.component_out.map (fun _ => hit_component) })
        | none =>
            some (false,
              { point_out := outs.point_out
                normal_out := st.normal_out
                component_out := outs.component_out })

end Defs

/-- Rational stand-ins for the `libm` functions: `Rat.sqrt`, exact on squares, and the
Taylor polynomials of cosine (to order 4) and sine (to order 5), exact at 0. -/
def rat_libm : Libm ℚ :=
  { sqrt := Rat.sqrt
    cos := fun a => 1 - a ^ 2 / 2 + a ^ 4 / 24
    sin := fun a => a - a ^ 3 / 6 + a ^ 5 / 120 }

/-- The reference geometry on the rationals. -/
def rat_geometry : Geometry ℚ := reference_geometry rat_libm

/-- The baddie of the example scenarios: at (100, 0) with angle 0, a circular main body
of radius 10, no sub-parts, `overall_bounding_radius` 10. -/
def scenario_baddie : az_baddie_t ℚ :=
  { kind := az_baddie_kind_t.AZ_BAD_BOUNCER
    data :=
      { overall_bounding_radius := 10
        max_health := 5
        potential_pickups := 0
        main_body := { polygon := [], bounding_radius := 10, immunities := 0 }
        components := [] }
    uid := 1
    position := ⟨100, 0⟩
    angle := 0
    health := 5
    components := [] }

/-- A baddie at the origin with angle 0, a circular main body of radius 10 and two
circular sub-parts of radius 5 posed at (30, 50) and (60, 50). -/
def two_part_baddie : az_baddie_t ℚ :=
  { kind := az_baddie_kind_t.AZ_BAD_ATOM
    data :=
      { overall_bounding_radius := 100
        max_health := 15
        potential_pickups := 0
        main_body := { polygon := [], bounding_radius := 10, immunities := 0 }
        components :=
          [{ polygon := [], bounding_radius := 5, immunities := 0 },
           { polygon := [], bounding_radius := 5, immunities := 0 }] }
    uid := 1
    position := ⟨0, 0⟩
    angle := 0
    health := 15
    components := [{ position := ⟨30, 50⟩, angle := 0 }, { position := ⟨60, 50⟩, angle := 0 }] }

/-- Output locations that are all present and hold zeros and the main body. -/
def fresh_ray_outs : ray_outs ℚ :=
  { point_out := some ⟨0, 0⟩, normal_out := some ⟨0, 0⟩,
    component_out := some component_ref.main_body }

/-- Output locations that are all present and hold zeros and the main body. -/
def fresh_circle_outs : circle_outs ℚ :=
  { pos_out := some ⟨0, 0⟩, impact_out := some ⟨0, 0⟩,
    component_out := some component_ref.main_body }

/-- A baddie at the origin with angle 0, a circular main body of radius 10 and two
circular sub-parts of radius 5 posed at (30, 0) and (60, 0), in line with the main body. -/
def inline_baddie : az_baddie_t ℚ :=
  { kind := az_baddie_kind_t.AZ_BAD_ATOM
    data :=
      { overall_bounding_radius := 100
        max_health := 15
        potential_pickups := 0
        main_body := { polygon := [], bounding_radius := 10, immunities := 0 }
        components :=
          [{ polygon := [], bounding_radius := 5, immunities := 0 },
           { polygon := [], bounding_radius := 5, immunities := 0 }] }
    uid := 1
    position := ⟨0, 0⟩
    angle := 0
    health := 15
    components := [{ position := ⟨30, 0⟩, angle := 0 }, { position := ⟨60, 0⟩, angle := 0 }] }

/-- The polygon region of a scenario without polygons. -/
def no_polygon_region : az_polygon_t ℚ → az_vector_t ℚ → ℚ → az_vector_t ℚ → Prop :=
  fun _ _ _ _ => False

/-- The swept polygon region of a scenario without polygons. -/
def no_swept_region : az_polygon_t ℚ → az_vector_t ℚ → ℚ → ℚ → az_vector_t ℚ → Prop :=
  fun _ _ _ _ _ => False

/-- An unused pool slot: kind `AZ_BAD_NOTHING`, at the position of the example baddie and
with its template. -/
def nothing_baddie : az_baddie_t ℚ :=
  { scenario_baddie with kind := az_baddie_kind_t.AZ_BAD_NOTHING }

/-- A baddie with the template of the example baddie (a circular main body of radius 10, no
sub-parts) at the given position and angle, over any field. -/
def posed_baddie {R : Type} [LinearOrderedField R] (position : az_vector_t R) (angle : R) :
    az_baddie_t R :=
  { kind := az_baddie_kind_t.AZ_BAD_BOUNCER
    data :=
      { overall_bounding_radius := 10
        max_health := 5
        potential_pickups := 0
        main_body := { polygon := [], bounding_radius := 10, immunities := 0 }
        components := [] }
    uid := 1
    position := position
    angle := angle
    health := 5
    components := [] }

/-- A triangle with vertices at distances 5, 10 and 5 from the origin. -/
def example_triangle : az_polygon_t ℚ := [⟨3, 4⟩, ⟨-6, 8⟩, ⟨0, -5⟩]

/-- A triangle with all three vertices at distance 5 from the origin. -/
def small_triangle : az_polygon_t ℚ := [⟨3, 4⟩, ⟨-3, 4⟩, ⟨0, -5⟩]

/-- The zero entry of a table of templates, the one that stands for `AZ_BAD_NOTHING`. -/
def zero_data : az_baddie_data_t ℚ :=
  { overall_bounding_radius := 0, max_health := 0, potential_pickups := 0,
    main_body := { polygon := [], bounding_radius := 0, immunities := 0 },
    components := [] }

/-- A kind with a polygon body and no sub-parts, as declared: the vertices lie at the
rational distances 20, 20, 20, 20, 20 from the origin. -/
def example_lump : az_baddie_data_t ℚ :=
  { overall_bounding_radius := 0, max_health := 10, potential_pickups := 0,
    main_body :=
      { polygon := [⟨20, 0⟩, ⟨12, 16⟩, ⟨-12, 16⟩, ⟨-12, -16⟩, ⟨12, -16⟩],
        bounding_radius := 0, immunities := 0 },
    components := [] }

/-- The kind `example_lump` after initialization. -/
def example_lump_ready : az_baddie_data_t ℚ :=
  { overall_bounding_radius := 20.01, max_health := 10, potential_pickups := 0,
    main_body :=
      { polygon := [⟨20, 0⟩, ⟨12, 16⟩, ⟨-12, 16⟩, ⟨-12, -16⟩, ⟨12, -16⟩],
        bounding_radius := 20.01, immunities := 0 },
    components := [] }

/-- A kind with a polygon body and one polygon sub-part, as declared, with the overall
radius 30.5 of the shipped turret. -/
def example_turret : az_baddie_data_t ℚ :=
  { overall_bounding_radius := 30.5, max_health := 15, potential_pickups := 0,
    main_body :=
      { polygon := [⟨20, 0⟩, ⟨12, 16⟩, ⟨-12, 16⟩, ⟨-20, 0⟩, ⟨-12, -16⟩, ⟨12, -16⟩],
        bounding_radius := 0, immunities := 0 },
    components :=
      [{ polygon := [⟨24, 7⟩, ⟨0, 7⟩, ⟨0, -7⟩, ⟨24, -7⟩], bounding_radius := 0,
         immunities := 0 }] }

/-- The kind `example_turret` after initialization. -/
def example_turret_ready : az_baddie_data_t ℚ :=
  { overall_bounding_radius := 30.5, max_health := 15, potential_pickups := 0,
    main_body :=
      { polygon := [⟨20, 0⟩, ⟨12, 16⟩, ⟨-12, 16⟩, ⟨-20, 0⟩, ⟨-12, -16⟩, ⟨12, -16⟩],
        bounding_radius := 20.01, immunities := 0 },
    components :=
      [{ polygon := [⟨24, 7⟩, ⟨0, 7⟩, ⟨0, -7⟩, ⟨24, -7⟩], bounding_radius := 25.01,
         immunities := 0 }] }

/-- A second kind with a polygon body and no sub-parts, as declared. -/
def example_zipper : az_baddie_data_t ℚ :=
  { overall_bounding_radius := 0, max_health := 20, potential_pickups := 0,
    main_body :=
      { polygon := [⟨20, 0⟩, ⟨6, 8⟩, ⟨-12, 5⟩, ⟨-12, -5⟩, ⟨6, -8⟩],
        bounding_radius := 0, immunities := 0 },
    components := [] }

/-- The kind `example_zipper` after initialization. -/
def example_zipper_ready : az_baddie_data_t ℚ :=
  { overall_bounding_radius := 20.01, max_health := 20, potential_pickups := 0,
    main_body :=
      { polygon := [⟨20, 0⟩, ⟨6, 8⟩, ⟨-12, 5⟩, ⟨-12, -5⟩, ⟨6, -8⟩],
        bounding_radius := 20.01, immunities := 0 },
    components := [] }

/-- A circular kind of radius 15 without sub-parts, as declared (the shipped entry of
`AZ_BAD_BOUNCER`, the flag words left 0). -/
def example_bouncer : az_baddie_data_t ℚ :=
  { overall_bounding_radius := 0, max_health := 5, potential_pickups := 0,
    main_body := { polygon := [], bounding_radius := 15, immunities := 0 },
    components := [] }

/-- The kind `example_bouncer` after initialization. -/
def example_bouncer_ready : az_baddie_data_t ℚ :=
  { overall_bounding_radius := 15, max_health := 5, potential_pickups := 0,
    main_body := { polygon := [], bounding_radius := 15, immunities := 0 },
    components := [] }

/-- The shipped entry of `AZ_BAD_ATOM` with its three circular sub-parts, the flag words
left 0; initialization leaves it as declared. -/
def example_atom : az_baddie_data_t ℚ :=
  { overall_bounding_radius := 40, max_health := 15, potential_pickups := 0,
    main_body := { polygon := [], bounding_radius := 10, immunities := 0 },
    components :=
      [{ polygon := [], bounding_radius := 6.3, immunities := 0 },
       { polygon := [], bounding_radius := 6.5, immunities := 0 },
       { polygon := [], bounding_radius := 6.7, immunities := 0 }] }

/-- A table in the layout of `baddie_datas` up to `AZ_BAD_ATOM`, as declared before
initialization: the zero entry of `AZ_BAD_NOTHING`, three kinds with polygon bodies, a
circular kind, and the entry of `AZ_BAD_ATOM`.  The polygons have their vertices at
rational distances from the origin, so that `Rat.sqrt` is exact on them. -/
def example_datas : List (az_baddie_data_t ℚ) :=
  [zero_data, example_lump, example_turret, example_zipper, example_bouncer, example_atom]

/-- The table `example_datas` after initialization: the polygon components have their
derived radii, and the kinds without sub-parts the radius of their main body as overall
radius. -/
def example_datas_ready : List (az_baddie_data_t ℚ) :=
  [zero_data, example_lump_ready, example_turret_ready, example_zipper_ready,
   example_bouncer_ready, example_atom]

/-- A kind with a sub-part that declares an overall radius of 5, less than the radius 10
of its main body. -/
def undersized_data : az_baddie_data_t ℚ :=
  { overall_bounding_radius := 5, max_health := 15, potential_pickups := 0,
    main_body := { polygon := [], bounding_radius := 10, immunities := 0 },
    components := [{ polygon := [], bounding_radius := 6.3, immunities := 0 }] }

/-- A table whose only kind is `undersized_data`. -/
def undersized_datas : List (az_baddie_data_t ℚ) := [zero_data, undersized_data]

/-- A slot of the baddie pool before `az_init_baddie`: a uid assigned by the pool, four
sub-part slots, and stale contents in the other fields. -/
def pool_slot : baddie_object ℚ :=
  { kind := az_baddie_kind_t.AZ_BAD_BOUNCER
    data := none
    uid := 7
    position := ⟨1, 2⟩
    angle := 3
    health := 4
    cooldown := 5
    param := 6
    state := 2
    temp_properties := 1
    components :=
      [{ position := ⟨1, 1⟩, angle := 1 }, { position := ⟨2, 2⟩, angle := 2 },
       { position := ⟨3, 3⟩, angle := 3 }, { position := ⟨4, 4⟩, angle := 4 }] }

/-- The example table after initialization, as the static state of the catalog. -/
def example_catalog : baddie_catalog ℚ :=
  { baddie_data_initialized := true, baddie_datas := example_datas_ready }

/-- The kind `example_bouncer` with an overall radius supplied in its declaration: 20, more
than the radius 15 of its main body. -/
def presupplied_bouncer : az_baddie_data_t ℚ :=
  { example_bouncer with overall_bounding_radius := 20 }

/-- A table whose only kind is `presupplied_bouncer`. -/
def presupplied_datas : List (az_baddie_data_t ℚ) := [zero_data, presupplied_bouncer]

/-- A choice of the flag constants for the examples: distinct bits, and the complement on
32 bits.  The initialization of the table does not read them. -/
def example_flags : flag_constants :=
  { AZ_PUPF_NOTHING := 1, AZ_PUPF_SMALL_SHIELDS := 2, AZ_PUPF_LARGE_SHIELDS := 4,
    AZ_PUPF_ROCKETS := 8, AZ_PUPF_ALL := 4294967295,
    AZ_DMGF_NORMAL := 1, AZ_DMGF_CHARGED := 2, AZ_DMGF_FREEZE := 4, AZ_DMGF_PIERCE := 8,
    AZ_DMGF_MEGA_BOMB := 16,
    complement := fun n => 4294967295 - n }

/-- A baddie at the origin with angle 0 whose template passes the checks of
`az_init_baddie_datas` (overall radius 10, a circular main body of radius 10, one circular
sub-part of radius 5) and whose sub-part is posed at (30, 50), outside the overall
circle. -/
def far_part_baddie : az_baddie_t ℚ :=
  { kind := az_baddie_kind_t.AZ_BAD_ATOM
    data :=
      { overall_bounding_radius := 10
        max_health := 15
        potential_pickups := 0
        main_body := { polygon := [], bounding_radius := 10, immunities := 0 }
        components := [{ polygon := [], bounding_radius := 5, immunities := 0 }] }
    uid := 1
    position := ⟨0, 0⟩
    angle := 0
    health := 15
    components := [{ position := ⟨30, 50⟩, angle := 0 }] }

/-! ## The test sequence: general facts -/

section OutcomeLemmas

variable {R : Type}

theorem last_success_append_one (done : List (test_outcome R)) (x : test_outcome R) :
    last_success (done ++ [x]) =
      match x.2 with
      | some pn => some (x.1, pn.1, pn.2)
      | none => last_success done := by
  induction done with
  | nil =>
      obtain ⟨ref, o⟩ := x
      cases o <;> simp [last_success]
  | cons hd tl ih =>
      obtain ⟨ref, o⟩ := x
      obtain ⟨r0, o0⟩ := hd
      rw [List.cons_append]
      cases o with
      | none =>
          have h : last_success (tl ++ [(ref, none)]) = last_success tl := ih
          simp only [last_success]
          rw [h]
      | some pn =>
          have h : last_success (tl ++ [(ref, some pn)]) = some (ref, pn.1, pn.2) := ih
          simp only [last_success]
          rw [h]

theorem last_success_isSome_iff (done : List (test_outcome R)) :
    (last_success done).isSome = true ↔ ∃ o ∈ done, o.2.isSome = true := by
  induction done with
  | nil => simp [last_success]
  | cons hd tl ih =>
      obtain ⟨r0, o0⟩ := hd
      cases hrest : last_success tl with
      | some s =>
          have h1 : ∃ o ∈ tl, o.2.isSome = true := ih.mp (by simp [hrest])
          obtain ⟨o, ho, hs⟩ := h1
          simp only [last_success, hrest, Option.isSome_some, true_iff]
          exact ⟨o, List.mem_cons_of_mem _ ho, hs⟩
      | none =>
          have h1 : ¬ ∃ o ∈ tl, o.2.isSome = true := by
            intro h
            have := ih.mpr h
            simp [hrest] at this
          simp only [last_success, hrest]
          constructor
          · intro h
            refine ⟨(r0, o0), List.mem_cons_self _ _, ?_⟩
            cases o0 <;> simp_all
          · rintro ⟨o, ho, hs⟩
            rcases List.mem_cons.mp ho with rfl | hmem
            · cases o0 <;> simp_all
            · exact absurd ⟨o, hmem, hs⟩ h1

end OutcomeLemmas

section RunLemmas

variable {R : Type} [LinearOrderedField R]

theorem run_tests_length
    (test : test_part R → az_vector_t R → Option (az_vector_t R × az_vector_t R))
    (s d : az_vector_t R) (parts : List (test_part R)) (done : List (test_outcome R)) :
    (run_tests test s d parts done).length = done.length + parts.length := by
  induction parts generalizing done with
  | nil => simp [run_tests]
  | cons part rest ih =>
      simp only [run_tests, ih, List.length_append, List.length_cons, List.length_nil]
      omega

theorem run_tests_take
    (test : test_part R → az_vector_t R → Option (az_vector_t R × az_vector_t R))
    (s d : az_vector_t R) (parts : List (test_part R)) (done : List (test_outcome R)) :
    (run_tests test s d parts done).take done.length = done := by
  induction parts generalizing done with
  | nil => simp [run_tests]
  | cons part rest ih =>
      have h := ih (done ++ [(part.ref, test part (remaining_delta s d done))])
      have h2 := congrArg (List.take done.length) h
      rw [List.take_take, List.take_left' rfl] at h2
      have hmin : min done.length
          (done ++ [(part.ref, test part (remaining_delta s d done))]).length = done.length := by
        simp
      rw [hmin] at h2
      simpa only [run_tests] using h2

/-- Entry `k` of the outcomes is the test of part `k` against the segment that the
outcomes before it determine. -/
theorem run_tests_get
    (test : test_part R → az_vector_t R → Option (az_vector_t R × az_vector_t R))
    (s d : az_vector_t R) (parts : List (test_part R)) (done : List (test_outcome R))
    (k : Nat) (part : test_part R) (hk : parts.get? k = some part) :
    (run_tests test s d parts done).get? (done.length + k) =
      some (part.ref, test part
        (remaining_delta s d ((run_tests test s d parts done).take (done.length + k)))) := by
  induction parts generalizing done k with
  | nil => simp at hk
  | cons p rest ih =>
      cases k with
      | zero =>
          simp only [List.get?_cons_zero, Option.some.injEq] at hk
          subst hk
          have ht := run_tests_take test s d rest
            (done ++ [(p.ref, test p (remaining_delta s d done))])
          have hlen : (done ++ [(p.ref, test p (remaining_delta s d done))]).length
              = done.length + 1 := by simp
          rw [hlen] at ht
          have ht2 := congrArg (List.take done.length) ht
          rw [List.take_take, List.take_left' rfl] at ht2
          have hmin : min done.length (done.length + 1) = done.length := by omega
          rw [hmin] at ht2
          have hg := congrArg (fun l => l.get? done.length) ht
          simp only [List.get?_eq_getElem?] at hg
          rw [List.getElem?_take_of_lt (by omega)] at hg
          simp only [run_tests, Nat.add_zero, List.get?_eq_getElem?]
          rw [ht2, hg]
          simp
      | succ k =>
          simp only [List.get?_cons_succ] at hk
          have h := ih (done ++ [(p.ref, test p (remaining_delta s d done))]) k hk
          simp only [List.length_append, List.length_cons, List.length_nil] at h
          simp only [run_tests]
          have e : done.length + (k + 1) = done.length + (0 + 1) + k := by omega
          rw [e]
          exact h

end RunLemmas

/-! ## The embedded loops compute the test sequence -/

section LoopLemmas

variable {R : Type} [LinearOrderedField R]

theorem ray_test_locals_of (G : Geometry R) (s d : az_vector_t R)
    (nc : Option (az_vector_t R)) (done : List (test_outcome R)) (ref : component_ref)
    (component : az_component_data_t R) (position : az_vector_t R) (angle : R) :
    ray_test G s ref component position angle (ray_locals_of s d nc done) =
      ray_locals_of s d nc
        (done ++ [(ref, ray_hits_component G component position angle s
          (remaining_delta s d done))]) := by
  unfold ray_test
  have hd : (ray_locals_of s d nc done).rel_delta = remaining_delta s d done := rfl
  rw [hd]
  cases hres : ray_hits_component G component position angle s (remaining_delta s d done) with
  | none =>
      simp only [ray_locals_of, remaining_delta, last_success_append_one]
  | some pn =>
      obtain ⟨p, n⟩ := pn
      simp only [ray_locals_of, remaining_delta, last_success_append_one, Option.map_some']
      cases hl : last_success done with
      | none => simp
      | some r =>
          obtain ⟨r1, r2, r3⟩ := r
          cases nc <;> simp

theorem ray_loop_eq (G : Geometry R) (baddie : az_baddie_t R) (s d : az_vector_t R)
    (nc : Option (az_vector_t R)) (comps : List (az_component_data_t R)) (i : Nat)
    (done : List (test_outcome R)) (hslots : i + comps.length ≤ baddie.components.length) :
    ray_loop G baddie s comps i (ray_locals_of s d nc done) =
      some (ray_locals_of s d nc
        (run_tests
          (fun part dl =>
            ray_hits_component G part.component part.position part.angle s dl)
          s d (sub_parts_from i comps (baddie.components.drop i)) done)) := by
  induction comps generalizing i done with
  | nil =>
      cases hdrop : baddie.components.drop i <;> simp [ray_loop, sub_parts_from, run_tests]
  | cons c rest ih =>
      have hi : i < baddie.components.length := by
        simp only [List.length_cons] at hslots
        omega
      have hget : baddie.components.get? i = some (baddie.components[i]) := by
        rw [List.get?_eq_getElem?, List.getElem?_eq_getElem hi]
      rw [List.drop_eq_getElem_cons hi]
      simp only [ray_loop, hget, sub_parts_from, run_tests]
      rw [ray_test_locals_of]
      exact ih (i + 1) _ (by simp only [List.length_cons] at hslots; omega)

theorem circle_test_locals_of (G : Geometry R) (radius : R) (s d : az_vector_t R)
    (ic : Option (az_vector_t R)) (done : List (test_outcome R)) (ref : component_ref)
    (component : az_component_data_t R) (position : az_vector_t R) (angle : R) :
    circle_test G radius s ref component position angle (circle_locals_of s d ic done) =
      circle_locals_of s d ic
        (done ++ [(ref, circle_hits_component G component position angle radius s
          (remaining_delta s d done))]) := by
  unfold circle_test
  have hd : (circle_locals_of s d ic done).rel_delta = remaining_delta s d done := rfl
  rw [hd]
  cases hres :
      circle_hits_component G component position angle radius s (remaining_delta s d done) with
  | none =>
      simp only [circle_locals_of, remaining_delta, last_success_append_one]
  | some pn =>
      obtain ⟨p, n⟩ := pn
      simp only [circle_locals_of, remaining_delta, last_success_append_one, Option.map_some']
      cases hl : last_success done with
      | none => simp
      | some r =>
          obtain ⟨r1, r2, r3⟩ := r
          cases ic <;> simp

theorem circle_loop_eq (G : Geometry R) (baddie : az_baddie_t R) (radius : R)
    (s d : az_vector_t R) (ic : Option (az_vector_t R))
    (comps : List (az_component_data_t R)) (i : Nat) (done : List (test_outcome R))
    (hslots : i + comps.length ≤ baddie.components.length) :
    circle_loop G baddie radius s comps i (circle_locals_of s d ic done) =
      some (circle_locals_of s d ic
        (run_tests
          (fun part dl =>
            circle_hits_component G part.component part.position part.angle radius s dl)
          s d (sub_parts_from i comps (baddie.components.drop i)) done)) := by
  induction comps generalizing i done with
  | nil =>
      cases hdrop : baddie.components.drop i <;>
        simp [circle_loop, sub_parts_from, run_tests]
  | cons c rest ih =>
      have hi : i < baddie.components.length := by
        simp only [List.length_cons] at hslots
        omega
      have hget : baddie.components.get? i = some (baddie.components[i]) := by
        rw [List.get?_eq_getElem?, List.getElem?_eq_getElem hi]
      rw [List.drop_eq_getElem_cons hi]
      simp only [circle_loop, hget, sub_parts_from, run_tests]
      rw [circle_test_locals_of]
      exact ih (i + 1) _ (by simp only [List.length_cons] at hslots; omega)

end LoopLemmas

/-! ## The queries in terms of the test sequence -/

section QueryLemmas

variable {R : Type} [LinearOrderedField R]

theorem run_tests_map_fst
    (test : test_part R → az_vector_t R → Option (az_vector_t R × az_vector_t R))
    (s d : az_vector_t R) (parts : List (test_part R)) (done : List (test_outcome R)) :
    (run_tests test s d parts done).map Prod.fst =
      done.map Prod.fst ++ parts.map (fun part => part.ref) := by
  induction parts generalizing done with
  | nil => simp [run_tests]
  | cons part rest ih => simp [run_tests, ih]

omit [LinearOrderedField R] in
theorem sub_parts_from_refs (i : Nat) (comps : List (az_component_data_t R))
    (poses : List (az_component_t R)) (h : comps.length ≤ poses.length) :
    (sub_parts_from i comps poses).map (fun part => part.ref) =
      (List.range' i comps.length).map component_ref.component := by
  induction comps generalizing i poses with
  | nil => cases poses <;> simp [sub_parts_from]
  | cons c rest ih =>
      cases poses with
      | nil => simp at h
      | cons pose ps =>
          simp only [List.length_cons, Nat.add_le_add_iff_right] at h
          simp [sub_parts_from, ih (i + 1) ps h, List.range'_succ]

omit [LinearOrderedField R] in
theorem sub_parts_from_get (i : Nat) (comps : List (az_component_data_t R))
    (poses : List (az_component_t R)) (k : Nat) (c : az_component_data_t R)
    (pose : az_component_t R) (hc : comps.get? k = some c) (hp : poses.get? k = some pose) :
    (sub_parts_from i comps poses).get? k =
      some { ref := component_ref.component (i + k), component := c,
             position := pose.position, angle := pose.angle } := by
  induction comps generalizing i poses k with
  | nil => simp at hc
  | cons c0 rest ih =>
      cases poses with
      | nil => simp at hp
      | cons p0 ps =>
          cases k with
          | zero =>
              simp only [List.get?_cons_zero, Option.some.injEq] at hc hp
              subst hc hp
              simp [sub_parts_from]
          | succ k =>
              simp only [List.get?_cons_succ] at hc hp
              have h := ih (i + 1) ps k hc hp
              simp only [sub_parts_from, List.get?_cons_succ, h]
              congr 3
              omega

/-- When no assertion fails and the broad phase passes, `az_ray_hits_baddie` hands back
the report of the test sequence. -/
theorem az_ray_hits_baddie_eq_report (G : Geometry R) (baddie : az_baddie_t R)
    (start delta : az_vector_t R) (outs : ray_outs R)
    (hkind : baddie.kind ≠ az_baddie_kind_t.AZ_BAD_NOTHING)
    (hslots : baddie.data.components.length ≤ baddie.components.length)
    (hbroad : G.az_ray_hits_bounding_circle start delta baddie.position
      baddie.data.overall_bounding_radius = true) :
    az_ray_hits_baddie G baddie start delta outs =
      some (ray_report G baddie outs (ray_outcomes G baddie start delta)) := by
  have hloop := ray_loop_eq G baddie
    (G.az_vrotate (az_vsub start baddie.position) (-baddie.angle))
    (G.az_vrotate delta (-baddie.angle)) outs.normal_out baddie.data.components 0
    ([] ++ [(component_ref.main_body,
      ray_hits_component G baddie.data.main_body AZ_VZERO 0
        (G.az_vrotate (az_vsub start baddie.position) (-baddie.angle))
        (remaining_delta (G.az_vrotate (az_vsub start baddie.position) (-baddie.angle))
          (G.az_vrotate delta (-baddie.angle)) []))])
    (by omega)
  rw [← ray_test_locals_of] at hloop
  simp only [List.drop_zero] at hloop
  unfold az_ray_hits_baddie
  simp only [hkind, if_false, hbroad, Bool.not_true, Bool.false_eq_true]
  have h0 : ray_locals_of (G.az_vrotate (az_vsub start baddie.position) (-baddie.angle))
      (G.az_vrotate delta (-baddie.angle)) outs.normal_out [] =
      { rel_delta := G.az_vrotate delta (-baddie.angle)
        hit_component := none
        point := AZ_VZERO
        normal_out := outs.normal_out } := rfl
  rw [h0] at hloop
  rw [hloop]
  simp only [ray_report, ray_outcomes, test_parts, run_tests, ray_locals_of, to_world]
  cases hl : last_success _ with
  | none => simp
  | some r =>
      obtain ⟨ref, p, n⟩ := r
      cases hn : outs.normal_out <;> simp

/-- When no assertion fails and the broad phase passes, `az_circle_hits_baddie` hands
back the report of the test sequence. -/
theorem az_circle_hits_baddie_eq_report (G : Geometry R) (baddie : az_baddie_t R)
    (radius : R) (start delta : az_vector_t R) (outs : circle_outs R)
    (hkind : baddie.kind ≠ az_baddie_kind_t.AZ_BAD_NOTHING)
    (hslots : baddie.data.components.length ≤ baddie.components.length)
    (hbroad : G.az_ray_hits_bounding_circle start delta baddie.position
      (baddie.data.overall_bounding_radius + radius) = true) :
    az_circle_hits_baddie G baddie radius start delta outs =
      some (circle_report G baddie outs (circle_outcomes G baddie radius start delta)) := by
  have hloop := circle_loop_eq G baddie radius
    (G.az_vrotate (az_vsub start baddie.position) (-baddie.angle))
    (G.az_vrotate delta (-baddie.angle)) outs.impact_out baddie.data.components 0
    ([] ++ [(component_ref.main_body,
      circle_hits_component G baddie.data.main_body AZ_VZERO 0 radius
        (G.az_vrotate (az_vsub start baddie.position) (-baddie.angle))
        (remaining_delta (G.az_vrotate (az_vsub start baddie.position) (-baddie.angle))
          (G.az_vrotate delta (-baddie.angle)) []))])
    (by omega)
  rw [← circle_test_locals_of] at hloop
  simp only [List.drop_zero] at hloop
  unfold az_circle_hits_baddie
  simp only [hkind, if_false, hbroad, Bool.not_true, Bool.false_eq_true]
  have h0 : circle_locals_of (G.az_vrotate (az_vsub start baddie.position) (-baddie.angle))
      (G.az_vrotate delta (-baddie.angle)) outs.impact_out [] =
      { rel_delta := G.az_vrotate delta (-baddie.angle)
        hit_component := none
        pos := AZ_VZERO
        impact_out := outs.impact_out } := rfl
  rw [h0] at hloop
  rw [hloop]
  simp only [circle_report, circle_outcomes, test_parts, run_tests, circle_locals_of, to_world]
  cases hl : last_success _ with
  | none => simp
  | some r =>
      obtain ⟨ref, p, n⟩ := r
      cases hn : outs.impact_out <;> simp

theorem ray_loop_slots (G : Geometry R) (baddie : az_baddie_t R) (s : az_vector_t R)
    (comps : List (az_component_data_t R)) (i : Nat) (st st' : ray_locals R)
    (h : ray_loop G baddie s comps i st = some st') :
    comps = [] ∨ i + comps.length ≤ baddie.components.length := by
  induction comps generalizing i st with
  | nil => exact Or.inl rfl
  | cons c rest ih =>
      right
      cases hget : baddie.components.get? i with
      | none =>
          rw [ray_loop, hget] at h
          cases h
      | some pose =>
          have hi : i < baddie.components.length := by
            rw [List.get?_eq_getElem?] at hget
            exact (List.getElem?_eq_some.mp hget).1
          simp only [ray_loop, hget] at h
          rcases ih (i + 1) _ h with hnil | hle
          · subst hnil
            simp only [List.length_cons, List.length_nil]
            omega
          · simp only [List.length_cons]
            omega

theorem circle_loop_slots (G : Geometry R) (baddie : az_baddie_t R) (radius : R)
    (s : az_vector_t R) (comps : List (az_component_data_t R)) (i : Nat)
    (st st' : circle_locals R)
    (h : circle_loop G baddie radius s comps i st = some st') :
    comps = [] ∨ i + comps.length ≤ baddie.components.length := by
  induction comps generalizing i st with
  | nil => exact Or.inl rfl
  | cons c rest ih =>
      right
      cases hget : baddie.components.get? i with
      | none =>
          rw [circle_loop, hget] at h
          cases h
      | some pose =>
          have hi : i < baddie.components.length := by
            rw [List.get?_eq_getElem?] at hget
            exact (List.getElem?_eq_some.mp hget).1
          simp only [circle_loop, hget] at h
          rcases ih (i + 1) _ h with hnil | hle
          · subst hnil
            simp only [List.length_cons, List.length_nil]
            omega
          · simp only [List.length_cons]
            omega

/-- A call of `az_ray_hits_baddie` that returns true passed its assertions and its broad
phase. -/
theorem az_ray_hits_baddie_true_inv (G : Geometry R) (baddie : az_baddie_t R)
    (start delta : az_vector_t R) (outs outs' : ray_outs R)
    (h : az_ray_hits_baddie G baddie start delta outs = some (true, outs')) :
    baddie.kind ≠ az_baddie_kind_t.AZ_BAD_NOTHING
    ∧ baddie.data.components.length ≤ baddie.components.length
    ∧ G.az_ray_hits_bounding_circle start delta baddie.position
        baddie.data.overall_bounding_radius = true := by
  unfold az_ray_hits_baddie at h
  by_cases hkind : baddie.kind = az_baddie_kind_t.AZ_BAD_NOTHING
  · simp [hkind] at h
  · cases hbroad : G.az_ray_hits_bounding_circle start delta baddie.position
        baddie.data.overall_bounding_radius with
    | false => simp [hkind, hbroad] at h
    | true =>
        refine ⟨hkind, ?_, rfl⟩
        simp only [hkind, if_false, hbroad, Bool.not_true, Bool.false_eq_true] at h
        cases hloop : ray_loop G baddie
            (G.az_vrotate (az_vsub start baddie.position) (-baddie.angle))
            baddie.data.components 0
            (ray_test G (G.az_vrotate (az_vsub start baddie.position) (-baddie.angle))
              component_ref.main_body baddie.data.main_body AZ_VZERO 0
              { rel_delta := G.az_vrotate delta (-baddie.angle)
                hit_component := none
                point := AZ_VZERO
                normal_out := outs.normal_out }) with
        | none => simp [hloop] at h
        | some st =>
            rcases ray_loop_slots G baddie _ _ 0 _ st hloop with hnil | hle
            · rw [hnil]
              simp
            · omega

/-- A call of `az_circle_hits_baddie` that returns true passed its assertions and its
broad phase. -/
theorem az_circle_hits_baddie_true_inv (G : Geometry R) (baddie : az_baddie_t R)
    (radius : R) (start delta : az_vector_t R) (outs outs' : circle_outs R)
    (h : az_circle_hits_baddie G baddie radius start delta outs = some (true, outs')) :
    baddie.kind ≠ az_baddie_kind_t.AZ_BAD_NOTHING
    ∧ baddie.data.components.length ≤ baddie.components.length
    ∧ G.az_ray_hits_bounding_circle start delta baddie.position
        (baddie.data.overall_bounding_radius + radius) = true := by
  unfold az_circle_hits_baddie at h
  by_cases hkind : baddie.kind = az_baddie_kind_t.AZ_BAD_NOTHING
  · simp [hkind] at h
  · cases hbroad : G.az_ray_hits_bounding_circle start delta baddie.position
        (baddie.data.overall_bounding_radius + radius) with
    | false => simp [hkind, hbroad] at h
    | true =>
        refine ⟨hkind, ?_, rfl⟩
        simp only [hkind, if_false, hbroad, Bool.not_true, Bool.false_eq_true] at h
        cases hloop : circle_loop G baddie radius
            (G.az_vrotate (az_vsub start baddie.position) (-baddie.angle))
            baddie.data.components 0
            (circle_test G radius
              (G.az_vrotate (az_vsub start baddie.position) (-baddie.angle))
              component_ref.main_body baddie.data.main_body AZ_VZERO 0
              { rel_delta := G.az_vrotate delta (-baddie.angle)
                hit_component := none
                pos := AZ_VZERO
                impact_out := outs.impact_out }) with
        | none => simp [hloop] at h
        | some st =>
            rcases circle_loop_slots G baddie radius _ _ 0 _ st hloop with hnil | hle
            · rw [hnil]
              simp
            · omega

/-- A baddie without sub-parts whose main body is hit: the query reports that hit. -/
theorem az_ray_hits_baddie_main_hit (G : Geometry R) (baddie : az_baddie_t R)
    (start delta : az_vector_t R) (outs : ray_outs R) (p n : az_vector_t R)
    (hkind : baddie.kind ≠ az_baddie_kind_t.AZ_BAD_NOTHING)
    (hnone : baddie.data.components = [])
    (hbroad : G.az_ray_hits_bounding_circle start delta baddie.position
      baddie.data.overall_bounding_radius = true)
    (hmain : ray_hits_component G baddie.data.main_body AZ_VZERO 0
      (G.az_vrotate (az_vsub start baddie.position) (-baddie.angle))
      (G.az_vrotate delta (-baddie.angle)) = some (p, n)) :
    az_ray_hits_baddie G baddie start delta outs =
      some (true,
        { point_out := outs.point_out.map
            (fun _ => az_vadd (G.az_vrotate p baddie.angle) baddie.position)
          normal_out := outs.normal_out.map (fun _ => G.az_vrotate n baddie.angle)
          component_out := outs.component_out.map (fun _ => component_ref.main_body) }) := by
  unfold az_ray_hits_baddie
  simp only [hkind, if_false, hbroad, Bool.not_true, Bool.false_eq_true, hnone,
    ray_loop, ray_test, hmain]
  cases hn : outs.normal_out <;> simp

/-- A baddie without sub-parts whose main body is missed: the query reports no hit. -/
theorem az_ray_hits_baddie_main_miss (G : Geometry R) (baddie : az_baddie_t R)
    (start delta : az_vector_t R) (outs : ray_outs R)
    (hkind : baddie.kind ≠ az_baddie_kind_t.AZ_BAD_NOTHING)
    (hnone : baddie.data.components = [])
    (hmain : ray_hits_component G baddie.data.main_body AZ_VZERO 0
      (G.az_vrotate (az_vsub start baddie.position) (-baddie.angle))
      (G.az_vrotate delta (-baddie.angle)) = none) :
    az_ray_hits_baddie G baddie start delta outs = some (false, outs) := by
  cases hbroad : G.az_ray_hits_bounding_circle start delta baddie.position
      baddie.data.overall_bounding_radius with
  | false =>
      unfold az_ray_hits_baddie
      simp [hkind, hbroad]
  | true =>
      unfold az_ray_hits_baddie
      simp only [hkind, if_false, hbroad, Bool.not_true, Bool.false_eq_true, hnone,
        ray_loop, ray_test, hmain]

end QueryLemmas

/-! ## The reference geometry on the rationals: evaluations -/

section ScenarioFacts

theorem rat_geometry_rotate_zero (v : az_vector_t ℚ) : rat_geometry.az_vrotate v 0 = v := by
  simp [rat_geometry, reference_geometry, az_vrotate, rat_libm]

theorem scenario_broad_hit :
    rat_geometry.az_ray_hits_bounding_circle ⟨0, 0⟩ ⟨200, 0⟩ ⟨100, 0⟩ 10 = true := by
  simp only [rat_geometry, reference_geometry, reference_ray_hits_bounding_circle,
    within_radius, dist_sq, az_vdot, az_vsub, ray_point]
  norm_num

theorem scenario_circle_hit :
    rat_geometry.az_ray_hits_circle 10 ⟨0, 0⟩ ⟨-100, 0⟩ ⟨200, 0⟩ =
      some (⟨-10, 0⟩, ⟨-1, 0⟩) := by
  simp only [rat_geometry, reference_geometry, reference_ray_hits_circle, rat_libm, az_vdot,
    az_vsub, ray_point]
  norm_num

theorem scenario_circle_miss :
    rat_geometry.az_ray_hits_circle 10 ⟨0, 0⟩ ⟨-100, 50⟩ ⟨200, 0⟩ = none := by
  simp only [rat_geometry, reference_geometry, reference_ray_hits_circle, rat_libm, az_vdot,
    az_vsub, ray_point]
  norm_num

theorem scenario_main_body_hit :
    ray_hits_component rat_geometry scenario_baddie.data.main_body AZ_VZERO 0
      (rat_geometry.az_vrotate (az_vsub ⟨0, 0⟩ scenario_baddie.position)
        (-scenario_baddie.angle))
      (rat_geometry.az_vrotate ⟨200, 0⟩ (-scenario_baddie.angle)) =
      some (⟨-10, 0⟩, ⟨-1, 0⟩) := by
  have e : az_vsub (⟨0, 0⟩ : az_vector_t ℚ) ⟨100, 0⟩ = ⟨-100, 0⟩ := by
    simp only [az_vsub]
    norm_num
  have hz : -scenario_baddie.angle = 0 := by
    simp only [scenario_baddie]
    norm_num
  rw [hz, rat_geometry_rotate_zero, rat_geometry_rotate_zero]
  simp only [ray_hits_component, scenario_baddie, List.length_nil, gt_iff_lt,
    lt_self_iff_false, if_false, AZ_VZERO, e, scenario_circle_hit]

theorem scenario_hit :
    az_ray_hits_baddie rat_geometry scenario_baddie ⟨0, 0⟩ ⟨200, 0⟩ fresh_ray_outs =
      some (true,
        { point_out := some ⟨90, 0⟩, normal_out := some ⟨-1, 0⟩,
          component_out := some component_ref.main_body }) := by
  rw [az_ray_hits_baddie_main_hit rat_geometry scenario_baddie ⟨0, 0⟩ ⟨200, 0⟩ fresh_ray_outs
    ⟨-10, 0⟩ ⟨-1, 0⟩ (by decide) rfl scenario_broad_hit scenario_main_body_hit]
  have hz : scenario_baddie.angle = 0 := rfl
  rw [hz, rat_geometry_rotate_zero, rat_geometry_rotate_zero]
  simp only [fresh_ray_outs, Option.map_some', scenario_baddie, az_vadd]
  norm_num

end ScenarioFacts

/-! ## The nearest component wins -/

section Nearest

variable {R : Type} [LinearOrderedField R]

theorem ray_point_scale (s d : az_vector_t R) (u t : R) :
    ray_point s (scale_delta u d) t = ray_point s d (t * u) := by
  simp only [ray_point, scale_delta, az_vector_t.mk.injEq]
  constructor <;> ring

theorem scale_delta_one (d : az_vector_t R) : scale_delta 1 d = d := by
  simp [scale_delta]

theorem az_vsub_ray_point (s d : az_vector_t R) (t : R) :
    az_vsub (ray_point s d t) s = scale_delta t d := by
  simp only [az_vsub, ray_point, scale_delta, az_vector_t.mk.injEq]
  constructor <;> ring

theorem nearest_inv_nil (S : test_part R → az_vector_t R → Prop) (s d : az_vector_t R) :
    nearest_inv S s d [] [] 1 := by
  refine ⟨zero_le_one, le_rfl, ?_, ?_, Or.inl ⟨rfl, rfl, ?_⟩⟩
  · simp only [remaining_delta, last_success, scale_delta_one]
  · intro part hpart
    simp at hpart
  · intro part hpart
    simp at hpart

/-- One more test keeps `nearest_inv`, when it answers correctly on the remaining
segment. -/
theorem nearest_inv_step (S : test_part R → az_vector_t R → Prop)
    (test : test_part R → az_vector_t R → Option (az_vector_t R × az_vector_t R))
    (s d : az_vector_t R) (processed : List (test_part R)) (done : List (test_outcome R))
    (cur : R) (part : test_part R)
    (hinv : nearest_inv S s d processed done cur)
    (hcorrect : ∀ u, 0 ≤ u → u ≤ 1 →
      first_hit_answer (S part) s (scale_delta u d) (test part (scale_delta u d))) :
    ∃ cur', nearest_inv S s d (processed ++ [part])
      (done ++ [(part.ref, test part (remaining_delta s d done))]) cur' := by
  obtain ⟨h0, h1, hrem, hbefore, hlast⟩ := hinv
  have hc := hcorrect cur h0 h1
  rw [hrem]
  cases hres : test part (scale_delta cur d) with
  | none =>
      rw [hres] at hc
      have hmiss : ∀ t, 0 ≤ t → t ≤ cur → ¬ S part (ray_point s d t) := by
        intro t ht0 htc
        rcases eq_or_lt_of_le h0 with hz | hpos
        · have ht : t = 0 := le_antisymm (hz ▸ htc) ht0
          have := hc 0 le_rfl zero_le_one
          rw [ray_point_scale, zero_mul] at this
          rw [ht]
          exact this
        · have := hc (t / cur) (div_nonneg ht0 h0) ((div_le_one hpos).mpr htc)
          rw [ray_point_scale, div_mul_cancel₀ t (ne_of_gt hpos)] at this
          exact this
      refine ⟨cur, h0, h1, ?_, ?_, ?_⟩
      · simp only [remaining_delta, last_success_append_one]
        simpa only [remaining_delta] using hrem
      · intro q hq t ht0 htc
        rcases List.mem_append.mp hq with hq | hq
        · exact hbefore q hq t ht0 htc
        · simp only [List.mem_singleton] at hq
          subst hq
          exact hmiss t ht0 (le_of_lt htc)
      · rcases hlast with ⟨hnone, hcur, hno⟩ | ⟨ref, p, n, hl, hp, pre, q, post, hsplit, href, hSq,
            hpost⟩
        · left
          refine ⟨by simp only [last_success_append_one, hnone], hcur, ?_⟩
          intro q hq
          rcases List.mem_append.mp hq with hq | hq
          · exact hno q hq
          · simp only [List.mem_singleton] at hq
            subst hq
            exact hmiss 1 zero_le_one (le_of_eq hcur.symm)
        · right
          refine ⟨ref, p, n, by simp only [last_success_append_one, hl], hp, pre, q,
            post ++ [part], by simp [hsplit], href, hSq, ?_⟩
          intro q' hq'
          rcases List.mem_append.mp hq' with hq' | hq'
          · exact hpost q' hq'
          · simp only [List.mem_singleton] at hq'
            subst hq'
            rw [hp]
            exact hmiss cur h0 le_rfl
  | some pn =>
      obtain ⟨p', n'⟩ := pn
      rw [hres] at hc
      obtain ⟨t', ht0, ht1, hp', hS, hmin⟩ := hc
      rw [ray_point_scale] at hp'
      refine ⟨t' * cur, mul_nonneg ht0 h0, ?_, ?_, ?_, ?_⟩
      · calc t' * cur ≤ 1 * 1 := mul_le_mul ht1 h1 h0 zero_le_one
          _ = 1 := one_mul 1
      · simp only [remaining_delta, last_success_append_one]
        rw [hp', az_vsub_ray_point]
      · intro q hq t htn htc
        have hle : t' * cur ≤ cur := by
          calc t' * cur ≤ 1 * cur := mul_le_mul_of_nonneg_right ht1 h0
            _ = cur := one_mul cur
        rcases List.mem_append.mp hq with hq | hq
        · exact hbefore q hq t htn (lt_of_lt_of_le htc hle)
        · simp only [List.mem_singleton] at hq
          subst hq
          have hpos : 0 < cur := by
            rcases eq_or_lt_of_le h0 with hz | hpos
            · rw [← hz, mul_zero] at htc
              exact absurd htc (not_lt.mpr htn)
            · exact hpos
          have := hmin (t / cur) (div_nonneg htn h0) ((div_lt_iff₀ hpos).mpr htc)
          rw [ray_point_scale, div_mul_cancel₀ t (ne_of_gt hpos)] at this
          exact this
      · right
        refine ⟨part.ref, p', n', by simp only [last_success_append_one], hp', processed, part,
          [], rfl, rfl, hS, ?_⟩
        intro q hq
        simp at hq

/-- Running the tests of `parts` keeps `nearest_inv`, when every test answers correctly on
every initial stretch of the ray. -/
theorem run_tests_nearest (S : test_part R → az_vector_t R → Prop)
    (test : test_part R → az_vector_t R → Option (az_vector_t R × az_vector_t R))
    (s d : az_vector_t R) (parts processed : List (test_part R))
    (done : List (test_outcome R)) (cur : R)
    (hinv : nearest_inv S s d processed done cur)
    (hcorrect : ∀ part ∈ parts, ∀ u, 0 ≤ u → u ≤ 1 →
      first_hit_answer (S part) s (scale_delta u d) (test part (scale_delta u d))) :
    ∃ cur', nearest_inv S s d (processed ++ parts) (run_tests test s d parts done) cur' := by
  induction parts generalizing processed done cur with
  | nil => exact ⟨cur, by simpa only [List.append_nil, run_tests] using hinv⟩
  | cons part rest ih =>
      obtain ⟨cur1, h1⟩ := nearest_inv_step S test s d processed done cur part hinv
        (hcorrect part (List.mem_cons_self _ _))
      obtain ⟨cur2, h2⟩ := ih (processed ++ [part]) _ cur1 h1
        (fun q hq => hcorrect q (List.mem_cons_of_mem _ hq))
      refine ⟨cur2, ?_⟩
      simpa only [run_tests, List.append_assoc, List.singleton_append] using h2

end Nearest

/-! ## The reference ray-vs-circle routine is exact where its square root is -/

section Quadratic
variable {R : Type} [LinearOrderedField R]

theorem dist_sq_ray_point (s d c : az_vector_t R) (t : R) :
    dist_sq (ray_point s d t) c =
      az_vdot d d * t * t + 2 * az_vdot (az_vsub s c) d * t
        + az_vdot (az_vsub s c) (az_vsub s c) := by
  simp only [dist_sq, az_vdot, az_vsub, ray_point]
  ring

theorem az_vdot_self_nonneg (d : az_vector_t R) : 0 ≤ az_vdot d d := by
  simp only [az_vdot]
  nlinarith [sq_nonneg d.x, sq_nonneg d.y]

theorem az_vdot_eq_zero_of_self (v d : az_vector_t R) (h : az_vdot d d = 0) :
    az_vdot v d = 0 := by
  simp only [az_vdot] at h ⊢
  have hx : d.x = 0 := by nlinarith [sq_nonneg d.x, sq_nonneg d.y]
  have hy : d.y = 0 := by nlinarith [sq_nonneg d.x, sq_nonneg d.y]
  rw [hx, hy]
  ring

theorem quad_pos_of_disc_neg (a b k t : R) (ha : 0 ≤ a) (hdisc : b * b - a * k < 0) :
    0 < a * t * t + 2 * b * t + k := by
  have hapos : 0 < a := by
    rcases eq_or_lt_of_le ha with hz | hpos
    · rw [← hz] at hdisc
      nlinarith [sq_nonneg b]
    · exact hpos
  have h : 0 < a * (a * t * t + 2 * b * t + k) := by
    nlinarith [sq_nonneg (a * t + b)]
  exact (pos_iff_pos_of_mul_pos h).mp hapos

theorem quad_pos_before_root (a b k w t : R) (ha : 0 < a) (hw0 : 0 ≤ w)
    (hww : w * w = b * b - a * k) (hlt : a * t + b < -w) :
    0 < a * t * t + 2 * b * t + k := by
  have h : 0 < a * (a * t * t + 2 * b * t + k) := by
    nlinarith [mul_pos (by linarith : 0 < -w - (a * t + b)) (by linarith : 0 < w - (a * t + b))]
  exact (pos_iff_pos_of_mul_pos h).mp ha

theorem quad_zero_at_root (a b k w : R) (ha : 0 < a) (hww : w * w = b * b - a * k) :
    a * ((-b - w) / a) * ((-b - w) / a) + 2 * b * ((-b - w) / a) + k = 0 := by
  have hne : a ≠ 0 := ne_of_gt ha
  field_simp
  nlinarith

end Quadratic

section ReferenceCircle
variable {R : Type} [LinearOrderedField R]

/-- The reference ray-vs-circle routine answers correctly wherever its square root is
exact. -/
theorem reference_ray_hits_circle_correct (m : Libm R) (radius : R)
    (center start delta : az_vector_t R)
    (hsqrt : 0 ≤ az_vdot (az_vsub start center) delta * az_vdot (az_vsub start center) delta
        - az_vdot delta delta *
          (az_vdot (az_vsub start center) (az_vsub start center) - radius * radius) →
      0 ≤ m.sqrt (az_vdot (az_vsub start center) delta * az_vdot (az_vsub start center) delta
        - az_vdot delta delta *
          (az_vdot (az_vsub start center) (az_vsub start center) - radius * radius))
      ∧ m.sqrt (az_vdot (az_vsub start center) delta * az_vdot (az_vsub start center) delta
        - az_vdot delta delta *
          (az_vdot (az_vsub start center) (az_vsub start center) - radius * radius))
        * m.sqrt (az_vdot (az_vsub start center) delta * az_vdot (az_vsub start center) delta
        - az_vdot delta delta *
          (az_vdot (az_vsub start center) (az_vsub start center) - radius * radius))
        = az_vdot (az_vsub start center) delta * az_vdot (az_vsub start center) delta
        - az_vdot delta delta *
          (az_vdot (az_vsub start center) (az_vsub start center) - radius * radius)) :
    ray_circle_answer radius center start delta
      (reference_ray_hits_circle m radius center start delta) := by
  have hd := dist_sq_ray_point start delta center
  have ha0 := az_vdot_self_nonneg delta
  have hbz := az_vdot_eq_zero_of_self (az_vsub start center) delta
  unfold reference_ray_hits_circle
  simp only []
  generalize az_vdot delta delta = a at *
  generalize az_vdot (az_vsub start center) delta = b at *
  generalize az_vdot (az_vsub start center) (az_vsub start center) = k at *
  have houtside : ∀ t, 0 < a * t * t + 2 * b * t + (k - radius * radius) →
      ¬ within_radius (ray_point start delta t) center radius := by
    intro t hpos hw
    have := hw.2
    rw [hd t] at this
    linarith
  by_cases hneg : radius < 0
  · rw [if_pos hneg]
    refine ⟨?_, ?_⟩
    · intro t _ _ hw
      exact absurd hw.1 (not_le.mpr hneg)
    · intro p n hpn
      exact absurd hpn (by simp)
  · rw [if_neg hneg]
    have hr0 : 0 ≤ radius := not_lt.mp hneg
    by_cases hin : k ≤ radius * radius
    · rw [if_pos hin]
      refine ⟨⟨0, le_rfl, zero_le_one, ?_, ?_, ?_⟩, ?_⟩
      · simp [ray_point]
      · refine ⟨hr0, ?_⟩
        have h0 := hd 0
        simp only [ray_point, zero_mul, add_zero, mul_zero, zero_add] at h0
        rw [h0]
        exact hin
      · intro t' h0 hlt
        exact absurd hlt (not_lt.mpr h0)
      · intro p n hpn _ _
        simp only [Option.some.injEq, Prod.mk.injEq] at hpn
        obtain ⟨hp, hn⟩ := hpn
        rw [← hn, ← hp]
    · rw [if_neg hin]
      have hk0 : radius * radius < k := not_le.mp hin
      by_cases hnone : a = 0 ∨ b * b - a * (k - radius * radius) < 0 ∨ 0 ≤ b
      · rw [if_pos hnone]
        refine ⟨?_, ?_⟩
        · intro t h0 h1
          apply houtside
          rcases hnone with hz | hdisc | hb0
          · rw [hz, hbz hz]
            linarith
          · exact quad_pos_of_disc_neg a b _ t ha0 hdisc
          · nlinarith [mul_nonneg hb0 h0, mul_nonneg (mul_nonneg ha0 h0) h0]
        · intro p n hpn
          exact absurd hpn (by simp)
      · rw [if_neg hnone]
        push_neg at hnone
        obtain ⟨hane, hdisc, hbneg⟩ := hnone
        have hapos : 0 < a := lt_of_le_of_ne ha0 (Ne.symm hane)
        obtain ⟨hw0, hww⟩ := hsqrt hdisc
        generalize m.sqrt (b * b - a * (k - radius * radius)) = w at *
        have hwb : w < -b := by
          by_contra hcon
          push_neg at hcon
          nlinarith [mul_pos hapos (by linarith : 0 < k - radius * radius)]
        have hbefore : ∀ t, 0 ≤ t → t < (-b - w) / a →
            ¬ within_radius (ray_point start delta t) center radius := by
          intro t h0 hlt
          apply houtside
          have h1 : a * t + b < -w := by
            have := (lt_div_iff₀ hapos).mp hlt
            linarith
          exact quad_pos_before_root a b _ w t hapos hw0 hww h1
        by_cases ht1 : (-b - w) / a ≤ 1
        · rw [if_pos ht1]
          refine ⟨⟨(-b - w) / a, ?_, ht1, rfl, ?_, hbefore⟩, ?_⟩
          · exact div_nonneg (by linarith) ha0
          · refine ⟨hr0, ?_⟩
            rw [hd]
            have e := quad_zero_at_root a b (k - radius * radius) w hapos hww
            linarith
          · intro p n hpn _ _
            simp only [Option.some.injEq, Prod.mk.injEq] at hpn
            obtain ⟨hp, hn⟩ := hpn
            rw [← hn, ← hp]
        · rw [if_neg ht1]
          refine ⟨?_, ?_⟩
          · intro t h0 h1
            exact hbefore t h0 (lt_of_le_of_lt h1 (not_le.mp ht1))
          · intro p n hpn
            exact absurd hpn (by simp)

end ReferenceCircle

/-! ## Component tests answer for the component's region -/

section Regions

variable {R : Type} [LinearOrderedField R]

theorem ray_hits_component_correct (G : Geometry R)
    (polygon_region : az_polygon_t R → az_vector_t R → R → az_vector_t R → Prop)
    (part : test_part R) (start delta : az_vector_t R)
    (h : ray_part_correct G polygon_region part start delta) :
    first_hit_answer (component_region polygon_region part) start delta
      (ray_hits_component G part.component part.position part.angle start delta) := by
  unfold ray_part_correct at h
  by_cases hpoly : part.component.polygon.length > 0
  · rw [if_pos hpoly] at h
    obtain ⟨hcomplete, hencl, hans⟩ := h
    have hreg : component_region polygon_region part =
        polygon_region part.component.polygon part.position part.angle := by
      funext p
      simp only [component_region, if_pos hpoly]
    rw [hreg]
    unfold ray_hits_component
    rw [if_pos hpoly]
    cases hb : G.az_ray_hits_bounding_circle start delta part.position
        part.component.bounding_radius with
    | true =>
        simp only [if_true]
        exact hans
    | false =>
        simp only [Bool.false_eq_true, if_false]
        intro t h0 h1 hS
        have := hcomplete ⟨t, h0, h1, hencl _ hS⟩
        rw [hb] at this
        exact absurd this (by simp)
  · rw [if_neg hpoly] at h
    have hreg : component_region polygon_region part =
        fun p => within_radius p part.position part.component.bounding_radius := by
      funext p
      simp only [component_region, if_neg hpoly]
    rw [hreg]
    unfold ray_hits_component
    rw [if_neg hpoly]
    exact h

theorem circle_hits_component_correct (G : Geometry R)
    (swept_region : az_polygon_t R → az_vector_t R → R → R → az_vector_t R → Prop)
    (radius : R) (part : test_part R) (start delta : az_vector_t R)
    (h : circle_part_correct G swept_region radius part start delta) :
    first_hit_answer (probe_region swept_region radius part) start delta
      (circle_hits_component G part.component part.position part.angle radius start delta) := by
  unfold circle_part_correct at h
  by_cases hpoly : part.component.polygon.length > 0
  · rw [if_pos hpoly] at h
    obtain ⟨hcomplete, hencl, hans⟩ := h
    have hreg : probe_region swept_region radius part =
        swept_region part.component.polygon part.position part.angle radius := by
      funext p
      simp only [probe_region, if_pos hpoly]
    rw [hreg]
    unfold circle_hits_component
    rw [if_pos hpoly]
    cases hb : G.az_ray_hits_bounding_circle start delta part.position
        (part.component.bounding_radius + radius) with
    | true =>
        simp only [if_true]
        exact hans
    | false =>
        simp only [Bool.false_eq_true, if_false]
        intro t h0 h1 hS
        have := hcomplete ⟨t, h0, h1, hencl _ hS⟩
        rw [hb] at this
        exact absurd this (by simp)
  · rw [if_neg hpoly] at h
    have hreg : probe_region swept_region radius part =
        fun p => within_radius p part.position (part.component.bounding_radius + radius) := by
      funext p
      simp only [probe_region, if_neg hpoly]
    rw [hreg]
    unfold circle_hits_component
    rw [if_neg hpoly]
    exact h

/-- A correct answer on the full ray for a region the ray meets is a hit at the first
point of the ray in the region. -/
theorem first_hit_of_crossed (S : az_vector_t R → Prop) (s d : az_vector_t R)
    (r : Option (az_vector_t R × az_vector_t R))
    (hans : first_hit_answer S s d r)
    (hcross : ∃ t, 0 ≤ t ∧ t ≤ 1 ∧ S (ray_point s d t)) :
    ∃ t, is_first_hit S s d t := by
  cases r with
  | none =>
      obtain ⟨t, h0, h1, hS⟩ := hcross
      exact absurd hS (hans t h0 h1)
  | some pn =>
      obtain ⟨p, n⟩ := pn
      obtain ⟨t, h0, h1, hp, hS, hmin⟩ := hans
      exact ⟨t, h0, h1, hp ▸ hS, hmin⟩

/-- Of two components behind the main body, the one the ray meets first is the one
reported, whichever is tested first. -/
theorem nearest_of_two (S : test_part R → az_vector_t R → Prop)
    (test : test_part R → az_vector_t R → Option (az_vector_t R × az_vector_t R))
    (s d : az_vector_t R) (M X Y : test_part R)
    (hcorrect : ∀ part ∈ [M, X, Y], ∀ u, 0 ≤ u → u ≤ 1 →
      first_hit_answer (S part) s (scale_delta u d) (test part (scale_delta u d)))
    (tX tY : R) (hX : is_first_hit (S X) s d tX) (hY : is_first_hit (S Y) s d tY)
    (hmain : ∀ t, 0 ≤ t → t ≤ 1 → S M (ray_point s d t) →
      ∃ t', 0 ≤ t' ∧ t' ≤ t ∧ (S X (ray_point s d t') ∨ S Y (ray_point s d t'))) :
    ∃ ref p n, last_success (run_tests test s d [M, X, Y] []) = some (ref, p, n)
      ∧ (tX < tY → ref = X.ref ∧ p = ray_point s d tX)
      ∧ (tY < tX → ref = Y.ref ∧ p = ray_point s d tY) := by
  obtain ⟨cur, h0, h1, _, hbefore, hlast⟩ :=
    run_tests_nearest S test s d [M, X, Y] [] [] 1 (nearest_inv_nil S s d) hcorrect
  simp only [List.nil_append] at hbefore hlast
  obtain ⟨hX0, hX1, hXS, hXmin⟩ := hX
  obtain ⟨hY0, hY1, hYS, hYmin⟩ := hY
  have hcurX : cur ≤ tX := by
    by_contra hc
    exact hbefore X (by simp) tX hX0 (not_le.mp hc) hXS
  have hcurY : cur ≤ tY := by
    by_contra hc
    exact hbefore Y (by simp) tY hY0 (not_le.mp hc) hYS
  have hXge : ∀ t, 0 ≤ t → S X (ray_point s d t) → tX ≤ t := by
    intro t ht hS
    by_contra hc
    exact hXmin t ht (not_le.mp hc) hS
  have hYge : ∀ t, 0 ≤ t → S Y (ray_point s d t) → tY ≤ t := by
    intro t ht hS
    by_contra hc
    exact hYmin t ht (not_le.mp hc) hS
  rcases hlast with ⟨_, hcur, hno⟩ | ⟨ref, p, n, hl, hp, pre, part, post, hsplit, href, hSp,
      hpost⟩
  · exfalso
    have : tX = 1 := le_antisymm hX1 (hcur ▸ hcurX)
    exact hno X (by simp) (this ▸ hXS)
  · refine ⟨ref, p, n, hl, ?_⟩
    rw [hp] at hSp hpost
    have hsplit' : (pre = [] ∧ part = M ∧ post = [X, Y]) ∨ (pre = [M] ∧ part = X ∧ post = [Y])
        ∨ (pre = [M, X] ∧ part = Y ∧ post = []) := by
      match pre, hsplit with
      | [], h =>
          simp only [List.nil_append, List.cons.injEq] at h
          exact Or.inl ⟨rfl, h.1.symm, h.2.symm⟩
      | [a], h =>
          simp only [List.singleton_append, List.cons.injEq] at h
          exact Or.inr (Or.inl ⟨by rw [h.1], h.2.1.symm, h.2.2.symm⟩)
      | [a, b], h =>
          simp only [List.cons_append, List.nil_append, List.cons.injEq] at h
          exact Or.inr (Or.inr ⟨by rw [h.1, h.2.1], h.2.2.1.symm, h.2.2.2.symm⟩)
      | a :: b :: c :: rest, h =>
          simp only [List.cons_append, List.cons.injEq] at h
          exact absurd h.2.2.2 (by simp)
    rcases hsplit' with ⟨_, hpart, hpostl⟩ | ⟨_, hpart, hpostl⟩ | ⟨_, hpart, _⟩
    · exfalso
      subst hpart hpostl
      obtain ⟨t', ht0, htle, hXY⟩ := hmain cur h0 h1 hSp
      rcases hXY with hS | hS
      · have hle := hXge t' ht0 hS
        have hcurt : cur = tX := le_antisymm hcurX (le_trans hle htle)
        exact hpost X (by simp) (hcurt ▸ hXS)
      · have hle := hYge t' ht0 hS
        have hcurt : cur = tY := le_antisymm hcurY (le_trans hle htle)
        exact hpost Y (by simp) (hcurt ▸ hYS)
    · subst hpart
      have hcurt : cur = tX := le_antisymm hcurX (hXge cur h0 hSp)
      constructor
      · intro _
        exact ⟨href.symm, by rw [hp, hcurt]⟩
      · intro hlt
        exact absurd (lt_of_le_of_lt hcurY hlt) (by rw [hcurt]; exact lt_irrefl tX)
    · subst hpart
      have hcurt : cur = tY := le_antisymm hcurY (hYge cur h0 hSp)
      constructor
      · intro hlt
        exact absurd (lt_of_le_of_lt hcurX hlt) (by rw [hcurt]; exact lt_irrefl tY)
      · intro _
        exact ⟨href.symm, by rw [hp, hcurt]⟩

end Regions

/-! ## A baddie with two sub-parts -/

section TwoSubParts

variable {R : Type} [LinearOrderedField R]

theorem test_parts_two (baddie : az_baddie_t R) (cX cY : az_component_data_t R)
    (qX qY : az_component_t R) (more : List (az_component_t R))
    (hcomps : baddie.data.components = [cX, cY])
    (hposes : baddie.components = qX :: qY :: more) :
    test_parts baddie =
      [{ ref := component_ref.main_body, component := baddie.data.main_body,
         position := AZ_VZERO, angle := 0 },
       { ref := component_ref.component 0, component := cX,
         position := qX.position, angle := qX.angle },
       { ref := component_ref.component 1, component := cY,
         position := qY.position, angle := qY.angle }] := by
  simp only [test_parts, hcomps, hposes, sub_parts_from]

/-- The report of a baddie with two sub-parts `X` (declared first) and `Y`, when the ray
first meets them at parameters `tX` and `tY` and does not enter the main body before the
nearer of them. -/
theorem two_sub_parts_report (G : Geometry R)
    (polygon_region : az_polygon_t R → az_vector_t R → R → az_vector_t R → Prop)
    (baddie : az_baddie_t R) (start delta : az_vector_t R) (outs : ray_outs R)
    (cX cY : az_component_data_t R) (qX qY : az_component_t R)
    (more : List (az_component_t R)) (M X Y : test_part R) (s d : az_vector_t R)
    (hkind : baddie.kind ≠ az_baddie_kind_t.AZ_BAD_NOTHING)
    (hcomps : baddie.data.components = [cX, cY])
    (hposes : baddie.components = qX :: qY :: more)
    (hbroad : G.az_ray_hits_bounding_circle start delta baddie.position
      baddie.data.overall_bounding_radius = true)
    (hs : s = G.az_vrotate (az_vsub start baddie.position) (-baddie.angle))
    (hd : d = G.az_vrotate delta (-baddie.angle))
    (hM : M = { ref := component_ref.main_body, component := baddie.data.main_body,
                position := AZ_VZERO, angle := 0 })
    (hXp : X = { ref := component_ref.component 0, component := cX,
                 position := qX.position, angle := qX.angle })
    (hYp : Y = { ref := component_ref.component 1, component := cY,
                 position := qY.position, angle := qY.angle })
    (hcorrect : ∀ part ∈ [M, X, Y], ∀ u, 0 ≤ u → u ≤ 1 →
      ray_part_correct G polygon_region part s (scale_delta u d))
    (tX tY : R)
    (hX : is_first_hit (component_region polygon_region X) s d tX)
    (hY : is_first_hit (component_region polygon_region Y) s d tY)
    (hmain : ∀ t, 0 ≤ t → t ≤ 1 → component_region polygon_region M (ray_point s d t) →
      ∃ t', 0 ≤ t' ∧ t' ≤ t ∧ (component_region polygon_region X (ray_point s d t')
        ∨ component_region polygon_region Y (ray_point s d t'))) :
    (tX < tY → ray_reports G baddie start delta outs (component_ref.component 0)
        (ray_point s d tX))
    ∧ (tY < tX → ray_reports G baddie start delta outs (component_ref.component 1)
        (ray_point s d tY)) := by
  have hslots : baddie.data.components.length ≤ baddie.components.length := by
    rw [hcomps, hposes]
    simp
  have heq := az_ray_hits_baddie_eq_report G baddie start delta outs hkind hslots hbroad
  have hparts := test_parts_two baddie cX cY qX qY more hcomps hposes
  rw [← hM, ← hXp, ← hYp] at hparts
  obtain ⟨ref, p, n, hl, h1, h2⟩ := nearest_of_two (component_region polygon_region)
    (fun part dl => ray_hits_component G part.component part.position part.angle s dl)
    s d M X Y
    (fun part hpart u h0 h1 =>
      ray_hits_component_correct G polygon_region part s (scale_delta u d)
        (hcorrect part hpart u h0 h1))
    tX tY hX hY hmain
  have hout : ray_outcomes G baddie start delta =
      run_tests
        (fun part dl => ray_hits_component G part.component part.position part.angle s dl)
        s d [M, X, Y] [] := by
    simp only [ray_outcomes, hparts, hs, hd]
  rw [hout] at heq
  have hXref : X.ref = component_ref.component 0 := by rw [hXp]
  have hYref : Y.ref = component_ref.component 1 := by rw [hYp]
  constructor
  · intro hlt
    obtain ⟨href, hp⟩ := h1 hlt
    refine ⟨_, heq.trans (by simp only [ray_report, hl]; rfl), ?_, ?_⟩
    · simp only [href, hXref]
    · simp only [hp]
  · intro hlt
    obtain ⟨href, hp⟩ := h2 hlt
    refine ⟨_, heq.trans (by simp only [ray_report, hl]; rfl), ?_, ?_⟩
    · simp only [href, hYref]
    · simp only [hp]

theorem lt_iff_dist_sq_lt (s d : az_vector_t R) (a b : R) (ha : 0 ≤ a) (hb : 0 ≤ b)
    (hd : 0 < az_vdot d d) :
    a < b ↔ dist_sq (ray_point s d a) s < dist_sq (ray_point s d b) s := by
  have e : ∀ t : R, dist_sq (ray_point s d t) s = t * t * az_vdot d d := by
    intro t
    simp only [dist_sq, az_vdot, az_vsub, ray_point]
    ring
  rw [e a, e b]
  constructor
  · intro h
    have : a * a < b * b := by nlinarith
    exact mul_lt_mul_of_pos_right this hd
  · intro h
    by_contra hc
    push_neg at hc
    have : b * b ≤ a * a := by nlinarith
    exact absurd h (not_lt.mpr (mul_le_mul_of_nonneg_right this (le_of_lt hd)))

end TwoSubParts

/-! ## Claims about the ray query -/

section RayClaims

variable {R : Type} [LinearOrderedField R]

/-- C1: when no assertion fails and the broad-phase pretest passes, `az_ray_hits_baddie`
tests the main body first and then every sub-part in index order (each with the pose slot
of its index), test `k` using the segment from the local start point to the impact point
of the most recent successful test before it (the full local delta if there is none); it
returns true iff at least one test succeeds, and on a hit the component, impact point and
normal it stores are those of the last test that succeeded (point and normal taken to
the world frame). -/
theorem az_ray_hits_baddie_tests_in_order (G : Geometry R) (baddie : az_baddie_t R)
    (start delta : az_vector_t R) (outs : ray_outs R)
    (hkind : baddie.kind ≠ az_baddie_kind_t.AZ_BAD_NOTHING)
    (hslots : baddie.data.components.length ≤ baddie.components.length)
    (hbroad : G.az_ray_hits_bounding_circle start delta baddie.position
      baddie.data.overall_bounding_radius = true) :
    (ray_outcomes G baddie start delta).map Prod.fst =
        component_ref.main_body ::
          (List.range baddie.data.components.length).map component_ref.component
    ∧ (test_parts baddie).get? 0 =
        some { ref := component_ref.main_body, component := baddie.data.main_body,
               position := AZ_VZERO, angle := 0 }
    ∧ (∀ i c pose, baddie.data.components.get? i = some c →
        baddie.components.get? i = some pose →
        (test_parts baddie).get? (i + 1) =
          some { ref := component_ref.component i, component := c,
                 position := pose.position, angle := pose.angle })
    ∧ (∀ k part, (test_parts baddie).get? k = some part →
        (ray_outcomes G baddie start delta).get? k =
          some (part.ref,
            ray_hits_component G part.component part.position part.angle
              (G.az_vrotate (az_vsub start baddie.position) (-baddie.angle))
              (remaining_delta (G.az_vrotate (az_vsub start baddie.position) (-baddie.angle))
                (G.az_vrotate delta (-baddie.angle))
                ((ray_outcomes G baddie start delta).take k))))
    ∧ ∃ ret outs', az_ray_hits_baddie G baddie start delta outs = some (ret, outs')
        ∧ (ret = true ↔ ∃ o ∈ ray_outcomes G baddie start delta, o.2.isSome = true)
        ∧ ∀ ref p n, last_success (ray_outcomes G baddie start delta) = some (ref, p, n) →
            outs' =
              { point_out := outs.point_out.map
                  (fun _ => az_vadd (G.az_vrotate p baddie.angle) baddie.position)
                normal_out := outs.normal_out.map (fun _ => G.az_vrotate n baddie.angle)
                component_out := outs.component_out.map (fun _ => ref) } := by
  refine ⟨?_, rfl, ?_, ?_, ?_⟩
  · simp only [ray_outcomes, test_parts, run_tests_map_fst, List.map_nil, List.nil_append,
      List.map_cons, sub_parts_from_refs 0 _ _ hslots, List.range_eq_range']
  · intro i c pose hc hp
    have h := sub_parts_from_get 0 baddie.data.components baddie.components i c pose hc hp
    simp only [test_parts, List.get?_cons_succ, h, Nat.zero_add]
  · intro k part hk
    have h := run_tests_get
      (fun part d => ray_hits_component G part.component part.position part.angle
        (G.az_vrotate (az_vsub start baddie.position) (-baddie.angle)) d)
      (G.az_vrotate (az_vsub start baddie.position) (-baddie.angle))
      (G.az_vrotate delta (-baddie.angle)) (test_parts baddie) [] k part hk
    simpa only [ray_outcomes, List.length_nil, Nat.zero_add] using h
  · have heq := az_ray_hits_baddie_eq_report G baddie start delta outs hkind hslots hbroad
    rw [heq]
    cases hl : last_success (ray_outcomes G baddie start delta) with
    | none =>
        refine ⟨false, outs, by simp only [ray_report, hl], ?_, ?_⟩
        · rw [← last_success_isSome_iff, hl]
          simp
        · intro ref p n h
          exact absurd h (by simp)
    | some r =>
        obtain ⟨ref, p, n⟩ := r
        refine ⟨true, _, by simp only [ray_report, hl]; rfl, ?_, ?_⟩
        · rw [← last_success_isSome_iff, hl]
          simp
        · intro ref' p' n' h
          simp only [Option.some.injEq, Prod.mk.injEq] at h
          obtain ⟨h1, h2, h3⟩ := h
          subst h1 h2 h3
          rfl

theorem az_ray_hits_baddie_tests_in_order_witness :
    two_part_baddie.kind ≠ az_baddie_kind_t.AZ_BAD_NOTHING
    ∧ two_part_baddie.data.components.length ≤ two_part_baddie.components.length
    ∧ rat_geometry.az_ray_hits_bounding_circle ⟨0, 50⟩ ⟨100, 0⟩ two_part_baddie.position
        two_part_baddie.data.overall_bounding_radius = true
    ∧ ∃ ret outs', az_ray_hits_baddie rat_geometry two_part_baddie ⟨0, 50⟩ ⟨100, 0⟩
          fresh_ray_outs = some (ret, outs')
        ∧ (ret = true ↔
            ∃ o ∈ ray_outcomes rat_geometry two_part_baddie ⟨0, 50⟩ ⟨100, 0⟩,
              o.2.isSome = true) :=
  have hkind : two_part_baddie.kind ≠ az_baddie_kind_t.AZ_BAD_NOTHING := by decide
  have hslots : two_part_baddie.data.components.length ≤ two_part_baddie.components.length := by
    decide
  have hbroad : rat_geometry.az_ray_hits_bounding_circle ⟨0, 50⟩ ⟨100, 0⟩
      two_part_baddie.position two_part_baddie.data.overall_bounding_radius = true := by
    simp [rat_geometry, reference_geometry, reference_ray_hits_bounding_circle, within_radius,
      dist_sq, az_vdot, az_vsub, ray_point, two_part_baddie]
    norm_num
  ⟨hkind, hslots, hbroad,
    match (az_ray_hits_baddie_tests_in_order rat_geometry two_part_baddie ⟨0, 50⟩ ⟨100, 0⟩
      fresh_ray_outs hkind hslots hbroad).2.2.2.2 with
    | ⟨ret, outs', h1, h2, _⟩ => ⟨ret, outs', h1, h2⟩⟩

/-- C3: if the ray does not hit the circle centred at the baddie's position with radius
`overall_bounding_radius`, `az_ray_hits_baddie` returns false and stores nothing, and it
does so whatever the rotation and the component routines are: no component test runs. -/
theorem az_ray_hits_baddie_broad_phase_reject (G : Geometry R) (baddie : az_baddie_t R)
    (start delta : az_vector_t R) (outs : ray_outs R)
    (hkind : baddie.kind ≠ az_baddie_kind_t.AZ_BAD_NOTHING)
    (hbroad : G.az_ray_hits_bounding_circle start delta baddie.position
      baddie.data.overall_bounding_radius = false) :
    az_ray_hits_baddie G baddie start delta outs = some (false, outs)
    ∧ ∀ G' : Geometry R,
        G'.az_ray_hits_bounding_circle = G.az_ray_hits_bounding_circle →
        az_ray_hits_baddie G' baddie start delta outs = some (false, outs) := by
  constructor
  · unfold az_ray_hits_baddie
    simp [hkind, hbroad]
  · intro G' hG
    unfold az_ray_hits_baddie
    simp [hkind, hbroad, hG]

theorem az_ray_hits_baddie_broad_phase_reject_witness :
    scenario_baddie.kind ≠ az_baddie_kind_t.AZ_BAD_NOTHING
    ∧ rat_geometry.az_ray_hits_bounding_circle ⟨0, 50⟩ ⟨200, 0⟩ scenario_baddie.position
        scenario_baddie.data.overall_bounding_radius = false
    ∧ az_ray_hits_baddie rat_geometry scenario_baddie ⟨0, 50⟩ ⟨200, 0⟩ fresh_ray_outs =
        some (false, fresh_ray_outs) :=
  have hkind : scenario_baddie.kind ≠ az_baddie_kind_t.AZ_BAD_NOTHING := by decide
  have hbroad : rat_geometry.az_ray_hits_bounding_circle ⟨0, 50⟩ ⟨200, 0⟩
      scenario_baddie.position scenario_baddie.data.overall_bounding_radius = false := by
    simp [rat_geometry, reference_geometry, reference_ray_hits_bounding_circle, within_radius,
      dist_sq, az_vdot, az_vsub, ray_point, scenario_baddie]
    norm_num
  ⟨hkind, hbroad,
    (az_ray_hits_baddie_broad_phase_reject rat_geometry scenario_baddie ⟨0, 50⟩ ⟨200, 0⟩
      fresh_ray_outs hkind hbroad).1⟩

/-- C4: whenever `az_ray_hits_baddie` reports a hit, the last successful test produced a
local-frame impact point `p` and normal `n`, the point stored for the caller is
`rotate(p, baddie.angle) + baddie.position` and the normal stored is
`rotate(n, baddie.angle)`, rotated but not translated. -/
theorem az_ray_hits_baddie_world_frame (G : Geometry R) (baddie : az_baddie_t R)
    (start delta : az_vector_t R) (outs outs' : ray_outs R)
    (hhit : az_ray_hits_baddie G baddie start delta outs = some (true, outs')) :
    ∃ ref p n, last_success (ray_outcomes G baddie start delta) = some (ref, p, n)
      ∧ outs'.point_out = outs.point_out.map
          (fun _ => az_vadd (G.az_vrotate p baddie.angle) baddie.position)
      ∧ outs'.normal_out = outs.normal_out.map (fun _ => G.az_vrotate n baddie.angle) := by
  obtain ⟨hkind, hslots, hbroad⟩ := az_ray_hits_baddie_true_inv G baddie start delta outs outs' hhit
  rw [az_ray_hits_baddie_eq_report G baddie start delta outs hkind hslots hbroad] at hhit
  cases hl : last_success (ray_outcomes G baddie start delta) with
  | none => simp [ray_report, hl] at hhit
  | some r =>
      obtain ⟨ref, p, n⟩ := r
      simp only [ray_report, hl, Option.some.injEq, Prod.mk.injEq, true_and] at hhit
      subst hhit
      exact ⟨ref, p, n, rfl, rfl, rfl⟩

/-- C9: for a baddie whose template has no sub-parts the loop over the sub-parts does
nothing, and `az_ray_hits_baddie` reports a hit iff the broad-phase pretest passes and the
main-body test succeeds on the local-frame ray (start minus position rotated by minus the
angle, delta rotated by minus the angle); the component it then reports is the main
body, with that test's point and normal taken to the world frame. -/
theorem az_ray_hits_baddie_no_sub_parts (G : Geometry R) (baddie : az_baddie_t R)
    (start delta : az_vector_t R) (outs : ray_outs R)
    (hkind : baddie.kind ≠ az_baddie_kind_t.AZ_BAD_NOTHING)
    (hnone : baddie.data.components = []) :
    (∀ s st, ray_loop G baddie s baddie.data.components 0 st = some st)
    ∧ ∃ ret outs', az_ray_hits_baddie G baddie start delta outs = some (ret, outs')
      ∧ (ret = true ↔
          G.az_ray_hits_bounding_circle start delta baddie.position
            baddie.data.overall_bounding_radius = true
          ∧ (ray_hits_component G baddie.data.main_body AZ_VZERO 0
              (G.az_vrotate (az_vsub start baddie.position) (-baddie.angle))
              (G.az_vrotate delta (-baddie.angle))).isSome = true)
      ∧ (ret = false → outs' = outs)
      ∧ (ret = true → ∃ p n,
          ray_hits_component G baddie.data.main_body AZ_VZERO 0
              (G.az_vrotate (az_vsub start baddie.position) (-baddie.angle))
              (G.az_vrotate delta (-baddie.angle)) = some (p, n)
          ∧ outs' =
              { point_out := outs.point_out.map
                  (fun _ => az_vadd (G.az_vrotate p baddie.angle) baddie.position)
                normal_out := outs.normal_out.map (fun _ => G.az_vrotate n baddie.angle)
                component_out := outs.component_out.map
                  (fun _ => component_ref.main_body) }) := by
  constructor
  · intro s st
    rw [hnone]
    rfl
  · cases hbroad : G.az_ray_hits_bounding_circle start delta baddie.position
        baddie.data.overall_bounding_radius with
    | false =>
        refine ⟨false, outs, ?_, by simp, by simp, by simp⟩
        unfold az_ray_hits_baddie
        simp [hkind, hbroad]
    | true =>
        cases hmain : ray_hits_component G baddie.data.main_body AZ_VZERO 0
            (G.az_vrotate (az_vsub start baddie.position) (-baddie.angle))
            (G.az_vrotate delta (-baddie.angle)) with
        | none =>
            refine ⟨false, outs, ?_, by simp, by simp, by simp⟩
            unfold az_ray_hits_baddie
            simp [hkind, hbroad, hnone, ray_loop, ray_test, hmain]
        | some pn =>
            obtain ⟨p, n⟩ := pn
            refine ⟨true,
              { point_out := outs.point_out.map
                  (fun _ => az_vadd (G.az_vrotate p baddie.angle) baddie.position)
                normal_out := outs.normal_out.map (fun _ => G.az_vrotate n baddie.angle)
                component_out := outs.component_out.map
                  (fun _ => component_ref.main_body) }, ?_, by simp, by simp, ?_⟩
            · unfold az_ray_hits_baddie
              simp only [hkind, if_false, hbroad, Bool.not_true, Bool.false_eq_true, hnone,
                ray_loop, ray_test, hmain]
              cases hn : outs.normal_out <;> simp
            · intro _
              exact ⟨p, n, rfl, rfl⟩

theorem az_ray_hits_baddie_no_sub_parts_witness :
    scenario_baddie.kind ≠ az_baddie_kind_t.AZ_BAD_NOTHING
    ∧ scenario_baddie.data.components = []
    ∧ ∃ ret outs', az_ray_hits_baddie rat_geometry scenario_baddie ⟨0, 0⟩ ⟨200, 0⟩
          fresh_ray_outs = some (ret, outs')
        ∧ (ret = true ↔
            rat_geometry.az_ray_hits_bounding_circle ⟨0, 0⟩ ⟨200, 0⟩ scenario_baddie.position
              scenario_baddie.data.overall_bounding_radius = true
            ∧ (ray_hits_component rat_geometry scenario_baddie.data.main_body AZ_VZERO 0
                (rat_geometry.az_vrotate (az_vsub ⟨0, 0⟩ scenario_baddie.position)
                  (-scenario_baddie.angle))
                (rat_geometry.az_vrotate ⟨200, 0⟩ (-scenario_baddie.angle))).isSome = true) :=
  have hkind : scenario_baddie.kind ≠ az_baddie_kind_t.AZ_BAD_NOTHING := by decide
  have hnone : scenario_baddie.data.components = [] := rfl
  ⟨hkind, hnone,
    match (az_ray_hits_baddie_no_sub_parts rat_geometry scenario_baddie ⟨0, 0⟩ ⟨200, 0⟩
      fresh_ray_outs hkind hnone).2 with
    | ⟨ret, outs', h1, h2, _⟩ => ⟨ret, outs', h1, h2⟩⟩

theorem az_ray_hits_baddie_world_frame_witness :
    az_ray_hits_baddie rat_geometry scenario_baddie ⟨0, 0⟩ ⟨200, 0⟩ fresh_ray_outs =
        some (true,
          { point_out := some ⟨90, 0⟩, normal_out := some ⟨-1, 0⟩,
            component_out := some component_ref.main_body })
    ∧ ∃ ref p n,
        last_success (ray_outcomes rat_geometry scenario_baddie ⟨0, 0⟩ ⟨200, 0⟩) =
          some (ref, p, n)
        ∧ some (⟨90, 0⟩ : az_vector_t ℚ) = fresh_ray_outs.point_out.map
            (fun _ => az_vadd (rat_geometry.az_vrotate p scenario_baddie.angle)
              scenario_baddie.position)
        ∧ some (⟨-1, 0⟩ : az_vector_t ℚ) = fresh_ray_outs.normal_out.map
            (fun _ => rat_geometry.az_vrotate n scenario_baddie.angle) :=
  ⟨scenario_hit,
    az_ray_hits_baddie_world_frame rat_geometry scenario_baddie ⟨0, 0⟩ ⟨200, 0⟩ fresh_ray_outs
      _ scenario_hit⟩

/-- The correct answer of the ray-vs-circle routine for the example ray: the ray from
(-100, 0) with displacement (200, 0) first meets the circle of radius 10 about the origin
at (-10, 0), where the unit normal is (-1, 0). -/
theorem ray_circle_answer_example (r : Option (az_vector_t R × az_vector_t R))
    (h : ray_circle_answer 10 AZ_VZERO ⟨-100, 0⟩ ⟨200, 0⟩ r) :
    r = some (⟨-10, 0⟩, ⟨-1, 0⟩) := by
  obtain ⟨hfirst, hnormal⟩ := h
  have hin : ∀ t : R, 9 / 20 ≤ t → t ≤ 11 / 20 →
      within_radius (ray_point (⟨-100, 0⟩ : az_vector_t R) ⟨200, 0⟩ t) AZ_VZERO 10 := by
    intro t h1 h2
    simp only [within_radius, ray_point, dist_sq, az_vdot, az_vsub, AZ_VZERO]
    constructor
    · norm_num
    · nlinarith
  cases r with
  | none =>
      exact absurd (hin (1 / 2) (by norm_num) (by norm_num))
        (hfirst (1 / 2) (by norm_num) (by norm_num))
  | some pn =>
      obtain ⟨p, n⟩ := pn
      obtain ⟨t, ht0, ht1, hp, hS, hmin⟩ := hfirst
      have hle : 9 / 20 ≤ t := by
        rw [hp] at hS
        simp only [within_radius, ray_point, dist_sq, az_vdot, az_vsub, AZ_VZERO] at hS
        nlinarith [hS.2]
      have hge : t ≤ 9 / 20 := by
        by_contra hlt
        push_neg at hlt
        exact hmin (9 / 20) (by norm_num) hlt (hin (9 / 20) le_rfl (by norm_num))
      have ht : t = 9 / 20 := le_antisymm hge hle
      have hp' : p = ⟨-10, 0⟩ := by
        rw [hp, ht]
        simp only [ray_point, az_vector_t.mk.injEq]
        constructor <;> norm_num
      have hn := hnormal p n rfl (by norm_num)
        (by
          rw [hp']
          simp only [dist_sq, az_vdot, az_vsub, AZ_VZERO]
          norm_num)
      rw [hn, hp']
      simp only [AZ_VZERO, Option.some.injEq, Prod.mk.injEq, az_vector_t.mk.injEq]
      norm_num

/-- C5: a baddie at (100, 0) with angle 0, a circular main body of radius 10, no
sub-parts and `overall_bounding_radius` 10, queried by `az_ray_hits_baddie` with start
(0, 0) and delta (200, 0), reports a hit on the main body with impact point (90, 0) and
normal (-1, 0), given that the geometry routines it calls answer correctly: rotation by
the zero angle is the identity, the bounding-circle test has no false negative on this
ray, and the ray-vs-circle routine answers the local-frame call correctly. -/
theorem az_ray_hits_baddie_example_hit (G : Geometry R) (baddie : az_baddie_t R)
    (outs : ray_outs R)
    (hkind : baddie.kind ≠ az_baddie_kind_t.AZ_BAD_NOTHING)
    (hpos : baddie.position = ⟨100, 0⟩) (hangle : baddie.angle = 0)
    (hbody : baddie.data.main_body.polygon = [])
    (hrad : baddie.data.main_body.bounding_radius = 10)
    (hnone : baddie.data.components = [])
    (hoverall : baddie.data.overall_bounding_radius = 10)
    (hrot : ∀ v, G.az_vrotate v 0 = v)
    (hbroad : broad_test_complete G ⟨0, 0⟩ ⟨200, 0⟩ ⟨100, 0⟩ 10)
    (hcircle : ray_circle_answer 10 AZ_VZERO ⟨-100, 0⟩ ⟨200, 0⟩
      (G.az_ray_hits_circle 10 AZ_VZERO ⟨-100, 0⟩ ⟨200, 0⟩)) :
    az_ray_hits_baddie G baddie ⟨0, 0⟩ ⟨200, 0⟩ outs =
      some (true,
        { point_out := outs.point_out.map (fun _ => ⟨90, 0⟩)
          normal_out := outs.normal_out.map (fun _ => ⟨-1, 0⟩)
          component_out := outs.component_out.map (fun _ => component_ref.main_body) }) := by
  have hb : G.az_ray_hits_bounding_circle ⟨0, 0⟩ ⟨200, 0⟩ baddie.position
      baddie.data.overall_bounding_radius = true := by
    rw [hpos, hoverall]
    apply hbroad
    refine ⟨1 / 2, by norm_num, by norm_num, ?_⟩
    simp only [within_radius, ray_point, dist_sq, az_vdot, az_vsub]
    constructor <;> norm_num
  have e : az_vsub (⟨0, 0⟩ : az_vector_t R) ⟨100, 0⟩ = ⟨-100, 0⟩ := by
    simp only [az_vsub, az_vector_t.mk.injEq]
    constructor <;> norm_num
  have hmain : ray_hits_component G baddie.data.main_body AZ_VZERO 0
      (G.az_vrotate (az_vsub ⟨0, 0⟩ baddie.position) (-baddie.angle))
      (G.az_vrotate ⟨200, 0⟩ (-baddie.angle)) = some (⟨-10, 0⟩, ⟨-1, 0⟩) := by
    rw [hangle, neg_zero, hrot, hrot, hpos, e]
    simp only [ray_hits_component, hbody, List.length_nil, gt_iff_lt, lt_self_iff_false,
      if_false, hrad]
    exact ray_circle_answer_example _ hcircle
  rw [az_ray_hits_baddie_main_hit G baddie ⟨0, 0⟩ ⟨200, 0⟩ outs ⟨-10, 0⟩ ⟨-1, 0⟩ hkind hnone hb
    hmain]
  rw [hangle, hrot, hrot, hpos]
  have e2 : az_vadd (⟨-10, 0⟩ : az_vector_t R) ⟨100, 0⟩ = ⟨90, 0⟩ := by
    simp only [az_vadd, az_vector_t.mk.injEq]
    constructor <;> norm_num
  rw [e2]

theorem az_ray_hits_baddie_example_hit_witness :
    scenario_baddie.kind ≠ az_baddie_kind_t.AZ_BAD_NOTHING
    ∧ (∀ v, rat_geometry.az_vrotate v 0 = v)
    ∧ broad_test_complete rat_geometry ⟨0, 0⟩ ⟨200, 0⟩ ⟨100, 0⟩ 10
    ∧ ray_circle_answer 10 AZ_VZERO ⟨-100, 0⟩ ⟨200, 0⟩
        (rat_geometry.az_ray_hits_circle 10 AZ_VZERO ⟨-100, 0⟩ ⟨200, 0⟩)
    ∧ az_ray_hits_baddie rat_geometry scenario_baddie ⟨0, 0⟩ ⟨200, 0⟩ fresh_ray_outs =
        some (true,
          { point_out := fresh_ray_outs.point_out.map (fun _ => ⟨90, 0⟩)
            normal_out := fresh_ray_outs.normal_out.map (fun _ => ⟨-1, 0⟩)
            component_out := fresh_ray_outs.component_out.map
              (fun _ => component_ref.main_body) }) :=
  have hkind : scenario_baddie.kind ≠ az_baddie_kind_t.AZ_BAD_NOTHING := by decide
  have hbroad : broad_test_complete rat_geometry ⟨0, 0⟩ ⟨200, 0⟩ ⟨100, 0⟩ 10 :=
    fun _ => scenario_broad_hit
  have hcircle : ray_circle_answer 10 AZ_VZERO ⟨-100, 0⟩ ⟨200, 0⟩
      (rat_geometry.az_ray_hits_circle 10 AZ_VZERO ⟨-100, 0⟩ ⟨200, 0⟩) := by
    have hv : (AZ_VZERO : az_vector_t ℚ) = ⟨0, 0⟩ := rfl
    rw [hv, scenario_circle_hit]
    refine ⟨⟨9 / 20, by norm_num, by norm_num, ?_, ?_, ?_⟩, ?_⟩
    · simp only [ray_point, az_vector_t.mk.injEq]
      constructor <;> norm_num
    · simp only [within_radius, dist_sq, az_vdot, az_vsub]
      constructor <;> norm_num
    · intro t h0 h1
      simp only [within_radius, ray_point, dist_sq, az_vdot, az_vsub, not_and, not_le]
      intro _
      nlinarith
    · intro p n hpn _ _
      simp only [Option.some.injEq, Prod.mk.injEq] at hpn
      obtain ⟨hp, hn⟩ := hpn
      subst hp hn
      simp only [az_vector_t.mk.injEq]
      constructor <;> norm_num
  ⟨hkind, rat_geometry_rotate_zero, hbroad, hcircle,
    az_ray_hits_baddie_example_hit rat_geometry scenario_baddie fresh_ray_outs hkind rfl rfl
      rfl rfl rfl rfl rat_geometry_rotate_zero hbroad hcircle⟩

/-- C6: the same baddie (position (100, 0), angle 0, circular main body of radius 10, no
sub-parts) queried by `az_ray_hits_baddie` with start (0, 50) and delta (200, 0) reports
no hit and stores nothing, given that rotation by the zero angle is the identity and the
ray-vs-circle routine answers the local-frame call correctly. -/
theorem az_ray_hits_baddie_example_miss (G : Geometry R) (baddie : az_baddie_t R)
    (outs : ray_outs R)
    (hkind : baddie.kind ≠ az_baddie_kind_t.AZ_BAD_NOTHING)
    (hpos : baddie.position = ⟨100, 0⟩) (hangle : baddie.angle = 0)
    (hbody : baddie.data.main_body.polygon = [])
    (hrad : baddie.data.main_body.bounding_radius = 10)
    (hnone : baddie.data.components = [])
    (hrot : ∀ v, G.az_vrotate v 0 = v)
    (hcircle : ray_circle_answer 10 AZ_VZERO ⟨-100, 50⟩ ⟨200, 0⟩
      (G.az_ray_hits_circle 10 AZ_VZERO ⟨-100, 50⟩ ⟨200, 0⟩)) :
    az_ray_hits_baddie G baddie ⟨0, 50⟩ ⟨200, 0⟩ outs = some (false, outs) := by
  have e : az_vsub (⟨0, 50⟩ : az_vector_t R) ⟨100, 0⟩ = ⟨-100, 50⟩ := by
    simp only [az_vsub, az_vector_t.mk.injEq]
    constructor <;> norm_num
  have hr : G.az_ray_hits_circle 10 AZ_VZERO ⟨-100, 50⟩ ⟨200, 0⟩ = none := by
    cases hres : G.az_ray_hits_circle 10 AZ_VZERO ⟨-100, 50⟩ ⟨200, 0⟩ with
    | none => rfl
    | some pn =>
        obtain ⟨p, n⟩ := pn
        rw [hres] at hcircle
        obtain ⟨t, _, _, hp, hS, _⟩ := hcircle.1
        rw [hp] at hS
        simp only [within_radius, ray_point, dist_sq, az_vdot, az_vsub, AZ_VZERO] at hS
        nlinarith [hS.2, sq_nonneg (-100 + t * 200 - (0 : R))]
  have hmain : ray_hits_component G baddie.data.main_body AZ_VZERO 0
      (G.az_vrotate (az_vsub ⟨0, 50⟩ baddie.position) (-baddie.angle))
      (G.az_vrotate ⟨200, 0⟩ (-baddie.angle)) = none := by
    rw [hangle, neg_zero, hrot, hrot, hpos, e]
    simp only [ray_hits_component, hbody, List.length_nil, gt_iff_lt, lt_self_iff_false,
      if_false, hrad]
    exact hr
  exact az_ray_hits_baddie_main_miss G baddie ⟨0, 50⟩ ⟨200, 0⟩ outs hkind hnone hmain

theorem az_ray_hits_baddie_example_miss_witness :
    scenario_baddie.kind ≠ az_baddie_kind_t.AZ_BAD_NOTHING
    ∧ (∀ v, rat_geometry.az_vrotate v 0 = v)
    ∧ ray_circle_answer 10 AZ_VZERO ⟨-100, 50⟩ ⟨200, 0⟩
        (rat_geometry.az_ray_hits_circle 10 AZ_VZERO ⟨-100, 50⟩ ⟨200, 0⟩)
    ∧ az_ray_hits_baddie rat_geometry scenario_baddie ⟨0, 50⟩ ⟨200, 0⟩ fresh_ray_outs =
        some (false, fresh_ray_outs) :=
  have hkind : scenario_baddie.kind ≠ az_baddie_kind_t.AZ_BAD_NOTHING := by decide
  have hcircle : ray_circle_answer 10 AZ_VZERO ⟨-100, 50⟩ ⟨200, 0⟩
      (rat_geometry.az_ray_hits_circle 10 AZ_VZERO ⟨-100, 50⟩ ⟨200, 0⟩) := by
    have hv : (AZ_VZERO : az_vector_t ℚ) = ⟨0, 0⟩ := rfl
    rw [hv, scenario_circle_miss]
    refine ⟨?_, ?_⟩
    · intro t h0 h1
      simp only [within_radius, ray_point, dist_sq, az_vdot, az_vsub, not_and, not_le]
      intro _
      nlinarith [sq_nonneg (-100 + t * 200 - (0 : ℚ))]
    · intro p n hpn
      exact absurd hpn (by simp)
  ⟨hkind, rat_geometry_rotate_zero, hcircle,
    az_ray_hits_baddie_example_miss rat_geometry scenario_baddie fresh_ray_outs hkind rfl rfl
      rfl rfl rfl rat_geometry_rotate_zero hcircle⟩

/-- C7: when the start point lies farther than `overall_bounding_radius` from the baddie's
position and the delta points away from the baddie (its dot product with position minus
start is not positive), `az_ray_hits_baddie` returns false, given that the
bounding-circle test has no false positive on this ray. -/
theorem az_ray_hits_baddie_pointing_away (G : Geometry R) (baddie : az_baddie_t R)
    (start delta : az_vector_t R) (outs : ray_outs R)
    (hkind : baddie.kind ≠ az_baddie_kind_t.AZ_BAD_NOTHING)
    (hfar : ¬ within_radius start baddie.position baddie.data.overall_bounding_radius)
    (haway : az_vdot delta (az_vsub baddie.position start) ≤ 0)
    (hsound : broad_test_sound G start delta baddie.position
      baddie.data.overall_bounding_radius) :
    az_ray_hits_baddie G baddie start delta outs = some (false, outs) := by
  have hb : G.az_ray_hits_bounding_circle start delta baddie.position
      baddie.data.overall_bounding_radius = false := by
    cases hres : G.az_ray_hits_bounding_circle start delta baddie.position
        baddie.data.overall_bounding_radius with
    | false => rfl
    | true =>
        obtain ⟨t, ht0, _, hr0, hin⟩ := hsound hres
        exfalso
        apply hfar
        refine ⟨hr0, le_trans ?_ hin⟩
        simp only [az_vdot, az_vsub] at haway
        simp only [dist_sq, az_vdot, az_vsub, ray_point]
        nlinarith [mul_nonneg ht0 (neg_nonneg.mpr haway), sq_nonneg (t * delta.x),
          sq_nonneg (t * delta.y)]
  unfold az_ray_hits_baddie
  simp [hkind, hb]

theorem az_ray_hits_baddie_pointing_away_witness :
    scenario_baddie.kind ≠ az_baddie_kind_t.AZ_BAD_NOTHING
    ∧ ¬ within_radius (⟨0, 0⟩ : az_vector_t ℚ) scenario_baddie.position
        scenario_baddie.data.overall_bounding_radius
    ∧ az_vdot (⟨-50, 0⟩ : az_vector_t ℚ) (az_vsub scenario_baddie.position ⟨0, 0⟩) ≤ 0
    ∧ broad_test_sound rat_geometry ⟨0, 0⟩ ⟨-50, 0⟩ scenario_baddie.position
        scenario_baddie.data.overall_bounding_radius
    ∧ az_ray_hits_baddie rat_geometry scenario_baddie ⟨0, 0⟩ ⟨-50, 0⟩ fresh_ray_outs =
        some (false, fresh_ray_outs) :=
  have hkind : scenario_baddie.kind ≠ az_baddie_kind_t.AZ_BAD_NOTHING := by decide
  have hfar : ¬ within_radius (⟨0, 0⟩ : az_vector_t ℚ) scenario_baddie.position
      scenario_baddie.data.overall_bounding_radius := by
    simp only [within_radius, dist_sq, az_vdot, az_vsub, scenario_baddie]
    norm_num
  have haway : az_vdot (⟨-50, 0⟩ : az_vector_t ℚ) (az_vsub scenario_baddie.position ⟨0, 0⟩)
      ≤ 0 := by
    simp only [az_vdot, az_vsub, scenario_baddie]
    norm_num
  have hsound : broad_test_sound rat_geometry ⟨0, 0⟩ ⟨-50, 0⟩ scenario_baddie.position
      scenario_baddie.data.overall_bounding_radius := by
    intro h
    exfalso
    revert h
    simp only [rat_geometry, reference_geometry, reference_ray_hits_bounding_circle,
      within_radius, dist_sq, az_vdot, az_vsub, ray_point, scenario_baddie]
    norm_num
  ⟨hkind, hfar, haway, hsound,
    az_ray_hits_baddie_pointing_away rat_geometry scenario_baddie ⟨0, 0⟩ ⟨-50, 0⟩
      fresh_ray_outs hkind hfar haway hsound⟩

/-- C2 (amended): take a baddie with two sub-parts `A` (declared first) and `B` whose
regions at their current poses do not overlap and are both crossed by the ray, the broad
phase passing, the geometry routines answering every initial stretch of the local ray
correctly, and the ray not entering the main body before it enters a sub-part.  Then the
ray first meets `A` and `B` at different parameters, the smaller parameter is the nearer
point, and `az_ray_hits_baddie` reports the sub-part met first with its first point on
the ray; the baddie with the two sub-parts declared in the opposite order reports the
same sub-part (now at the other index) and the same point. -/
theorem az_ray_hits_baddie_nearer_sub_part (G : Geometry R)
    (polygon_region : az_polygon_t R → az_vector_t R → R → az_vector_t R → Prop)
    (baddie : az_baddie_t R) (start delta : az_vector_t R) (outs : ray_outs R)
    (cA cB : az_component_data_t R) (qA qB : az_component_t R)
    (more : List (az_component_t R))
    (hkind : baddie.kind ≠ az_baddie_kind_t.AZ_BAD_NOTHING)
    (hcomps : baddie.data.components = [cA, cB])
    (hposes : baddie.components = qA :: qB :: more)
    (hbroad : G.az_ray_hits_bounding_circle start delta baddie.position
      baddie.data.overall_bounding_radius = true)
    (hcorrect : ∀ part ∈ [main_part baddie, sub_part 0 cA qA, sub_part 1 cB qB],
      ∀ u, 0 ≤ u → u ≤ 1 →
      ray_part_correct G polygon_region part (rel_start_of G baddie start)
        (scale_delta u (rel_delta_of G baddie delta)))
    (hdisjoint : ∀ p, ¬ (component_region polygon_region (sub_part 0 cA qA) p
      ∧ component_region polygon_region (sub_part 1 cB qB) p))
    (hcrossA : ∃ t, 0 ≤ t ∧ t ≤ 1 ∧ component_region polygon_region (sub_part 0 cA qA)
      (ray_point (rel_start_of G baddie start) (rel_delta_of G baddie delta) t))
    (hcrossB : ∃ t, 0 ≤ t ∧ t ≤ 1 ∧ component_region polygon_region (sub_part 1 cB qB)
      (ray_point (rel_start_of G baddie start) (rel_delta_of G baddie delta) t))
    (hmain : ∀ t, 0 ≤ t → t ≤ 1 →
      component_region polygon_region (main_part baddie)
        (ray_point (rel_start_of G baddie start) (rel_delta_of G baddie delta) t) →
      ∃ t', 0 ≤ t' ∧ t' ≤ t ∧
        (component_region polygon_region (sub_part 0 cA qA)
            (ray_point (rel_start_of G baddie start) (rel_delta_of G baddie delta) t')
          ∨ component_region polygon_region (sub_part 1 cB qB)
            (ray_point (rel_start_of G baddie start) (rel_delta_of G baddie delta) t'))) :
    ∃ tA tB,
      is_first_hit (component_region polygon_region (sub_part 0 cA qA))
        (rel_start_of G baddie start) (rel_delta_of G baddie delta) tA
      ∧ is_first_hit (component_region polygon_region (sub_part 1 cB qB))
        (rel_start_of G baddie start) (rel_delta_of G baddie delta) tB
      ∧ tA ≠ tB
      ∧ (tA < tB ↔
          dist_sq (ray_point (rel_start_of G baddie start) (rel_delta_of G baddie delta) tA)
              (rel_start_of G baddie start)
            < dist_sq
              (ray_point (rel_start_of G baddie start) (rel_delta_of G baddie delta) tB)
              (rel_start_of G baddie start))
      ∧ (tA < tB →
          ray_reports G baddie start delta outs (component_ref.component 0)
            (ray_point (rel_start_of G baddie start) (rel_delta_of G baddie delta) tA)
          ∧ ray_reports G (swap_sub_parts baddie) start delta outs (component_ref.component 1)
            (ray_point (rel_start_of G baddie start) (rel_delta_of G baddie delta) tA))
      ∧ (tB < tA →
          ray_reports G baddie start delta outs (component_ref.component 1)
            (ray_point (rel_start_of G baddie start) (rel_delta_of G baddie delta) tB)
          ∧ ray_reports G (swap_sub_parts baddie) start delta outs (component_ref.component 0)
            (ray_point (rel_start_of G baddie start) (rel_delta_of G baddie delta) tB)) := by
  have hfullA := hcorrect (sub_part 0 cA qA) (by simp) 1 zero_le_one le_rfl
  have hfullB := hcorrect (sub_part 1 cB qB) (by simp) 1 zero_le_one le_rfl
  rw [scale_delta_one] at hfullA hfullB
  obtain ⟨tA, hA⟩ := first_hit_of_crossed _ _ _ _
    (ray_hits_component_correct G polygon_region _ _ _ hfullA) hcrossA
  obtain ⟨tB, hB⟩ := first_hit_of_crossed _ _ _ _
    (ray_hits_component_correct G polygon_region _ _ _ hfullB) hcrossB
  have hne : tA ≠ tB := by
    intro h
    exact hdisjoint _ ⟨hA.2.2.1, h ▸ hB.2.2.1⟩
  have hdd : 0 < az_vdot (rel_delta_of G baddie delta) (rel_delta_of G baddie delta) := by
    rcases eq_or_lt_of_le (az_vdot_self_nonneg (rel_delta_of G baddie delta)) with hz | hpos
    · exfalso
      have hx : (rel_delta_of G baddie delta).x = 0 := by
        simp only [az_vdot] at hz
        nlinarith [sq_nonneg (rel_delta_of G baddie delta).x,
          sq_nonneg (rel_delta_of G baddie delta).y]
      have hy : (rel_delta_of G baddie delta).y = 0 := by
        simp only [az_vdot] at hz
        nlinarith [sq_nonneg (rel_delta_of G baddie delta).x,
          sq_nonneg (rel_delta_of G baddie delta).y]
      have hpt : ∀ t : R,
          ray_point (rel_start_of G baddie start) (rel_delta_of G baddie delta) t =
            rel_start_of G baddie start := by
        intro t
        simp only [ray_point, hx, hy, mul_zero, add_zero]
      have h1 := hA.2.2.1
      have h2 := hB.2.2.1
      rw [hpt] at h1 h2
      exact hdisjoint _ ⟨h1, h2⟩
    · exact hpos
  have horig := two_sub_parts_report G polygon_region baddie start delta outs cA cB qA qB more
    (main_part baddie) (sub_part 0 cA qA) (sub_part 1 cB qB)
    (rel_start_of G baddie start) (rel_delta_of G baddie delta)
    hkind hcomps hposes hbroad rfl rfl rfl rfl rfl hcorrect tA tB hA hB hmain
  have hswap := two_sub_parts_report G polygon_region (swap_sub_parts baddie) start delta outs
    cB cA qB qA more
    (main_part baddie) (sub_part 0 cB qB) (sub_part 1 cA qA)
    (rel_start_of G baddie start) (rel_delta_of G baddie delta)
    hkind (by simp only [swap_sub_parts, hcomps, swap_first_two])
    (by simp only [swap_sub_parts, hposes, swap_first_two]) hbroad rfl rfl rfl rfl rfl
    (by
      intro part hpart u h0 h1
      simp only [List.mem_cons, List.mem_singleton, List.not_mem_nil, or_false] at hpart
      rcases hpart with rfl | rfl | rfl
      · exact hcorrect _ (by simp) u h0 h1
      · exact hcorrect (sub_part 1 cB qB) (by simp) u h0 h1
      · exact hcorrect (sub_part 0 cA qA) (by simp) u h0 h1)
    tB tA hB hA
    (by
      intro t h0 h1 hS
      obtain ⟨t', ht0, htle, hor⟩ := hmain t h0 h1 hS
      exact ⟨t', ht0, htle, hor.symm⟩)
  exact ⟨tA, tB, hA, hB, hne,
    lt_iff_dist_sq_lt _ _ tA tB hA.1 hB.1 hdd,
    fun hlt => ⟨horig.1 hlt, hswap.2 hlt⟩,
    fun hlt => ⟨horig.2 hlt, hswap.1 hlt⟩⟩

end RayClaims

/-! ## Claims about the swept-circle query -/

section CircleClaims

variable {R : Type} [LinearOrderedField R]

/-- C10: when no assertion fails and the broad-phase pretest passes,
`az_circle_hits_baddie` tests the main body and then every sub-part in index order,
test `k` sweeping up to the resting position of the most recent successful test before it
(the full local delta if there is none); it returns true iff at least one test succeeds,
and on a hit the component, resting position and impact point it stores are those of the
last test that succeeded (both points taken to the world frame). -/
theorem az_circle_hits_baddie_tests_in_order (G : Geometry R) (baddie : az_baddie_t R)
    (radius : R) (start delta : az_vector_t R) (outs : circle_outs R)
    (hkind : baddie.kind ≠ az_baddie_kind_t.AZ_BAD_NOTHING)
    (hslots : baddie.data.components.length ≤ baddie.components.length)
    (hbroad : G.az_ray_hits_bounding_circle start delta baddie.position
      (baddie.data.overall_bounding_radius + radius) = true) :
    (circle_outcomes G baddie radius start delta).map Prod.fst =
        component_ref.main_body ::
          (List.range baddie.data.components.length).map component_ref.component
    ∧ (∀ k part, (test_parts baddie).get? k = some part →
        (circle_outcomes G baddie radius start delta).get? k =
          some (part.ref,
            circle_hits_component G part.component part.position part.angle radius
              (G.az_vrotate (az_vsub start baddie.position) (-baddie.angle))
              (remaining_delta (G.az_vrotate (az_vsub start baddie.position) (-baddie.angle))
                (G.az_vrotate delta (-baddie.angle))
                ((circle_outcomes G baddie radius start delta).take k))))
    ∧ ∃ ret outs', az_circle_hits_baddie G baddie radius start delta outs = some (ret, outs')
        ∧ (ret = true ↔ ∃ o ∈ circle_outcomes G baddie radius start delta, o.2.isSome = true)
        ∧ ∀ ref q m,
            last_success (circle_outcomes G baddie radius start delta) = some (ref, q, m) →
            outs' =
              { pos_out := outs.pos_out.map
                  (fun _ => az_vadd (G.az_vrotate q baddie.angle) baddie.position)
                impact_out := outs.impact_out.map
                  (fun _ => az_vadd (G.az_vrotate m baddie.angle) baddie.position)
                component_out := outs.component_out.map (fun _ => ref) } := by
  refine ⟨?_, ?_, ?_⟩
  · simp only [circle_outcomes, test_parts, run_tests_map_fst, List.map_nil, List.nil_append,
      List.map_cons, sub_parts_from_refs 0 _ _ hslots, List.range_eq_range']
  · intro k part hk
    have h := run_tests_get
      (fun part d => circle_hits_component G part.component part.position part.angle radius
        (G.az_vrotate (az_vsub start baddie.position) (-baddie.angle)) d)
      (G.az_vrotate (az_vsub start baddie.position) (-baddie.angle))
      (G.az_vrotate delta (-baddie.angle)) (test_parts baddie) [] k part hk
    simpa only [circle_outcomes, List.length_nil, Nat.zero_add] using h
  · have heq := az_circle_hits_baddie_eq_report G baddie radius start delta outs hkind hslots
      hbroad
    rw [heq]
    cases hl : last_success (circle_outcomes G baddie radius start delta) with
    | none =>
        refine ⟨false, outs, by simp only [circle_report, hl], ?_, ?_⟩
        · rw [← last_success_isSome_iff, hl]
          simp
        · intro ref p n h
          exact absurd h (by simp)
    | some r =>
        obtain ⟨ref, p, n⟩ := r
        refine ⟨true, _, by simp only [circle_report, hl]; rfl, ?_, ?_⟩
        · rw [← last_success_isSome_iff, hl]
          simp
        · intro ref' p' n' h
          simp only [Option.some.injEq, Prod.mk.injEq] at h
          obtain ⟨h1, h2, h3⟩ := h
          subst h1 h2 h3
          rfl

theorem az_circle_hits_baddie_tests_in_order_witness :
    two_part_baddie.kind ≠ az_baddie_kind_t.AZ_BAD_NOTHING
    ∧ two_part_baddie.data.components.length ≤ two_part_baddie.components.length
    ∧ rat_geometry.az_ray_hits_bounding_circle ⟨0, 50⟩ ⟨100, 0⟩ two_part_baddie.position
        (two_part_baddie.data.overall_bounding_radius + 1) = true
    ∧ ∃ ret outs', az_circle_hits_baddie rat_geometry two_part_baddie 1 ⟨0, 50⟩ ⟨100, 0⟩
          fresh_circle_outs = some (ret, outs')
        ∧ (ret = true ↔
            ∃ o ∈ circle_outcomes rat_geometry two_part_baddie 1 ⟨0, 50⟩ ⟨100, 0⟩,
              o.2.isSome = true) :=
  have hkind : two_part_baddie.kind ≠ az_baddie_kind_t.AZ_BAD_NOTHING := by decide
  have hslots : two_part_baddie.data.components.length ≤ two_part_baddie.components.length := by
    decide
  have hbroad : rat_geometry.az_ray_hits_bounding_circle ⟨0, 50⟩ ⟨100, 0⟩
      two_part_baddie.position (two_part_baddie.data.overall_bounding_radius + 1) = true := by
    simp only [rat_geometry, reference_geometry, reference_ray_hits_bounding_circle,
      within_radius, dist_sq, az_vdot, az_vsub, ray_point, two_part_baddie]
    norm_num
  ⟨hkind, hslots, hbroad,
    match (az_circle_hits_baddie_tests_in_order rat_geometry two_part_baddie 1 ⟨0, 50⟩ ⟨100, 0⟩
      fresh_circle_outs hkind hslots hbroad).2.2 with
    | ⟨ret, outs', h1, h2, _⟩ => ⟨ret, outs', h1, h2⟩⟩

end CircleClaims



section RatCircleFacts

theorem rat_sqrt_exact (w : ℚ) (h : ∃ q, 0 ≤ q ∧ w = q * q) :
    0 ≤ Rat.sqrt w ∧ Rat.sqrt w * Rat.sqrt w = w := by
  obtain ⟨q, hq, hw⟩ := h
  rw [hw, Rat.sqrt_eq, abs_of_nonneg hq]
  exact ⟨hq, rfl⟩

/-- The rational ray-vs-circle routine answers correctly when the discriminant of the
call is the square of a rational. -/
theorem rat_geometry_circle_correct (radius : ℚ) (center start delta : az_vector_t ℚ)
    (hsq : 0 ≤ az_vdot (az_vsub start center) delta * az_vdot (az_vsub start center) delta
        - az_vdot delta delta *
          (az_vdot (az_vsub start center) (az_vsub start center) - radius * radius) →
      ∃ q, 0 ≤ q ∧
        az_vdot (az_vsub start center) delta * az_vdot (az_vsub start center) delta
        - az_vdot delta delta *
          (az_vdot (az_vsub start center) (az_vsub start center) - radius * radius)
          = q * q) :
    ray_circle_answer radius center start delta
      (rat_geometry.az_ray_hits_circle radius center start delta) :=
  reference_ray_hits_circle_correct rat_libm radius center start delta
    (fun h => rat_sqrt_exact _ (hsq h))

theorem rat_geometry_rel_start (baddie : az_baddie_t ℚ) (v : az_vector_t ℚ)
    (hpos : baddie.position = ⟨0, 0⟩) (hangle : baddie.angle = 0) :
    rel_start_of rat_geometry baddie v = v := by
  simp only [rel_start_of, hpos, hangle, neg_zero, rat_geometry_rotate_zero, az_vsub, sub_zero]

theorem rat_geometry_rel_delta (baddie : az_baddie_t ℚ) (v : az_vector_t ℚ)
    (hangle : baddie.angle = 0) :
    rel_delta_of rat_geometry baddie v = v := by
  simp only [rel_delta_of, hangle, neg_zero, rat_geometry_rotate_zero]

theorem two_part_broad_hit :
    rat_geometry.az_ray_hits_bounding_circle ⟨0, 50⟩ ⟨100, 0⟩ two_part_baddie.position
      two_part_baddie.data.overall_bounding_radius = true := by
  simp only [rat_geometry, reference_geometry, reference_ray_hits_bounding_circle,
    within_radius, dist_sq, az_vdot, az_vsub, ray_point, two_part_baddie]
  norm_num

/-- On every initial stretch of the ray from (0, 50) with displacement (100, 0), the
rational routines answer correctly for the three components of `two_part_baddie`. -/
theorem two_part_correct (part : test_part ℚ)
    (hpart : part ∈ [main_part two_part_baddie,
      sub_part 0 { polygon := [], bounding_radius := 5, immunities := 0 }
        { position := ⟨30, 50⟩, angle := 0 },
      sub_part 1 { polygon := [], bounding_radius := 5, immunities := 0 }
        { position := ⟨60, 50⟩, angle := 0 }])
    (u : ℚ) (h0 : 0 ≤ u) (_h1 : u ≤ 1) :
    ray_part_correct rat_geometry no_polygon_region part ⟨0, 50⟩ (scale_delta u ⟨100, 0⟩) := by
  simp only [List.mem_cons, List.mem_singleton, List.not_mem_nil, or_false] at hpart
  rcases hpart with rfl | rfl | rfl
  · simp only [ray_part_correct, main_part, two_part_baddie, List.length_nil, gt_iff_lt,
      lt_self_iff_false, if_false]
    refine (rat_geometry_circle_correct 10 AZ_VZERO ⟨0, 50⟩ (scale_delta u ⟨100, 0⟩) ?_).1
    intro hd
    refine ⟨0, le_rfl, ?_⟩
    simp only [az_vdot, az_vsub, scale_delta, AZ_VZERO] at hd ⊢
    nlinarith [sq_nonneg u]
  · simp only [ray_part_correct, sub_part, List.length_nil, gt_iff_lt,
      lt_self_iff_false, if_false]
    refine (rat_geometry_circle_correct 5 ⟨30, 50⟩ ⟨0, 50⟩ (scale_delta u ⟨100, 0⟩) ?_).1
    intro _
    refine ⟨500 * u, by linarith, ?_⟩
    simp only [az_vdot, az_vsub, scale_delta]
    ring
  · simp only [ray_part_correct, sub_part, List.length_nil, gt_iff_lt,
      lt_self_iff_false, if_false]
    refine (rat_geometry_circle_correct 5 ⟨60, 50⟩ ⟨0, 50⟩ (scale_delta u ⟨100, 0⟩) ?_).1
    intro _
    refine ⟨500 * u, by linarith, ?_⟩
    simp only [az_vdot, az_vsub, scale_delta]
    ring

end RatCircleFacts



section TwoPartEval

variable {R : Type} [LinearOrderedField R]

/-- Evaluation of the ray query on a baddie with two sub-parts from the outcomes of its
three component tests. -/
theorem az_ray_hits_baddie_eval_two (G : Geometry R) (baddie : az_baddie_t R)
    (start delta : az_vector_t R) (outs : ray_outs R)
    (cX cY : az_component_data_t R) (qX qY : az_component_t R)
    (more : List (az_component_t R)) (s d : az_vector_t R)
    (oM oX oY : Option (az_vector_t R × az_vector_t R))
    (hkind : baddie.kind ≠ az_baddie_kind_t.AZ_BAD_NOTHING)
    (hcomps : baddie.data.components = [cX, cY])
    (hposes : baddie.components = qX :: qY :: more)
    (hbroad : G.az_ray_hits_bounding_circle start delta baddie.position
      baddie.data.overall_bounding_radius = true)
    (hs : rel_start_of G baddie start = s) (hd : rel_delta_of G baddie delta = d)
    (hM : ray_hits_component G baddie.data.main_body AZ_VZERO 0 s d = oM)
    (hX : ray_hits_component G cX qX.position qX.angle s
      (remaining_delta s d [(component_ref.main_body, oM)]) = oX)
    (hY : ray_hits_component G cY qY.position qY.angle s
      (remaining_delta s d [(component_ref.main_body, oM), (component_ref.component 0, oX)])
      = oY) :
    az_ray_hits_baddie G baddie start delta outs =
      some (ray_report G baddie outs
        [(component_ref.main_body, oM), (component_ref.component 0, oX),
         (component_ref.component 1, oY)]) := by
  have hslots : baddie.data.components.length ≤ baddie.components.length := by
    rw [hcomps, hposes]
    simp
  rw [az_ray_hits_baddie_eq_report G baddie start delta outs hkind hslots hbroad]
  have hout : ray_outcomes G baddie start delta =
      [(component_ref.main_body, oM), (component_ref.component 0, oX),
       (component_ref.component 1, oY)] := by
    subst hs hd hM hX hY
    unfold ray_outcomes
    rw [test_parts_two baddie cX cY qX qY more hcomps hposes]
    rfl
  rw [hout]

end TwoPartEval

section InlineFacts

theorem inline_broad_hit :
    rat_geometry.az_ray_hits_bounding_circle ⟨-100, 0⟩ ⟨200, 0⟩ inline_baddie.position
      inline_baddie.data.overall_bounding_radius = true := by
  simp only [rat_geometry, reference_geometry, reference_ray_hits_bounding_circle,
    within_radius, dist_sq, az_vdot, az_vsub, ray_point, inline_baddie]
  norm_num

theorem inline_first_miss :
    rat_geometry.az_ray_hits_circle 5 ⟨30, 0⟩ ⟨-100, 0⟩ ⟨90, 0⟩ = none := by
  simp only [rat_geometry, reference_geometry, reference_ray_hits_circle, rat_libm, az_vdot,
    az_vsub, ray_point]
  norm_num

theorem inline_second_miss :
    rat_geometry.az_ray_hits_circle 5 ⟨60, 0⟩ ⟨-100, 0⟩ ⟨90, 0⟩ = none := by
  simp only [rat_geometry, reference_geometry, reference_ray_hits_circle, rat_libm, az_vdot,
    az_vsub, ray_point]
  norm_num

/-- The ray along the axis of `inline_baddie` stops at the main body. -/
theorem inline_hit :
    az_ray_hits_baddie rat_geometry inline_baddie ⟨-100, 0⟩ ⟨200, 0⟩ fresh_ray_outs =
      some (true,
        { point_out := some ⟨-10, 0⟩, normal_out := some ⟨-1, 0⟩,
          component_out := some component_ref.main_body }) := by
  have hrem1 : remaining_delta (⟨-100, 0⟩ : az_vector_t ℚ) ⟨200, 0⟩
      [(component_ref.main_body, some (⟨-10, 0⟩, ⟨-1, 0⟩))] = ⟨90, 0⟩ := by
    simp only [remaining_delta, last_success, Option.map, az_vsub, az_vector_t.mk.injEq]
    constructor <;> norm_num
  have hrem2 : remaining_delta (⟨-100, 0⟩ : az_vector_t ℚ) ⟨200, 0⟩
      [(component_ref.main_body, some (⟨-10, 0⟩, ⟨-1, 0⟩)),
       (component_ref.component 0, none)] = ⟨90, 0⟩ := by
    simp only [remaining_delta, last_success, Option.map, az_vsub, az_vector_t.mk.injEq]
    constructor <;> norm_num
  have hM : ray_hits_component rat_geometry inline_baddie.data.main_body AZ_VZERO 0
      ⟨-100, 0⟩ ⟨200, 0⟩ = some (⟨-10, 0⟩, ⟨-1, 0⟩) := by
    simp only [ray_hits_component, inline_baddie, List.length_nil, gt_iff_lt,
      lt_self_iff_false, if_false, AZ_VZERO, scenario_circle_hit]
  have hX : ray_hits_component rat_geometry
      { polygon := [], bounding_radius := 5, immunities := 0 } ⟨30, 0⟩ 0 ⟨-100, 0⟩
      (remaining_delta ⟨-100, 0⟩ ⟨200, 0⟩
        [(component_ref.main_body, some (⟨-10, 0⟩, ⟨-1, 0⟩))]) = none := by
    rw [hrem1]
    simp only [ray_hits_component, List.length_nil, gt_iff_lt, lt_self_iff_false, if_false,
      inline_first_miss]
  have hY : ray_hits_component rat_geometry
      { polygon := [], bounding_radius := 5, immunities := 0 } ⟨60, 0⟩ 0 ⟨-100, 0⟩
      (remaining_delta ⟨-100, 0⟩ ⟨200, 0⟩
        [(component_ref.main_body, some (⟨-10, 0⟩, ⟨-1, 0⟩)),
         (component_ref.component 0, none)]) = none := by
    rw [hrem2]
    simp only [ray_hits_component, List.length_nil, gt_iff_lt, lt_self_iff_false, if_false,
      inline_second_miss]
  rw [az_ray_hits_baddie_eval_two rat_geometry inline_baddie ⟨-100, 0⟩ ⟨200, 0⟩ fresh_ray_outs
    { polygon := [], bounding_radius := 5, immunities := 0 }
    { polygon := [], bounding_radius := 5, immunities := 0 }
    { position := ⟨30, 0⟩, angle := 0 } { position := ⟨60, 0⟩, angle := 0 } []
    ⟨-100, 0⟩ ⟨200, 0⟩ (some (⟨-10, 0⟩, ⟨-1, 0⟩)) none none (by decide) rfl rfl
    inline_broad_hit (rat_geometry_rel_start inline_baddie _ rfl rfl)
    (rat_geometry_rel_delta inline_baddie _ rfl) hM hX hY]
  have hz : inline_baddie.angle = 0 := rfl
  simp only [ray_report, last_success, Option.map, to_world, hz, rat_geometry_rotate_zero,
    fresh_ray_outs, inline_baddie, az_vadd, add_zero]

end InlineFacts



section SubPartClaims

/-- C2, as stated, fails on `inline_baddie`: its two sub-parts do not overlap and the ray
from (-100, 0) with displacement (200, 0) crosses both (at parameters 13/20 and 4/5 it is
at their centres), yet `az_ray_hits_baddie` reports the main body, struck first at
(-10, 0), and so reports neither sub-part. -/
theorem nearer_sub_part_counterexample :
    (∀ p, ¬ (component_region no_polygon_region
        (sub_part 0 { polygon := [], bounding_radius := 5, immunities := 0 }
          { position := ⟨30, 0⟩, angle := 0 }) p
      ∧ component_region no_polygon_region
        (sub_part 1 { polygon := [], bounding_radius := 5, immunities := 0 }
          { position := ⟨60, 0⟩, angle := 0 }) p))
    ∧ component_region no_polygon_region
        (sub_part 0 { polygon := [], bounding_radius := 5, immunities := 0 }
          { position := ⟨30, 0⟩, angle := 0 })
        (ray_point (rel_start_of rat_geometry inline_baddie ⟨-100, 0⟩)
          (rel_delta_of rat_geometry inline_baddie ⟨200, 0⟩) (13 / 20))
    ∧ component_region no_polygon_region
        (sub_part 1 { polygon := [], bounding_radius := 5, immunities := 0 }
          { position := ⟨60, 0⟩, angle := 0 })
        (ray_point (rel_start_of rat_geometry inline_baddie ⟨-100, 0⟩)
          (rel_delta_of rat_geometry inline_baddie ⟨200, 0⟩) (4 / 5))
    ∧ az_ray_hits_baddie rat_geometry inline_baddie ⟨-100, 0⟩ ⟨200, 0⟩ fresh_ray_outs =
        some (true,
          { point_out := some ⟨-10, 0⟩, normal_out := some ⟨-1, 0⟩,
            component_out := some component_ref.main_body })
    ∧ ¬ ∃ i p, ray_reports rat_geometry inline_baddie ⟨-100, 0⟩ ⟨200, 0⟩ fresh_ray_outs
        (component_ref.component i) p := by
  refine ⟨?_, ?_, ?_, inline_hit, ?_⟩
  · intro p
    simp only [component_region, sub_part, List.length_nil, gt_iff_lt, lt_self_iff_false,
      if_false, within_radius, dist_sq, az_vdot, az_vsub]
    rintro ⟨⟨_, h1⟩, ⟨_, h2⟩⟩
    nlinarith [sq_nonneg (p.y - 0), sq_nonneg (p.x - 45)]
  · rw [rat_geometry_rel_start inline_baddie _ rfl rfl, rat_geometry_rel_delta inline_baddie _ rfl]
    simp only [component_region, sub_part, List.length_nil, gt_iff_lt, lt_self_iff_false,
      if_false, within_radius, dist_sq, az_vdot, az_vsub, ray_point]
    constructor <;> norm_num
  · rw [rat_geometry_rel_start inline_baddie _ rfl rfl, rat_geometry_rel_delta inline_baddie _ rfl]
    simp only [component_region, sub_part, List.length_nil, gt_iff_lt, lt_self_iff_false,
      if_false, within_radius, dist_sq, az_vdot, az_vsub, ray_point]
    constructor <;> norm_num
  · rintro ⟨i, p, outs', hres, hcomp, _⟩
    rw [inline_hit] at hres
    simp only [Option.some.injEq, Prod.mk.injEq, true_and] at hres
    rw [← hres] at hcomp
    simp [fresh_ray_outs] at hcomp

theorem az_ray_hits_baddie_nearer_sub_part_witness :
    two_part_baddie.kind ≠ az_baddie_kind_t.AZ_BAD_NOTHING
    ∧ rat_geometry.az_ray_hits_bounding_circle ⟨0, 50⟩ ⟨100, 0⟩ two_part_baddie.position
        two_part_baddie.data.overall_bounding_radius = true
    ∧ (∀ part ∈ [main_part two_part_baddie,
          sub_part 0 { polygon := [], bounding_radius := 5, immunities := 0 }
            { position := ⟨30, 50⟩, angle := 0 },
          sub_part 1 { polygon := [], bounding_radius := 5, immunities := 0 }
            { position := ⟨60, 50⟩, angle := 0 }],
        ∀ u, 0 ≤ u → u ≤ 1 →
        ray_part_correct rat_geometry no_polygon_region part
          (rel_start_of rat_geometry two_part_baddie ⟨0, 50⟩)
          (scale_delta u (rel_delta_of rat_geometry two_part_baddie ⟨100, 0⟩)))
    ∧ ray_reports rat_geometry two_part_baddie ⟨0, 50⟩ ⟨100, 0⟩ fresh_ray_outs
        (component_ref.component 0) ⟨25, 50⟩
    ∧ ray_reports rat_geometry (swap_sub_parts two_part_baddie) ⟨0, 50⟩ ⟨100, 0⟩
        fresh_ray_outs (component_ref.component 1) ⟨25, 50⟩ := by
  have hs := rat_geometry_rel_start two_part_baddie ⟨0, 50⟩ rfl rfl
  have hd := rat_geometry_rel_delta two_part_baddie ⟨100, 0⟩ rfl
  have hkind : two_part_baddie.kind ≠ az_baddie_kind_t.AZ_BAD_NOTHING := by decide
  have hcorrect : ∀ part ∈ [main_part two_part_baddie,
      sub_part 0 { polygon := [], bounding_radius := 5, immunities := 0 }
        { position := ⟨30, 50⟩, angle := 0 },
      sub_part 1 { polygon := [], bounding_radius := 5, immunities := 0 }
        { position := ⟨60, 50⟩, angle := 0 }],
      ∀ u, 0 ≤ u → u ≤ 1 →
      ray_part_correct rat_geometry no_polygon_region part
        (rel_start_of rat_geometry two_part_baddie ⟨0, 50⟩)
        (scale_delta u (rel_delta_of rat_geometry two_part_baddie ⟨100, 0⟩)) := by
    rw [hs, hd]
    exact two_part_correct
  have hregA : ∀ t : ℚ, component_region no_polygon_region
      (sub_part 0 { polygon := [], bounding_radius := 5, immunities := 0 }
        { position := ⟨30, 50⟩, angle := 0 })
      (ray_point ⟨0, 50⟩ ⟨100, 0⟩ t) ↔ (100 * t - 30) * (100 * t - 30) ≤ 25 := by
    intro t
    simp only [component_region, sub_part, List.length_nil, gt_iff_lt, lt_self_iff_false,
      if_false, within_radius, dist_sq, az_vdot, az_vsub, ray_point]
    constructor
    · rintro ⟨_, h⟩
      nlinarith
    · intro h
      exact ⟨by norm_num, by nlinarith⟩
  have hregB : ∀ t : ℚ, component_region no_polygon_region
      (sub_part 1 { polygon := [], bounding_radius := 5, immunities := 0 }
        { position := ⟨60, 50⟩, angle := 0 })
      (ray_point ⟨0, 50⟩ ⟨100, 0⟩ t) ↔ (100 * t - 60) * (100 * t - 60) ≤ 25 := by
    intro t
    simp only [component_region, sub_part, List.length_nil, gt_iff_lt, lt_self_iff_false,
      if_false, within_radius, dist_sq, az_vdot, az_vsub, ray_point]
    constructor
    · rintro ⟨_, h⟩
      nlinarith
    · intro h
      exact ⟨by norm_num, by nlinarith⟩
  obtain ⟨tA, tB, hA, hB, _, _, hAB, _⟩ :=
    az_ray_hits_baddie_nearer_sub_part rat_geometry no_polygon_region two_part_baddie
      ⟨0, 50⟩ ⟨100, 0⟩ fresh_ray_outs
      { polygon := [], bounding_radius := 5, immunities := 0 }
      { polygon := [], bounding_radius := 5, immunities := 0 }
      { position := ⟨30, 50⟩, angle := 0 } { position := ⟨60, 50⟩, angle := 0 } []
      hkind rfl rfl two_part_broad_hit hcorrect
      (by
        intro p
        simp only [component_region, sub_part, List.length_nil, gt_iff_lt, lt_self_iff_false,
          if_false, within_radius, dist_sq, az_vdot, az_vsub]
        rintro ⟨⟨_, h1⟩, ⟨_, h2⟩⟩
        nlinarith [sq_nonneg (p.y - 50), sq_nonneg (p.x - 45)])
      (by
        rw [hs, hd]
        exact ⟨3 / 10, by norm_num, by norm_num, (hregA _).mpr (by norm_num)⟩)
      (by
        rw [hs, hd]
        exact ⟨3 / 5, by norm_num, by norm_num, (hregB _).mpr (by norm_num)⟩)
      (by
        rw [hs, hd]
        intro t _ _ hM
        exfalso
        simp only [component_region, main_part, two_part_baddie, List.length_nil, gt_iff_lt,
          lt_self_iff_false, if_false, within_radius, dist_sq, az_vdot, az_vsub, ray_point,
          AZ_VZERO] at hM
        nlinarith [hM.2, sq_nonneg (0 + t * 100 - (0 : ℚ))])
  rw [hs, hd] at hA hB hAB
  have htA : tA = 1 / 4 := by
    obtain ⟨h0, _, hS, hmin⟩ := hA
    have hge : 1 / 4 ≤ tA := by
      have := (hregA tA).mp hS
      nlinarith
    have hle : tA ≤ 1 / 4 := by
      by_contra hc
      exact hmin (1 / 4) (by norm_num) (not_le.mp hc) ((hregA _).mpr (by norm_num))
    exact le_antisymm hle hge
  have htB : 11 / 20 ≤ tB := by
    have := (hregB tB).mp hB.2.2.1
    nlinarith
  have hlt : tA < tB := by
    rw [htA]
    exact lt_of_lt_of_le (by norm_num) htB
  have hpt : ray_point (⟨0, 50⟩ : az_vector_t ℚ) ⟨100, 0⟩ tA = ⟨25, 50⟩ := by
    rw [htA]
    simp only [ray_point, az_vector_t.mk.injEq]
    constructor <;> norm_num
  have hrep := hAB hlt
  rw [hpt] at hrep
  exact ⟨hkind, two_part_broad_hit, hcorrect, hrep.1, hrep.2⟩

end SubPartClaims



section ZeroLength

variable {R : Type} [LinearOrderedField R]

theorem ray_point_zero (s : az_vector_t R) (t : R) : ray_point s AZ_VZERO t = s := by
  simp only [ray_point, AZ_VZERO, mul_zero, add_zero]

theorem scale_delta_zero (u : R) : scale_delta u (AZ_VZERO : az_vector_t R) = AZ_VZERO := by
  simp only [scale_delta, AZ_VZERO, mul_zero]

theorem az_vadd_vsub_cancel (a b : az_vector_t R) : az_vadd (az_vsub a b) b = a := by
  simp only [az_vadd, az_vsub, sub_add_cancel]

theorem within_radius_mono (p c : az_vector_t R) (r ρ : R) (h : within_radius p c r)
    (hρ : 0 ≤ ρ) : within_radius p c (r + ρ) := by
  obtain ⟨hr, hd⟩ := h
  refine ⟨add_nonneg hr hρ, ?_⟩
  nlinarith [mul_nonneg hr hρ, sq_nonneg ρ]

/-- On a zero-length segment, when every test answers correctly and the start point lies
in the region of some component, the last success reports the start point. -/
theorem zero_length_last_success (S : test_part R → az_vector_t R → Prop)
    (test : test_part R → az_vector_t R → Option (az_vector_t R × az_vector_t R))
    (s : az_vector_t R) (parts : List (test_part R))
    (hcorrect : ∀ part ∈ parts, first_hit_answer (S part) s AZ_VZERO (test part AZ_VZERO))
    (hin : ∃ part ∈ parts, S part s) :
    ∃ ref n, last_success (run_tests test s AZ_VZERO parts []) = some (ref, s, n) := by
  obtain ⟨cur, _, _, _, _, hlast⟩ :=
    run_tests_nearest S test s AZ_VZERO parts [] [] 1 (nearest_inv_nil S s AZ_VZERO)
      (fun part hpart u _ _ => by
        rw [scale_delta_zero]
        exact hcorrect part hpart)
  simp only [List.nil_append] at hlast
  rcases hlast with ⟨_, _, hno⟩ | ⟨ref, p, n, hl, hp, _⟩
  · obtain ⟨part, hpart, hS⟩ := hin
    have := hno part hpart
    rw [ray_point_zero] at this
    exact absurd hS this
  · rw [ray_point_zero] at hp
    exact ⟨ref, n, hp ▸ hl⟩

end ZeroLength

section ZeroLengthClaim

variable {R : Type} [LinearOrderedField R]

/-- C8 (as amended): when the start point lies inside the region of one of the baddie's
components (main body, or a sub-part at its current pose) and within
`overall_bounding_radius` of the baddie's position, `az_ray_hits_baddie` and
`az_circle_hits_baddie` called with delta (0, 0) report a hit, and the world-space point
they store (impact point for the ray, resting position for the circle) is the start
point.  The geometry routines are taken as correct on the zero-length calls made, the
rotation as undoing itself on the start point and fixing the zero vector, and the probe
radius as not negative.  The condition on the overall circle is needed: the checks of
`az_init_baddie_datas` compare radii only, so a sub-part can be posed outside it, and
there the pretest returns false. -/
theorem zero_length_queries_hit_at_start (G : Geometry R)
    (polygon_region : az_polygon_t R → az_vector_t R → R → az_vector_t R → Prop)
    (swept_region : az_polygon_t R → az_vector_t R → R → R → az_vector_t R → Prop)
    (baddie : az_baddie_t R) (radius : R) (start : az_vector_t R)
    (routs : ray_outs R) (couts : circle_outs R) (part : test_part R)
    (hkind : baddie.kind ≠ az_baddie_kind_t.AZ_BAD_NOTHING)
    (hslots : baddie.data.components.length ≤ baddie.components.length)
    (hzero : G.az_vrotate AZ_VZERO (-baddie.angle) = AZ_VZERO)
    (hback : G.az_vrotate (rel_start_of G baddie start) baddie.angle =
      az_vsub start baddie.position)
    (hradius : 0 ≤ radius)
    (hpart : part ∈ test_parts baddie)
    (hinside : component_region polygon_region part (rel_start_of G baddie start))
    (hswept : ∀ polygon position angle p, polygon_region polygon position angle p →
      swept_region polygon position angle radius p)
    (hencl : within_radius start baddie.position baddie.data.overall_bounding_radius)
    (hbroad_ray : broad_test_complete G start AZ_VZERO baddie.position
      baddie.data.overall_bounding_radius)
    (hbroad_circle : broad_test_complete G start AZ_VZERO baddie.position
      (baddie.data.overall_bounding_radius + radius))
    (hray : ∀ q ∈ test_parts baddie,
      ray_part_correct G polygon_region q (rel_start_of G baddie start) AZ_VZERO)
    (hcircle : ∀ q ∈ test_parts baddie,
      circle_part_correct G swept_region radius q (rel_start_of G baddie start) AZ_VZERO) :
    (∃ outs', az_ray_hits_baddie G baddie start AZ_VZERO routs = some (true, outs')
      ∧ outs'.point_out = routs.point_out.map (fun _ => start))
    ∧ (∃ outs', az_circle_hits_baddie G baddie radius start AZ_VZERO couts = some (true, outs')
      ∧ outs'.pos_out = couts.pos_out.map (fun _ => start)) := by
  have hworld : to_world G baddie (rel_start_of G baddie start) = start := by
    simp only [to_world, hback, az_vadd_vsub_cancel]
  constructor
  · have hb : G.az_ray_hits_bounding_circle start AZ_VZERO baddie.position
        baddie.data.overall_bounding_radius = true :=
      hbroad_ray ⟨0, le_rfl, zero_le_one, by rw [ray_point_zero]; exact hencl⟩
    obtain ⟨ref, n, hl⟩ := zero_length_last_success (component_region polygon_region)
      (fun q dl => ray_hits_component G q.component q.position q.angle
        (rel_start_of G baddie start) dl)
      (rel_start_of G baddie start) (test_parts baddie)
      (fun q hq => ray_hits_component_correct G polygon_region q _ _ (hray q hq))
      ⟨part, hpart, hinside⟩
    have hout : ray_outcomes G baddie start AZ_VZERO =
        run_tests (fun q dl => ray_hits_component G q.component q.position q.angle
          (rel_start_of G baddie start) dl)
          (rel_start_of G baddie start) AZ_VZERO (test_parts baddie) [] := by
      simp only [ray_outcomes, hzero, rel_start_of]
    refine ⟨_, (az_ray_hits_baddie_eq_report G baddie start AZ_VZERO routs hkind hslots
      hb).trans (by rw [hout]; simp only [ray_report, hl]; rfl), ?_⟩
    simp only [hworld]
  · have hb : G.az_ray_hits_bounding_circle start AZ_VZERO baddie.position
        (baddie.data.overall_bounding_radius + radius) = true :=
      hbroad_circle ⟨0, le_rfl, zero_le_one, by
        rw [ray_point_zero]
        exact within_radius_mono _ _ _ _ hencl hradius⟩
    have hprobe : probe_region swept_region radius part (rel_start_of G baddie start) := by
      unfold component_region at hinside
      unfold probe_region
      by_cases hpoly : part.component.polygon.length > 0
      · rw [if_pos hpoly] at hinside ⊢
        exact hswept _ _ _ _ hinside
      · rw [if_neg hpoly] at hinside ⊢
        exact within_radius_mono _ _ _ _ hinside hradius
    obtain ⟨ref, m, hl⟩ := zero_length_last_success (probe_region swept_region radius)
      (fun q dl => circle_hits_component G q.component q.position q.angle radius
        (rel_start_of G baddie start) dl)
      (rel_start_of G baddie start) (test_parts baddie)
      (fun q hq => circle_hits_component_correct G swept_region radius q _ _ (hcircle q hq))
      ⟨part, hpart, hprobe⟩
    have hout : circle_outcomes G baddie radius start AZ_VZERO =
        run_tests (fun q dl => circle_hits_component G q.component q.position q.angle radius
          (rel_start_of G baddie start) dl)
          (rel_start_of G baddie start) AZ_VZERO (test_parts baddie) [] := by
      simp only [circle_outcomes, hzero, rel_start_of]
    refine ⟨_, (az_circle_hits_baddie_eq_report G baddie radius start AZ_VZERO couts hkind
      hslots hb).trans (by rw [hout]; simp only [circle_report, hl]; rfl), ?_⟩
    simp only [hworld]

end ZeroLengthClaim



section ZeroLengthFacts

theorem rat_geometry_sweep_answer (S : az_vector_t ℚ → Prop) (sradius mradius : ℚ)
    (center start delta : az_vector_t ℚ)
    (h : first_hit_answer S start delta
      (rat_geometry.az_ray_hits_circle (sradius + mradius) center start delta)) :
    first_hit_answer S start delta
      (rat_geometry.az_circle_hits_circle sradius center mradius start delta) := by
  simp only [rat_geometry, reference_geometry, reference_circle_hits_circle] at h ⊢
  cases hres : reference_ray_hits_circle rat_libm (sradius + mradius) center start delta with
  | none =>
      rw [hres] at h
      exact h
  | some pn =>
      obtain ⟨pos, n⟩ := pn
      rw [hres] at h
      exact h

/-- On a zero-length segment the rational ray-vs-circle routine answers correctly. -/
theorem rat_geometry_zero_length_correct (radius : ℚ) (center start : az_vector_t ℚ) :
    first_hit_answer (fun p => within_radius p center radius) start AZ_VZERO
      (rat_geometry.az_ray_hits_circle radius center start AZ_VZERO) := by
  refine (rat_geometry_circle_correct radius center start AZ_VZERO ?_).1
  intro _
  refine ⟨0, le_rfl, ?_⟩
  simp only [az_vdot, AZ_VZERO]
  ring

theorem two_part_test_parts :
    test_parts two_part_baddie =
      [main_part two_part_baddie,
       sub_part 0 { polygon := [], bounding_radius := 5, immunities := 0 }
         { position := ⟨30, 50⟩, angle := 0 },
       sub_part 1 { polygon := [], bounding_radius := 5, immunities := 0 }
         { position := ⟨60, 50⟩, angle := 0 }] :=
  test_parts_two two_part_baddie _ _ _ _ [] rfl rfl

end ZeroLengthFacts

section ZeroLengthWitness

theorem zero_length_queries_hit_at_start_witness :
    two_part_baddie.kind ≠ az_baddie_kind_t.AZ_BAD_NOTHING
    ∧ (sub_part 0 { polygon := [], bounding_radius := 5, immunities := 0 }
        { position := ⟨30, 50⟩, angle := 0 } : test_part ℚ) ∈ test_parts two_part_baddie
    ∧ component_region no_polygon_region
        (sub_part 0 { polygon := [], bounding_radius := 5, immunities := 0 }
          { position := ⟨30, 50⟩, angle := 0 })
        (rel_start_of rat_geometry two_part_baddie ⟨32, 51⟩)
    ∧ within_radius (⟨32, 51⟩ : az_vector_t ℚ) two_part_baddie.position
        two_part_baddie.data.overall_bounding_radius
    ∧ (∀ q ∈ test_parts two_part_baddie,
        ray_part_correct rat_geometry no_polygon_region q
          (rel_start_of rat_geometry two_part_baddie ⟨32, 51⟩) AZ_VZERO)
    ∧ (∀ q ∈ test_parts two_part_baddie,
        circle_part_correct rat_geometry no_swept_region 1 q
          (rel_start_of rat_geometry two_part_baddie ⟨32, 51⟩) AZ_VZERO)
    ∧ (∃ outs', az_ray_hits_baddie rat_geometry two_part_baddie ⟨32, 51⟩ AZ_VZERO
          fresh_ray_outs = some (true, outs')
        ∧ outs'.point_out = fresh_ray_outs.point_out.map (fun _ => ⟨32, 51⟩))
    ∧ (∃ outs', az_circle_hits_baddie rat_geometry two_part_baddie 1 ⟨32, 51⟩ AZ_VZERO
          fresh_circle_outs = some (true, outs')
        ∧ outs'.pos_out = fresh_circle_outs.pos_out.map (fun _ => ⟨32, 51⟩)) := by
  have hs := rat_geometry_rel_start two_part_baddie ⟨32, 51⟩ rfl rfl
  have hkind : two_part_baddie.kind ≠ az_baddie_kind_t.AZ_BAD_NOTHING := by decide
  have hpart : (sub_part 0 { polygon := [], bounding_radius := 5, immunities := 0 }
      { position := ⟨30, 50⟩, angle := 0 } : test_part ℚ) ∈ test_parts two_part_baddie := by
    rw [two_part_test_parts]
    simp
  have hinside : component_region no_polygon_region
      (sub_part 0 { polygon := [], bounding_radius := 5, immunities := 0 }
        { position := ⟨30, 50⟩, angle := 0 })
      (rel_start_of rat_geometry two_part_baddie ⟨32, 51⟩) := by
    rw [hs]
    simp only [component_region, sub_part, List.length_nil, gt_iff_lt, lt_self_iff_false,
      if_false, within_radius, dist_sq, az_vdot, az_vsub]
    constructor <;> norm_num
  have hencl : within_radius (⟨32, 51⟩ : az_vector_t ℚ) two_part_baddie.position
      two_part_baddie.data.overall_bounding_radius := by
    simp only [within_radius, dist_sq, az_vdot, az_vsub, two_part_baddie]
    constructor <;> norm_num
  have hray : ∀ q ∈ test_parts two_part_baddie,
      ray_part_correct rat_geometry no_polygon_region q
        (rel_start_of rat_geometry two_part_baddie ⟨32, 51⟩) AZ_VZERO := by
    rw [hs, two_part_test_parts]
    intro q hq
    simp only [List.mem_cons, List.mem_singleton, List.not_mem_nil, or_false] at hq
    rcases hq with rfl | rfl | rfl
    · simp only [ray_part_correct, main_part, two_part_baddie, List.length_nil, gt_iff_lt,
        lt_self_iff_false, if_false]
      exact rat_geometry_zero_length_correct _ _ _
    · simp only [ray_part_correct, sub_part, List.length_nil, gt_iff_lt,
        lt_self_iff_false, if_false]
      exact rat_geometry_zero_length_correct _ _ _
    · simp only [ray_part_correct, sub_part, List.length_nil, gt_iff_lt,
        lt_self_iff_false, if_false]
      exact rat_geometry_zero_length_correct _ _ _
  have hcircle : ∀ q ∈ test_parts two_part_baddie,
      circle_part_correct rat_geometry no_swept_region 1 q
        (rel_start_of rat_geometry two_part_baddie ⟨32, 51⟩) AZ_VZERO := by
    rw [hs, two_part_test_parts]
    intro q hq
    simp only [List.mem_cons, List.mem_singleton, List.not_mem_nil, or_false] at hq
    rcases hq with rfl | rfl | rfl
    · simp only [circle_part_correct, main_part, two_part_baddie, List.length_nil, gt_iff_lt,
        lt_self_iff_false, if_false]
      exact rat_geometry_sweep_answer _ _ _ _ _ _ (rat_geometry_zero_length_correct _ _ _)
    · simp only [circle_part_correct, sub_part, List.length_nil, gt_iff_lt,
        lt_self_iff_false, if_false]
      exact rat_geometry_sweep_answer _ _ _ _ _ _ (rat_geometry_zero_length_correct _ _ _)
    · simp only [circle_part_correct, sub_part, List.length_nil, gt_iff_lt,
        lt_self_iff_false, if_false]
      exact rat_geometry_sweep_answer _ _ _ _ _ _ (rat_geometry_zero_length_correct _ _ _)
  have hb1 : broad_test_complete rat_geometry ⟨32, 51⟩ AZ_VZERO two_part_baddie.position
      two_part_baddie.data.overall_bounding_radius := by
    intro _
    simp only [rat_geometry, reference_geometry, reference_ray_hits_bounding_circle,
      within_radius, dist_sq, az_vdot, az_vsub, ray_point, two_part_baddie, AZ_VZERO]
    norm_num
  have hb2 : broad_test_complete rat_geometry ⟨32, 51⟩ AZ_VZERO two_part_baddie.position
      (two_part_baddie.data.overall_bounding_radius + 1) := by
    intro _
    simp only [rat_geometry, reference_geometry, reference_ray_hits_bounding_circle,
      within_radius, dist_sq, az_vdot, az_vsub, ray_point, two_part_baddie, AZ_VZERO]
    norm_num
  have h := zero_length_queries_hit_at_start rat_geometry no_polygon_region no_swept_region
    two_part_baddie 1 ⟨32, 51⟩ fresh_ray_outs fresh_circle_outs
    (sub_part 0 { polygon := [], bounding_radius := 5, immunities := 0 }
      { position := ⟨30, 50⟩, angle := 0 })
    hkind (by decide)
    (by
      have hz : -two_part_baddie.angle = 0 := by
        simp only [two_part_baddie]
        norm_num
      rw [hz, rat_geometry_rotate_zero])
    (by
      have hz : two_part_baddie.angle = 0 := rfl
      rw [hs, hz, rat_geometry_rotate_zero]
      simp only [az_vsub, two_part_baddie, sub_zero])
    zero_le_one hpart hinside
    (fun _ _ _ _ h => absurd h (by simp [no_polygon_region]))
    hencl hb1 hb2 hray hcircle
  exact ⟨hkind, hpart, hinside, hencl, hray, hcircle, h.1, h.2⟩

end ZeroLengthWitness


section TwoPartFacts

theorem two_part_main_miss :
    rat_geometry.az_ray_hits_circle 10 ⟨0, 0⟩ ⟨0, 50⟩ ⟨100, 0⟩ = none := by
  simp only [rat_geometry, reference_geometry, reference_ray_hits_circle, rat_libm, az_vdot,
    az_vsub, ray_point]
  norm_num

theorem two_part_first_hit :
    rat_geometry.az_ray_hits_circle 5 ⟨30, 50⟩ ⟨0, 50⟩ ⟨100, 0⟩ =
      some (⟨25, 50⟩, ⟨-1, 0⟩) := by
  simp only [rat_geometry, reference_geometry, reference_ray_hits_circle, rat_libm, az_vdot,
    az_vsub, ray_point]
  norm_num

theorem two_part_second_miss :
    rat_geometry.az_ray_hits_circle 5 ⟨60, 50⟩ ⟨0, 50⟩ ⟨25, 0⟩ = none := by
  simp only [rat_geometry, reference_geometry, reference_ray_hits_circle, rat_libm, az_vdot,
    az_vsub, ray_point]
  norm_num

/-- The ray from (0, 50) with displacement (100, 0) passes above the main body of
`two_part_baddie`, strikes sub-part 0 at (25, 50) and, shortened to end there, no longer
reaches sub-part 1. -/
theorem two_part_hit :
    az_ray_hits_baddie rat_geometry two_part_baddie ⟨0, 50⟩ ⟨100, 0⟩ fresh_ray_outs =
      some (true,
        { point_out := some ⟨25, 50⟩, normal_out := some ⟨-1, 0⟩,
          component_out := some (component_ref.component 0) }) := by
  have hrem1 : remaining_delta (⟨0, 50⟩ : az_vector_t ℚ) ⟨100, 0⟩
      [(component_ref.main_body, none)] = ⟨100, 0⟩ := by
    simp only [remaining_delta, last_success, Option.map]
  have hrem2 : remaining_delta (⟨0, 50⟩ : az_vector_t ℚ) ⟨100, 0⟩
      [(component_ref.main_body, none),
       (component_ref.component 0, some (⟨25, 50⟩, ⟨-1, 0⟩))] = ⟨25, 0⟩ := by
    simp only [remaining_delta, last_success, Option.map, az_vsub, az_vector_t.mk.injEq]
    constructor <;> norm_num
  have hM : ray_hits_component rat_geometry two_part_baddie.data.main_body AZ_VZERO 0
      ⟨0, 50⟩ ⟨100, 0⟩ = none := by
    simp only [ray_hits_component, two_part_baddie, List.length_nil, gt_iff_lt,
      lt_self_iff_false, if_false, AZ_VZERO, two_part_main_miss]
  have hX : ray_hits_component rat_geometry
      { polygon := [], bounding_radius := 5, immunities := 0 } ⟨30, 50⟩ 0 ⟨0, 50⟩
      (remaining_delta ⟨0, 50⟩ ⟨100, 0⟩ [(component_ref.main_body, none)]) =
      some (⟨25, 50⟩, ⟨-1, 0⟩) := by
    rw [hrem1]
    simp only [ray_hits_component, List.length_nil, gt_iff_lt, lt_self_iff_false, if_false,
      two_part_first_hit]
  have hY : ray_hits_component rat_geometry
      { polygon := [], bounding_radius := 5, immunities := 0 } ⟨60, 50⟩ 0 ⟨0, 50⟩
      (remaining_delta ⟨0, 50⟩ ⟨100, 0⟩
        [(component_ref.main_body, none),
         (component_ref.component 0, some (⟨25, 50⟩, ⟨-1, 0⟩))]) = none := by
    rw [hrem2]
    simp only [ray_hits_component, List.length_nil, gt_iff_lt, lt_self_iff_false, if_false,
      two_part_second_miss]
  rw [az_ray_hits_baddie_eval_two rat_geometry two_part_baddie ⟨0, 50⟩ ⟨100, 0⟩ fresh_ray_outs
    { polygon := [], bounding_radius := 5, immunities := 0 }
    { polygon := [], bounding_radius := 5, immunities := 0 }
    { position := ⟨30, 50⟩, angle := 0 } { position := ⟨60, 50⟩, angle := 0 } []
    ⟨0, 50⟩ ⟨100, 0⟩ none (some (⟨25, 50⟩, ⟨-1, 0⟩)) none (by decide) rfl rfl
    two_part_broad_hit (rat_geometry_rel_start two_part_baddie _ rfl rfl)
    (rat_geometry_rel_delta two_part_baddie _ rfl) hM hX hY]
  have hz : two_part_baddie.angle = 0 := rfl
  simp only [ray_report, last_success, Option.map, to_world, hz, rat_geometry_rotate_zero,
    fresh_ray_outs, two_part_baddie, az_vadd, add_zero]

end TwoPartFacts

/-! ## The queries leave the baddie as it was -/

section FrameLemmas

variable {R : Type} [LinearOrderedField R]

theorem ray_test_mem_baddie (G : Geometry R) (s : az_vector_t R) (ref : component_ref)
    (c : az_component_data_t R) (p : az_vector_t R) (a : R) (f : ray_frame R) :
    (ray_test_mem G s ref c p a f).baddie = f.baddie
    ∧ (ray_test_mem G s ref c p a f).outs.point_out = f.outs.point_out
    ∧ (ray_test_mem G s ref c p a f).outs.component_out = f.outs.component_out := by
  unfold ray_test_mem
  cases h : ray_hits_component G c p a s f.rel_delta with
  | none => exact ⟨rfl, rfl, rfl⟩
  | some pn => exact ⟨rfl, rfl, rfl⟩

theorem ray_test_mem_locals (G : Geometry R) (s : az_vector_t R) (ref : component_ref)
    (c : az_component_data_t R) (p : az_vector_t R) (a : R) (f : ray_frame R) :
    ray_frame_locals (ray_test_mem G s ref c p a f) =
      ray_test G s ref c p a (ray_frame_locals f) := by
  unfold ray_test_mem ray_test
  have e : (ray_frame_locals f).rel_delta = f.rel_delta := rfl
  rw [e]
  cases h : ray_hits_component G c p a s f.rel_delta with
  | none => rfl
  | some pn => rfl

theorem ray_loop_mem_baddie (G : Geometry R) (s : az_vector_t R)
    (comps : List (az_component_data_t R)) (i : Nat) (f f' : ray_frame R)
    (h : ray_loop_mem G s comps i f = some f') :
    f'.baddie = f.baddie ∧ f'.outs.point_out = f.outs.point_out
    ∧ f'.outs.component_out = f.outs.component_out := by
  induction comps generalizing i f with
  | nil =>
      simp only [ray_loop_mem, Option.some.injEq] at h
      subst h
      exact ⟨rfl, rfl, rfl⟩
  | cons c rest ih =>
      cases hget : f.baddie.components.get? i with
      | none =>
          rw [ray_loop_mem, hget] at h
          cases h
      | some pose =>
          simp only [ray_loop_mem, hget] at h
          obtain ⟨h1, h2, h3⟩ := ih (i + 1) _ h
          obtain ⟨g1, g2, g3⟩ :=
            ray_test_mem_baddie G s (component_ref.component i) c pose.position pose.angle f
          exact ⟨h1.trans g1, h2.trans g2, h3.trans g3⟩

theorem ray_loop_mem_locals (G : Geometry R) (s : az_vector_t R)
    (comps : List (az_component_data_t R)) (i : Nat) (f : ray_frame R) :
    ray_loop G f.baddie s comps i (ray_frame_locals f) =
      (ray_loop_mem G s comps i f).map ray_frame_locals := by
  induction comps generalizing i f with
  | nil => rfl
  | cons c rest ih =>
      cases hget : f.baddie.components.get? i with
      | none => simp only [ray_loop, ray_loop_mem, hget, Option.map_none']
      | some pose =>
          simp only [ray_loop, ray_loop_mem, hget]
          rw [← ray_test_mem_locals]
          have hb := (ray_test_mem_baddie G s (component_ref.component i) c pose.position
            pose.angle f).1
          rw [← hb]
          exact ih (i + 1) _

/-- The ray query on the frame computes what `az_ray_hits_baddie` computes. -/
theorem az_ray_hits_baddie_mem_eq (G : Geometry R) (baddie : az_baddie_t R)
    (start delta : az_vector_t R) (outs : ray_outs R) :
    (az_ray_hits_baddie_mem G start delta baddie outs).map (fun r => (r.1, r.2.2)) =
      az_ray_hits_baddie G baddie start delta outs := by
  by_cases hkind : baddie.kind = az_baddie_kind_t.AZ_BAD_NOTHING
  · unfold az_ray_hits_baddie_mem az_ray_hits_baddie
    simp [hkind]
  · cases hbroad : G.az_ray_hits_bounding_circle start delta baddie.position
        baddie.data.overall_bounding_radius with
    | false =>
        unfold az_ray_hits_baddie_mem az_ray_hits_baddie
        simp [hkind, hbroad]
    | true =>
        unfold az_ray_hits_baddie_mem az_ray_hits_baddie
        simp only [hkind, if_false, hbroad, Bool.not_true, Bool.false_eq_true]
        have hloc := ray_test_mem_locals G
          (G.az_vrotate (az_vsub start baddie.position) (-baddie.angle))
          component_ref.main_body baddie.data.main_body AZ_VZERO 0
          { baddie := baddie, outs := outs, rel_delta := G.az_vrotate delta (-baddie.angle),
            hit_component := none, point := AZ_VZERO }
        obtain ⟨hb, hp, hc⟩ := ray_test_mem_baddie G
          (G.az_vrotate (az_vsub start baddie.position) (-baddie.angle))
          component_ref.main_body baddie.data.main_body AZ_VZERO 0
          { baddie := baddie, outs := outs, rel_delta := G.az_vrotate delta (-baddie.angle),
            hit_component := none, point := AZ_VZERO }
        have hloop := ray_loop_mem_locals G
          (G.az_vrotate (az_vsub start baddie.position) (-baddie.angle))
          baddie.data.components 0
          (ray_test_mem G (G.az_vrotate (az_vsub start baddie.position) (-baddie.angle))
            component_ref.main_body baddie.data.main_body AZ_VZERO 0
            { baddie := baddie, outs := outs, rel_delta := G.az_vrotate delta (-baddie.angle),
              hit_component := none, point := AZ_VZERO })
        rw [hloc, hb] at hloop
        simp only [ray_frame_locals] at hloop
        simp only [hb]
        rw [hloop]
        cases hm : ray_loop_mem G (G.az_vrotate (az_vsub start baddie.position) (-baddie.angle))
            baddie.data.components 0
            (ray_test_mem G (G.az_vrotate (az_vsub start baddie.position) (-baddie.angle))
              component_ref.main_body baddie.data.main_body AZ_VZERO 0
              { baddie := baddie, outs := outs, rel_delta := G.az_vrotate delta (-baddie.angle),
                hit_component := none, point := AZ_VZERO }) with
        | none => rfl
        | some f =>
            obtain ⟨h1, h2, h3⟩ := ray_loop_mem_baddie G _ _ 0 _ f hm
            rw [hb] at h1
            rw [hp] at h2
            rw [hc] at h3
            simp only [Option.map_some', ray_frame_locals]
            cases hh : f.hit_component with
            | none =>
                simp only [Option.map_some', Option.some.injEq, Prod.mk.injEq, true_and]
                rw [← h2, ← h3]
            | some hit =>
                simp only [Option.map_some', h1, h2, h3]

/-- The ray query hands the baddie back as it received it. -/
theorem az_ray_hits_baddie_mem_frame (G : Geometry R) (baddie b' : az_baddie_t R)
    (start delta : az_vector_t R) (outs outs' : ray_outs R) (ret : Bool)
    (h : az_ray_hits_baddie_mem G start delta baddie outs = some (ret, b', outs')) :
    b' = baddie := by
  by_cases hkind : baddie.kind = az_baddie_kind_t.AZ_BAD_NOTHING
  · unfold az_ray_hits_baddie_mem at h
    simp [hkind] at h
  · unfold az_ray_hits_baddie_mem at h
    cases hbroad : G.az_ray_hits_bounding_circle start delta baddie.position
        baddie.data.overall_bounding_radius with
    | false =>
        simp only [hkind, if_false, hbroad, Bool.not_false, if_true, Option.some.injEq,
          Prod.mk.injEq] at h
        exact h.2.1.symm
    | true =>
        simp only [hkind, if_false, hbroad, Bool.not_true, Bool.false_eq_true] at h
        obtain ⟨hb, -, -⟩ := ray_test_mem_baddie G
          (G.az_vrotate (az_vsub start baddie.position) (-baddie.angle))
          component_ref.main_body baddie.data.main_body AZ_VZERO 0
          { baddie := baddie, outs := outs, rel_delta := G.az_vrotate delta (-baddie.angle),
            hit_component := none, point := AZ_VZERO }
        simp only [hb] at h
        cases hm : ray_loop_mem G (G.az_vrotate (az_vsub start baddie.position) (-baddie.angle))
            baddie.data.components 0
            (ray_test_mem G (G.az_vrotate (az_vsub start baddie.position) (-baddie.angle))
              component_ref.main_body baddie.data.main_body AZ_VZERO 0
              { baddie := baddie, outs := outs, rel_delta := G.az_vrotate delta (-baddie.angle),
                hit_component := none, point := AZ_VZERO }) with
        | none => simp [hm] at h
        | some f =>
            obtain ⟨h1, -, -⟩ := ray_loop_mem_baddie G _ _ 0 _ f hm
            rw [hb] at h1
            rw [hm] at h
            cases hh : f.hit_component with
            | none =>
                simp only [hh, Option.some.injEq, Prod.mk.injEq] at h
                rw [← h.2.1, h1]
            | some hit =>
                simp only [hh, Option.some.injEq, Prod.mk.injEq] at h
                rw [← h.2.1, h1]


theorem circle_test_mem_baddie (G : Geometry R) (radius : R) (s : az_vector_t R) (ref : component_ref)
    (c : az_component_data_t R) (p : az_vector_t R) (a : R) (f : circle_frame R) :
    (circle_test_mem G radius s ref c p a f).baddie = f.baddie
    ∧ (circle_test_mem G radius s ref c p a f).outs.pos_out = f.outs.pos_out
    ∧ (circle_test_mem G radius s ref c p a f).outs.component_out = f.outs.component_out := by
  unfold circle_test_mem
  cases h : circle_hits_component G c p a radius s f.rel_delta with
  | none => exact ⟨rfl, rfl, rfl⟩
  | some pn => exact ⟨rfl, rfl, rfl⟩

theorem circle_test_mem_locals (G : Geometry R) (radius : R) (s : az_vector_t R) (ref : component_ref)
    (c : az_component_data_t R) (p : az_vector_t R) (a : R) (f : circle_frame R) :
    circle_frame_locals (circle_test_mem G radius s ref c p a f) =
      circle_test G radius s ref c p a (circle_frame_locals f) := by
  unfold circle_test_mem circle_test
  have e : (circle_frame_locals f).rel_delta = f.rel_delta := rfl
  rw [e]
  cases h : circle_hits_component G c p a radius s f.rel_delta with
  | none => rfl
  | some pn => rfl

theorem circle_loop_mem_baddie (G : Geometry R) (radius : R) (s : az_vector_t R)
    (comps : List (az_component_data_t R)) (i : Nat) (f f' : circle_frame R)
    (h : circle_loop_mem G radius s comps i f = some f') :
    f'.baddie = f.baddie ∧ f'.outs.pos_out = f.outs.pos_out
    ∧ f'.outs.component_out = f.outs.component_out := by
  induction comps generalizing i f with
  | nil =>
      simp only [circle_loop_mem, Option.some.injEq] at h
      subst h
      exact ⟨rfl, rfl, rfl⟩
  | cons c rest ih =>
      cases hget : f.baddie.components.get? i with
      | none =>
          rw [circle_loop_mem, hget] at h
          cases h
      | some pose =>
          simp only [circle_loop_mem, hget] at h
          obtain ⟨h1, h2, h3⟩ := ih (i + 1) _ h
          obtain ⟨g1, g2, g3⟩ :=
            circle_test_mem_baddie G radius s (component_ref.component i) c pose.position pose.angle f
          exact ⟨h1.trans g1, h2.trans g2, h3.trans g3⟩

theorem circle_loop_mem_locals (G : Geometry R) (radius : R) (s : az_vector_t R)
    (comps : List (az_component_data_t R)) (i : Nat) (f : circle_frame R) :
    circle_loop G f.baddie radius s comps i (circle_frame_locals f) =
      (circle_loop_mem G radius s comps i f).map circle_frame_locals := by
  induction comps generalizing i f with
  | nil => rfl
  | cons c rest ih =>
      cases hget : f.baddie.components.get? i with
      | none => simp only [circle_loop, circle_loop_mem, hget, Option.map_none']
      | some pose =>
          simp only [circle_loop, circle_loop_mem, hget]
          rw [← circle_test_mem_locals]
          have hb := (circle_test_mem_baddie G radius s (component_ref.component i) c pose.position
            pose.angle f).1
          rw [← hb]
          exact ih (i + 1) _

/-- The swept-circle query on the frame computes what `az_circle_hits_baddie` computes. -/
theorem az_circle_hits_baddie_mem_eq (G : Geometry R) (radius : R) (baddie : az_baddie_t R)
    (start delta : az_vector_t R) (outs : circle_outs R) :
    (az_circle_hits_baddie_mem G radius start delta baddie outs).map (fun r => (r.1, r.2.2)) =
      az_circle_hits_baddie G baddie radius start delta outs := by
  by_cases hkind : baddie.kind = az_baddie_kind_t.AZ_BAD_NOTHING
  · unfold az_circle_hits_baddie_mem az_circle_hits_baddie
    simp [hkind]
  · cases hbroad : G.az_ray_hits_bounding_circle start delta baddie.position
        (baddie.data.overall_bounding_radius + radius) with
    | false =>
        unfold az_circle_hits_baddie_mem az_circle_hits_baddie
        simp [hkind, hbroad]
    | true =>
        unfold az_circle_hits_baddie_mem az_circle_hits_baddie
        simp only [hkind, if_false, hbroad, Bool.not_true, Bool.false_eq_true]
        have hloc := circle_test_mem_locals G radius
          (G.az_vrotate (az_vsub start baddie.position) (-baddie.angle))
          component_ref.main_body baddie.data.main_body AZ_VZERO 0
          { baddie := baddie, outs := outs, rel_delta := G.az_vrotate delta (-baddie.angle),
            hit_component := none, pos := AZ_VZERO }
        obtain ⟨hb, hp, hc⟩ := circle_test_mem_baddie G radius
          (G.az_vrotate (az_vsub start baddie.position) (-baddie.angle))
          component_ref.main_body baddie.data.main_body AZ_VZERO 0
          { baddie := baddie, outs := outs, rel_delta := G.az_vrotate delta (-baddie.angle),
            hit_component := none, pos := AZ_VZERO }
        have hloop := circle_loop_mem_locals G radius
          (G.az_vrotate (az_vsub start baddie.position) (-baddie.angle))
          baddie.data.components 0
          (circle_test_mem G radius (G.az_vrotate (az_vsub start baddie.position) (-baddie.angle))
            component_ref.main_body baddie.data.main_body AZ_VZERO 0
            { baddie := baddie, outs := outs, rel_delta := G.az_vrotate delta (-baddie.angle),
              hit_component := none, pos := AZ_VZERO })
        rw [hloc, hb] at hloop
        simp only [circle_frame_locals] at hloop
        simp only [hb]
        rw [hloop]
        cases hm : circle_loop_mem G radius (G.az_vrotate (az_vsub start baddie.position) (-baddie.angle))
            baddie.data.components 0
            (circle_test_mem G radius (G.az_vrotate (az_vsub start baddie.position) (-baddie.angle))
              component_ref.main_body baddie.data.main_body AZ_VZERO 0
              { baddie := baddie, outs := outs, rel_delta := G.az_vrotate delta (-baddie.angle),
                hit_component := none, pos := AZ_VZERO }) with
        | none => rfl
        | some f =>
            obtain ⟨h1, h2, h3⟩ := circle_loop_mem_baddie G radius _ _ 0 _ f hm
            rw [hb] at h1
            rw [hp] at h2
            rw [hc] at h3
            simp only [Option.map_some', circle_frame_locals]
            cases hh : f.hit_component with
            | none =>
                simp only [Option.map_some', Option.some.injEq, Prod.mk.injEq, true_and]
                rw [← h2, ← h3]
            | some hit =>
                simp only [Option.map_some', h1, h2, h3]

/-- The swept-circle query hands the baddie back as it received it. -/
theorem az_circle_hits_baddie_mem_frame (G : Geometry R) (radius : R) (baddie b' : az_baddie_t R)
    (start delta : az_vector_t R) (outs outs' : circle_outs R) (ret : Bool)
    (h : az_circle_hits_baddie_mem G radius start delta baddie outs = some (ret, b', outs')) :
    b' = baddie := by
  by_cases hkind : baddie.kind = az_baddie_kind_t.AZ_BAD_NOTHING
  · unfold az_circle_hits_baddie_mem at h
    simp [hkind] at h
  · unfold az_circle_hits_baddie_mem at h
    cases hbroad : G.az_ray_hits_bounding_circle start delta baddie.position
        (baddie.data.overall_bounding_radius + radius) with
    | false =>
        simp only [hkind, if_false, hbroad, Bool.not_false, if_true, Option.some.injEq,
          Prod.mk.injEq] at h
        exact h.2.1.symm
    | true =>
        simp only [hkind, if_false, hbroad, Bool.not_true, Bool.false_eq_true] at h
        obtain ⟨hb, -, -⟩ := circle_test_mem_baddie G radius
          (G.az_vrotate (az_vsub start baddie.position) (-baddie.angle))
          component_ref.main_body baddie.data.main_body AZ_VZERO 0
          { baddie := baddie, outs := outs, rel_delta := G.az_vrotate delta (-baddie.angle),
            hit_component := none, pos := AZ_VZERO }
        simp only [hb] at h
        cases hm : circle_loop_mem G radius (G.az_vrotate (az_vsub start baddie.position) (-baddie.angle))
            baddie.data.components 0
            (circle_test_mem G radius (G.az_vrotate (az_vsub start baddie.position) (-baddie.angle))
              component_ref.main_body baddie.data.main_body AZ_VZERO 0
              { baddie := baddie, outs := outs, rel_delta := G.az_vrotate delta (-baddie.angle),
                hit_component := none, pos := AZ_VZERO }) with
        | none => simp [hm] at h
        | some f =>
            obtain ⟨h1, -, -⟩ := circle_loop_mem_baddie G radius _ _ 0 _ f hm
            rw [hb] at h1
            rw [hm] at h
            cases hh : f.hit_component with
            | none =>
                simp only [hh, Option.some.injEq, Prod.mk.injEq] at h
                rw [← h.2.1, h1]
            | some hit =>
                simp only [hh, Option.some.injEq, Prod.mk.injEq] at h
                rw [← h.2.1, h1]

end FrameLemmas

/-! ## The broad phase and the no-hit result -/

section QueryResults

variable {R : Type} [LinearOrderedField R]

/-- A ray query whose pretest fails returns false and leaves the output locations alone. -/
theorem az_ray_hits_baddie_of_broad_false (G : Geometry R) (baddie : az_baddie_t R)
    (start delta : az_vector_t R) (outs : ray_outs R)
    (hkind : baddie.kind ≠ az_baddie_kind_t.AZ_BAD_NOTHING)
    (hbroad : G.az_ray_hits_bounding_circle start delta baddie.position
      baddie.data.overall_bounding_radius = false) :
    az_ray_hits_baddie G baddie start delta outs = some (false, outs) := by
  unfold az_ray_hits_baddie
  simp [hkind, hbroad]

/-- A sweep query whose pretest fails returns false and leaves the output locations
alone. -/
theorem az_circle_hits_baddie_of_broad_false (G : Geometry R) (baddie : az_baddie_t R)
    (radius : R) (start delta : az_vector_t R) (outs : circle_outs R)
    (hkind : baddie.kind ≠ az_baddie_kind_t.AZ_BAD_NOTHING)
    (hbroad : G.az_ray_hits_bounding_circle start delta baddie.position
      (baddie.data.overall_bounding_radius + radius) = false) :
    az_circle_hits_baddie G baddie radius start delta outs = some (false, outs) := by
  unfold az_circle_hits_baddie
  simp [hkind, hbroad]

/-- A ray query that returns after the pretest passed found a pose slot for every
sub-part of the template. -/
theorem az_ray_hits_baddie_some_slots (G : Geometry R) (baddie : az_baddie_t R)
    (start delta : az_vector_t R) (outs : ray_outs R) (r : Bool × ray_outs R)
    (h : az_ray_hits_baddie G baddie start delta outs = some r)
    (hbroad : G.az_ray_hits_bounding_circle start delta baddie.position
      baddie.data.overall_bounding_radius = true) :
    baddie.kind ≠ az_baddie_kind_t.AZ_BAD_NOTHING
    ∧ baddie.data.components.length ≤ baddie.components.length := by
  by_cases hkind : baddie.kind = az_baddie_kind_t.AZ_BAD_NOTHING
  · unfold az_ray_hits_baddie at h
    simp [hkind] at h
  · refine ⟨hkind, ?_⟩
    unfold az_ray_hits_baddie at h
    simp only [hkind, if_false, hbroad, Bool.not_true, Bool.false_eq_true] at h
    cases hloop : ray_loop G baddie
        (G.az_vrotate (az_vsub start baddie.position) (-baddie.angle))
        baddie.data.components 0
        (ray_test G (G.az_vrotate (az_vsub start baddie.position) (-baddie.angle))
          component_ref.main_body baddie.data.main_body AZ_VZERO 0
          { rel_delta := G.az_vrotate delta (-baddie.angle)
            hit_component := none
            point := AZ_VZERO
            normal_out := outs.normal_out }) with
    | none => simp [hloop] at h
    | some st =>
        rcases ray_loop_slots G baddie _ _ 0 _ st hloop with hnil | hle
        · rw [hnil]
          simp
        · omega

/-- A sweep query that returns after the pretest passed found a pose slot for every
sub-part of the template. -/
theorem az_circle_hits_baddie_some_slots (G : Geometry R) (baddie : az_baddie_t R)
    (radius : R) (start delta : az_vector_t R) (outs : circle_outs R)
    (r : Bool × circle_outs R)
    (h : az_circle_hits_baddie G baddie radius start delta outs = some r)
    (hbroad : G.az_ray_hits_bounding_circle start delta baddie.position
      (baddie.data.overall_bounding_radius + radius) = true) :
    baddie.kind ≠ az_baddie_kind_t.AZ_BAD_NOTHING
    ∧ baddie.data.components.length ≤ baddie.components.length := by
  by_cases hkind : baddie.kind = az_baddie_kind_t.AZ_BAD_NOTHING
  · unfold az_circle_hits_baddie at h
    simp [hkind] at h
  · refine ⟨hkind, ?_⟩
    unfold az_circle_hits_baddie at h
    simp only [hkind, if_false, hbroad, Bool.not_true, Bool.false_eq_true] at h
    cases hloop : circle_loop G baddie radius
        (G.az_vrotate (az_vsub start baddie.position) (-baddie.angle))
        baddie.data.components 0
        (circle_test G radius (G.az_vrotate (az_vsub start baddie.position) (-baddie.angle))
          component_ref.main_body baddie.data.main_body AZ_VZERO 0
          { rel_delta := G.az_vrotate delta (-baddie.angle)
            hit_component := none
            pos := AZ_VZERO
            impact_out := outs.impact_out }) with
    | none => simp [hloop] at h
    | some st =>
        rcases circle_loop_slots G baddie radius _ _ 0 _ st hloop with hnil | hle
        · rw [hnil]
          simp
        · omega

/-- A ray query that returns false hands the output locations back as they were. -/
theorem az_ray_hits_baddie_false_outs (G : Geometry R) (baddie : az_baddie_t R)
    (start delta : az_vector_t R) (outs outs' : ray_outs R)
    (h : az_ray_hits_baddie G baddie start delta outs = some (false, outs')) :
    outs' = outs := by
  cases hbroad : G.az_ray_hits_bounding_circle start delta baddie.position
      baddie.data.overall_bounding_radius with
  | false =>
      by_cases hkind : baddie.kind = az_baddie_kind_t.AZ_BAD_NOTHING
      · unfold az_ray_hits_baddie at h
        simp [hkind] at h
      · rw [az_ray_hits_baddie_of_broad_false G baddie start delta outs hkind hbroad] at h
        simp only [Option.some.injEq, Prod.mk.injEq, true_and] at h
        exact h.symm
  | true =>
      obtain ⟨hkind, hslots⟩ := az_ray_hits_baddie_some_slots G baddie start delta outs _ h hbroad
      rw [az_ray_hits_baddie_eq_report G baddie start delta outs hkind hslots hbroad] at h
      cases hl : last_success (ray_outcomes G baddie start delta) with
      | none =>
          simp only [ray_report, hl, Option.some.injEq, Prod.mk.injEq, true_and] at h
          exact h.symm
      | some r =>
          obtain ⟨ref, p, n⟩ := r
          simp [ray_report, hl] at h

/-- A sweep query that returns false hands the output locations back as they were. -/
theorem az_circle_hits_baddie_false_outs (G : Geometry R) (baddie : az_baddie_t R)
    (radius : R) (start delta : az_vector_t R) (outs outs' : circle_outs R)
    (h : az_circle_hits_baddie G baddie radius start delta outs = some (false, outs')) :
    outs' = outs := by
  cases hbroad : G.az_ray_hits_bounding_circle start delta baddie.position
      (baddie.data.overall_bounding_radius + radius) with
  | false =>
      by_cases hkind : baddie.kind = az_baddie_kind_t.AZ_BAD_NOTHING
      · unfold az_circle_hits_baddie at h
        simp [hkind] at h
      · rw [az_circle_hits_baddie_of_broad_false G baddie radius start delta outs hkind
          hbroad] at h
        simp only [Option.some.injEq, Prod.mk.injEq, true_and] at h
        exact h.symm
  | true =>
      obtain ⟨hkind, hslots⟩ :=
        az_circle_hits_baddie_some_slots G baddie radius start delta outs _ h hbroad
      rw [az_circle_hits_baddie_eq_report G baddie radius start delta outs hkind hslots
        hbroad] at h
      cases hl : last_success (circle_outcomes G baddie radius start delta) with
      | none =>
          simp only [circle_report, hl, Option.some.injEq, Prod.mk.injEq, true_and] at h
          exact h.symm
      | some r =>
          obtain ⟨ref, p, n⟩ := r
          simp [circle_report, hl] at h

/-- A baddie without sub-parts whose main body the probe touches: the sweep query reports
that hit. -/
theorem az_circle_hits_baddie_main_hit (G : Geometry R) (baddie : az_baddie_t R)
    (radius : R) (start delta : az_vector_t R) (outs : circle_outs R) (q m : az_vector_t R)
    (hkind : baddie.kind ≠ az_baddie_kind_t.AZ_BAD_NOTHING)
    (hnone : baddie.data.components = [])
    (hbroad : G.az_ray_hits_bounding_circle start delta baddie.position
      (baddie.data.overall_bounding_radius + radius) = true)
    (hmain : circle_hits_component G baddie.data.main_body AZ_VZERO 0 radius
      (G.az_vrotate (az_vsub start baddie.position) (-baddie.angle))
      (G.az_vrotate delta (-baddie.angle)) = some (q, m)) :
    az_circle_hits_baddie G baddie radius start delta outs =
      some (true,
        { pos_out := outs.pos_out.map
            (fun _ => az_vadd (G.az_vrotate q baddie.angle) baddie.position)
          impact_out := outs.impact_out.map
            (fun _ => az_vadd (G.az_vrotate m baddie.angle) baddie.position)
          component_out := outs.component_out.map (fun _ => component_ref.main_body) }) := by
  unfold az_circle_hits_baddie
  simp only [hkind, if_false, hbroad, Bool.not_true, Bool.false_eq_true, hnone,
    circle_loop, circle_test, hmain]
  cases hn : outs.impact_out <;> simp

end QueryResults

/-! ## The example baddie under a probe of radius 1 -/

section SweepFacts

theorem scenario_sweep_broad_miss :
    rat_geometry.az_ray_hits_bounding_circle ⟨0, 50⟩ ⟨200, 0⟩ scenario_baddie.position
      (scenario_baddie.data.overall_bounding_radius + 1) = false := by
  simp only [rat_geometry, reference_geometry, reference_ray_hits_bounding_circle,
    within_radius, dist_sq, az_vdot, az_vsub, ray_point, scenario_baddie]
  norm_num

theorem scenario_sweep_broad_hit :
    rat_geometry.az_ray_hits_bounding_circle ⟨0, 0⟩ ⟨200, 0⟩ scenario_baddie.position
      (scenario_baddie.data.overall_bounding_radius + 1) = true := by
  simp only [rat_geometry, reference_geometry, reference_ray_hits_bounding_circle,
    within_radius, dist_sq, az_vdot, az_vsub, ray_point, scenario_baddie]
  norm_num

theorem reference_circle_hits_circle_of_ray {R : Type} [LinearOrderedField R] (m : Libm R)
    (sradius mradius : R) (center start delta : az_vector_t R) (px py nx ny : R)
    (h : reference_ray_hits_circle m (sradius + mradius) center start delta =
      some (⟨px, py⟩, ⟨nx, ny⟩)) :
    reference_circle_hits_circle m sradius center mradius start delta =
      some (⟨px, py⟩, ⟨px - mradius * nx, py - mradius * ny⟩) := by
  unfold reference_circle_hits_circle
  rw [h]

theorem scenario_sweep_ray_hit :
    reference_ray_hits_circle rat_libm 11 ⟨0, 0⟩ ⟨-100, 0⟩ ⟨200, 0⟩ =
      some (⟨-11, 0⟩, ⟨-1, 0⟩) := by
  simp only [reference_ray_hits_circle, rat_libm, az_vdot, az_vsub, ray_point]
  norm_num

theorem scenario_sweep_circle_hit :
    rat_geometry.az_circle_hits_circle 10 ⟨0, 0⟩ 1 ⟨-100, 0⟩ ⟨200, 0⟩ =
      some (⟨-11, 0⟩, ⟨-10, 0⟩) := by
  have e : (10 : ℚ) + 1 = 11 := by norm_num
  have h := reference_circle_hits_circle_of_ray rat_libm 10 1 ⟨0, 0⟩ ⟨-100, 0⟩ ⟨200, 0⟩
    (-11) 0 (-1) 0 (by rw [e]; exact scenario_sweep_ray_hit)
  have e1 : (-11 : ℚ) - 1 * -1 = -10 := by norm_num
  have e2 : (0 : ℚ) - 1 * 0 = 0 := by norm_num
  rw [e1, e2] at h
  exact h

theorem scenario_sweep_main_body_hit :
    circle_hits_component rat_geometry scenario_baddie.data.main_body AZ_VZERO 0 1
      (rat_geometry.az_vrotate (az_vsub ⟨0, 0⟩ scenario_baddie.position)
        (-scenario_baddie.angle))
      (rat_geometry.az_vrotate ⟨200, 0⟩ (-scenario_baddie.angle)) =
      some (⟨-11, 0⟩, ⟨-10, 0⟩) := by
  have e : az_vsub (⟨0, 0⟩ : az_vector_t ℚ) ⟨100, 0⟩ = ⟨-100, 0⟩ := by
    simp only [az_vsub]
    norm_num
  have hz : -scenario_baddie.angle = 0 := by
    simp only [scenario_baddie]
    norm_num
  rw [hz, rat_geometry_rotate_zero, rat_geometry_rotate_zero]
  simp only [circle_hits_component, scenario_baddie, List.length_nil, gt_iff_lt,
    lt_self_iff_false, if_false, AZ_VZERO, e, scenario_sweep_circle_hit]

theorem scenario_sweep_hit :
    az_circle_hits_baddie rat_geometry scenario_baddie 1 ⟨0, 0⟩ ⟨200, 0⟩ fresh_circle_outs =
      some (true,
        { pos_out := some ⟨89, 0⟩, impact_out := some ⟨90, 0⟩,
          component_out := some component_ref.main_body }) := by
  rw [az_circle_hits_baddie_main_hit rat_geometry scenario_baddie 1 ⟨0, 0⟩ ⟨200, 0⟩
    fresh_circle_outs ⟨-11, 0⟩ ⟨-10, 0⟩ (by decide) rfl scenario_sweep_broad_hit
    scenario_sweep_main_body_hit]
  have hz : scenario_baddie.angle = 0 := rfl
  rw [hz, rat_geometry_rotate_zero, rat_geometry_rotate_zero]
  simp only [fresh_circle_outs, Option.map_some', scenario_baddie, az_vadd]
  norm_num

end SweepFacts

/-! ## Claims about the broad phase, the outputs and the frame of the queries -/

section QueryClaims

variable {R : Type} [LinearOrderedField R]

/-- C11: the broad phase of `az_circle_hits_baddie` tests the sweep of the probe's centre,
from `start` along `delta`, against the circle about `baddie.position` with radius
`overall_bounding_radius + radius`.  When that pretest fails the query returns false and
stores nothing, whatever the rotation and the component routines are, so no component
test runs; and a query that reports a hit passed that pretest. -/
theorem az_circle_hits_baddie_broad_phase_reject (G : Geometry R) (baddie : az_baddie_t R)
    (radius : R) (start delta : az_vector_t R) (outs : circle_outs R)
    (hkind : baddie.kind ≠ az_baddie_kind_t.AZ_BAD_NOTHING) :
    (G.az_ray_hits_bounding_circle start delta baddie.position
        (baddie.data.overall_bounding_radius + radius) = false →
      az_circle_hits_baddie G baddie radius start delta outs = some (false, outs)
      ∧ ∀ G' : Geometry R,
          G'.az_ray_hits_bounding_circle = G.az_ray_hits_bounding_circle →
          az_circle_hits_baddie G' baddie radius start delta outs = some (false, outs))
    ∧ (∀ outs', az_circle_hits_baddie G baddie radius start delta outs = some (true, outs') →
        G.az_ray_hits_bounding_circle start delta baddie.position
          (baddie.data.overall_bounding_radius + radius) = true) := by
  constructor
  · intro hbroad
    refine ⟨az_circle_hits_baddie_of_broad_false G baddie radius start delta outs hkind
      hbroad, ?_⟩
    intro G' hG
    exact az_circle_hits_baddie_of_broad_false G' baddie radius start delta outs hkind
      (by rw [hG]; exact hbroad)
  · intro outs' h
    exact (az_circle_hits_baddie_true_inv G baddie radius start delta outs outs' h).2.2

theorem az_circle_hits_baddie_broad_phase_reject_witness :
    scenario_baddie.kind ≠ az_baddie_kind_t.AZ_BAD_NOTHING
    ∧ rat_geometry.az_ray_hits_bounding_circle ⟨0, 50⟩ ⟨200, 0⟩ scenario_baddie.position
        (scenario_baddie.data.overall_bounding_radius + 1) = false
    ∧ az_circle_hits_baddie rat_geometry scenario_baddie 1 ⟨0, 50⟩ ⟨200, 0⟩
        fresh_circle_outs = some (false, fresh_circle_outs) :=
  have hkind : scenario_baddie.kind ≠ az_baddie_kind_t.AZ_BAD_NOTHING := by decide
  ⟨hkind, scenario_sweep_broad_miss,
    ((az_circle_hits_baddie_broad_phase_reject rat_geometry scenario_baddie 1 ⟨0, 50⟩
      ⟨200, 0⟩ fresh_circle_outs hkind).1 scenario_sweep_broad_miss).1⟩

/-- C12: whenever `az_circle_hits_baddie` reports a hit, the last successful test produced
a local-frame resting position `q` and a local-frame impact point `m`, and the values
stored for the caller are `rotate(q, baddie.angle) + baddie.position` and
`rotate(m, baddie.angle) + baddie.position`: both are rotated and translated. -/
theorem az_circle_hits_baddie_world_frame (G : Geometry R) (baddie : az_baddie_t R)
    (radius : R) (start delta : az_vector_t R) (outs outs' : circle_outs R)
    (hhit : az_circle_hits_baddie G baddie radius start delta outs = some (true, outs')) :
    ∃ ref q m, last_success (circle_outcomes G baddie radius start delta) = some (ref, q, m)
      ∧ outs'.pos_out = outs.pos_out.map
          (fun _ => az_vadd (G.az_vrotate q baddie.angle) baddie.position)
      ∧ outs'.impact_out = outs.impact_out.map
          (fun _ => az_vadd (G.az_vrotate m baddie.angle) baddie.position) := by
  obtain ⟨hkind, hslots, hbroad⟩ :=
    az_circle_hits_baddie_true_inv G baddie radius start delta outs outs' hhit
  rw [az_circle_hits_baddie_eq_report G baddie radius start delta outs hkind hslots
    hbroad] at hhit
  cases hl : last_success (circle_outcomes G baddie radius start delta) with
  | none => simp [circle_report, hl] at hhit
  | some r =>
      obtain ⟨ref, q, m⟩ := r
      simp only [circle_report, hl, Option.some.injEq, Prod.mk.injEq, true_and] at hhit
      subst hhit
      exact ⟨ref, q, m, rfl, rfl, rfl⟩

theorem az_circle_hits_baddie_world_frame_witness :
    az_circle_hits_baddie rat_geometry scenario_baddie 1 ⟨0, 0⟩ ⟨200, 0⟩ fresh_circle_outs =
        some (true,
          { pos_out := some ⟨89, 0⟩, impact_out := some ⟨90, 0⟩,
            component_out := some component_ref.main_body })
    ∧ ∃ ref q m,
        last_success (circle_outcomes rat_geometry scenario_baddie 1 ⟨0, 0⟩ ⟨200, 0⟩) =
          some (ref, q, m)
        ∧ some (⟨89, 0⟩ : az_vector_t ℚ) = fresh_circle_outs.pos_out.map
            (fun _ => az_vadd (rat_geometry.az_vrotate q scenario_baddie.angle)
              scenario_baddie.position)
        ∧ some (⟨90, 0⟩ : az_vector_t ℚ) = fresh_circle_outs.impact_out.map
            (fun _ => az_vadd (rat_geometry.az_vrotate m scenario_baddie.angle)
              scenario_baddie.position) :=
  ⟨scenario_sweep_hit,
    az_circle_hits_baddie_world_frame rat_geometry scenario_baddie 1 ⟨0, 0⟩ ⟨200, 0⟩
      fresh_circle_outs _ scenario_sweep_hit⟩

/-- C13: whenever `az_ray_hits_baddie` or `az_circle_hits_baddie` returns false, the
caller's output locations (point, normal and component, respectively resting position,
impact point and component) hold what they held before the call, the geometry routines
storing their outputs only on a hit. -/
theorem queries_store_nothing_on_no_hit (G : Geometry R) (baddie : az_baddie_t R)
    (radius : R) (start delta : az_vector_t R) (routs : ray_outs R) (couts : circle_outs R) :
    (∀ outs', az_ray_hits_baddie G baddie start delta routs = some (false, outs') →
      outs' = routs)
    ∧ (∀ outs', az_circle_hits_baddie G baddie radius start delta couts = some (false, outs') →
      outs' = couts) :=
  ⟨fun outs' h => az_ray_hits_baddie_false_outs G baddie start delta routs outs' h,
    fun outs' h => az_circle_hits_baddie_false_outs G baddie radius start delta couts outs' h⟩

/-- C14: on a baddie whose kind is `AZ_BAD_NOTHING` both `az_ray_hits_baddie` and
`az_circle_hits_baddie` fail their assertion, for every start, delta and radius and
whatever the geometry routines answer; in particular they do not return false. -/
theorem queries_assert_on_no_kind (G : Geometry R) (baddie : az_baddie_t R)
    (radius : R) (start delta : az_vector_t R) (routs : ray_outs R) (couts : circle_outs R)
    (hkind : baddie.kind = az_baddie_kind_t.AZ_BAD_NOTHING) :
    az_ray_hits_baddie G baddie start delta routs = none
    ∧ az_circle_hits_baddie G baddie radius start delta couts = none
    ∧ (∀ outs', az_ray_hits_baddie G baddie start delta routs ≠ some (false, outs'))
    ∧ (∀ outs', az_circle_hits_baddie G baddie radius start delta couts ≠
        some (false, outs')) := by
  have h1 : az_ray_hits_baddie G baddie start delta routs = none := by
    unfold az_ray_hits_baddie
    simp [hkind]
  have h2 : az_circle_hits_baddie G baddie radius start delta couts = none := by
    unfold az_circle_hits_baddie
    simp [hkind]
  refine ⟨h1, h2, ?_, ?_⟩
  · intro outs'
    rw [h1]
    simp
  · intro outs'
    rw [h2]
    simp

theorem queries_assert_on_no_kind_witness :
    nothing_baddie.kind = az_baddie_kind_t.AZ_BAD_NOTHING
    ∧ az_ray_hits_baddie rat_geometry nothing_baddie ⟨0, 0⟩ ⟨200, 0⟩ fresh_ray_outs = none
    ∧ az_circle_hits_baddie rat_geometry nothing_baddie 1 ⟨0, 0⟩ ⟨200, 0⟩
        fresh_circle_outs = none :=
  have h := queries_assert_on_no_kind rat_geometry nothing_baddie 1 ⟨0, 0⟩ ⟨200, 0⟩
    fresh_ray_outs fresh_circle_outs rfl
  ⟨rfl, h.1, h.2.1⟩

/-- C15: `az_ray_hits_baddie` and `az_circle_hits_baddie`, run on a frame that holds the
baddie object together with its template, hand back a baddie equal to the one they
received in every field (kind, template, uid, position, angle, health and every sub-part
pose), whether they report a hit or not; and the flag and outputs they hand back are
those of the queries as embedded without the frame. -/
theorem queries_leave_baddie_unchanged (G : Geometry R) (baddie : az_baddie_t R)
    (radius : R) (start delta : az_vector_t R) (routs : ray_outs R) (couts : circle_outs R) :
    (∀ ret b' outs', az_ray_hits_baddie_mem G start delta baddie routs =
        some (ret, b', outs') → b' = baddie)
    ∧ (∀ ret b' outs', az_circle_hits_baddie_mem G radius start delta baddie couts =
        some (ret, b', outs') → b' = baddie)
    ∧ (az_ray_hits_baddie_mem G start delta baddie routs).map (fun r => (r.1, r.2.2)) =
        az_ray_hits_baddie G baddie start delta routs
    ∧ (az_circle_hits_baddie_mem G radius start delta baddie couts).map
        (fun r => (r.1, r.2.2)) = az_circle_hits_baddie G baddie radius start delta couts :=
  ⟨fun ret b' outs' h => az_ray_hits_baddie_mem_frame G baddie b' start delta routs outs' ret h,
    fun ret b' outs' h =>
      az_circle_hits_baddie_mem_frame G radius baddie b' start delta couts outs' ret h,
    az_ray_hits_baddie_mem_eq G baddie start delta routs,
    az_circle_hits_baddie_mem_eq G radius baddie start delta couts⟩

end QueryClaims

/-! ## The bounding radius of a polygon -/

section BoundingRadius

variable {R : Type} [LinearOrderedField R]

theorem foldl_max_ge_init {α : Type} (f : α → R) (l : List α) (r0 : R) :
    r0 ≤ l.foldl (fun r v => max r (f v)) r0 := by
  induction l generalizing r0 with
  | nil => exact le_refl _
  | cons a tl ih =>
      simp only [List.foldl_cons]
      exact le_trans (le_max_left _ _) (ih _)

theorem foldl_max_ge_mem {α : Type} (f : α → R) (l : List α) (r0 : R) (v : α) (hv : v ∈ l) :
    f v ≤ l.foldl (fun r v => max r (f v)) r0 := by
  induction l generalizing r0 with
  | nil => simp at hv
  | cons a tl ih =>
      simp only [List.foldl_cons]
      rcases List.mem_cons.mp hv with h | h
      · subst h
        exact le_trans (le_max_right _ _) (foldl_max_ge_init f tl _)
      · exact ih _ h

theorem foldl_max_attained {α : Type} (f : α → R) (l : List α) (r0 : R) :
    l.foldl (fun r v => max r (f v)) r0 = r0
    ∨ ∃ v ∈ l, l.foldl (fun r v => max r (f v)) r0 = f v := by
  induction l generalizing r0 with
  | nil => exact Or.inl rfl
  | cons a tl ih =>
      simp only [List.foldl_cons]
      rcases ih (max r0 (f a)) with h | ⟨v, hv, h⟩
      · rcases max_cases r0 (f a) with ⟨hm, _⟩ | ⟨hm, _⟩
        · left
          rw [h, hm]
        · right
          exact ⟨a, List.mem_cons_self _ _, by rw [h, hm]⟩
      · right
        exact ⟨v, List.mem_cons_of_mem _ hv, h⟩

/-- The loop of `polygon_bounding_radius` ends with the largest vertex norm when the norms
are not negative and the polygon has a vertex. -/
theorem foldl_max_is_max {α : Type} (f : α → R) (l : List α) (hne : l ≠ [])
    (hpos : ∀ v ∈ l, 0 ≤ f v) :
    ∃ v ∈ l, l.foldl (fun r v => max r (f v)) 0 = f v ∧ ∀ w ∈ l, f w ≤ f v := by
  rcases foldl_max_attained f l 0 with h | ⟨v, hv, h⟩
  · obtain ⟨a, ha⟩ := List.exists_mem_of_ne_nil l hne
    have h1 : f a ≤ 0 := by
      have := foldl_max_ge_mem f l 0 a ha
      rwa [h] at this
    have h2 : f a = 0 := le_antisymm h1 (hpos a ha)
    refine ⟨a, ha, by rw [h, h2], ?_⟩
    intro w hw
    have := foldl_max_ge_mem f l 0 w hw
    rw [h] at this
    rw [h2]
    exact this
  · refine ⟨v, hv, h, ?_⟩
    intro w hw
    have := foldl_max_ge_mem f l 0 w hw
    rwa [h] at this

theorem dist_sq_origin (v : az_vector_t R) : dist_sq v AZ_VZERO = az_vdot v v := by
  simp only [dist_sq, az_vsub, AZ_VZERO, sub_zero]

/-- A non-negative number whose square is at most that of a non-negative bound is at most
the bound. -/
theorem le_of_mul_self_le (a b : R) (hb : 0 ≤ b) (h : a * a ≤ b * b) : a ≤ b := by
  by_contra hlt
  have hlt' : b < a := not_le.mp hlt
  have : b * b < a * a := by nlinarith
  exact absurd h (not_le.mpr this)

/-- The derived radius in terms of the vertices: with an exact square root at the vertices,
the radius of a polygon with a vertex is the norm of a farthest vertex plus the margin. -/
theorem polygon_bounding_radius_attained (m : Libm R) (polygon : az_polygon_t R)
    (hne : polygon ≠ [])
    (hsqrt : ∀ v ∈ polygon, 0 ≤ m.sqrt (az_vdot v v)
      ∧ m.sqrt (az_vdot v v) * m.sqrt (az_vdot v v) = az_vdot v v) :
    ∃ v ∈ polygon, polygon_bounding_radius m polygon = az_vnorm m v + 0.01
      ∧ ∀ w ∈ polygon, az_vnorm m w ≤ az_vnorm m v := by
  obtain ⟨v, hv, h, hmax⟩ := foldl_max_is_max (az_vnorm m) polygon hne
    (fun v hv => (hsqrt v hv).1)
  exact ⟨v, hv, by unfold polygon_bounding_radius; rw [h], hmax⟩

/-- The derived radius is at most any bound on the vertex distances, plus the margin. -/
theorem polygon_bounding_radius_le (m : Libm R) (polygon : az_polygon_t R) (bound : R)
    (hsqrt : ∀ v ∈ polygon, 0 ≤ m.sqrt (az_vdot v v)
      ∧ m.sqrt (az_vdot v v) * m.sqrt (az_vdot v v) = az_vdot v v)
    (hbound : 0 ≤ bound)
    (hwithin : ∀ v ∈ polygon, within_radius v AZ_VZERO bound) :
    polygon_bounding_radius m polygon ≤ bound + 0.01 := by
  unfold polygon_bounding_radius
  have hle : polygon.foldl (fun radius v => max radius (az_vnorm m v)) 0 ≤ bound := by
    rcases foldl_max_attained (az_vnorm m) polygon 0 with h | ⟨v, hv, h⟩
    · rw [h]
      exact hbound
    · rw [h]
      apply le_of_mul_self_le _ _ hbound
      have h2 := (hwithin v hv).2
      rw [dist_sq_origin] at h2
      unfold az_vnorm
      rw [(hsqrt v hv).2]
      exact h2
  linarith

/-- The circle of the derived radius encloses every vertex. -/
theorem polygon_bounding_radius_encloses (m : Libm R) (polygon : az_polygon_t R)
    (hsqrt : ∀ v ∈ polygon, 0 ≤ m.sqrt (az_vdot v v)
      ∧ m.sqrt (az_vdot v v) * m.sqrt (az_vdot v v) = az_vdot v v)
    (v : az_vector_t R) (hv : v ∈ polygon) :
    within_radius v AZ_VZERO (polygon_bounding_radius m polygon) := by
  have h1 : az_vnorm m v ≤ polygon.foldl (fun radius v => max radius (az_vnorm m v)) 0 :=
    foldl_max_ge_mem (az_vnorm m) polygon 0 v hv
  have h0 : 0 ≤ az_vnorm m v := (hsqrt v hv).1
  have hm : (0 : R) < 0.01 := by norm_num
  have h2 : az_vnorm m v ≤ polygon_bounding_radius m polygon := by
    unfold polygon_bounding_radius
    linarith
  refine ⟨le_trans h0 h2, ?_⟩
  rw [dist_sq_origin, ← (hsqrt v hv).2]
  exact mul_self_le_mul_self h0 h2


/-- The derived radius when some vertex lies at distance exactly `bound` and none lies
farther: `bound` plus the margin. -/
theorem polygon_bounding_radius_eq (m : Libm R) (polygon : az_polygon_t R) (bound : R)
    (hsqrt : ∀ v ∈ polygon, 0 ≤ m.sqrt (az_vdot v v)
      ∧ m.sqrt (az_vdot v v) * m.sqrt (az_vdot v v) = az_vdot v v)
    (hbound : 0 ≤ bound)
    (hwithin : ∀ v ∈ polygon, within_radius v AZ_VZERO bound)
    (hex : ∃ v ∈ polygon, dist_sq v AZ_VZERO = bound * bound) :
    polygon_bounding_radius m polygon = bound + 0.01 := by
  have hle := polygon_bounding_radius_le m polygon bound hsqrt hbound hwithin
  obtain ⟨v, hv, hd⟩ := hex
  have hnorm : az_vnorm m v = bound := by
    have h0 := (hsqrt v hv).1
    have h2 := (hsqrt v hv).2
    rw [dist_sq_origin] at hd
    have hsq : az_vnorm m v * az_vnorm m v = bound * bound := by
      unfold az_vnorm
      rw [h2, hd]
    exact le_antisymm (le_of_mul_self_le _ _ hbound (le_of_eq hsq))
      (le_of_mul_self_le _ _ h0 (le_of_eq hsq.symm))
  have hge : bound + 0.01 ≤ polygon_bounding_radius m polygon := by
    have h1 : az_vnorm m v ≤ polygon.foldl (fun radius v => max radius (az_vnorm m v)) 0 :=
      foldl_max_ge_mem (az_vnorm m) polygon 0 v hv
    unfold polygon_bounding_radius
    linarith
  exact le_antisymm hle hge

end BoundingRadius

/-! ## Initializing the catalog: general facts -/

section CatalogLemmas

variable {R : Type} [LinearOrderedField R]

theorem init_component_data_polygon (m : Libm R) (component : az_component_data_t R)
    (hpoly : component.polygon.length > 0) (hzero : component.bounding_radius = 0) :
    init_component_data m component =
      some { component with
        bounding_radius := polygon_bounding_radius m component.polygon } := by
  unfold init_component_data
  rw [if_pos hpoly, if_pos hzero]

theorem init_component_data_circle (m : Libm R) (component : az_component_data_t R)
    (hpoly : component.polygon.length = 0) (hpos : component.bounding_radius > 0) :
    init_component_data m component = some component := by
  unfold init_component_data
  rw [if_neg (by omega), if_pos hpos]

theorem init_component_data_none_iff (m : Libm R) (component : az_component_data_t R) :
    init_component_data m component = none ↔
      (component.polygon.length > 0 ∧ component.bounding_radius ≠ 0)
      ∨ (component.polygon.length = 0 ∧ ¬ component.bounding_radius > 0) := by
  unfold init_component_data
  by_cases hpoly : component.polygon.length > 0
  · by_cases hzero : component.bounding_radius = 0
    · rw [if_pos hpoly, if_pos hzero]
      constructor
      · intro h
        cases h
      · rintro (⟨_, h⟩ | ⟨h, _⟩)
        · exact absurd hzero h
        · omega
    · rw [if_pos hpoly, if_neg hzero]
      exact ⟨fun _ => Or.inl ⟨hpoly, hzero⟩, fun _ => rfl⟩
  · by_cases hpos : component.bounding_radius > 0
    · rw [if_neg hpoly, if_pos hpos]
      constructor
      · intro h
        cases h
      · rintro (⟨h, _⟩ | ⟨_, h⟩)
        · exact absurd h hpoly
        · exact absurd hpos h
    · rw [if_neg hpoly, if_neg hpos]
      exact ⟨fun _ => Or.inr ⟨by omega, hpos⟩, fun _ => rfl⟩

/-- What a successful `init_component_data` leaves: the polygon and the flags as they
were, and the derived bounding radius. -/
theorem init_component_data_some (m : Libm R) (component component' : az_component_data_t R)
    (h : init_component_data m component = some component') :
    component'.polygon = component.polygon
    ∧ component'.immunities = component.immunities
    ∧ component'.bounding_radius = derived_bounding_radius m component := by
  unfold init_component_data at h
  unfold derived_bounding_radius
  by_cases hpoly : component.polygon.length > 0
  · by_cases hzero : component.bounding_radius = 0
    · rw [if_pos hpoly, if_pos hzero] at h
      simp only [Option.some.injEq] at h
      subst h
      rw [if_pos hpoly]
      exact ⟨rfl, rfl, rfl⟩
    · rw [if_pos hpoly, if_neg hzero] at h
      cases h
  · by_cases hpos : component.bounding_radius > 0
    · rw [if_neg hpoly, if_pos hpos] at h
      simp only [Option.some.injEq] at h
      subst h
      rw [if_neg hpoly]
      exact ⟨rfl, rfl, rfl⟩
    · rw [if_neg hpoly, if_neg hpos] at h
      cases h

/-- A successful loop over the sub-parts initialized every one of them. -/
theorem init_components_some (m : Libm R) (l l' : List (az_component_data_t R))
    (h : init_components m l = some l') :
    List.Forall₂ (fun c c' => init_component_data m c = some c') l l' := by
  induction l generalizing l' with
  | nil =>
      simp only [init_components, Option.some.injEq] at h
      subst h
      exact List.Forall₂.nil
  | cons c rest ih =>
      cases hc : init_component_data m c with
      | none =>
          rw [init_components, hc] at h
          cases h
      | some c' =>
          cases hr : init_components m rest with
          | none =>
              simp only [init_components, hc, hr] at h
              cases h
          | some rest' =>
              simp only [init_components, hc, hr, Option.some.injEq] at h
              subst h
              exact List.Forall₂.cons hc (ih rest' hr)

theorem init_components_none_of_mem (m : Libm R) (l : List (az_component_data_t R))
    (c : az_component_data_t R) (hc : c ∈ l) (h : init_component_data m c = none) :
    init_components m l = none := by
  cases hl : init_components m l with
  | none => rfl
  | some l' =>
      have hf := init_components_some m l l' hl
      obtain ⟨hlen, hget⟩ := List.forall₂_iff_get.mp hf
      obtain ⟨i, hi, hic⟩ := List.mem_iff_getElem.mp hc
      have hthis := hget i hi (by omega)
      simp only [List.get_eq_getElem, hic, h] at hthis
      cases hthis

/-- What a successful pass of the loop body of `az_init_baddie_datas` leaves in an
entry. -/
theorem init_baddie_data_some (m : Libm R) (data data' : az_baddie_data_t R)
    (h : init_baddie_data m data = some data') :
    init_components m data.components = some data'.components
    ∧ init_component_data m data.main_body = some data'.main_body
    ∧ data'.max_health = data.max_health
    ∧ data'.potential_pickups = data.potential_pickups
    ∧ (data'.components = [] → data.overall_bounding_radius = 0
        ∧ data'.overall_bounding_radius = data'.main_body.bounding_radius)
    ∧ (data'.components ≠ [] → data'.overall_bounding_radius = data.overall_bounding_radius)
    ∧ data'.overall_bounding_radius ≥ data'.main_body.bounding_radius
    ∧ (∀ c ∈ data'.components, data'.overall_bounding_radius ≥ c.bounding_radius)
    ∧ data'.max_health > 0 := by
  unfold init_baddie_data at h
  cases hc : init_components m data.components with
  | none =>
      rw [hc] at h
      cases h
  | some components =>
      cases hm : init_component_data m data.main_body with
      | none =>
          simp only [hc, hm] at h
          cases h
      | some main_body =>
          simp only [hc, hm] at h
          by_cases hlen : components.length = 0
          · have hnil : components = [] := List.length_eq_zero.mp hlen
            subst hnil
            by_cases hz : data.overall_bounding_radius = 0
            · by_cases h3 : data.max_health > 0
              · simp only [List.length_nil, if_true, hz] at h
                rw [if_neg (not_not.mpr (le_refl _)),
                  if_neg (not_not.mpr (fun c hc => absurd hc (List.not_mem_nil c))),
                  if_neg (not_not.mpr h3)] at h
                simp only [Option.some.injEq] at h
                subst h
                exact ⟨rfl, rfl, rfl, rfl, fun _ => ⟨hz, rfl⟩, fun hne => absurd rfl hne,
                  le_refl _, fun c hc => absurd hc (List.not_mem_nil c), h3⟩
              · simp only [List.length_nil, if_true, hz] at h
                rw [if_neg (not_not.mpr (le_refl _)),
                  if_neg (not_not.mpr (fun c hc => absurd hc (List.not_mem_nil c))),
                  if_pos h3] at h
                cases h
            · simp only [List.length_nil, if_true, hz, if_false] at h
              cases h
          · have hne : components ≠ [] := fun hnil => hlen (by rw [hnil]; rfl)
            simp only [hlen, if_false] at h
            by_cases h1 : data.overall_bounding_radius ≥ main_body.bounding_radius
            · by_cases h2 : ∀ c ∈ components, data.overall_bounding_radius ≥ c.bounding_radius
              · by_cases h3 : data.max_health > 0
                · rw [if_neg (not_not.mpr h1), if_neg (not_not.mpr h2),
                    if_neg (not_not.mpr h3)] at h
                  simp only [Option.some.injEq] at h
                  subst h
                  exact ⟨rfl, rfl, rfl, rfl, fun hnil => absurd hnil hne, fun _ => rfl, h1, h2,
                    h3⟩
                · rw [if_neg (not_not.mpr h1), if_neg (not_not.mpr h2), if_pos h3] at h
                  cases h
              · rw [if_neg (not_not.mpr h1), if_pos h2] at h
                cases h
            · rw [if_pos h1] at h
              cases h

/-- A successful loop over the table ran the loop body on every entry it visited. -/
theorem init_baddie_datas_loop_some (m : Libm R) (l l' : List (az_baddie_data_t R))
    (h : init_baddie_datas_loop m l = some l') :
    List.Forall₂ (fun d d' => init_baddie_data m d = some d') l l' := by
  induction l generalizing l' with
  | nil =>
      simp only [init_baddie_datas_loop, Option.some.injEq] at h
      subst h
      exact List.Forall₂.nil
  | cons d rest ih =>
      cases hd : init_baddie_data m d with
      | none =>
          rw [init_baddie_datas_loop, hd] at h
          cases h
      | some d' =>
          cases hr : init_baddie_datas_loop m rest with
          | none =>
              simp only [init_baddie_datas_loop, hd, hr] at h
              cases h
          | some rest' =>
              simp only [init_baddie_datas_loop, hd, hr, Option.some.injEq] at h
              subst h
              exact List.Forall₂.cons hd (ih rest' hr)

/-- What a successful `az_init_baddie_datas` leaves: the flag was clear and is now set, the
first entry is as it was, and every later entry went through the loop body. -/
theorem az_init_baddie_datas_some (m : Libm R) (st st' : baddie_catalog R)
    (h : az_init_baddie_datas m st = some st') :
    st.baddie_data_initialized = false
    ∧ st'.baddie_data_initialized = true
    ∧ st'.baddie_datas.length = st.baddie_datas.length
    ∧ st'.baddie_datas.get? 0 = st.baddie_datas.get? 0
    ∧ ∀ i data', 0 < i → st'.baddie_datas.get? i = some data' →
        ∃ data, st.baddie_datas.get? i = some data ∧ init_baddie_data m data = some data' := by
  unfold az_init_baddie_datas at h
  cases hflag : st.baddie_data_initialized with
  | true => simp [hflag] at h
  | false =>
      simp only [hflag, Bool.false_eq_true, if_false] at h
      cases hl : st.baddie_datas with
      | nil =>
          simp only [hl, Option.some.injEq] at h
          subst h
          refine ⟨rfl, rfl, rfl, rfl, ?_⟩
          intro i data' _ hget
          simp [hl] at hget
      | cons first rest =>
          simp only [hl] at h
          cases hr : init_baddie_datas_loop m rest with
          | none =>
              simp only [hr] at h
              cases h
          | some rest' =>
              simp only [hr, Option.some.injEq] at h
              subst h
              have hf := init_baddie_datas_loop_some m rest rest' hr
              have hlen := List.Forall₂.length_eq hf
              refine ⟨rfl, rfl, by simp [hlen], rfl, ?_⟩
              intro i data' hi hget
              obtain ⟨j, rfl⟩ : ∃ j, i = j + 1 := ⟨i - 1, by omega⟩
              simp only [List.get?_cons_succ] at hget ⊢
              rw [List.get?_eq_getElem?] at hget
              obtain ⟨hj, hje⟩ := List.getElem?_eq_some.mp hget
              have hj' : j < rest.length := by omega
              refine ⟨rest.get ⟨j, hj'⟩, ?_, ?_⟩
              · rw [List.get?_eq_getElem?]
                exact List.getElem?_eq_some.mpr ⟨hj', rfl⟩
              · have := (List.forall₂_iff_get.mp hf).2 j hj' hj
                rw [this]
                congr 1

/-- A table with an entry, after the first, on which the loop body fails makes
`az_init_baddie_datas` fail. -/
theorem az_init_baddie_datas_none_of_entry (m : Libm R) (st : baddie_catalog R) (i : Nat)
    (data : az_baddie_data_t R) (hi : 0 < i) (hget : st.baddie_datas.get? i = some data)
    (hnone : init_baddie_data m data = none) :
    az_init_baddie_datas m st = none := by
  cases h : az_init_baddie_datas m st with
  | none => rfl
  | some st' =>
      obtain ⟨-, -, hlen, -, hall⟩ := az_init_baddie_datas_some m st st' h
      have hilt : i < st.baddie_datas.length := by
        rw [List.get?_eq_getElem?] at hget
        exact (List.getElem?_eq_some.mp hget).1
      have hilt' : i < st'.baddie_datas.length := by omega
      obtain ⟨d, hd, hinit⟩ := hall i (st'.baddie_datas.get ⟨i, hilt'⟩) hi
        (by rw [List.get?_eq_getElem?]; exact List.getElem?_eq_some.mpr ⟨hilt', rfl⟩)
      rw [hget] at hd
      simp only [Option.some.injEq] at hd
      subst hd
      rw [hnone] at hinit
      cases hinit


/-- The loop over the sub-parts, one step at a time. -/
theorem init_components_cons (m : Libm R) (c c' : az_component_data_t R)
    (rest rest' : List (az_component_data_t R))
    (h1 : init_component_data m c = some c') (h2 : init_components m rest = some rest') :
    init_components m (c :: rest) = some (c' :: rest') := by
  rw [init_components, h1, h2]

/-- The loop body of `az_init_baddie_datas` on an entry without sub-parts that passes its
assertions. -/
theorem init_baddie_data_no_sub_parts (m : Libm R) (data : az_baddie_data_t R)
    (main_body : az_component_data_t R)
    (hnone : data.components = [])
    (hmain : init_component_data m data.main_body = some main_body)
    (hzero : data.overall_bounding_radius = 0)
    (hhealth : data.max_health > 0) :
    init_baddie_data m data =
      some
        { overall_bounding_radius := main_body.bounding_radius
          max_health := data.max_health
          potential_pickups := data.potential_pickups
          main_body := main_body
          components := [] } := by
  unfold init_baddie_data
  rw [hnone]
  simp only [init_components, hmain, List.length_nil, if_true, hzero]
  rw [if_neg (not_not.mpr (le_refl _)),
    if_neg (not_not.mpr (fun c hc => absurd hc (List.not_mem_nil c))),
    if_neg (not_not.mpr hhealth)]

/-- The loop body of `az_init_baddie_datas` on an entry with sub-parts that passes its
assertions. -/
theorem init_baddie_data_sub_parts (m : Libm R) (data : az_baddie_data_t R)
    (main_body : az_component_data_t R) (components : List (az_component_data_t R))
    (hcomps : init_components m data.components = some components)
    (hne : components ≠ [])
    (hmain : init_component_data m data.main_body = some main_body)
    (h1 : data.overall_bounding_radius ≥ main_body.bounding_radius)
    (h2 : ∀ c ∈ components, data.overall_bounding_radius ≥ c.bounding_radius)
    (hhealth : data.max_health > 0) :
    init_baddie_data m data =
      some
        { overall_bounding_radius := data.overall_bounding_radius
          max_health := data.max_health
          potential_pickups := data.potential_pickups
          main_body := main_body
          components := components } := by
  unfold init_baddie_data
  have hlen : ¬ components.length = 0 := fun h => hne (List.length_eq_zero.mp h)
  simp only [hcomps, hmain, hlen, if_false]
  rw [if_neg (not_not.mpr h1), if_neg (not_not.mpr h2), if_neg (not_not.mpr hhealth)]

/-- The loop over the table, one step at a time. -/
theorem init_baddie_datas_loop_cons (m : Libm R) (d d' : az_baddie_data_t R)
    (rest rest' : List (az_baddie_data_t R))
    (h1 : init_baddie_data m d = some d') (h2 : init_baddie_datas_loop m rest = some rest') :
    init_baddie_datas_loop m (d :: rest) = some (d' :: rest') := by
  rw [init_baddie_datas_loop, h1, h2]

/-- A first call of `az_init_baddie_datas` on a table whose entries after the first pass the
loop. -/
theorem az_init_baddie_datas_eq (m : Libm R) (first : az_baddie_data_t R)
    (rest rest' : List (az_baddie_data_t R))
    (h : init_baddie_datas_loop m rest = some rest') :
    az_init_baddie_datas m { baddie_data_initialized := false, baddie_datas := first :: rest } =
      some { baddie_data_initialized := true, baddie_datas := first :: rest' } := by
  unfold az_init_baddie_datas
  simp only [Bool.false_eq_true, if_false, h]

end CatalogLemmas

/-! ## The example tables: evaluations -/

section CatalogFacts

/-- The rational square root is exact at a vertex whose distance from the origin is the
rational `q`. -/
theorem rat_vertex_sqrt (v : az_vector_t ℚ) (q : ℚ) (hq : 0 ≤ q)
    (h : v.x * v.x + v.y * v.y = q * q) :
    0 ≤ rat_libm.sqrt (az_vdot v v)
      ∧ rat_libm.sqrt (az_vdot v v) * rat_libm.sqrt (az_vdot v v) = az_vdot v v :=
  rat_sqrt_exact _ ⟨q, hq, h⟩

/-- A point lies within `bound` of the origin when its squared distance is at most the
square of `bound`. -/
theorem within_radius_origin (v : az_vector_t ℚ) (bound : ℚ) (hb : 0 ≤ bound)
    (h : v.x * v.x + v.y * v.y ≤ bound * bound) : within_radius v AZ_VZERO bound := by
  refine ⟨hb, ?_⟩
  rw [dist_sq_origin]
  exact h

theorem example_triangle_sqrt :
    ∀ v ∈ example_triangle, 0 ≤ rat_libm.sqrt (az_vdot v v)
      ∧ rat_libm.sqrt (az_vdot v v) * rat_libm.sqrt (az_vdot v v) = az_vdot v v := by
  intro v hv
  simp only [example_triangle, List.mem_cons, List.mem_singleton, List.mem_nil_iff,
    or_false] at hv
  rcases hv with h | h | h <;> subst h
  · exact rat_vertex_sqrt _ 5 (by norm_num) (by norm_num)
  · exact rat_vertex_sqrt _ 10 (by norm_num) (by norm_num)
  · exact rat_vertex_sqrt _ 5 (by norm_num) (by norm_num)

theorem small_triangle_sqrt :
    ∀ v ∈ small_triangle, 0 ≤ rat_libm.sqrt (az_vdot v v)
      ∧ rat_libm.sqrt (az_vdot v v) * rat_libm.sqrt (az_vdot v v) = az_vdot v v := by
  intro v hv
  simp only [small_triangle, List.mem_cons, List.mem_singleton, List.mem_nil_iff,
    or_false] at hv
  rcases hv with h | h | h <;> subst h <;>
    exact rat_vertex_sqrt _ 5 (by norm_num) (by norm_num)

theorem example_triangle_within :
    ∀ v ∈ example_triangle, within_radius v AZ_VZERO 10 := by
  intro v hv
  simp only [example_triangle, List.mem_cons, List.mem_singleton, List.mem_nil_iff,
    or_false] at hv
  rcases hv with h | h | h <;> subst h <;>
    exact within_radius_origin _ 10 (by norm_num) (by norm_num)

theorem small_triangle_within :
    ∀ v ∈ small_triangle, within_radius v AZ_VZERO 10 := by
  intro v hv
  simp only [small_triangle, List.mem_cons, List.mem_singleton, List.mem_nil_iff,
    or_false] at hv
  rcases hv with h | h | h <;> subst h <;>
    exact within_radius_origin _ 10 (by norm_num) (by norm_num)

theorem example_triangle_radius : polygon_bounding_radius rat_libm example_triangle = 10.01 := by
  rw [polygon_bounding_radius_eq rat_libm example_triangle 10 example_triangle_sqrt
    (by norm_num) example_triangle_within
    ⟨⟨-6, 8⟩, by simp [example_triangle], by rw [dist_sq_origin]; simp only [az_vdot]; norm_num⟩]
  norm_num

theorem small_triangle_radius : polygon_bounding_radius rat_libm small_triangle = 5.01 := by
  rw [polygon_bounding_radius_eq rat_libm small_triangle 5 small_triangle_sqrt
    (by norm_num)
    (by
      intro v hv
      simp only [small_triangle, List.mem_cons, List.mem_singleton, List.mem_nil_iff,
        or_false] at hv
      rcases hv with h | h | h <;> subst h <;>
        exact within_radius_origin _ 5 (by norm_num) (by norm_num))
    ⟨⟨3, 4⟩, by simp [small_triangle], by rw [dist_sq_origin]; simp only [az_vdot]; norm_num⟩]
  norm_num

theorem example_lump_radius :
    polygon_bounding_radius rat_libm example_lump.main_body.polygon = 20.01 := by
  rw [polygon_bounding_radius_eq rat_libm example_lump.main_body.polygon 20
    (by
      intro v hv
      simp only [example_lump, List.mem_cons, List.mem_singleton, List.mem_nil_iff,
        or_false] at hv
      rcases hv with h | h | h | h | h <;> subst h <;>
        exact rat_vertex_sqrt _ 20 (by norm_num) (by norm_num))
    (by norm_num)
    (by
      intro v hv
      simp only [example_lump, List.mem_cons, List.mem_singleton, List.mem_nil_iff,
        or_false] at hv
      rcases hv with h | h | h | h | h <;> subst h <;>
        exact within_radius_origin _ 20 (by norm_num) (by norm_num))
    ⟨⟨20, 0⟩, by simp [example_lump], by rw [dist_sq_origin]; simp only [az_vdot]; norm_num⟩]
  norm_num

theorem example_turret_radius :
    polygon_bounding_radius rat_libm example_turret.main_body.polygon = 20.01 := by
  rw [polygon_bounding_radius_eq rat_libm example_turret.main_body.polygon 20
    (by
      intro v hv
      simp only [example_turret, List.mem_cons, List.mem_singleton, List.mem_nil_iff,
        or_false] at hv
      rcases hv with h | h | h | h | h | h <;> subst h <;>
        exact rat_vertex_sqrt _ 20 (by norm_num) (by norm_num))
    (by norm_num)
    (by
      intro v hv
      simp only [example_turret, List.mem_cons, List.mem_singleton, List.mem_nil_iff,
        or_false] at hv
      rcases hv with h | h | h | h | h | h <;> subst h <;>
        exact within_radius_origin _ 20 (by norm_num) (by norm_num))
    ⟨⟨20, 0⟩, by simp [example_turret], by rw [dist_sq_origin]; simp only [az_vdot]; norm_num⟩]
  norm_num

theorem example_cannon_radius :
    polygon_bounding_radius rat_libm [⟨24, 7⟩, ⟨0, 7⟩, ⟨0, -7⟩, ⟨24, -7⟩] = 25.01 := by
  rw [polygon_bounding_radius_eq rat_libm [⟨24, 7⟩, ⟨0, 7⟩, ⟨0, -7⟩, ⟨24, -7⟩] 25
    (by
      intro v hv
      simp only [List.mem_cons, List.mem_singleton, List.mem_nil_iff, or_false] at hv
      rcases hv with h | h | h | h <;> subst h
      · exact rat_vertex_sqrt _ 25 (by norm_num) (by norm_num)
      · exact rat_vertex_sqrt _ 7 (by norm_num) (by norm_num)
      · exact rat_vertex_sqrt _ 7 (by norm_num) (by norm_num)
      · exact rat_vertex_sqrt _ 25 (by norm_num) (by norm_num))
    (by norm_num)
    (by
      intro v hv
      simp only [List.mem_cons, List.mem_singleton, List.mem_nil_iff, or_false] at hv
      rcases hv with h | h | h | h <;> subst h <;>
        exact within_radius_origin _ 25 (by norm_num) (by norm_num))
    ⟨⟨24, 7⟩, by simp, by rw [dist_sq_origin]; simp only [az_vdot]; norm_num⟩]
  norm_num

theorem example_zipper_radius :
    polygon_bounding_radius rat_libm example_zipper.main_body.polygon = 20.01 := by
  rw [polygon_bounding_radius_eq rat_libm example_zipper.main_body.polygon 20
    (by
      intro v hv
      simp only [example_zipper, List.mem_cons, List.mem_singleton, List.mem_nil_iff,
        or_false] at hv
      rcases hv with h | h | h | h | h <;> subst h
      · exact rat_vertex_sqrt _ 20 (by norm_num) (by norm_num)
      · exact rat_vertex_sqrt _ 10 (by norm_num) (by norm_num)
      · exact rat_vertex_sqrt _ 13 (by norm_num) (by norm_num)
      · exact rat_vertex_sqrt _ 13 (by norm_num) (by norm_num)
      · exact rat_vertex_sqrt _ 10 (by norm_num) (by norm_num))
    (by norm_num)
    (by
      intro v hv
      simp only [example_zipper, List.mem_cons, List.mem_singleton, List.mem_nil_iff,
        or_false] at hv
      rcases hv with h | h | h | h | h <;> subst h <;>
        exact within_radius_origin _ 20 (by norm_num) (by norm_num))
    ⟨⟨20, 0⟩, by simp [example_zipper], by rw [dist_sq_origin]; simp only [az_vdot]; norm_num⟩]
  norm_num

theorem example_lump_init : init_baddie_data rat_libm example_lump = some example_lump_ready := by
  have hmain : init_component_data rat_libm example_lump.main_body =
      some example_lump_ready.main_body := by
    rw [init_component_data_polygon rat_libm example_lump.main_body (by decide) rfl,
      example_lump_radius]
    rfl
  rw [init_baddie_data_no_sub_parts rat_libm example_lump example_lump_ready.main_body rfl hmain
    rfl (by simp only [example_lump]; norm_num)]
  rfl

theorem example_turret_init :
    init_baddie_data rat_libm example_turret = some example_turret_ready := by
  have hmain : init_component_data rat_libm example_turret.main_body =
      some example_turret_ready.main_body := by
    rw [init_component_data_polygon rat_libm example_turret.main_body (by decide) rfl,
      example_turret_radius]
    rfl
  have hcannon : init_component_data rat_libm
      { polygon := [⟨24, 7⟩, ⟨0, 7⟩, ⟨0, -7⟩, ⟨24, -7⟩], bounding_radius := 0,
        immunities := 0 } =
      some { polygon := [⟨24, 7⟩, ⟨0, 7⟩, ⟨0, -7⟩, ⟨24, -7⟩], bounding_radius := 25.01,
             immunities := 0 } := by
    rw [init_component_data_polygon rat_libm _ (by decide) rfl, example_cannon_radius]
  have hcomps : init_components rat_libm example_turret.components =
      some example_turret_ready.components :=
    init_components_cons rat_libm _ _ [] [] hcannon rfl
  rw [init_baddie_data_sub_parts rat_libm example_turret example_turret_ready.main_body
    example_turret_ready.components hcomps (by simp [example_turret_ready]) hmain
    (by simp only [example_turret, example_turret_ready]; norm_num)
    (by
      intro c hc
      simp only [example_turret_ready, List.mem_singleton] at hc
      subst hc
      simp only [example_turret]
      norm_num)
    (by simp only [example_turret]; norm_num)]
  rfl

theorem example_zipper_init :
    init_baddie_data rat_libm example_zipper = some example_zipper_ready := by
  have hmain : init_component_data rat_libm example_zipper.main_body =
      some example_zipper_ready.main_body := by
    rw [init_component_data_polygon rat_libm example_zipper.main_body (by decide) rfl,
      example_zipper_radius]
    rfl
  rw [init_baddie_data_no_sub_parts rat_libm example_zipper example_zipper_ready.main_body rfl
    hmain rfl (by simp only [example_zipper]; norm_num)]
  rfl

theorem example_bouncer_init :
    init_baddie_data rat_libm example_bouncer = some example_bouncer_ready := by
  have hmain : init_component_data rat_libm example_bouncer.main_body =
      some example_bouncer_ready.main_body :=
    init_component_data_circle rat_libm example_bouncer.main_body rfl
      (by simp only [example_bouncer]; norm_num)
  rw [init_baddie_data_no_sub_parts rat_libm example_bouncer example_bouncer_ready.main_body rfl
    hmain rfl (by simp only [example_bouncer]; norm_num)]
  rfl

theorem example_atom_init : init_baddie_data rat_libm example_atom = some example_atom := by
  have hmain : init_component_data rat_libm example_atom.main_body =
      some example_atom.main_body :=
    init_component_data_circle rat_libm example_atom.main_body rfl
      (by simp only [example_atom]; norm_num)
  have hc : ∀ r : ℚ, r > 0 →
      init_component_data rat_libm { polygon := [], bounding_radius := r, immunities := 0 } =
        some { polygon := [], bounding_radius := r, immunities := 0 } :=
    fun r hr => init_component_data_circle rat_libm _ rfl hr
  have hcomps : init_components rat_libm example_atom.components =
      some example_atom.components :=
    init_components_cons rat_libm _ _ _ _ (hc 6.3 (by norm_num))
      (init_components_cons rat_libm _ _ _ _ (hc 6.5 (by norm_num))
        (init_components_cons rat_libm _ _ [] [] (hc 6.7 (by norm_num)) rfl))
  rw [init_baddie_data_sub_parts rat_libm example_atom example_atom.main_body
    example_atom.components hcomps (by simp [example_atom]) hmain
    (by simp only [example_atom]; norm_num)
    (by
      intro c hc
      simp only [example_atom, List.mem_cons, List.mem_singleton, List.mem_nil_iff,
        or_false] at hc
      rcases hc with h | h | h <;> subst h <;> simp only [example_atom] <;> norm_num)
    (by simp only [example_atom]; norm_num)]

theorem example_datas_init :
    az_init_baddie_datas rat_libm
        { baddie_data_initialized := false, baddie_datas := example_datas } =
      some { baddie_data_initialized := true, baddie_datas := example_datas_ready } :=
  az_init_baddie_datas_eq rat_libm zero_data _ _
    (init_baddie_datas_loop_cons rat_libm _ _ _ _ example_lump_init
      (init_baddie_datas_loop_cons rat_libm _ _ _ _ example_turret_init
        (init_baddie_datas_loop_cons rat_libm _ _ _ _ example_zipper_init
          (init_baddie_datas_loop_cons rat_libm _ _ _ _ example_bouncer_init
            (init_baddie_datas_loop_cons rat_libm _ _ [] [] example_atom_init rfl)))))

end CatalogFacts

/-! ## Claims about the frame transform and the catalog -/

section TransformClaims

variable {R : Type} [LinearOrderedField R]

/-- C16: with the rotation `az_vrotate` over `libm` functions whose cosine is even and
whose sine is odd at the baddie's angle, with `cos² + sin² = 1` there, the world-out
transform of the queries (rotate by the angle, then add the position) followed by the
world-in transform (subtract the position, then rotate by minus the angle) returns every
local point, and world-in followed by world-out returns every world point; in exact
arithmetic the round trip is the identity. -/
theorem world_transform_round_trip (m : Libm R) (G : Geometry R) (baddie : az_baddie_t R)
    (p w : az_vector_t R)
    (hG : G.az_vrotate = az_vrotate m)
    (hcos : m.cos (-baddie.angle) = m.cos baddie.angle)
    (hsin : m.sin (-baddie.angle) = -m.sin baddie.angle)
    (hunit : m.cos baddie.angle * m.cos baddie.angle
      + m.sin baddie.angle * m.sin baddie.angle = 1) :
    rel_start_of G baddie (to_world G baddie p) = p
    ∧ to_world G baddie (rel_start_of G baddie w) = w := by
  obtain ⟨px, py⟩ := p
  obtain ⟨wx, wy⟩ := w
  simp only [rel_start_of, to_world, hG, az_vrotate, az_vadd, az_vsub, hcos, hsin,
    az_vector_t.mk.injEq]
  refine ⟨⟨?_, ?_⟩, ⟨?_, ?_⟩⟩
  · linear_combination px * hunit
  · linear_combination py * hunit
  · linear_combination (wx - baddie.position.x) * hunit
  · linear_combination (wy - baddie.position.y) * hunit

theorem world_transform_round_trip_witness :
    rel_start_of (reference_geometry ⟨Real.sqrt, Real.cos, Real.sin⟩)
        (posed_baddie ⟨100, 0⟩ 1)
        (to_world (reference_geometry ⟨Real.sqrt, Real.cos, Real.sin⟩)
          (posed_baddie ⟨100, 0⟩ 1) ⟨-10, 0⟩) = (⟨-10, 0⟩ : az_vector_t ℝ)
    ∧ to_world (reference_geometry ⟨Real.sqrt, Real.cos, Real.sin⟩)
        (posed_baddie ⟨100, 0⟩ 1)
        (rel_start_of (reference_geometry ⟨Real.sqrt, Real.cos, Real.sin⟩)
          (posed_baddie ⟨100, 0⟩ 1) ⟨90, 5⟩) = (⟨90, 5⟩ : az_vector_t ℝ) :=
  world_transform_round_trip ⟨Real.sqrt, Real.cos, Real.sin⟩
    (reference_geometry ⟨Real.sqrt, Real.cos, Real.sin⟩) (posed_baddie ⟨100, 0⟩ 1)
    ⟨-10, 0⟩ ⟨90, 5⟩ rfl (Real.cos_neg 1) (Real.sin_neg 1)
    (by
      have h := Real.cos_sq_add_sin_sq 1
      simp only [posed_baddie]
      nlinarith [h])

end TransformClaims

section CatalogClaims

variable {R : Type} [LinearOrderedField R]

/-- C17: with a square root that is exact at the vertices, `az_vnorm` of a vertex is its
Euclidean distance from the local origin, and `polygon_bounding_radius` returns 0.01 for a
polygon with no vertices and otherwise the largest of those distances plus 0.01: the
distance of some vertex that no other vertex exceeds, plus the margin. -/
theorem polygon_bounding_radius_max_distance (m : Libm R) (polygon : az_polygon_t R)
    (hsqrt : ∀ v ∈ polygon, 0 ≤ m.sqrt (az_vdot v v)
      ∧ m.sqrt (az_vdot v v) * m.sqrt (az_vdot v v) = az_vdot v v) :
    (polygon = [] → polygon_bounding_radius m polygon = 0.01)
    ∧ (polygon ≠ [] →
        ∃ v ∈ polygon, polygon_bounding_radius m polygon = az_vnorm m v + 0.01
          ∧ ∀ w ∈ polygon, az_vnorm m w ≤ az_vnorm m v)
    ∧ (∀ v ∈ polygon, 0 ≤ az_vnorm m v
        ∧ az_vnorm m v * az_vnorm m v = dist_sq v AZ_VZERO) := by
  refine ⟨?_, ?_, ?_⟩
  · intro hnil
    subst hnil
    simp only [polygon_bounding_radius, List.foldl_nil, zero_add]
  · intro hne
    exact polygon_bounding_radius_attained m polygon hne hsqrt
  · intro v hv
    rw [dist_sq_origin]
    exact hsqrt v hv

theorem polygon_bounding_radius_max_distance_witness :
    (∀ v ∈ example_triangle, 0 ≤ rat_libm.sqrt (az_vdot v v)
      ∧ rat_libm.sqrt (az_vdot v v) * rat_libm.sqrt (az_vdot v v) = az_vdot v v)
    ∧ polygon_bounding_radius rat_libm example_triangle = 10.01
    ∧ ∃ v ∈ example_triangle,
        polygon_bounding_radius rat_libm example_triangle = az_vnorm rat_libm v + 0.01
        ∧ ∀ w ∈ example_triangle, az_vnorm rat_libm w ≤ az_vnorm rat_libm v :=
  ⟨example_triangle_sqrt, example_triangle_radius,
    (polygon_bounding_radius_max_distance rat_libm example_triangle example_triangle_sqrt).2.1
      (by decide)⟩

/-- C18 (as amended): with a square root that is exact at the vertices, for every polygon
and every `bound ≥ 0` such that all vertices lie within distance `bound` of the origin, the
circle of the derived radius encloses every vertex, and the derived radius is at most
`bound + 0.01`; when some vertex lies at distance exactly `bound` the derived radius is
`bound + 0.01`, hence at least `bound`.  So the derived radius exceeds the smallest
enclosing radius by exactly the margin, and it is below `bound` when `bound` is not
tight. -/
theorem polygon_bounding_radius_tight (m : Libm R) (polygon : az_polygon_t R) (bound : R)
    (hsqrt : ∀ v ∈ polygon, 0 ≤ m.sqrt (az_vdot v v)
      ∧ m.sqrt (az_vdot v v) * m.sqrt (az_vdot v v) = az_vdot v v)
    (hbound : 0 ≤ bound)
    (hwithin : ∀ v ∈ polygon, within_radius v AZ_VZERO bound) :
    (∀ v ∈ polygon, within_radius v AZ_VZERO (polygon_bounding_radius m polygon))
    ∧ polygon_bounding_radius m polygon ≤ bound + 0.01
    ∧ ((∃ v ∈ polygon, dist_sq v AZ_VZERO = bound * bound) →
        polygon_bounding_radius m polygon = bound + 0.01
        ∧ polygon_bounding_radius m polygon ≥ bound) := by
  have hle := polygon_bounding_radius_le m polygon bound hsqrt hbound hwithin
  refine ⟨fun v hv => polygon_bounding_radius_encloses m polygon hsqrt v hv, hle, ?_⟩
  intro hex
  have heq := polygon_bounding_radius_eq m polygon bound hsqrt hbound hwithin hex
  have hm : (0 : R) < 0.01 := by norm_num
  exact ⟨heq, by linarith⟩

theorem polygon_bounding_radius_tight_witness :
    (∀ v ∈ example_triangle, 0 ≤ rat_libm.sqrt (az_vdot v v)
      ∧ rat_libm.sqrt (az_vdot v v) * rat_libm.sqrt (az_vdot v v) = az_vdot v v)
    ∧ (0 : ℚ) ≤ 10
    ∧ (∀ v ∈ example_triangle, within_radius v AZ_VZERO 10)
    ∧ (∀ v ∈ example_triangle,
        within_radius v AZ_VZERO (polygon_bounding_radius rat_libm example_triangle))
    ∧ polygon_bounding_radius rat_libm example_triangle ≤ 10 + 0.01 :=
  have h := polygon_bounding_radius_tight rat_libm example_triangle 10 example_triangle_sqrt
    (by norm_num) example_triangle_within
  ⟨example_triangle_sqrt, by norm_num, example_triangle_within, h.1, h.2.1⟩

/-- The claim that the derived radius is at least every bound on the vertex distances
fails: all vertices of the triangle (3, 4), (-3, 4), (0, -5) lie within distance 10 of the
origin, and its derived radius is 5.01. -/
theorem polygon_bounding_radius_counterexample :
    (∀ v ∈ small_triangle, within_radius v AZ_VZERO 10)
    ∧ polygon_bounding_radius rat_libm small_triangle = 5.01
    ∧ ¬ polygon_bounding_radius rat_libm small_triangle ≥ 10 := by
  refine ⟨small_triangle_within, small_triangle_radius, ?_⟩
  rw [small_triangle_radius]
  norm_num

/-- C19: `init_component_data` fails its assertion iff the component is a polygon
(`num_vertices > 0`) with a non-zero `bounding_radius`, or a circle (no vertices) whose
`bounding_radius` is not strictly positive; a polygon with `bounding_radius` 0 gets the
radius `polygon_bounding_radius` derives from its vertices, everything else as it was, and
a circle with a positive radius is left as supplied. -/
theorem init_component_data_spec (m : Libm R) (component : az_component_data_t R) :
    (init_component_data m component = none ↔
      (component.polygon.length > 0 ∧ component.bounding_radius ≠ 0)
      ∨ (component.polygon.length = 0 ∧ ¬ component.bounding_radius > 0))
    ∧ (component.polygon.length > 0 → component.bounding_radius = 0 →
        init_component_data m component =
          some { polygon := component.polygon
                 bounding_radius := polygon_bounding_radius m component.polygon
                 immunities := component.immunities })
    ∧ (component.polygon.length = 0 → component.bounding_radius > 0 →
        init_component_data m component = some component) :=
  ⟨init_component_data_none_iff m component,
    fun hpoly hzero => init_component_data_polygon m component hpoly hzero,
    fun hpoly hpos => init_component_data_circle m component hpoly hpos⟩

/-- C20: after a successful `az_init_baddie_datas`, every entry of the table after the
first (every kind other than `AZ_BAD_NOTHING`) whose template has no sub-parts has
`overall_bounding_radius` equal to the `bounding_radius` of its main body. -/
theorem az_init_baddie_datas_no_sub_parts (m : Libm R) (st st' : baddie_catalog R)
    (h : az_init_baddie_datas m st = some st') :
    ∀ i data', 0 < i → st'.baddie_datas.get? i = some data' →
      data'.components.length = 0 →
      data'.overall_bounding_radius = data'.main_body.bounding_radius := by
  intro i data' hi hget hlen
  obtain ⟨-, -, -, -, hall⟩ := az_init_baddie_datas_some m st st' h
  obtain ⟨data, -, hinit⟩ := hall i data' hi hget
  obtain ⟨-, -, -, -, hnil, -⟩ := init_baddie_data_some m data data' hinit
  exact (hnil (List.length_eq_zero.mp hlen)).2

theorem az_init_baddie_datas_no_sub_parts_witness :
    az_init_baddie_datas rat_libm
        { baddie_data_initialized := false, baddie_datas := example_datas } =
      some { baddie_data_initialized := true, baddie_datas := example_datas_ready }
    ∧ ∀ i data', 0 < i → example_datas_ready.get? i = some data' →
        data'.components.length = 0 →
        data'.overall_bounding_radius = data'.main_body.bounding_radius :=
  ⟨example_datas_init,
    az_init_baddie_datas_no_sub_parts rat_libm _ _ example_datas_init⟩

/-- C21: after a successful `az_init_baddie_datas`, every entry of the table after the
first (every kind other than the sentinel) has `overall_bounding_radius` at least the
`bounding_radius` of its main body and at least the `bounding_radius` of each of its
sub-parts. -/
theorem az_init_baddie_datas_overall_radius (m : Libm R) (st st' : baddie_catalog R)
    (h : az_init_baddie_datas m st = some st') :
    ∀ i data', 0 < i → st'.baddie_datas.get? i = some data' →
      data'.overall_bounding_radius ≥ data'.main_body.bounding_radius
      ∧ ∀ c ∈ data'.components, data'.overall_bounding_radius ≥ c.bounding_radius := by
  intro i data' hi hget
  obtain ⟨-, -, -, -, hall⟩ := az_init_baddie_datas_some m st st' h
  obtain ⟨data, -, hinit⟩ := hall i data' hi hget
  obtain ⟨-, -, -, -, -, -, hmain, hsub, -⟩ := init_baddie_data_some m data data' hinit
  exact ⟨hmain, hsub⟩

theorem az_init_baddie_datas_overall_radius_witness :
    az_init_baddie_datas rat_libm
        { baddie_data_initialized := false, baddie_datas := example_datas } =
      some { baddie_data_initialized := true, baddie_datas := example_datas_ready }
    ∧ ∀ i data', 0 < i → example_datas_ready.get? i = some data' →
        data'.overall_bounding_radius ≥ data'.main_body.bounding_radius
        ∧ ∀ c ∈ data'.components, data'.overall_bounding_radius ≥ c.bounding_radius :=
  ⟨example_datas_init,
    az_init_baddie_datas_overall_radius rat_libm _ _ example_datas_init⟩

/-- C22: `az_init_baddie_datas` succeeds at most once: a successful call found the flag
`baddie_data_initialized` clear and leaves it set, and a call with the flag set fails its
first assertion whatever the table holds and whatever the `libm` functions are, so before
it reads or writes any template. -/
theorem az_init_baddie_datas_once (m : Libm R) (st st' : baddie_catalog R)
    (h : az_init_baddie_datas m st = some st') :
    st.baddie_data_initialized = false
    ∧ st'.baddie_data_initialized = true
    ∧ az_init_baddie_datas m st' = none
    ∧ ∀ (m' : Libm R) (datas : List (az_baddie_data_t R)),
        az_init_baddie_datas m'
          { baddie_data_initialized := st'.baddie_data_initialized, baddie_datas := datas } =
          none := by
  obtain ⟨h0, h1, -⟩ := az_init_baddie_datas_some m st st' h
  refine ⟨h0, h1, ?_, ?_⟩
  · unfold az_init_baddie_datas
    simp [h1]
  · intro m' datas
    unfold az_init_baddie_datas
    simp [h1]

theorem az_init_baddie_datas_once_witness :
    az_init_baddie_datas rat_libm
        { baddie_data_initialized := false, baddie_datas := example_datas } =
      some { baddie_data_initialized := true, baddie_datas := example_datas_ready }
    ∧ az_init_baddie_datas rat_libm
        { baddie_data_initialized := true, baddie_datas := example_datas_ready } = none :=
  ⟨example_datas_init,
    (az_init_baddie_datas_once rat_libm _ _ example_datas_init).2.2.1⟩

end CatalogClaims

section CatalogRejects

variable {R : Type} [LinearOrderedField R]

/-- The loop body of `az_init_baddie_datas` fails on an entry whose health is not positive,
or that has sub-parts and declares an overall radius below the derived radius of its main
body or of a sub-part, or that has no sub-parts and declares a non-zero overall radius. -/
theorem init_baddie_data_none (m : Libm R) (data : az_baddie_data_t R)
    (hbad : ¬ data.max_health > 0
      ∨ (data.components ≠ []
          ∧ (data.overall_bounding_radius < derived_bounding_radius m data.main_body
              ∨ ∃ c ∈ data.components,
                  data.overall_bounding_radius < derived_bounding_radius m c))
      ∨ (data.components = [] ∧ data.overall_bounding_radius ≠ 0)) :
    init_baddie_data m data = none := by
  cases h : init_baddie_data m data with
  | none => rfl
  | some data' =>
      exfalso
      obtain ⟨hc, hm, hhealth, -, hnil, hne, hmain, hsub, hpos⟩ :=
        init_baddie_data_some m data data' h
      have hf := init_components_some m data.components data'.components hc
      obtain ⟨hlen, hget⟩ := List.forall₂_iff_get.mp hf
      rcases hbad with hb | ⟨hcomp, hb⟩ | ⟨hcomp, hb⟩
      · rw [hhealth] at hpos
        exact hb hpos
      · have hne' : data'.components ≠ [] := by
          intro hnil'
          apply hcomp
          apply List.length_eq_zero.mp
          rw [hlen, hnil']
          rfl
        have hov := hne hne'
        rcases hb with hb | ⟨c, hcmem, hb⟩
        · have hr := (init_component_data_some m data.main_body data'.main_body hm).2.2
          rw [hov, hr] at hmain
          exact absurd hmain (not_le.mpr hb)
        · obtain ⟨i, hi, hic⟩ := List.mem_iff_getElem.mp hcmem
          have hi' : i < data'.components.length := by omega
          have hthis := hget i hi hi'
          simp only [List.get_eq_getElem, hic] at hthis
          have hr := (init_component_data_some m c _ hthis).2.2
          have hge := hsub (data'.components[i]) (List.getElem_mem hi')
          rw [hov, hr] at hge
          exact absurd hge (not_le.mpr hb)
      · have hnil' : data'.components = [] := by
          apply List.length_eq_zero.mp
          rw [← hlen, hcomp]
          rfl
        exact hb (hnil hnil').1

/-- C23 (as amended): `az_init_baddie_datas` fails its assertion whenever some entry of the
table after the first (some kind other than the sentinel) has `max_health` that is not
strictly positive, or has at least one sub-part and declares an
`overall_bounding_radius` smaller than the derived `bounding_radius` of its main body or of
one of its sub-parts, or has no sub-parts and declares an `overall_bounding_radius` other
than 0.  For a kind without sub-parts the declared overall radius is not compared with the
radius of the main body: it must be 0 and is replaced by that radius. -/
theorem az_init_baddie_datas_rejects (m : Libm R) (st : baddie_catalog R) (i : Nat)
    (data : az_baddie_data_t R) (hi : 0 < i) (hget : st.baddie_datas.get? i = some data)
    (hbad : ¬ data.max_health > 0
      ∨ (data.components ≠ []
          ∧ (data.overall_bounding_radius < derived_bounding_radius m data.main_body
              ∨ ∃ c ∈ data.components,
                  data.overall_bounding_radius < derived_bounding_radius m c))
      ∨ (data.components = [] ∧ data.overall_bounding_radius ≠ 0)) :
    az_init_baddie_datas m st = none :=
  az_init_baddie_datas_none_of_entry m st i data hi hget (init_baddie_data_none m data hbad)

end CatalogRejects

section CatalogRejectsFacts

theorem az_init_baddie_datas_rejects_witness :
    undersized_datas.get? 1 = some undersized_data
    ∧ undersized_data.components ≠ []
    ∧ undersized_data.overall_bounding_radius <
        derived_bounding_radius rat_libm undersized_data.main_body
    ∧ az_init_baddie_datas rat_libm
        { baddie_data_initialized := false, baddie_datas := undersized_datas } = none :=
  have hne : undersized_data.components ≠ [] := by simp [undersized_data]
  have hlt : undersized_data.overall_bounding_radius <
      derived_bounding_radius rat_libm undersized_data.main_body := by
    simp only [derived_bounding_radius, undersized_data, List.length_nil, gt_iff_lt,
      lt_self_iff_false, if_false]
    norm_num
  ⟨rfl, hne, hlt,
    az_init_baddie_datas_rejects rat_libm
      { baddie_data_initialized := false, baddie_datas := undersized_datas } 1
      undersized_data (by decide) rfl (Or.inr (Or.inl ⟨hne, Or.inl hlt⟩))⟩

/-- The claim that initialization fails whenever a kind declares an overall radius smaller
than the radius of its main body fails on kinds without sub-parts: entry 4 of the example
table declares the overall radius 0 and a circular main body of radius 15, and the
initialization of the table succeeds. -/
theorem az_init_baddie_datas_counterexample :
    (∃ data, example_datas.get? 4 = some data
      ∧ data.overall_bounding_radius < derived_bounding_radius rat_libm data.main_body)
    ∧ az_init_baddie_datas rat_libm
        { baddie_data_initialized := false, baddie_datas := example_datas } =
      some { baddie_data_initialized := true, baddie_datas := example_datas_ready } := by
  refine ⟨⟨example_bouncer, rfl, ?_⟩, example_datas_init⟩
  simp only [derived_bounding_radius, example_bouncer, List.length_nil, gt_iff_lt,
    lt_self_iff_false, if_false]
  norm_num

end CatalogRejectsFacts

/-! ## Looking a template up and initializing a baddie: general facts -/

section LookupLemmas

variable {R : Type}

theorem az_get_baddie_data_some (st st' : baddie_catalog R) (kind : az_baddie_kind_t)
    (data : az_baddie_data_t R) (h : az_get_baddie_data st kind = some (data, st')) :
    st.baddie_datas.get? (kind_index kind).toNat = some data ∧ st' = st := by
  unfold az_get_baddie_data at h
  by_cases hflag : st.baddie_data_initialized = true
  · by_cases hkind : kind = az_baddie_kind_t.AZ_BAD_NOTHING
    · simp [hflag, hkind] at h
    · by_cases hrange : 0 ≤ kind_index kind ∧ kind_index kind < (st.baddie_datas.length : Int)
      · simp only [hflag, not_true, if_false, ne_eq, hkind, not_false_eq_true, hrange,
          and_self] at h
        cases hget : st.baddie_datas.get? (kind_index kind).toNat with
        | none =>
            rw [hget] at h
            cases h
        | some d =>
            rw [hget] at h
            simp only [Option.some.injEq, Prod.mk.injEq] at h
            exact ⟨by rw [h.1], h.2.symm⟩
      · simp only [hflag, not_true, if_false, ne_eq, hkind, not_false_eq_true, hrange,
          if_true] at h
        cases h
  · simp [hflag] at h

end LookupLemmas

section InitBaddieLemmas

variable {R : Type} [LinearOrderedField R]

/-- A call of `az_init_baddie` whose first three assertions hold, the lookup of the
template succeeding, for a kind other than `AZ_BAD_ATOM`. -/
theorem az_init_baddie_plain (st st' : baddie_catalog R) (baddie : baddie_object R)
    (kind : az_baddie_kind_t) (position : az_vector_t R) (angle : R)
    (data : az_baddie_data_t R)
    (hkind : kind ≠ az_baddie_kind_t.AZ_BAD_NOTHING)
    (hnull : baddie.uid ≠ AZ_NULL_UID) (hship : baddie.uid ≠ AZ_SHIP_UID)
    (hdata : az_get_baddie_data st kind = some (data, st'))
    (hatom : kind ≠ az_baddie_kind_t.AZ_BAD_ATOM) :
    az_init_baddie st baddie kind position angle =
      call_end.returned
        { kind := kind
          data := some data
          uid := baddie.uid
          position := position
          angle := angle
          health := data.max_health
          cooldown := 0
          param := 0
          state := 0
          temp_properties := 0
          components := baddie.components.map (fun _ => { position := AZ_VZERO, angle := 0 }) } := by
  unfold az_init_baddie
  simp only [ne_eq, hkind, not_false_eq_true, not_true, if_false, hnull, hship, hdata,
    memset_zero]

/-- A call of `az_init_baddie` for `AZ_BAD_ATOM` whose assertions hold, in terms of the
loop over the sub-parts. -/
theorem az_init_baddie_atom (st st' : baddie_catalog R) (baddie : baddie_object R)
    (position : az_vector_t R) (angle : R) (data : az_baddie_data_t R)
    (hnull : baddie.uid ≠ AZ_NULL_UID) (hship : baddie.uid ≠ AZ_SHIP_UID)
    (hdata : az_get_baddie_data st az_baddie_kind_t.AZ_BAD_ATOM = some (data, st')) :
    az_init_baddie st baddie az_baddie_kind_t.AZ_BAD_ATOM position angle =
      match atom_angles_loop data.components.length 0
          (baddie.components.map
            (fun _ => ({ position := AZ_VZERO, angle := 0 } : az_component_t R))) with
      | none => call_end.out_of_bounds
      | some components =>
          call_end.returned
            { kind := az_baddie_kind_t.AZ_BAD_ATOM
              data := some data
              uid := baddie.uid
              position := position
              angle := angle
              health := data.max_health
              cooldown := 0
              param := 0
              state := 0
              temp_properties := 0
              components := components } := by
  unfold az_init_baddie
  simp only [ne_eq, reduceCtorEq, not_false_eq_true, not_true, if_false, hnull, hship, hdata,
    memset_zero]

/-- A call of `az_init_baddie` that returns passed its assertions and found its
template. -/
theorem az_init_baddie_returned (st : baddie_catalog R) (baddie b' : baddie_object R)
    (kind : az_baddie_kind_t) (position : az_vector_t R) (angle : R)
    (h : az_init_baddie st baddie kind position angle = call_end.returned b') :
    kind ≠ az_baddie_kind_t.AZ_BAD_NOTHING
    ∧ baddie.uid ≠ AZ_NULL_UID ∧ baddie.uid ≠ AZ_SHIP_UID
    ∧ ∃ data, az_get_baddie_data st kind = some (data, st) := by
  by_cases hkind : kind = az_baddie_kind_t.AZ_BAD_NOTHING
  · unfold az_init_baddie at h
    simp [hkind] at h
  · by_cases hnull : baddie.uid = AZ_NULL_UID
    · unfold az_init_baddie at h
      simp [hkind, hnull] at h
    · by_cases hship : baddie.uid = AZ_SHIP_UID
      · unfold az_init_baddie at h
        simp [hkind, hnull, hship] at h
      · refine ⟨hkind, hnull, hship, ?_⟩
        cases hdata : az_get_baddie_data st kind with
        | none =>
            unfold az_init_baddie at h
            simp [hkind, hnull, hship, hdata] at h
        | some r =>
            obtain ⟨data, st'⟩ := r
            have hst := (az_get_baddie_data_some st st' kind data hdata).2
            subst hst
            exact ⟨data, rfl⟩

/-- What the loop of the `AZ_BAD_ATOM` case leaves: it needs a slot for every index it
visits, keeps the number of slots and every position, and sets the angle of slot `j` to
`j * AZ_DEG2RAD(100)` for the indices it visits. -/
theorem atom_angles_loop_some (n i : Nat) (comps comps' : List (az_component_t R))
    (h : atom_angles_loop n i comps = some comps') :
    (n = 0 ∨ i + n ≤ comps.length)
    ∧ comps'.length = comps.length
    ∧ ∀ j pose', comps'.get? j = some pose' →
        ∃ pose, comps.get? j = some pose ∧ pose'.position = pose.position
          ∧ pose'.angle = if i ≤ j ∧ j < i + n then (j : R) * AZ_DEG2RAD 100 else pose.angle := by
  induction n generalizing i comps with
  | zero =>
      simp only [atom_angles_loop, Option.some.injEq] at h
      subst h
      refine ⟨Or.inl rfl, rfl, ?_⟩
      intro j pose' hj
      refine ⟨pose', hj, rfl, ?_⟩
      rw [if_neg (by omega)]
  | succ n ih =>
      cases hget : comps.get? i with
      | none =>
          rw [atom_angles_loop, hget] at h
          cases h
      | some pose =>
          have hi : i < comps.length := by
            rw [List.get?_eq_getElem?] at hget
            exact (List.getElem?_eq_some.mp hget).1
          simp only [atom_angles_loop, hget] at h
          obtain ⟨hslots, hlen, hall⟩ := ih (i + 1) _ h
          simp only [List.length_set] at hslots hlen
          refine ⟨Or.inr (by omega), hlen, ?_⟩
          intro j pose' hj
          obtain ⟨p1, hp1, hpos, hang⟩ := hall j pose' hj
          by_cases hji : j = i
          · subst hji
            rw [List.get?_eq_getElem?, List.getElem?_set_self hi] at hp1
            simp only [Option.some.injEq] at hp1
            subst hp1
            refine ⟨pose, hget, hpos, ?_⟩
            rw [hang, if_neg (by omega), if_pos (by omega)]
          · rw [List.get?_eq_getElem?, List.getElem?_set_ne (fun h => hji h.symm),
              ← List.get?_eq_getElem?] at hp1
            refine ⟨p1, hp1, hpos, ?_⟩
            rw [hang]
            by_cases hc : i + 1 ≤ j ∧ j < i + 1 + n
            · rw [if_pos hc, if_pos (by omega)]
            · rw [if_neg hc, if_neg (by omega)]

end InitBaddieLemmas

/-! ## The example catalog: evaluations -/

section InitBaddieFacts

theorem example_catalog_lump :
    az_get_baddie_data example_catalog az_baddie_kind_t.AZ_BAD_LUMP =
      some (example_lump_ready, example_catalog) := by
  simp [az_get_baddie_data, example_catalog, example_datas_ready, kind_index]

theorem example_catalog_atom :
    az_get_baddie_data example_catalog az_baddie_kind_t.AZ_BAD_ATOM =
      some (example_atom, example_catalog) := by
  simp [az_get_baddie_data, example_catalog, example_datas_ready, kind_index]

theorem pool_slot_atom_angles :
    atom_angles_loop 3 0
        (pool_slot.components.map
          (fun _ => ({ position := AZ_VZERO, angle := 0 } : az_component_t ℚ))) =
      some
        [{ position := AZ_VZERO, angle := 0 },
         { position := AZ_VZERO, angle := AZ_DEG2RAD 100 },
         { position := AZ_VZERO, angle := 2 * AZ_DEG2RAD 100 },
         { position := AZ_VZERO, angle := 0 }] := by
  simp [atom_angles_loop, pool_slot]

theorem pool_slot_init_atom :
    az_init_baddie example_catalog pool_slot az_baddie_kind_t.AZ_BAD_ATOM ⟨100, 0⟩ 0 =
      call_end.returned
        { kind := az_baddie_kind_t.AZ_BAD_ATOM
          data := some example_atom
          uid := 7
          position := ⟨100, 0⟩
          angle := 0
          health := 15
          cooldown := 0
          param := 0
          state := 0
          temp_properties := 0
          components :=
            [{ position := AZ_VZERO, angle := 0 },
             { position := AZ_VZERO, angle := AZ_DEG2RAD 100 },
             { position := AZ_VZERO, angle := 2 * AZ_DEG2RAD 100 },
             { position := AZ_VZERO, angle := 0 }] } := by
  rw [az_init_baddie_atom example_catalog example_catalog pool_slot ⟨100, 0⟩ 0 example_atom
    (by decide) (by decide) example_catalog_atom]
  have h3 : example_atom.components.length = 3 := rfl
  rw [h3, pool_slot_atom_angles]
  rfl

theorem pool_slot_init_lump :
    az_init_baddie example_catalog pool_slot az_baddie_kind_t.AZ_BAD_LUMP ⟨100, 0⟩ 0 =
      call_end.returned
        { kind := az_baddie_kind_t.AZ_BAD_LUMP
          data := some example_lump_ready
          uid := 7
          position := ⟨100, 0⟩
          angle := 0
          health := 10
          cooldown := 0
          param := 0
          state := 0
          temp_properties := 0
          components :=
            [{ position := AZ_VZERO, angle := 0 }, { position := AZ_VZERO, angle := 0 },
             { position := AZ_VZERO, angle := 0 }, { position := AZ_VZERO, angle := 0 }] } := by
  rw [az_init_baddie_plain example_catalog example_catalog pool_slot
    az_baddie_kind_t.AZ_BAD_LUMP ⟨100, 0⟩ 0 example_lump_ready (by decide) (by decide)
    (by decide) example_catalog_lump (by decide)]
  rfl

end InitBaddieFacts

/-! ## Claims about the lookup and the initialization of a baddie -/

section LookupClaims

variable {R : Type}

end LookupClaims

section InitBaddieClaims

variable {R : Type} [LinearOrderedField R]

/-- C25: `az_init_baddie` fails its assertion, the baddie object being at that moment as
it was before the call, if `kind` is `AZ_BAD_NOTHING`, if the uid of the baddie is
`AZ_NULL_UID`, or if it is `AZ_SHIP_UID`; this holds whatever the catalog, the position
and the angle are. -/
theorem az_init_baddie_asserts (st : baddie_catalog R) (baddie : baddie_object R)
    (kind : az_baddie_kind_t) (position : az_vector_t R) (angle : R)
    (hbad : kind = az_baddie_kind_t.AZ_BAD_NOTHING ∨ baddie.uid = AZ_NULL_UID
      ∨ baddie.uid = AZ_SHIP_UID) :
    az_init_baddie st baddie kind position angle = call_end.assert_failed baddie := by
  unfold az_init_baddie
  by_cases hkind : kind = az_baddie_kind_t.AZ_BAD_NOTHING
  · simp [hkind]
  · by_cases hnull : baddie.uid = AZ_NULL_UID
    · simp [hkind, hnull]
    · by_cases hship : baddie.uid = AZ_SHIP_UID
      · simp [hkind, hnull, hship]
      · rcases hbad with h | h | h
        · exact absurd h hkind
        · exact absurd h hnull
        · exact absurd h hship

/-- C26: after a successful `az_init_baddie(baddie, kind, position, angle)` the baddie has
the kind `kind`, its `data` is the entry of `kind` in the catalog, its position and angle
are the ones passed, its health is the `max_health` of that entry, its uid is the uid it
had before the call, the fields `cooldown`, `param`, `state` and `temp_properties` are
zero, it has the slots it had, and for every kind other than `AZ_BAD_ATOM` every sub-part
pose has position (0, 0) and angle 0. -/
theorem az_init_baddie_fields (st : baddie_catalog R) (baddie b' : baddie_object R)
    (kind : az_baddie_kind_t) (position : az_vector_t R) (angle : R)
    (h : az_init_baddie st baddie kind position angle = call_end.returned b') :
    b'.kind = kind
    ∧ (∃ data, az_get_baddie_data st kind = some (data, st)
        ∧ st.baddie_datas.get? (kind_index kind).toNat = some data
        ∧ b'.data = some data ∧ b'.health = data.max_health)
    ∧ b'.uid = baddie.uid ∧ b'.position = position ∧ b'.angle = angle
    ∧ b'.cooldown = 0 ∧ b'.param = 0 ∧ b'.state = 0 ∧ b'.temp_properties = 0
    ∧ b'.components.length = baddie.components.length
    ∧ (kind ≠ az_baddie_kind_t.AZ_BAD_ATOM →
        ∀ pose ∈ b'.components, pose.position = AZ_VZERO ∧ pose.angle = 0) := by
  obtain ⟨hkind, hnull, hship, data, hdata⟩ :=
    az_init_baddie_returned st baddie b' kind position angle h
  have hentry := (az_get_baddie_data_some st st kind data hdata).1
  by_cases hatom : kind = az_baddie_kind_t.AZ_BAD_ATOM
  · subst hatom
    rw [az_init_baddie_atom st st baddie position angle data hnull hship hdata] at h
    cases hl : atom_angles_loop data.components.length 0
        (baddie.components.map
          (fun _ => ({ position := AZ_VZERO, angle := 0 } : az_component_t R))) with
    | none =>
        rw [hl] at h
        cases h
    | some components =>
        rw [hl] at h
        simp only [call_end.returned.injEq] at h
        subst h
        obtain ⟨-, hlen, -⟩ := atom_angles_loop_some _ _ _ _ hl
        refine ⟨rfl, ⟨data, hdata, hentry, rfl, rfl⟩, rfl, rfl, rfl, rfl, rfl, rfl, rfl, ?_, ?_⟩
        · rw [hlen, List.length_map]
        · intro hne
          exact absurd rfl hne
  · rw [az_init_baddie_plain st st baddie kind position angle data hkind hnull hship hdata
      hatom] at h
    simp only [call_end.returned.injEq] at h
    subst h
    refine ⟨rfl, ⟨data, hdata, hentry, rfl, rfl⟩, rfl, rfl, rfl, rfl, rfl, rfl, rfl, ?_, ?_⟩
    · rw [List.length_map]
    · intro _ pose hpose
      obtain ⟨_, _, rfl⟩ := List.mem_map.mp hpose
      exact ⟨rfl, rfl⟩

/-- C27 (as amended): after a successful `az_init_baddie` with kind `AZ_BAD_ATOM`, for every
sub-part index `i` below the part count of the template the pose of sub-part `i` has the
angle `i * AZ_DEG2RAD(100)`, that is `i` times 100 degrees, and the position (0, 0); the
slots from the part count on are zero.  The step is the constant 100 degrees, not the full
turn divided by the part count (120 degrees for the three sub-parts of the shipped
template). -/
theorem az_init_baddie_atom_angles (st : baddie_catalog R) (baddie b' : baddie_object R)
    (position : az_vector_t R) (angle : R)
    (h : az_init_baddie st baddie az_baddie_kind_t.AZ_BAD_ATOM position angle =
      call_end.returned b') :
    ∃ data, az_get_baddie_data st az_baddie_kind_t.AZ_BAD_ATOM = some (data, st)
      ∧ b'.data = some data
      ∧ data.components.length ≤ b'.components.length
      ∧ (∀ i, i < data.components.length →
          ∃ pose, b'.components.get? i = some pose
            ∧ pose.angle = (i : R) * AZ_DEG2RAD 100 ∧ pose.position = AZ_VZERO)
      ∧ (∀ i pose, data.components.length ≤ i → b'.components.get? i = some pose →
          pose.angle = 0 ∧ pose.position = AZ_VZERO) := by
  obtain ⟨-, hnull, hship, data, hdata⟩ :=
    az_init_baddie_returned st baddie b' az_baddie_kind_t.AZ_BAD_ATOM position angle h
  rw [az_init_baddie_atom st st baddie position angle data hnull hship hdata] at h
  cases hl : atom_angles_loop data.components.length 0
      (baddie.components.map
        (fun _ => ({ position := AZ_VZERO, angle := 0 } : az_component_t R))) with
  | none =>
      rw [hl] at h
      cases h
  | some components =>
      rw [hl] at h
      simp only [call_end.returned.injEq] at h
      subst h
      obtain ⟨hslots, hlen, hall⟩ := atom_angles_loop_some _ _ _ _ hl
      have hle : data.components.length ≤ components.length := by
        rcases hslots with h0 | hle
        · omega
        · omega
      have hzero : ∀ j pose,
          (baddie.components.map
            (fun _ => ({ position := AZ_VZERO, angle := 0 } : az_component_t R))).get? j =
            some pose → pose.position = AZ_VZERO ∧ pose.angle = 0 := by
        intro j pose hj
        have hmem := List.get?_mem hj
        obtain ⟨_, _, rfl⟩ := List.mem_map.mp hmem
        exact ⟨rfl, rfl⟩
      refine ⟨data, hdata, rfl, hle, ?_, ?_⟩
      · intro i hi
        have hi' : i < components.length := by omega
        refine ⟨components.get ⟨i, hi'⟩, ?_, ?_⟩
        · rw [List.get?_eq_getElem?]
          exact List.getElem?_eq_some.mpr ⟨hi', rfl⟩
        · obtain ⟨pose, hp, hpos, hang⟩ := hall i (components.get ⟨i, hi'⟩)
            (by rw [List.get?_eq_getElem?]; exact List.getElem?_eq_some.mpr ⟨hi', rfl⟩)
          rw [if_pos (by omega)] at hang
          exact ⟨hang, by rw [hpos]; exact (hzero i pose hp).1⟩
      · intro i pose hi hget
        obtain ⟨pose0, hp, hpos, hang⟩ := hall i pose hget
        rw [if_neg (by omega)] at hang
        exact ⟨by rw [hang]; exact (hzero i pose0 hp).2, by rw [hpos]; exact (hzero i pose0 hp).1⟩

end InitBaddieClaims

section InitBaddieWitnesses

theorem az_init_baddie_asserts_witness :
    pool_slot.uid ≠ AZ_NULL_UID ∧ pool_slot.uid ≠ AZ_SHIP_UID
    ∧ az_init_baddie example_catalog pool_slot az_baddie_kind_t.AZ_BAD_NOTHING ⟨100, 0⟩ 0 =
        call_end.assert_failed pool_slot
    ∧ az_init_baddie example_catalog { pool_slot with uid := AZ_NULL_UID }
        az_baddie_kind_t.AZ_BAD_LUMP ⟨100, 0⟩ 0 =
        call_end.assert_failed { pool_slot with uid := AZ_NULL_UID } :=
  ⟨by decide, by decide,
    az_init_baddie_asserts example_catalog pool_slot az_baddie_kind_t.AZ_BAD_NOTHING
      ⟨100, 0⟩ 0 (Or.inl rfl),
    az_init_baddie_asserts example_catalog { pool_slot with uid := AZ_NULL_UID }
      az_baddie_kind_t.AZ_BAD_LUMP ⟨100, 0⟩ 0 (Or.inr (Or.inl rfl))⟩

theorem az_init_baddie_fields_witness :
    (∃ b', az_init_baddie example_catalog pool_slot az_baddie_kind_t.AZ_BAD_LUMP ⟨100, 0⟩ 0 =
        call_end.returned b'
      ∧ b'.kind = az_baddie_kind_t.AZ_BAD_LUMP ∧ b'.uid = 7 ∧ b'.health = 10
      ∧ b'.position = ⟨100, 0⟩ ∧ b'.cooldown = 0
      ∧ ∀ pose ∈ b'.components, pose.position = AZ_VZERO ∧ pose.angle = 0) :=
  have h := az_init_baddie_fields example_catalog pool_slot _ az_baddie_kind_t.AZ_BAD_LUMP
    ⟨100, 0⟩ 0 pool_slot_init_lump
  ⟨_, pool_slot_init_lump, h.1, h.2.2.1, rfl, h.2.2.2.1, h.2.2.2.2.2.1,
    h.2.2.2.2.2.2.2.2.2.2 (by decide)⟩

theorem az_init_baddie_atom_angles_witness :
    ∃ b', az_init_baddie example_catalog pool_slot az_baddie_kind_t.AZ_BAD_ATOM ⟨100, 0⟩ 0 =
        call_end.returned b'
      ∧ ∃ data, b'.data = some data
        ∧ ∀ i, i < data.components.length →
          ∃ pose, b'.components.get? i = some pose
            ∧ pose.angle = (i : ℚ) * AZ_DEG2RAD 100 ∧ pose.position = AZ_VZERO :=
  match az_init_baddie_atom_angles example_catalog pool_slot _ ⟨100, 0⟩ 0
      pool_slot_init_atom with
  | ⟨data, _, hd, _, hall, _⟩ => ⟨_, pool_slot_init_atom, data, hd, hall⟩

/-- The sub-parts of `AZ_BAD_ATOM` are not spread over a full turn: after `az_init_baddie`
with the three-part template, sub-part 1 has the angle `AZ_DEG2RAD(100)`, which is not a
third of a full turn. -/
theorem az_init_baddie_atom_counterexample :
    ∃ b' pose,
      az_init_baddie example_catalog pool_slot az_baddie_kind_t.AZ_BAD_ATOM ⟨100, 0⟩ 0 =
        call_end.returned b'
      ∧ (b'.data.map (fun data => data.components.length)) = some 3
      ∧ b'.components.get? 1 = some pose
      ∧ pose.angle = AZ_DEG2RAD 100
      ∧ pose.angle ≠ 1 * (2 * AZ_PI / 3) := by
  refine ⟨_, { position := AZ_VZERO, angle := AZ_DEG2RAD 100 }, pool_slot_init_atom, rfl, rfl,
    rfl, ?_⟩
  simp only [AZ_DEG2RAD, AZ_PI]
  norm_num

end InitBaddieWitnesses

/-! ## Claims about the component tests -/

section ComponentTests

variable {R : Type} [LinearOrderedField R]

/-- C30: for a polygon component, `ray_hits_component` reports a hit iff the ray hits the
circle of radius `bounding_radius` about the pose position and the ray-vs-polygon routine,
called with the pose's position and angle, reports a hit, and then hands back what that
routine stored; for a circle its result is that of the ray-vs-circle routine with radius
`bounding_radius` about the pose position, whatever the pose angle is.
`circle_hits_component` has the same structure, the pretest radius of a polygon being
`bounding_radius + radius`. -/
theorem hits_component_structure (G : Geometry R) (component : az_component_data_t R)
    (position : az_vector_t R) (angle : R) (radius : R) (start delta : az_vector_t R) :
    (component.polygon.length > 0 →
      ((ray_hits_component G component position angle start delta).isSome = true ↔
        G.az_ray_hits_bounding_circle start delta position component.bounding_radius = true
        ∧ (G.az_ray_hits_polygon_trans component.polygon position angle start
            delta).isSome = true)
      ∧ (G.az_ray_hits_bounding_circle start delta position component.bounding_radius = true →
          ray_hits_component G component position angle start delta =
            G.az_ray_hits_polygon_trans component.polygon position angle start delta)
      ∧ ((circle_hits_component G component position angle radius start delta).isSome = true ↔
        G.az_ray_hits_bounding_circle start delta position
            (component.bounding_radius + radius) = true
        ∧ (G.az_circle_hits_polygon_trans component.polygon position angle radius start
            delta).isSome = true)
      ∧ (G.az_ray_hits_bounding_circle start delta position
            (component.bounding_radius + radius) = true →
          circle_hits_component G component position angle radius start delta =
            G.az_circle_hits_polygon_trans component.polygon position angle radius start
              delta))
    ∧ (component.polygon.length = 0 →
      (∀ angle', ray_hits_component G component position angle' start delta =
        G.az_ray_hits_circle component.bounding_radius position start delta)
      ∧ (∀ angle', circle_hits_component G component position angle' radius start delta =
        G.az_circle_hits_circle component.bounding_radius position radius start delta)) := by
  constructor
  · intro hpoly
    refine ⟨?_, ?_, ?_, ?_⟩
    · unfold ray_hits_component
      rw [if_pos hpoly]
      cases hb : G.az_ray_hits_bounding_circle start delta position component.bounding_radius
        <;> simp
    · intro hb
      unfold ray_hits_component
      rw [if_pos hpoly, if_pos hb]
    · unfold circle_hits_component
      rw [if_pos hpoly]
      cases hb : G.az_ray_hits_bounding_circle start delta position
        (component.bounding_radius + radius) <;> simp
    · intro hb
      unfold circle_hits_component
      rw [if_pos hpoly, if_pos hb]
  · intro hcirc
    have hn : ¬ component.polygon.length > 0 := by omega
    constructor
    · intro angle'
      unfold ray_hits_component
      rw [if_neg hn]
    · intro angle'
      unfold circle_hits_component
      rw [if_neg hn]

end ComponentTests

section ComponentTestFacts

end ComponentTestFacts

/-! ## Claims about the helpers of the tick -/

section TickClaims

variable {R : Type} [LinearOrderedField R]

end TickClaims

/-! ## Claims about the shipped table and the validation of a template -/

section ShippedClaims

variable {R : Type} [LinearOrderedField R]

/-- C32: `az_init_baddie_datas` fails its assertion when a kind with no sub-parts has a
non-zero overall bounding radius in its declaration, whatever that value is (also when it
is at least the radius of the main body) and whatever the rest of the template is. -/
theorem az_init_baddie_datas_rejects_supplied_radius (m : Libm R) (st : baddie_catalog R)
    (i : Nat) (data : az_baddie_data_t R) (hi : 0 < i)
    (hget : st.baddie_datas.get? i = some data)
    (hnone : data.components = [])
    (hradius : data.overall_bounding_radius ≠ 0) :
    init_baddie_data m data = none ∧ az_init_baddie_datas m st = none :=
  have h : init_baddie_data m data = none :=
    init_baddie_data_none m data (Or.inr (Or.inr ⟨hnone, hradius⟩))
  ⟨h, az_init_baddie_datas_none_of_entry m st i data hi hget h⟩

theorem az_init_baddie_datas_rejects_supplied_radius_witness :
    presupplied_bouncer.overall_bounding_radius ≥ presupplied_bouncer.main_body.bounding_radius
    ∧ init_baddie_data rat_libm { presupplied_bouncer with overall_bounding_radius := 0 } =
        some example_bouncer_ready
    ∧ init_baddie_data rat_libm presupplied_bouncer = none
    ∧ az_init_baddie_datas rat_libm ⟨false, presupplied_datas⟩ = none :=
  ⟨by simp only [presupplied_bouncer, example_bouncer]; norm_num,
    example_bouncer_init,
    az_init_baddie_datas_rejects_supplied_radius rat_libm ⟨false, presupplied_datas⟩ 1
      presupplied_bouncer (by decide) rfl rfl
      (by simp only [presupplied_bouncer]; norm_num)⟩

end ShippedClaims

/-! ## Claims about the bounding circle of a polygon -/

section HullClaims

variable {R : Type} [LinearOrderedField R]

/-- A vertex lies in the convex hull. -/
theorem in_convex_hull_of_mem (polygon : az_polygon_t R) (v : az_vector_t R)
    (hv : v ∈ polygon) : in_convex_hull polygon v :=
  fun _ _ hverts => hverts v hv

end HullClaims

/-! ## The shipped table passes its validation -/

section ShippedTable

variable {R : Type} [LinearOrderedField R]

/-- A component that is declared as the assertions of `init_component_data` require, a
polygon with radius 0 or a circle with a positive radius, leaves it with its derived
radius. -/
theorem init_component_data_valid (m : Libm R) (c : az_component_data_t R)
    (h : (c.polygon.length > 0 ∧ c.bounding_radius = 0)
      ∨ (c.polygon.length = 0 ∧ c.bounding_radius > 0)) :
    init_component_data m c = some { c with bounding_radius := derived_bounding_radius m c } := by
  unfold init_component_data derived_bounding_radius
  rcases h with ⟨hp, hz⟩ | ⟨hp, hr⟩
  · rw [if_pos hp, if_pos hz, if_pos hp]
  · have hnp : ¬ c.polygon.length > 0 := by omega
    rw [if_neg hnp, if_pos hr, if_neg hnp]

/-- The loop over sub-parts that are all declared as required leaves each with its derived
radius. -/
theorem init_components_valid (m : Libm R) (l : List (az_component_data_t R))
    (h : ∀ c ∈ l, (c.polygon.length > 0 ∧ c.bounding_radius = 0)
      ∨ (c.polygon.length = 0 ∧ c.bounding_radius > 0)) :
    init_components m l =
      some (l.map (fun c => { c with bounding_radius := derived_bounding_radius m c })) := by
  induction l with
  | nil => rfl
  | cons c rest ih =>
      rw [List.map_cons]
      exact init_components_cons m c _ rest _
        (init_component_data_valid m c (h c (List.mem_cons_self _ _)))
        (ih (fun c' hc' => h c' (List.mem_cons_of_mem _ hc')))

/-- The loop body of `az_init_baddie_datas` passes on an entry whose parts are declared as
required, whose health is positive, and whose overall radius is 0 when it has no sub-parts
and at least every derived radius when it has some. -/
theorem init_baddie_data_valid (m : Libm R) (data : az_baddie_data_t R)
    (hparts : ∀ c ∈ data.main_body :: data.components,
      (c.polygon.length > 0 ∧ c.bounding_radius = 0)
      ∨ (c.polygon.length = 0 ∧ c.bounding_radius > 0))
    (hhealth : data.max_health > 0)
    (hno : data.components = [] → data.overall_bounding_radius = 0)
    (hsub : data.components ≠ [] →
      ∀ c ∈ data.main_body :: data.components,
        data.overall_bounding_radius ≥ derived_bounding_radius m c) :
    ∃ data', init_baddie_data m data = some data' := by
  have hmain := init_component_data_valid m data.main_body (hparts _ (List.mem_cons_self _ _))
  by_cases hc : data.components = []
  · exact ⟨_, init_baddie_data_no_sub_parts m data _ hc hmain (hno hc) hhealth⟩
  · have hcomps := init_components_valid m data.components
      (fun c h => hparts c (List.mem_cons_of_mem _ h))
    refine ⟨_, init_baddie_data_sub_parts m data _ _ hcomps ?_ hmain ?_ ?_ hhealth⟩
    · intro h
      exact hc (List.map_eq_nil_iff.mp h)
    · exact hsub hc _ (List.mem_cons_self _ _)
    · intro c' hc'
      obtain ⟨c, hcmem, rfl⟩ := List.mem_map.mp hc'
      exact hsub hc c (List.mem_cons_of_mem _ hcmem)

/-- The loop over the table passes when its body passes on every entry. -/
theorem init_baddie_datas_loop_valid (m : Libm R) (l : List (az_baddie_data_t R))
    (h : ∀ d ∈ l, ∃ d', init_baddie_data m d = some d') :
    ∃ l', init_baddie_datas_loop m l = some l' := by
  induction l with
  | nil => exact ⟨[], rfl⟩
  | cons d rest ih =>
      obtain ⟨d', hd⟩ := h d (List.mem_cons_self _ _)
      obtain ⟨rest', hr⟩ := ih (fun d2 hd2 => h d2 (List.mem_cons_of_mem _ hd2))
      exact ⟨d' :: rest', init_baddie_datas_loop_cons m d d' rest rest' hd hr⟩

/-- The derived radius of the turret cannon, with a square root that is exact at its
vertices: the distance of the corner `(30, 5)` plus the margin, which is at most 30.5. -/
theorem turret_cannon_radius (m : Libm R)
    (hsqrt : ∀ v ∈ (turret_cannon_vertices : az_polygon_t R), 0 ≤ m.sqrt (az_vdot v v)
      ∧ m.sqrt (az_vdot v v) * m.sqrt (az_vdot v v) = az_vdot v v) :
    polygon_bounding_radius m turret_cannon_vertices = m.sqrt (30 * 30 + 5 * 5) + 0.01
    ∧ polygon_bounding_radius m turret_cannon_vertices ≤ 30.5 := by
  constructor
  · have hcorner := hsqrt ⟨30, 5⟩ (by simp [turret_cannon_vertices])
    simp only [az_vdot] at hcorner
    apply polygon_bounding_radius_eq m turret_cannon_vertices _ hsqrt hcorner.1
    · intro v hv
      refine ⟨hcorner.1, ?_⟩
      rw [dist_sq_origin, hcorner.2]
      simp only [turret_cannon_vertices, List.mem_cons, List.mem_singleton, List.mem_nil_iff,
        or_false] at hv
      rcases hv with h | h | h | h <;> subst h <;> simp only [az_vdot] <;> norm_num
    · refine ⟨⟨30, 5⟩, by simp [turret_cannon_vertices], ?_⟩
      rw [dist_sq_origin, hcorner.2]
      simp only [az_vdot]
  · have h := polygon_bounding_radius_le m turret_cannon_vertices 30.49 hsqrt (by norm_num)
      (by
        intro v hv
        refine ⟨by norm_num, ?_⟩
        rw [dist_sq_origin]
        simp only [turret_cannon_vertices, List.mem_cons, List.mem_singleton, List.mem_nil_iff,
          or_false] at hv
        rcases hv with h | h | h | h <;> subst h <;> simp only [az_vdot] <;> norm_num)
    have e : (30.49 : R) + 0.01 = 30.5 := by norm_num
    rw [e] at h
    exact h

/-- The derived radius of the turret body, with a square root that is exact at its
vertices: at most 30.5. -/
theorem turret_body_radius (m : Libm R)
    (hsqrt : ∀ v ∈ (turret_vertices : az_polygon_t R), 0 ≤ m.sqrt (az_vdot v v)
      ∧ m.sqrt (az_vdot v v) * m.sqrt (az_vdot v v) = az_vdot v v) :
    polygon_bounding_radius m turret_vertices ≤ 30.5 := by
  have h := polygon_bounding_radius_le m turret_vertices 30.49 hsqrt (by norm_num)
    (by
      intro v hv
      refine ⟨by norm_num, ?_⟩
      rw [dist_sq_origin]
      simp only [turret_vertices, List.mem_cons, List.mem_singleton, List.mem_nil_iff,
        or_false] at hv
      rcases hv with h | h | h | h | h | h <;> subst h <;> simp only [az_vdot] <;> norm_num)
  have e : (30.49 : R) + 0.01 = 30.5 := by norm_num
  rw [e] at h
  exact h

/-- What the assertions of `az_init_baddie_datas` ask of the declaration of each shipped
kind holds: polygon parts have radius 0 and circular parts a positive radius, the health is
positive, and a kind without sub-parts has overall radius 0. -/
theorem baddie_datas_declared (F : flag_constants) :
    ∀ data ∈ (baddie_datas F : List (az_baddie_data_t R)).tail,
      (∀ c ∈ data.main_body :: data.components,
        (c.polygon.length > 0 ∧ c.bounding_radius = 0)
        ∨ (c.polygon.length = 0 ∧ c.bounding_radius > 0))
      ∧ data.max_health > 0
      ∧ (data.components = [] → data.overall_bounding_radius = 0) := by
  intro data hdata
  simp only [baddie_datas, List.tail_cons, List.mem_cons, List.mem_singleton, List.mem_nil_iff,
    or_false] at hdata
  rcases hdata with h | h | h | h | h | h | h | h <;> subst h
  · refine ⟨?_, by simp only [lump_data]; norm_num, fun _ => rfl⟩
    intro c hc
    simp only [lump_data, List.mem_singleton] at hc
    subst hc
    exact Or.inl ⟨by simp [lump_vertices], rfl⟩
  · refine ⟨?_, by simp only [turret_data]; norm_num, ?_⟩
    · intro c hc
      simp only [turret_data, turret_components, List.mem_cons, List.mem_singleton,
        List.mem_nil_iff, or_false] at hc
      rcases hc with h | h <;> subst h
      · exact Or.inl ⟨by simp [turret_vertices], rfl⟩
      · exact Or.inl ⟨by simp [turret_cannon_vertices], rfl⟩
    · intro h
      simp [turret_data, turret_components] at h
  · refine ⟨?_, by simp only [zipper_data]; norm_num, fun _ => rfl⟩
    intro c hc
    simp only [zipper_data, List.mem_singleton] at hc
    subst hc
    exact Or.inl ⟨by simp [zipper_vertices], rfl⟩
  · refine ⟨?_, by simp only [bouncer_data]; norm_num, fun _ => rfl⟩
    intro c hc
    simp only [bouncer_data, List.mem_singleton] at hc
    subst hc
    exact Or.inr ⟨rfl, by norm_num⟩
  · refine ⟨?_, by simp only [atom_data]; norm_num, ?_⟩
    · intro c hc
      simp only [atom_data, atom_components, List.mem_cons, List.mem_singleton,
        List.mem_nil_iff, or_false] at hc
      rcases hc with h | h | h | h <;> subst h <;> exact Or.inr ⟨rfl, by norm_num⟩
    · intro h
      simp [atom_data, atom_components] at h
  · refine ⟨?_, by simp only [spiner_data]; norm_num, fun _ => rfl⟩
    intro c hc
    simp only [spiner_data, List.mem_singleton] at hc
    subst hc
    exact Or.inr ⟨rfl, by norm_num⟩
  · refine ⟨?_, by simp only [box_data]; norm_num, fun _ => rfl⟩
    intro c hc
    simp only [box_data, List.mem_singleton] at hc
    subst hc
    exact Or.inl ⟨by simp [box_vertices], rfl⟩
  · refine ⟨?_, by simp only [armored_box_data]; norm_num, fun _ => rfl⟩
    intro c hc
    simp only [armored_box_data, List.mem_singleton] at hc
    subst hc
    exact Or.inl ⟨by simp [box_vertices], rfl⟩

/-- The two shipped kinds with sub-parts declare an overall radius that is at least the
derived radius of each of their parts, with a square root that is exact at the vertices of
the turret. -/
theorem baddie_datas_overall (m : Libm R) (F : flag_constants)
    (hsqrt : ∀ v ∈ (turret_vertices ++ turret_cannon_vertices : az_polygon_t R),
      0 ≤ m.sqrt (az_vdot v v)
      ∧ m.sqrt (az_vdot v v) * m.sqrt (az_vdot v v) = az_vdot v v) :
    ∀ data ∈ (baddie_datas F : List (az_baddie_data_t R)).tail, data.components ≠ [] →
      ∀ c ∈ data.main_body :: data.components,
        data.overall_bounding_radius ≥ derived_bounding_radius m c := by
  intro data hdata hne c hc
  simp only [baddie_datas, List.tail_cons, List.mem_cons, List.mem_singleton, List.mem_nil_iff,
    or_false] at hdata
  rcases hdata with h | h | h | h | h | h | h | h <;> subst h
  · exact absurd rfl hne
  · simp only [turret_data, turret_components, List.mem_cons, List.mem_singleton,
      List.mem_nil_iff, or_false] at hc
    rcases hc with h | h <;> subst h
    · have hp : (turret_vertices : az_polygon_t R).length > 0 := by simp [turret_vertices]
      simp only [derived_bounding_radius, turret_data, hp, if_true]
      exact turret_body_radius m (fun v hv => hsqrt v (List.mem_append_left _ hv))
    · have hp : (turret_cannon_vertices : az_polygon_t R).length > 0 := by
        simp [turret_cannon_vertices]
      simp only [derived_bounding_radius, turret_data, hp, if_true]
      exact (turret_cannon_radius m (fun v hv => hsqrt v (List.mem_append_right _ hv))).2
  · exact absurd rfl hne
  · exact absurd rfl hne
  · simp only [atom_data, atom_components, List.mem_cons, List.mem_singleton,
      List.mem_nil_iff, or_false] at hc
    rcases hc with h | h | h | h <;> subst h <;>
      simp only [derived_bounding_radius, atom_data, List.length_nil, gt_iff_lt, lt_self_iff_false,
        if_false] <;> norm_num
  · exact absurd rfl hne
  · exact absurd rfl hne
  · exact absurd rfl hne

/-- C31: with a square root that is exact at the vertices of the turret, the first call of
`az_init_baddie_datas` on the shipped table `baddie_datas` ends with no assertion failed.
In the declarations every polygon part has `bounding_radius` 0 and every circular part a
positive radius, every `max_health` is positive, every kind without sub-parts has
`overall_bounding_radius` 0, and the overall radius of the turret, 30.5, and of the atom,
40.0, is at least the derived radius of each of their parts; the derived radius of the
turret cannon is `sqrt(30² + 5²) + 0.01`, at most 30.5. -/
theorem az_init_baddie_datas_shipped (m : Libm R) (F : flag_constants)
    (hsqrt : ∀ v ∈ (turret_vertices ++ turret_cannon_vertices : az_polygon_t R),
      0 ≤ m.sqrt (az_vdot v v)
      ∧ m.sqrt (az_vdot v v) * m.sqrt (az_vdot v v) = az_vdot v v) :
    (∃ st', az_init_baddie_datas m ⟨false, baddie_datas F⟩ = some st')
    ∧ (∀ data ∈ (baddie_datas F : List (az_baddie_data_t R)).tail,
        (∀ c ∈ data.main_body :: data.components,
          (c.polygon.length > 0 ∧ c.bounding_radius = 0)
          ∨ (c.polygon.length = 0 ∧ c.bounding_radius > 0))
        ∧ data.max_health > 0
        ∧ (data.components = [] → data.overall_bounding_radius = 0)
        ∧ (data.components ≠ [] →
            ∀ c ∈ data.main_body :: data.components,
              data.overall_bounding_radius ≥ derived_bounding_radius m c))
    ∧ (turret_data F : az_baddie_data_t R).overall_bounding_radius = 30.5
    ∧ (atom_data F : az_baddie_data_t R).overall_bounding_radius = 40.0
    ∧ polygon_bounding_radius m turret_cannon_vertices = m.sqrt (30 * 30 + 5 * 5) + 0.01
    ∧ (30.5 : R) ≥ m.sqrt (30 * 30 + 5 * 5) + 0.01 := by
  have hfacts : ∀ data ∈ (baddie_datas F : List (az_baddie_data_t R)).tail,
      (∀ c ∈ data.main_body :: data.components,
        (c.polygon.length > 0 ∧ c.bounding_radius = 0)
        ∨ (c.polygon.length = 0 ∧ c.bounding_radius > 0))
      ∧ data.max_health > 0
      ∧ (data.components = [] → data.overall_bounding_radius = 0)
      ∧ (data.components ≠ [] →
          ∀ c ∈ data.main_body :: data.components,
            data.overall_bounding_radius ≥ derived_bounding_radius m c) := by
    intro data hdata
    obtain ⟨h1, h2, h3⟩ := baddie_datas_declared F data hdata
    exact ⟨h1, h2, h3, baddie_datas_overall m F hsqrt data hdata⟩
  have hcannon := turret_cannon_radius m (fun v hv => hsqrt v (List.mem_append_right _ hv))
  refine ⟨?_, hfacts, rfl, rfl, hcannon.1, ?_⟩
  · obtain ⟨rest', hrest⟩ := init_baddie_datas_loop_valid m (baddie_datas F).tail
      (fun d hd =>
        init_baddie_data_valid m d (hfacts d hd).1 (hfacts d hd).2.1 (hfacts d hd).2.2.1
          (hfacts d hd).2.2.2)
    refine ⟨⟨true, nothing_data :: rest'⟩, ?_⟩
    unfold az_init_baddie_datas
    simp only [baddie_datas, List.tail_cons] at hrest ⊢
    rw [hrest]
    rfl
  · rw [← hcannon.1]
    exact hcannon.2

theorem az_init_baddie_datas_shipped_witness :
    (∀ v ∈ (turret_vertices ++ turret_cannon_vertices : az_polygon_t ℝ),
      0 ≤ Real.sqrt (az_vdot v v)
      ∧ Real.sqrt (az_vdot v v) * Real.sqrt (az_vdot v v) = az_vdot v v)
    ∧ ∃ st', az_init_baddie_datas ⟨Real.sqrt, Real.cos, Real.sin⟩
        ⟨false, baddie_datas example_flags⟩ = some st' :=
  have hsqrt : ∀ v ∈ (turret_vertices ++ turret_cannon_vertices : az_polygon_t ℝ),
      0 ≤ Real.sqrt (az_vdot v v)
      ∧ Real.sqrt (az_vdot v v) * Real.sqrt (az_vdot v v) = az_vdot v v :=
    fun v _ => ⟨Real.sqrt_nonneg _, Real.mul_self_sqrt (az_vdot_self_nonneg v)⟩
  ⟨hsqrt,
    (az_init_baddie_datas_shipped ⟨Real.sqrt, Real.cos, Real.sin⟩ example_flags hsqrt).1⟩

end ShippedTable

/-! ## The ray query under rigid motions -/

section RigidMotion

variable {R : Type} [LinearOrderedField R]

/-- The loop over the sub-parts reads the poses of the baddie and nothing else of it. -/
theorem ray_loop_components (G : Geometry R) (baddie baddie' : az_baddie_t R)
    (rel_start : az_vector_t R) (h : baddie'.components = baddie.components)
    (comps : List (az_component_data_t R)) (i : Nat) (st : ray_locals R) :
    ray_loop G baddie' rel_start comps i st = ray_loop G baddie rel_start comps i st := by
  induction comps generalizing i st with
  | nil => rfl
  | cons c rest ih =>
      simp only [ray_loop, h]
      cases baddie.components.get? i with
      | none => rfl
      | some pose => exact ih _ _

theorem az_vsub_vadd_vadd (a b t : az_vector_t R) :
    az_vsub (az_vadd a t) (az_vadd b t) = az_vsub a b := by
  simp only [az_vsub, az_vadd, add_sub_add_right_eq_sub]

theorem az_vadd_assoc (a b c : az_vector_t R) :
    az_vadd (az_vadd a b) c = az_vadd a (az_vadd b c) := by
  simp only [az_vadd, add_assoc]

/-- The local start of the ray is the same before and after a rigid motion of baddie and
ray. -/
theorem rel_start_rigid_motion (G : Geometry R) (position start : az_vector_t R)
    (angle theta : R) (t : az_vector_t R)
    (hcomp : ∀ v a b, G.az_vrotate (G.az_vrotate v a) b = G.az_vrotate v (a + b))
    (hsub : ∀ u v a, G.az_vrotate (az_vsub u v) a
      = az_vsub (G.az_vrotate u a) (G.az_vrotate v a)) :
    G.az_vrotate (az_vsub (rigid_motion G theta t start) (rigid_motion G theta t position))
        (-(angle + theta))
      = G.az_vrotate (az_vsub start position) (-angle) := by
  unfold rigid_motion
  rw [az_vsub_vadd_vadd, ← hsub, hcomp]
  congr 1
  ring

/-- The local displacement of the ray is the same before and after a rigid motion. -/
theorem rel_delta_rigid_motion (G : Geometry R) (delta : az_vector_t R) (angle theta : R)
    (hcomp : ∀ v a b, G.az_vrotate (G.az_vrotate v a) b = G.az_vrotate v (a + b)) :
    G.az_vrotate (G.az_vrotate delta theta) (-(angle + theta)) = G.az_vrotate delta (-angle) := by
  rw [hcomp]
  congr 1
  ring

/-- The world point of a local point after a rigid motion of the baddie is the moved world
point. -/
theorem to_world_rigid_motion (G : Geometry R) (position p : az_vector_t R)
    (angle theta : R) (t : az_vector_t R)
    (hcomp : ∀ v a b, G.az_vrotate (G.az_vrotate v a) b = G.az_vrotate v (a + b))
    (hadd : ∀ u v a, G.az_vrotate (az_vadd u v) a
      = az_vadd (G.az_vrotate u a) (G.az_vrotate v a)) :
    az_vadd (G.az_vrotate p (angle + theta)) (rigid_motion G theta t position)
      = rigid_motion G theta t (az_vadd (G.az_vrotate p angle) position) := by
  unfold rigid_motion
  rw [hadd, hcomp, az_vadd_assoc]

/-- C34: `az_ray_hits_baddie` is equivariant under rigid motions.  For a rotation that
composes and is additive, an angle `theta` and a translation `t`, when the pretest answers
the same on the moved ray and overall circle as on the original ones, the query on the
moved baddie (position moved, angle plus `theta`, poses as they were) and the moved ray
(start moved, displacement rotated) fails an assertion exactly when the original does, and
otherwise gives the same flag and struck component, the moved impact point and the rotated
normal. -/
theorem az_ray_hits_baddie_rigid_motion (G : Geometry R) (baddie : az_baddie_t R)
    (start delta : az_vector_t R) (outs : ray_outs R) (theta : R) (t : az_vector_t R)
    (hcomp : ∀ v a b, G.az_vrotate (G.az_vrotate v a) b = G.az_vrotate v (a + b))
    (hadd : ∀ u v a, G.az_vrotate (az_vadd u v) a
      = az_vadd (G.az_vrotate u a) (G.az_vrotate v a))
    (hsub : ∀ u v a, G.az_vrotate (az_vsub u v) a
      = az_vsub (G.az_vrotate u a) (G.az_vrotate v a))
    (hbroad : G.az_ray_hits_bounding_circle (rigid_motion G theta t start)
        (G.az_vrotate delta theta) (rigid_motion G theta t baddie.position)
        baddie.data.overall_bounding_radius
      = G.az_ray_hits_bounding_circle start delta baddie.position
        baddie.data.overall_bounding_radius) :
    az_ray_hits_baddie G (move_baddie G theta t baddie) (rigid_motion G theta t start)
        (G.az_vrotate delta theta) outs
      = (az_ray_hits_baddie G baddie start delta outs).map (move_ray_result G theta t) := by
  have hrs := rel_start_rigid_motion G baddie.position start baddie.angle theta t hcomp hsub
  have hrd := rel_delta_rigid_motion G delta baddie.angle theta hcomp
  unfold az_ray_hits_baddie
  simp only [move_baddie, hbroad, hrs, hrd]
  by_cases hkind : baddie.kind = az_baddie_kind_t.AZ_BAD_NOTHING
  · rw [if_pos hkind, if_pos hkind]
    rfl
  · rw [if_neg hkind, if_neg hkind]
    cases hb : G.az_ray_hits_bounding_circle start delta baddie.position
        baddie.data.overall_bounding_radius with
    | false =>
        simp only [Bool.not_false, if_true, Option.map_some', move_ray_result,
          Bool.false_eq_true, if_false]
    | true =>
        simp only [Bool.not_true, Bool.false_eq_true, if_false]
        rw [ray_loop_components G baddie
          { baddie with
            position := rigid_motion G theta t baddie.position
            angle := baddie.angle + theta } _ rfl]
        cases ray_loop G baddie (G.az_vrotate (az_vsub start baddie.position) (-baddie.angle))
            baddie.data.components 0
            (ray_test G (G.az_vrotate (az_vsub start baddie.position) (-baddie.angle))
              component_ref.main_body baddie.data.main_body AZ_VZERO 0
              { rel_delta := G.az_vrotate delta (-baddie.angle)
                hit_component := none
                point := AZ_VZERO
                normal_out := outs.normal_out }) with
        | none => rfl
        | some st =>
            cases hhit : st.hit_component with
            | none =>
                simp only [hhit, Option.map_some', move_ray_result, Bool.false_eq_true, if_false]
            | some ref =>
                simp only [hhit, Option.map_some', move_ray_result, if_true, Option.map_map]
                congr 3
                · congr 1
                  funext _
                  exact to_world_rigid_motion G baddie.position st.point baddie.angle theta t
                    hcomp hadd
                · congr 1
                  funext n
                  exact (hcomp n baddie.angle theta).symm

/-- The rotation through `libm` functions composes, where they obey the addition formulas
of cosine and sine. -/
theorem az_vrotate_comp (m : Libm R) (a b : R)
    (hcos : m.cos (a + b) = m.cos a * m.cos b - m.sin a * m.sin b)
    (hsin : m.sin (a + b) = m.sin a * m.cos b + m.cos a * m.sin b) (v : az_vector_t R) :
    az_vrotate m (az_vrotate m v a) b = az_vrotate m v (a + b) := by
  simp only [az_vrotate, hcos, hsin, az_vector_t.mk.injEq]
  constructor <;> ring

theorem az_vrotate_vadd (m : Libm R) (u v : az_vector_t R) (a : R) :
    az_vrotate m (az_vadd u v) a = az_vadd (az_vrotate m u a) (az_vrotate m v a) := by
  simp only [az_vrotate, az_vadd, az_vector_t.mk.injEq]
  constructor <;> ring

theorem az_vrotate_vsub (m : Libm R) (u v : az_vector_t R) (a : R) :
    az_vrotate m (az_vsub u v) a = az_vsub (az_vrotate m u a) (az_vrotate m v a) := by
  simp only [az_vrotate, az_vsub, az_vector_t.mk.injEq]
  constructor <;> ring

/-- The reference pretest answers the same after a rigid motion of ray and circle, for a
rotation through `libm` functions with `cos² + sin² = 1` at the angle. -/
theorem reference_ray_hits_bounding_circle_rigid (m : Libm R) (theta : R)
    (hcs : m.cos theta * m.cos theta + m.sin theta * m.sin theta = 1)
    (start delta center t : az_vector_t R) (radius : R) :
    reference_ray_hits_bounding_circle (az_vadd (az_vrotate m start theta) t)
        (az_vrotate m delta theta) (az_vadd (az_vrotate m center theta) t) radius
      = reference_ray_hits_bounding_circle start delta center radius := by
  have hdd : az_vdot (az_vrotate m delta theta) (az_vrotate m delta theta)
      = az_vdot delta delta := by
    simp only [az_vdot, az_vrotate]
    linear_combination (delta.x ^ 2 + delta.y ^ 2) * hcs
  have hcd : az_vdot
      (az_vsub (az_vadd (az_vrotate m center theta) t) (az_vadd (az_vrotate m start theta) t))
      (az_vrotate m delta theta) = az_vdot (az_vsub center start) delta := by
    simp only [az_vdot, az_vrotate, az_vsub, az_vadd]
    linear_combination
      ((center.x - start.x) * delta.x + (center.y - start.y) * delta.y) * hcs
  have hdist : ∀ u, dist_sq
      (ray_point (az_vadd (az_vrotate m start theta) t) (az_vrotate m delta theta) u)
      (az_vadd (az_vrotate m center theta) t) = dist_sq (ray_point start delta u) center := by
    intro u
    simp only [dist_sq, az_vdot, az_vrotate, az_vsub, az_vadd, ray_point]
    linear_combination
      ((start.x + u * delta.x - center.x) ^ 2 + (start.y + u * delta.y - center.y) ^ 2) * hcs
  unfold reference_ray_hits_bounding_circle
  simp only [hdd, hcd, within_radius, hdist]

theorem az_ray_hits_baddie_rigid_motion_witness :
    Real.cos 1 * Real.cos 1 + Real.sin 1 * Real.sin 1 = 1
    ∧ az_ray_hits_baddie (reference_geometry ⟨Real.sqrt, Real.cos, Real.sin⟩)
        (move_baddie (reference_geometry ⟨Real.sqrt, Real.cos, Real.sin⟩) 1 ⟨5, 7⟩
          (posed_baddie ⟨100, 0⟩ 0))
        (rigid_motion (reference_geometry ⟨Real.sqrt, Real.cos, Real.sin⟩) 1 ⟨5, 7⟩ ⟨0, 0⟩)
        (az_vrotate ⟨Real.sqrt, Real.cos, Real.sin⟩ ⟨200, 0⟩ 1)
        ⟨some ⟨0, 0⟩, some ⟨0, 0⟩, some component_ref.main_body⟩
      = (az_ray_hits_baddie (reference_geometry ⟨Real.sqrt, Real.cos, Real.sin⟩)
          (posed_baddie ⟨100, 0⟩ 0) ⟨0, 0⟩ ⟨200, 0⟩
          ⟨some ⟨0, 0⟩, some ⟨0, 0⟩, some component_ref.main_body⟩).map
        (move_ray_result (reference_geometry ⟨Real.sqrt, Real.cos, Real.sin⟩) 1 ⟨5, 7⟩) :=
  have hcs : Real.cos 1 * Real.cos 1 + Real.sin 1 * Real.sin 1 = 1 := by
    have h := Real.cos_sq_add_sin_sq 1
    rw [sq, sq] at h
    exact h
  ⟨hcs,
    az_ray_hits_baddie_rigid_motion (reference_geometry ⟨Real.sqrt, Real.cos, Real.sin⟩)
      (posed_baddie ⟨100, 0⟩ 0) ⟨0, 0⟩ ⟨200, 0⟩
      ⟨some ⟨0, 0⟩, some ⟨0, 0⟩, some component_ref.main_body⟩ 1 ⟨5, 7⟩
      (fun v a b =>
        az_vrotate_comp ⟨Real.sqrt, Real.cos, Real.sin⟩ a b (Real.cos_add a b)
          (Real.sin_add a b) v)
      (fun u v a => az_vrotate_vadd ⟨Real.sqrt, Real.cos, Real.sin⟩ u v a)
      (fun u v a => az_vrotate_vsub ⟨Real.sqrt, Real.cos, Real.sin⟩ u v a)
      (reference_ray_hits_bounding_circle_rigid ⟨Real.sqrt, Real.cos, Real.sin⟩ 1 hcs
        ⟨0, 0⟩ ⟨200, 0⟩ ⟨100, 0⟩ ⟨5, 7⟩ 10)⟩

end RigidMotion

/-! ## The broad phase does not change the answer -/

section BroadPhaseTransparent

variable {R : Type} [LinearOrderedField R]

/-- Once the pretest has passed, `az_ray_hits_baddie` runs the statements of the algorithm
without the pretest. -/
theorem az_ray_hits_baddie_of_broad_true (G : Geometry R) (baddie : az_baddie_t R)
    (start delta : az_vector_t R) (outs : ray_outs R)
    (hbroad : G.az_ray_hits_bounding_circle start delta baddie.position
      baddie.data.overall_bounding_radius = true) :
    az_ray_hits_baddie G baddie start delta outs
      = az_ray_hits_baddie_no_broad G baddie start delta outs := by
  unfold az_ray_hits_baddie az_ray_hits_baddie_no_broad
  simp only [hbroad, Bool.not_true, Bool.false_eq_true, if_false]

/-- When no assertion fails, the algorithm without the pretest hands back the report of the
test sequence. -/
theorem az_ray_hits_baddie_no_broad_eq_report (G : Geometry R) (baddie : az_baddie_t R)
    (start delta : az_vector_t R) (outs : ray_outs R)
    (hkind : baddie.kind ≠ az_baddie_kind_t.AZ_BAD_NOTHING)
    (hslots : baddie.data.components.length ≤ baddie.components.length) :
    az_ray_hits_baddie_no_broad G baddie start delta outs =
      some (ray_report G baddie outs (ray_outcomes G baddie start delta)) := by
  have hloop := ray_loop_eq G baddie
    (G.az_vrotate (az_vsub start baddie.position) (-baddie.angle))
    (G.az_vrotate delta (-baddie.angle)) outs.normal_out baddie.data.components 0
    ([] ++ [(component_ref.main_body,
      ray_hits_component G baddie.data.main_body AZ_VZERO 0
        (G.az_vrotate (az_vsub start baddie.position) (-baddie.angle))
        (remaining_delta (G.az_vrotate (az_vsub start baddie.position) (-baddie.angle))
          (G.az_vrotate delta (-baddie.angle)) []))])
    (by omega)
  rw [← ray_test_locals_of] at hloop
  simp only [List.drop_zero] at hloop
  unfold az_ray_hits_baddie_no_broad
  simp only [hkind, if_false]
  have h0 : ray_locals_of (G.az_vrotate (az_vsub start baddie.position) (-baddie.angle))
      (G.az_vrotate delta (-baddie.angle)) outs.normal_out [] =
      { rel_delta := G.az_vrotate delta (-baddie.angle)
        hit_component := none
        point := AZ_VZERO
        normal_out := outs.normal_out } := rfl
  rw [h0] at hloop
  rw [hloop]
  simp only [ray_report, ray_outcomes, test_parts, run_tests, ray_locals_of, to_world]
  cases hl : last_success _ with
  | none => simp
  | some r =>
      obtain ⟨ref, p, n⟩ := r
      cases hn : outs.normal_out <;> simp

/-- A test sequence in which every test misses the full segment has no success. -/
theorem run_tests_all_miss
    (test : test_part R → az_vector_t R → Option (az_vector_t R × az_vector_t R))
    (s d : az_vector_t R) (parts : List (test_part R)) (done : List (test_outcome R))
    (hdone : last_success done = none)
    (hmiss : ∀ part ∈ parts, test part d = none) :
    last_success (run_tests test s d parts done) = none := by
  induction parts generalizing done with
  | nil => exact hdone
  | cons part rest ih =>
      rw [run_tests]
      apply ih
      · have hd : remaining_delta s d done = d := by
          simp only [remaining_delta, hdone]
        rw [last_success_append_one, hd, hmiss part (List.mem_cons_self _ _)]
        exact hdone
      · intro p hp
        exact hmiss p (List.mem_cons_of_mem _ hp)

/-- The triangle inequality without square roots: a point within `r` of a centre that lies
within `overall - r` of the origin lies within `overall` of the origin. -/
theorem within_radius_of_part (p c : az_vector_t R) (r overall : R)
    (hp : within_radius p c r) (hc : within_radius c AZ_VZERO (overall - r)) :
    within_radius p AZ_VZERO overall := by
  obtain ⟨hr, hpd⟩ := hp
  obtain ⟨hk, hcd⟩ := hc
  rw [dist_sq_origin] at hcd
  have huu : 0 ≤ az_vdot (az_vsub p c) (az_vsub p c) := az_vdot_self_nonneg _
  have hvv : 0 ≤ az_vdot c c := az_vdot_self_nonneg _
  have hcs : az_vdot (az_vsub p c) c * az_vdot (az_vsub p c) c
      ≤ az_vdot (az_vsub p c) (az_vsub p c) * az_vdot c c := by
    simp only [az_vdot, az_vsub]
    nlinarith [sq_nonneg ((p.x - c.x) * c.y - (p.y - c.y) * c.x)]
  have hprod : az_vdot (az_vsub p c) (az_vsub p c) * az_vdot c c
      ≤ (r * r) * ((overall - r) * (overall - r)) :=
    mul_le_mul hpd hcd hvv (mul_nonneg hr hr)
  have hdot : az_vdot (az_vsub p c) c ≤ r * (overall - r) := by
    apply le_of_mul_self_le _ _ (mul_nonneg hr hk)
    calc az_vdot (az_vsub p c) c * az_vdot (az_vsub p c) c
        ≤ (r * r) * ((overall - r) * (overall - r)) := le_trans hcs hprod
      _ = r * (overall - r) * (r * (overall - r)) := by ring
  refine ⟨by linarith, ?_⟩
  rw [dist_sq_origin]
  have hexp : az_vdot p p = az_vdot (az_vsub p c) (az_vsub p c)
      + 2 * az_vdot (az_vsub p c) c + az_vdot c c := by
    simp only [az_vdot, az_vsub]
    ring
  simp only [dist_sq] at hpd
  rw [hexp]
  nlinarith

/-- The local ray lies as far from the local origin as the world ray lies from the
baddie, for a rotation through `libm` functions with `cos² + sin² = 1` at the angle. -/
theorem local_ray_dist_sq (m : Libm R) (a : R)
    (hcs : m.cos a * m.cos a + m.sin a * m.sin a = 1)
    (start delta position : az_vector_t R) (t : R) :
    dist_sq (ray_point (az_vrotate m (az_vsub start position) a) (az_vrotate m delta a) t)
        AZ_VZERO
      = dist_sq (ray_point start delta t) position := by
  simp only [dist_sq, az_vdot, az_vsub, ray_point, az_vrotate, AZ_VZERO, sub_zero]
  linear_combination
    ((start.x - position.x + t * delta.x) ^ 2 + (start.y - position.y + t * delta.y) ^ 2) * hcs

/-- The region of a component whose routines are correct lies within its bounding
circle. -/
theorem component_region_within (G : Geometry R)
    (polygon_region : az_polygon_t R → az_vector_t R → R → az_vector_t R → Prop)
    (part : test_part R) (start delta : az_vector_t R)
    (h : ray_part_correct G polygon_region part start delta) (p : az_vector_t R)
    (hp : component_region polygon_region part p) :
    within_radius p part.position part.component.bounding_radius := by
  unfold ray_part_correct at h
  unfold component_region at hp
  by_cases hpoly : part.component.polygon.length > 0
  · rw [if_pos hpoly] at h hp
    exact h.2.1 p hp
  · rw [if_neg hpoly] at hp
    exact hp

/-- C35: the broad-phase pretest of `az_ray_hits_baddie` never changes the answer.  For a
baddie whose overall radius is at least the radius of the main body, with a pose for every
sub-part whose offset from the local origin plus the radius of the sub-part is at most the
overall radius, for a rotation through `libm` functions with `cos² + sin² = 1` at the
angle of the world-to-local transform, for a pretest without false negative on the ray and
the overall circle, and for component routines that answer the local ray correctly, every
component region lying within its bounding circle, the query returns what the same
algorithm without the pretest returns. -/
theorem az_ray_hits_baddie_broad_phase_transparent (G : Geometry R) (m : Libm R)
    (polygon_region : az_polygon_t R → az_vector_t R → R → az_vector_t R → Prop)
    (baddie : az_baddie_t R) (start delta : az_vector_t R) (outs : ray_outs R)
    (hrot : G.az_vrotate = az_vrotate m)
    (hcs : m.cos (-baddie.angle) * m.cos (-baddie.angle)
      + m.sin (-baddie.angle) * m.sin (-baddie.angle) = 1)
    (hvalid : baddie.data.overall_bounding_radius ≥ baddie.data.main_body.bounding_radius)
    (hslots : baddie.data.components.length ≤ baddie.components.length)
    (hposes : ∀ part ∈ sub_parts_from 0 baddie.data.components baddie.components,
      within_radius part.position AZ_VZERO
        (baddie.data.overall_bounding_radius - part.component.bounding_radius))
    (hbroad : broad_test_complete G start delta baddie.position
      baddie.data.overall_bounding_radius)
    (hcorrect : ∀ part ∈ test_parts baddie,
      ray_part_correct G polygon_region part (rel_start_of G baddie start)
        (rel_delta_of G baddie delta)) :
    az_ray_hits_baddie G baddie start delta outs
      = az_ray_hits_baddie_no_broad G baddie start delta outs := by
  by_cases hkind : baddie.kind = az_baddie_kind_t.AZ_BAD_NOTHING
  · unfold az_ray_hits_baddie az_ray_hits_baddie_no_broad
    rw [if_pos hkind, if_pos hkind]
  · cases hb : G.az_ray_hits_bounding_circle start delta baddie.position
        baddie.data.overall_bounding_radius with
    | true => exact az_ray_hits_baddie_of_broad_true G baddie start delta outs hb
    | false =>
        rw [az_ray_hits_baddie_of_broad_false G baddie start delta outs hkind hb,
          az_ray_hits_baddie_no_broad_eq_report G baddie start delta outs hkind hslots]
        have hparts : ∀ part ∈ test_parts baddie,
            within_radius part.position AZ_VZERO
              (baddie.data.overall_bounding_radius - part.component.bounding_radius) := by
          intro part hpart
          rcases List.mem_cons.mp hpart with h | h
          · subst h
            refine ⟨by simp only; linarith, ?_⟩
            rw [dist_sq_origin]
            simp only [az_vdot, AZ_VZERO, mul_zero, add_zero]
            exact mul_self_nonneg _
          · exact hposes part h
        have hmiss : ∀ part ∈ test_parts baddie,
            ray_hits_component G part.component part.position part.angle
              (rel_start_of G baddie start) (rel_delta_of G baddie delta) = none := by
          intro part hpart
          have hc := hcorrect part hpart
          have hans := ray_hits_component_correct G polygon_region part _ _ hc
          cases hres : ray_hits_component G part.component part.position part.angle
              (rel_start_of G baddie start) (rel_delta_of G baddie delta) with
          | none => rfl
          | some pn =>
              exfalso
              obtain ⟨p, n⟩ := pn
              rw [hres] at hans
              obtain ⟨t, ht0, ht1, hp, hS, _⟩ := hans
              have hw := within_radius_of_part p part.position _ _
                (component_region_within G polygon_region part _ _ hc p hS)
                (hparts part hpart)
              have htrue := hbroad ⟨t, ht0, ht1, hw.1, by
                rw [← local_ray_dist_sq m (-baddie.angle) hcs start delta baddie.position t]
                have hp' : p = ray_point (az_vrotate m (az_vsub start baddie.position)
                    (-baddie.angle)) (az_vrotate m delta (-baddie.angle)) t := by
                  rw [hp, rel_start_of, rel_delta_of, hrot]
                rw [← hp']
                exact hw.2⟩
              rw [hb] at htrue
              cases htrue
        have hlast : last_success (ray_outcomes G baddie start delta) = none :=
          run_tests_all_miss _ _ _ (test_parts baddie) [] rfl hmiss
        simp only [ray_report, hlast]

/-- The ray from (200, 0) with displacement (0, 100) passes outside the overall circle of
`two_part_baddie`: the pretest rejects it. -/
theorem two_part_broad_miss :
    rat_geometry.az_ray_hits_bounding_circle ⟨200, 0⟩ ⟨0, 100⟩ two_part_baddie.position
      two_part_baddie.data.overall_bounding_radius = false := by
  simp only [rat_geometry, reference_geometry, reference_ray_hits_bounding_circle,
    within_radius, dist_sq, az_vdot, az_vsub, ray_point, two_part_baddie]
  norm_num

/-- The rational routines answer a ray correctly for a circular component that the line of
the ray does not meet (the discriminant of the call is negative). -/
theorem rat_part_correct_of_miss (part : test_part ℚ) (start delta : az_vector_t ℚ)
    (hcircle : part.component.polygon = [])
    (hdisc : az_vdot (az_vsub start part.position) delta
        * az_vdot (az_vsub start part.position) delta
      - az_vdot delta delta *
        (az_vdot (az_vsub start part.position) (az_vsub start part.position)
          - part.component.bounding_radius * part.component.bounding_radius) < 0) :
    ray_part_correct rat_geometry no_polygon_region part start delta := by
  unfold ray_part_correct
  rw [if_neg (by rw [hcircle]; simp)]
  exact (rat_geometry_circle_correct part.component.bounding_radius part.position start delta
    (fun h => absurd h (not_le.mpr hdisc))).1

theorem az_ray_hits_baddie_broad_phase_transparent_witness :
    rat_geometry.az_ray_hits_bounding_circle ⟨200, 0⟩ ⟨0, 100⟩ two_part_baddie.position
        two_part_baddie.data.overall_bounding_radius = false
    ∧ (∀ part ∈ sub_parts_from 0 two_part_baddie.data.components two_part_baddie.components,
        within_radius part.position AZ_VZERO
          (two_part_baddie.data.overall_bounding_radius - part.component.bounding_radius))
    ∧ az_ray_hits_baddie rat_geometry two_part_baddie ⟨200, 0⟩ ⟨0, 100⟩ fresh_ray_outs
        = az_ray_hits_baddie_no_broad rat_geometry two_part_baddie ⟨200, 0⟩ ⟨0, 100⟩
            fresh_ray_outs :=
  have hposes : ∀ part ∈
      sub_parts_from 0 two_part_baddie.data.components two_part_baddie.components,
      within_radius part.position AZ_VZERO
        (two_part_baddie.data.overall_bounding_radius - part.component.bounding_radius) := by
    intro part hpart
    simp only [two_part_baddie, sub_parts_from, List.mem_cons, List.mem_singleton,
      List.not_mem_nil, or_false] at hpart
    rcases hpart with h | h <;> subst h
    · exact within_radius_origin _ _ (by norm_num [two_part_baddie])
        (by norm_num [two_part_baddie])
    · exact within_radius_origin _ _ (by norm_num [two_part_baddie])
        (by norm_num [two_part_baddie])
  have hstart : rel_start_of rat_geometry two_part_baddie ⟨200, 0⟩ = ⟨200, 0⟩ :=
    rat_geometry_rel_start two_part_baddie _ rfl rfl
  have hdelta : rel_delta_of rat_geometry two_part_baddie ⟨0, 100⟩ = ⟨0, 100⟩ :=
    rat_geometry_rel_delta two_part_baddie _ rfl
  ⟨two_part_broad_miss, hposes,
    az_ray_hits_baddie_broad_phase_transparent rat_geometry rat_libm no_polygon_region
      two_part_baddie ⟨200, 0⟩ ⟨0, 100⟩ fresh_ray_outs rfl
      (by simp only [two_part_baddie, rat_libm]; norm_num)
      (by simp only [two_part_baddie]; norm_num)
      (by simp only [two_part_baddie]; decide)
      hposes
      (by
        intro h
        obtain ⟨t, _, _, _, hd⟩ := h
        exfalso
        simp only [dist_sq, az_vdot, az_vsub, ray_point, two_part_baddie] at hd
        nlinarith [sq_nonneg (t * 100)])
      (by
        intro part hpart
        rw [hstart, hdelta]
        simp only [test_parts, two_part_baddie, sub_parts_from, List.mem_cons,
          List.mem_singleton, List.not_mem_nil, or_false] at hpart
        rcases hpart with h | h | h <;> subst h <;>
          exact rat_part_correct_of_miss _ _ _ rfl
            (by simp only [az_vdot, az_vsub, AZ_VZERO]; norm_num))⟩

end BroadPhaseTransparent

/-! ## A zero-length query outside the overall circle -/

section ZeroLengthOutside

theorem far_part_init :
    init_baddie_data rat_libm far_part_baddie.data = some far_part_baddie.data := by
  have hmain : init_component_data rat_libm far_part_baddie.data.main_body =
      some far_part_baddie.data.main_body :=
    init_component_data_circle rat_libm far_part_baddie.data.main_body rfl
      (by simp only [far_part_baddie]; norm_num)
  have hcomps : init_components rat_libm far_part_baddie.data.components =
      some far_part_baddie.data.components :=
    init_components_cons rat_libm _ _ [] []
      (init_component_data_circle rat_libm
        { polygon := [], bounding_radius := 5, immunities := 0 } rfl (by norm_num)) rfl
  rw [init_baddie_data_sub_parts rat_libm far_part_baddie.data far_part_baddie.data.main_body
    far_part_baddie.data.components hcomps (by simp [far_part_baddie]) hmain
    (by simp only [far_part_baddie]; norm_num)
    (by
      intro c hc
      simp only [far_part_baddie, List.mem_singleton] at hc
      subst hc
      simp only [far_part_baddie]
      norm_num)
    (by simp only [far_part_baddie]; norm_num)]

theorem far_part_test_parts :
    test_parts far_part_baddie =
      [main_part far_part_baddie,
       sub_part 0 { polygon := [], bounding_radius := 5, immunities := 0 }
         { position := ⟨30, 50⟩, angle := 0 }] := by
  simp only [test_parts, far_part_baddie, sub_parts_from, main_part, sub_part]

theorem far_part_broad_miss (radius : ℚ) (h0 : 0 ≤ radius) (h1 : radius ≤ 1) :
    rat_geometry.az_ray_hits_bounding_circle ⟨32, 51⟩ AZ_VZERO far_part_baddie.position
      (far_part_baddie.data.overall_bounding_radius + radius) = false := by
  simp only [rat_geometry, reference_geometry, reference_ray_hits_bounding_circle,
    within_radius, dist_sq, az_vdot, az_vsub, ray_point, far_part_baddie, AZ_VZERO]
  norm_num
  intro _
  nlinarith

/-- C8, as stated, fails on `far_part_baddie`.  Its template passes the checks of
`az_init_baddie_datas`, which compare radii and never look at a pose; the start point
(32, 51) lies inside the sub-part posed at (30, 50), and the component routines answer the
zero-length calls correctly (the test of the sub-part alone reports a hit at the start
point).  But the start point lies outside the overall bounding circle, so both queries
return false at the pretest and store nothing. -/
theorem zero_length_queries_counterexample :
    init_baddie_data rat_libm far_part_baddie.data = some far_part_baddie.data
    ∧ far_part_baddie.kind ≠ az_baddie_kind_t.AZ_BAD_NOTHING
    ∧ far_part_baddie.data.components.length ≤ far_part_baddie.components.length
    ∧ (sub_part 0 { polygon := [], bounding_radius := 5, immunities := 0 }
        { position := ⟨30, 50⟩, angle := 0 } : test_part ℚ) ∈ test_parts far_part_baddie
    ∧ component_region no_polygon_region
        (sub_part 0 { polygon := [], bounding_radius := 5, immunities := 0 }
          { position := ⟨30, 50⟩, angle := 0 })
        (rel_start_of rat_geometry far_part_baddie ⟨32, 51⟩)
    ∧ (∀ q ∈ test_parts far_part_baddie,
        ray_part_correct rat_geometry no_polygon_region q
          (rel_start_of rat_geometry far_part_baddie ⟨32, 51⟩) AZ_VZERO)
    ∧ (∀ q ∈ test_parts far_part_baddie,
        circle_part_correct rat_geometry no_swept_region 1 q
          (rel_start_of rat_geometry far_part_baddie ⟨32, 51⟩) AZ_VZERO)
    ∧ broad_test_complete rat_geometry ⟨32, 51⟩ AZ_VZERO far_part_baddie.position
        far_part_baddie.data.overall_bounding_radius
    ∧ broad_test_complete rat_geometry ⟨32, 51⟩ AZ_VZERO far_part_baddie.position
        (far_part_baddie.data.overall_bounding_radius + 1)
    ∧ (∃ n, ray_hits_component rat_geometry
        { polygon := [], bounding_radius := 5, immunities := 0 } ⟨30, 50⟩ 0
        (rel_start_of rat_geometry far_part_baddie ⟨32, 51⟩) AZ_VZERO = some (⟨32, 51⟩, n))
    ∧ ¬ within_radius (⟨32, 51⟩ : az_vector_t ℚ) far_part_baddie.position
        far_part_baddie.data.overall_bounding_radius
    ∧ az_ray_hits_baddie rat_geometry far_part_baddie ⟨32, 51⟩ AZ_VZERO fresh_ray_outs
        = some (false, fresh_ray_outs)
    ∧ az_circle_hits_baddie rat_geometry far_part_baddie 1 ⟨32, 51⟩ AZ_VZERO fresh_circle_outs
        = some (false, fresh_circle_outs) := by
  have hs := rat_geometry_rel_start far_part_baddie ⟨32, 51⟩ rfl rfl
  have hkind : far_part_baddie.kind ≠ az_baddie_kind_t.AZ_BAD_NOTHING := by decide
  have hb0 := far_part_broad_miss 0 le_rfl zero_le_one
  rw [add_zero] at hb0
  have hb1 := far_part_broad_miss 1 zero_le_one le_rfl
  have hfar : ¬ within_radius (⟨32, 51⟩ : az_vector_t ℚ) far_part_baddie.position
      far_part_baddie.data.overall_bounding_radius := by
    simp only [within_radius, dist_sq, az_vdot, az_vsub, far_part_baddie]
    norm_num
  refine ⟨far_part_init, hkind, by decide, ?_, ?_, ?_, ?_, ?_, ?_, ?_, hfar,
    az_ray_hits_baddie_of_broad_false rat_geometry far_part_baddie _ _ _ hkind hb0,
    az_circle_hits_baddie_of_broad_false rat_geometry far_part_baddie 1 _ _ _ hkind hb1⟩
  · rw [far_part_test_parts]
    simp
  · rw [hs]
    simp only [component_region, sub_part, List.length_nil, gt_iff_lt, lt_self_iff_false,
      if_false, within_radius, dist_sq, az_vdot, az_vsub]
    constructor <;> norm_num
  · rw [hs, far_part_test_parts]
    intro q hq
    simp only [List.mem_cons, List.mem_singleton, List.not_mem_nil, or_false] at hq
    rcases hq with rfl | rfl
    · simp only [ray_part_correct, main_part, far_part_baddie, List.length_nil, gt_iff_lt,
        lt_self_iff_false, if_false]
      exact rat_geometry_zero_length_correct _ _ _
    · simp only [ray_part_correct, sub_part, List.length_nil, gt_iff_lt,
        lt_self_iff_false, if_false]
      exact rat_geometry_zero_length_correct _ _ _
  · rw [hs, far_part_test_parts]
    intro q hq
    simp only [List.mem_cons, List.mem_singleton, List.not_mem_nil, or_false] at hq
    rcases hq with rfl | rfl
    · simp only [circle_part_correct, main_part, far_part_baddie, List.length_nil, gt_iff_lt,
        lt_self_iff_false, if_false]
      exact rat_geometry_sweep_answer _ _ _ _ _ _ (rat_geometry_zero_length_correct _ _ _)
    · simp only [circle_part_correct, sub_part, List.length_nil, gt_iff_lt,
        lt_self_iff_false, if_false]
      exact rat_geometry_sweep_answer _ _ _ _ _ _ (rat_geometry_zero_length_correct _ _ _)
  · intro h
    obtain ⟨t, _, _, hw⟩ := h
    rw [ray_point_zero] at hw
    exact absurd hw hfar
  · intro h
    obtain ⟨t, _, _, hw⟩ := h
    rw [ray_point_zero] at hw
    exfalso
    simp only [within_radius, dist_sq, az_vdot, az_vsub, far_part_baddie] at hw
    norm_num at hw
  · rw [hs]
    refine ⟨⟨(32 - 30) / 5, (51 - 50) / 5⟩, ?_⟩
    simp only [ray_hits_component, List.length_nil, gt_iff_lt, lt_self_iff_false, if_false,
      rat_geometry, reference_geometry, reference_ray_hits_circle, az_vdot, az_vsub]
    norm_num

end ZeroLengthOutside

end Azimuth
